import Mathlib

/-!
# ETX OTA protocol and firmware-update configuration store

Shallow embedding of

* `Host_App/HostBleApp/APIs/uartPcToolAPI/etx_ota_protocol_host.c` (namespace `Host`),
* `Application_firmware_v1.0/Application_Firmware/Core/Src/app_side_etx_ota.c` (namespace `Node`),
* `Custom_Bootloader_v1.0/Custom_Bootloader_Firmware/Core/Src/firmware_update_config.c`
  (namespace `FwConfig`).

Conventions: a `uint8_t`, `uint16_t` or `uint32_t` value is a `Nat`, reduced modulo `2 ^ 8`,
`2 ^ 16` or `2 ^ 32` where the C arithmetic can wrap.  A byte buffer is a `List Nat`; reading
index `i` is `getD i 0`.  Packed structures are laid out little-endian, as on both targets.
-/

/-! ## Little-endian field access -/

/-- The two bytes of a `uint16_t` in memory order. -/
def u16_bytes (v : Nat) : List Nat :=
  [v % 256, v / 256 % 256]

/-- The four bytes of a `uint32_t` in memory order. -/
def u32_bytes (v : Nat) : List Nat :=
  [v % 256, v / 256 % 256, v / 65536 % 256, v / 16777216 % 256]

/-- The read `*(uint16_t *) &buf[off]`. -/
def read_u16 (buf : List Nat) (off : Nat) : Nat :=
  buf.getD off 0 + 256 * buf.getD (off + 1) 0

/-- The read `*(uint32_t *) &buf[off]`. -/
def read_u32 (buf : List Nat) (off : Nat) : Nat :=
  buf.getD off 0 + 256 * buf.getD (off + 1) 0 + 65536 * buf.getD (off + 2) 0
    + 16777216 * buf.getD (off + 3) 0

/-! ## Checksum primitive -/

namespace Host

/-- The lookup table `crc_table` of etx_ota_protocol_host.c, lines 267-284. -/
def crc_table : List Nat := [
  0x00000000, 0x04C11DB7, 0x09823B6E, 0x0D4326D9, 0x130476DC, 0x17C56B6B, 0x1A864DB2, 0x1E475005,
  0x2608EDB8, 0x22C9F00F, 0x2F8AD6D6, 0x2B4BCB61, 0x350C9B64, 0x31CD86D3, 0x3C8EA00A, 0x384FBDBD,
  0x4C11DB70, 0x48D0C6C7, 0x4593E01E, 0x4152FDA9, 0x5F15ADAC, 0x5BD4B01B, 0x569796C2, 0x52568B75,
  0x6A1936C8, 0x6ED82B7F, 0x639B0DA6, 0x675A1011, 0x791D4014, 0x7DDC5DA3, 0x709F7B7A, 0x745E66CD,
  0x9823B6E0, 0x9CE2AB57, 0x91A18D8E, 0x95609039, 0x8B27C03C, 0x8FE6DD8B, 0x82A5FB52, 0x8664E6E5,
  0xBE2B5B58, 0xBAEA46EF, 0xB7A96036, 0xB3687D81, 0xAD2F2D84, 0xA9EE3033, 0xA4AD16EA, 0xA06C0B5D,
  0xD4326D90, 0xD0F37027, 0xDDB056FE, 0xD9714B49, 0xC7361B4C, 0xC3F706FB, 0xCEB42022, 0xCA753D95,
  0xF23A8028, 0xF6FB9D9F, 0xFBB8BB46, 0xFF79A6F1, 0xE13EF6F4, 0xE5FFEB43, 0xE8BCCD9A, 0xEC7DD02D,
  0x34867077, 0x30476DC0, 0x3D044B19, 0x39C556AE, 0x278206AB, 0x23431B1C, 0x2E003DC5, 0x2AC12072,
  0x128E9DCF, 0x164F8078, 0x1B0CA6A1, 0x1FCDBB16, 0x018AEB13, 0x054BF6A4, 0x0808D07D, 0x0CC9CDCA,
  0x7897AB07, 0x7C56B6B0, 0x71159069, 0x75D48DDE, 0x6B93DDDB, 0x6F52C06C, 0x6211E6B5, 0x66D0FB02,
  0x5E9F46BF, 0x5A5E5B08, 0x571D7DD1, 0x53DC6066, 0x4D9B3063, 0x495A2DD4, 0x44190B0D, 0x40D816BA,
  0xACA5C697, 0xA864DB20, 0xA527FDF9, 0xA1E6E04E, 0xBFA1B04B, 0xBB60ADFC, 0xB6238B25, 0xB2E29692,
  0x8AAD2B2F, 0x8E6C3698, 0x832F1041, 0x87EE0DF6, 0x99A95DF3, 0x9D684044, 0x902B669D, 0x94EA7B2A,
  0xE0B41DE7, 0xE4750050, 0xE9362689, 0xEDF73B3E, 0xF3B06B3B, 0xF771768C, 0xFA325055, 0xFEF34DE2,
  0xC6BCF05F, 0xC27DEDE8, 0xCF3ECB31, 0xCBFFD686, 0xD5B88683, 0xD1799B34, 0xDC3ABDED, 0xD8FBA05A,
  0x690CE0EE, 0x6DCDFD59, 0x608EDB80, 0x644FC637, 0x7A089632, 0x7EC98B85, 0x738AAD5C, 0x774BB0EB,
  0x4F040D56, 0x4BC510E1, 0x46863638, 0x42472B8F, 0x5C007B8A, 0x58C1663D, 0x558240E4, 0x51435D53,
  0x251D3B9E, 0x21DC2629, 0x2C9F00F0, 0x285E1D47, 0x36194D42, 0x32D850F5, 0x3F9B762C, 0x3B5A6B9B,
  0x0315D626, 0x07D4CB91, 0x0A97ED48, 0x0E56F0FF, 0x1011A0FA, 0x14D0BD4D, 0x19939B94, 0x1D528623,
  0xF12F560E, 0xF5EE4BB9, 0xF8AD6D60, 0xFC6C70D7, 0xE22B20D2, 0xE6EA3D65, 0xEBA91BBC, 0xEF68060B,
  0xD727BBB6, 0xD3E6A601, 0xDEA580D8, 0xDA649D6F, 0xC423CD6A, 0xC0E2D0DD, 0xCDA1F604, 0xC960EBB3,
  0xBD3E8D7E, 0xB9FF90C9, 0xB4BCB610, 0xB07DABA7, 0xAE3AFBA2, 0xAAFBE615, 0xA7B8C0CC, 0xA379DD7B,
  0x9B3660C6, 0x9FF77D71, 0x92B45BA8, 0x9675461F, 0x8832161A, 0x8CF30BAD, 0x81B02D74, 0x857130C3,
  0x5D8A9099, 0x594B8D2E, 0x5408ABF7, 0x50C9B640, 0x4E8EE645, 0x4A4FFBF2, 0x470CDD2B, 0x43CDC09C,
  0x7B827D21, 0x7F436096, 0x7200464F, 0x76C15BF8, 0x68860BFD, 0x6C47164A, 0x61043093, 0x65C52D24,
  0x119B4BE9, 0x155A565E, 0x18197087, 0x1CD86D30, 0x029F3D35, 0x065E2082, 0x0B1D065B, 0x0FDC1BEC,
  0x3793A651, 0x3352BBE6, 0x3E119D3F, 0x3AD08088, 0x2497D08D, 0x2056CD3A, 0x2D15EBE3, 0x29D4F654,
  0xC5A92679, 0xC1683BCE, 0xCC2B1D17, 0xC8EA00A0, 0xD6AD50A5, 0xD26C4D12, 0xDF2F6BCB, 0xDBEE767C,
  0xE3A1CBC1, 0xE760D676, 0xEA23F0AF, 0xEEE2ED18, 0xF0A5BD1D, 0xF464A0AA, 0xF9278673, 0xFDE69BC4,
  0x89B8FD09, 0x8D79E0BE, 0x803AC667, 0x84FBDBD0, 0x9ABC8BD5, 0x9E7D9662, 0x933EB0BB, 0x97FFAD0C,
  0xAFB010B1, 0xAB710D06, 0xA6322BDF, 0xA2F33668, 0xBCB4666D, 0xB8757BDA, 0xB5365D03, 0xB1F740B4
]

/-- Body of the loop of `crc32_mpeg2` (lines 436-438): `top = (uint8_t) (checksum >> 24)`,
`top ^= p_data[i]`, `checksum = (checksum << 8) ^ crc_table[top]` on a `uint32_t`. -/
def crc32_mpeg2_round (checksum : Nat) (byte : Nat) : Nat :=
  let top := (((checksum >>> 24) % 256) ^^^ byte) % 256
  ((checksum <<< 8) % 2 ^ 32) ^^^ crc_table.getD top 0

/-- The function `crc32_mpeg2` of etx_ota_protocol_host.c, lines 428-441: `p_data` is the memory
the pointer designates, `DataLength` the number of bytes the loop reads. -/
def crc32_mpeg2 (p_data : List Nat) (DataLength : Nat) : Nat :=
  (List.range DataLength).foldl
    (fun checksum i => crc32_mpeg2_round checksum (p_data.getD i 0)) 0xFFFFFFFF

end Host

/-- One most-significant-bit-first shift step of the reference CRC-32/MPEG-2: the 32-bit register
moves left by one bit and the polynomial 0x04C11DB7 is XORed in when the bit shifted out is set.
Follows the wording of the specification, not the code. -/
def crc32_shift (reg : Nat) : Nat :=
  ((reg <<< 1) % 2 ^ 32) ^^^ (if reg.testBit 31 then 0x04C11DB7 else 0)

/-- Reference processing of one byte: the byte is XORed into the top 8 bits of the register,
followed by eight shift steps. -/
def crc32_reference_byte (reg byte : Nat) : Nat :=
  crc32_shift^[8] (reg ^^^ (byte <<< 24))

/-- The bit-by-bit reference CRC-32/MPEG-2: register initialised to 0xFFFFFFFF, no input or
output reflection, no final XOR. -/
def crc32_reference (data : List Nat) : Nat :=
  data.foldl crc32_reference_byte 0xFFFFFFFF

/-- For each byte value `v`, the index `i` with `crc_table[i] % 256 = v`: the low byte of a table
entry determines its index.  Used in the proofs of injectivity only. -/
def crc_table_low_byte_inverse : List Nat := [
  0, 169, 87, 254, 174, 7, 249, 80, 89, 240, 14, 167, 247, 94, 160, 9,
  178, 27, 229, 76, 28, 181, 75, 226, 235, 66, 188, 21, 69, 236, 18, 187,
  97, 200, 54, 159, 207, 102, 152, 49, 56, 145, 111, 198, 150, 63, 193, 104,
  211, 122, 132, 45, 125, 212, 42, 131, 138, 35, 221, 116, 36, 141, 115, 218,
  195, 106, 148, 61, 109, 196, 58, 147, 154, 51, 205, 100, 52, 157, 99, 202,
  113, 216, 38, 143, 223, 118, 136, 33, 40, 129, 127, 214, 134, 47, 209, 120,
  162, 11, 245, 92, 12, 165, 91, 242, 251, 82, 172, 5, 85, 252, 2, 171,
  16, 185, 71, 238, 190, 23, 233, 64, 73, 224, 30, 183, 231, 78, 176, 25,
  130, 43, 213, 124, 44, 133, 123, 210, 219, 114, 140, 37, 117, 220, 34, 139,
  48, 153, 103, 206, 158, 55, 201, 96, 105, 192, 62, 151, 199, 110, 144, 57,
  227, 74, 180, 29, 77, 228, 26, 179, 186, 19, 237, 68, 20, 189, 67, 234,
  81, 248, 6, 175, 255, 86, 168, 1, 8, 161, 95, 246, 166, 15, 241, 88,
  65, 232, 22, 191, 239, 70, 184, 17, 24, 177, 79, 230, 182, 31, 225, 72,
  243, 90, 164, 13, 93, 244, 10, 163, 170, 3, 253, 84, 4, 173, 83, 250,
  32, 137, 119, 222, 142, 39, 217, 112, 121, 208, 46, 135, 215, 126, 128, 41,
  146, 59, 197, 108, 60, 149, 107, 194, 203, 98, 156, 53, 101, 204, 50, 155
]

namespace Firmware

/-- Modelled from the spec: the body of the firmware-side `crc32_mpeg2` (crc32_mpeg2.c) is not
among the sources, only its declaration in crc32_mpeg2.h.  Section 4.1 of the specification
requires node and controller to use byte-identical tables and parameters, and the header
documents that a length of 0 or 0xFFFFFFFF returns 0xFFFFFFFF without calculating. -/
def crc32_mpeg2 (p_data : List Nat) (data_length : Nat) : Nat :=
  if data_length = 0 ∨ data_length = 0xFFFFFFFF then 0xFFFFFFFF
  else Host.crc32_mpeg2 p_data data_length

end Firmware

/-! ## Wire constants shared by both ends -/

def ETX_OTA_SOF : Nat := 0xAA
def ETX_OTA_EOF : Nat := 0xBB
def ETX_OTA_DATA_MAX_SIZE : Nat := 1024
def ETX_OTA_DATA_OVERHEAD : Nat := 1 + 1 + 2 + 4 + 1
def ETX_OTA_PACKET_MAX_SIZE : Nat := ETX_OTA_DATA_MAX_SIZE + ETX_OTA_DATA_OVERHEAD
def ETX_OTA_DATA_FIELD_INDEX : Nat := 1 + 1 + 2

def ETX_OTA_PACKET_TYPE_CMD : Nat := 0
def ETX_OTA_PACKET_TYPE_DATA : Nat := 1
def ETX_OTA_PACKET_TYPE_HEADER : Nat := 2
def ETX_OTA_PACKET_TYPE_RESPONSE : Nat := 3

def ETX_OTA_CMD_START : Nat := 0
def ETX_OTA_CMD_END : Nat := 1
def ETX_OTA_CMD_ABORT : Nat := 2

def ETX_OTA_Application_Firmware_Image : Nat := 0
def ETX_OTA_Bootloader_Firmware_Image : Nat := 1
def ETX_OTA_Custom_Data : Nat := 2

def ETX_OTA_ACK : Nat := 0
def ETX_OTA_NACK : Nat := 1

/-- The enum `ETX_OTA_State` (identical in both programs). -/
inductive ETX_OTA_State where
  | ETX_OTA_STATE_IDLE
  | ETX_OTA_STATE_START
  | ETX_OTA_STATE_HEADER
  | ETX_OTA_STATE_DATA
  | ETX_OTA_STATE_END
  deriving DecidableEq, Repr

/-- The enum `ETX_OTA_Status` of app_side_etx_ota.h. -/
inductive ETX_OTA_Status where
  | ETX_OTA_EC_OK
  | ETX_OTA_EC_STOP
  | ETX_OTA_EC_NR
  | ETX_OTA_EC_NA
  | ETX_OTA_EC_ERR
  deriving DecidableEq, Repr

open ETX_OTA_State ETX_OTA_Status

/-! ## Controller-side driver: frame construction -/

namespace Host

def ETX_OTA_32BITS_RESET_VALUE : Nat := 0xFFFFFFFF
def ETX_OTA_16BITS_RESET_VALUE : Nat := 0xFFFF
def ETX_OTA_8BITS_RESET_VALUE : Nat := 0xFF

/-- The packed struct `header_data_t`. -/
structure header_data_t where
  package_size : Nat
  package_crc : Nat
  reserved1 : Nat
  reserved2 : Nat
  reserved3 : Nat
  payload_type : Nat
  deriving DecidableEq, Repr

/-- Memory image of a `header_data_t` (16 bytes). -/
def header_data_bytes (h : header_data_t) : List Nat :=
  u32_bytes h.package_size ++ u32_bytes h.package_crc ++ u32_bytes h.reserved1
    ++ u16_bytes h.reserved2 ++ [h.reserved3 % 256, h.payload_type % 256]

/-- The ten bytes a Command Type Packet occupies in `ETX_OTA_Packet_Buffer`, as populated by
`send_etx_ota_start`, `send_etx_ota_end` and `send_etx_ota_abort` and sent byte by byte. -/
def etx_ota_command_packet (cmd : Nat) : List Nat :=
  [ETX_OTA_SOF, ETX_OTA_PACKET_TYPE_CMD] ++ u16_bytes 1 ++ [cmd]
    ++ u32_bytes (crc32_mpeg2 [cmd] 1) ++ [ETX_OTA_EOF]

/-- Bytes sent by `send_etx_ota_start` (lines 537-553). -/
def etx_ota_start_packet : List Nat := etx_ota_command_packet ETX_OTA_CMD_START

/-- Bytes sent by `send_etx_ota_end` (lines 651-667). -/
def etx_ota_end_packet : List Nat := etx_ota_command_packet ETX_OTA_CMD_END

/-- Bytes populated by `send_etx_ota_abort` (lines 478-484). -/
def etx_ota_abort_packet : List Nat := etx_ota_command_packet ETX_OTA_CMD_ABORT

/-- Bytes sent by `send_etx_ota_header` (lines 570-586): 25 bytes. -/
def etx_ota_header_packet (etx_ota_header_info : header_data_t) : List Nat :=
  [ETX_OTA_SOF, ETX_OTA_PACKET_TYPE_HEADER] ++ u16_bytes 16
    ++ header_data_bytes etx_ota_header_info
    ++ u32_bytes (crc32_mpeg2 (header_data_bytes etx_ota_header_info) 16) ++ [ETX_OTA_EOF]

/-- Bytes sent by `send_etx_ota_data` (lines 603-625): `payload` is the memory the pointer
designates, of which `data_len` bytes are copied. -/
def etx_ota_data_packet (payload : List Nat) (data_len : Nat) : List Nat :=
  [ETX_OTA_SOF, ETX_OTA_PACKET_TYPE_DATA] ++ u16_bytes data_len
    ++ (List.range data_len).map (fun k => payload.getD k 0)
    ++ u32_bytes (crc32_mpeg2 payload data_len) ++ [ETX_OTA_EOF]

/-- The Data loop of `start_etx_ota_process` (lines 839-856) when every packet is acknowledged:
the packets sent from index `i` on. -/
def data_loop (PAYLOAD_CONTENT : List Nat) (payload_size : Nat) (i : Nat) : List (List Nat) :=
  if i < payload_size then
    if payload_size - i ≥ ETX_OTA_DATA_MAX_SIZE then
      etx_ota_data_packet (PAYLOAD_CONTENT.drop i) ETX_OTA_DATA_MAX_SIZE
        :: data_loop PAYLOAD_CONTENT payload_size (i + ETX_OTA_DATA_MAX_SIZE)
    else
      etx_ota_data_packet (PAYLOAD_CONTENT.drop i) (payload_size - i)
        :: data_loop PAYLOAD_CONTENT payload_size (i + (payload_size - i))
  else []
termination_by payload_size - i
decreasing_by
  all_goals simp_wf
  all_goals simp only [ETX_OTA_DATA_MAX_SIZE] at *
  all_goals omega

/-- The header `start_etx_ota_process` fills in (lines 812-818). -/
def etx_ota_header_info (PAYLOAD_CONTENT : List Nat) (payload_size : Nat)
    (ETX_OTA_Payload_Type : Nat) : header_data_t :=
  { package_size := payload_size
    package_crc := crc32_mpeg2 PAYLOAD_CONTENT payload_size
    reserved1 := ETX_OTA_32BITS_RESET_VALUE
    reserved2 := ETX_OTA_16BITS_RESET_VALUE
    reserved3 := ETX_OTA_8BITS_RESET_VALUE
    payload_type := ETX_OTA_Payload_Type }

/-- The frame sequence `start_etx_ota_process` sends after the abort handshake when every frame
is acknowledged (lines 791-859): Start, Header, the Data packets, End. -/
def start_etx_ota_process_frames (PAYLOAD_CONTENT : List Nat) (payload_size : Nat)
    (ETX_OTA_Payload_Type : Nat) : List (List Nat) :=
  [etx_ota_start_packet,
   etx_ota_header_packet (etx_ota_header_info PAYLOAD_CONTENT payload_size ETX_OTA_Payload_Type)]
    ++ data_loop PAYLOAD_CONTENT payload_size 0 ++ [etx_ota_end_packet]

end Host

/-! ## Node-side engine -/

namespace Node

/-- The struct `etx_ota_custom_data_t`; `data` has `CUSTOM_DATA_MAX_SIZE` bytes, a constant of
the absent etx_ota_config.h, so the capacity is the length of the list. -/
structure etx_ota_custom_data_t where
  size : Nat
  rec_crc : Nat
  data : List Nat
  deriving DecidableEq, Repr

/-- The globals of app_side_etx_ota.c that the engine reads and writes: `etx_ota_state`,
`etx_ota_fw_received_size` and the struct `p_custom_data` points to. -/
structure State where
  etx_ota_state : ETX_OTA_State
  etx_ota_fw_received_size : Nat
  custom_data : etx_ota_custom_data_t
  deriving DecidableEq, Repr

/-- The function `write_data_to_ram` (lines 1172-1180).  A store past the end of `data` is
outside the array and leaves the list as it is; what is stated about the contents of `data` is
stated for stores and reads inside the array. -/
def write_data_to_ram (data : List Nat) (data_len : Nat) (s : State) : State :=
  (List.range data_len).foldl
    (fun st bytes_written =>
      { st with
        custom_data :=
          { st.custom_data with
            data := st.custom_data.data.set st.etx_ota_fw_received_size
              (data.getD bytes_written 0) }
        etx_ota_fw_received_size := (st.etx_ota_fw_received_size + 1) % 2 ^ 32 })
    s

/-- The function `etx_ota_process_data` (lines 977-1133); `buf` is `Rx_Buffer`. -/
def etx_ota_process_data (buf : List Nat) (s : State) : ETX_OTA_Status × State :=
  let packet_type := buf.getD 1 0
  let cmd := buf.getD 4 0
  if packet_type = ETX_OTA_PACKET_TYPE_CMD ∧ cmd = ETX_OTA_CMD_ABORT then
    (ETX_OTA_EC_STOP, s)
  else
    match s.etx_ota_state with
    | ETX_OTA_STATE_IDLE => (ETX_OTA_EC_OK, s)
    | ETX_OTA_STATE_START =>
      if packet_type = ETX_OTA_PACKET_TYPE_CMD ∧ cmd = ETX_OTA_CMD_START then
        (ETX_OTA_EC_OK, { s with etx_ota_state := ETX_OTA_STATE_HEADER })
      else (ETX_OTA_EC_ERR, s)
    | ETX_OTA_STATE_HEADER =>
      if packet_type = ETX_OTA_PACKET_TYPE_HEADER then
        let payload_type := buf.getD (ETX_OTA_DATA_FIELD_INDEX + 15) 0
        if payload_type = ETX_OTA_Application_Firmware_Image
            ∨ payload_type = ETX_OTA_Bootloader_Firmware_Image then
          (ETX_OTA_EC_NA, s)
        else if payload_type = ETX_OTA_Custom_Data then
          (ETX_OTA_EC_OK,
            { s with
              custom_data :=
                { s.custom_data with
                  size := read_u32 buf ETX_OTA_DATA_FIELD_INDEX
                  rec_crc := read_u32 buf (ETX_OTA_DATA_FIELD_INDEX + 4) }
              etx_ota_state := ETX_OTA_STATE_DATA })
        else (ETX_OTA_EC_ERR, s)
      else (ETX_OTA_EC_ERR, s)
    | ETX_OTA_STATE_DATA =>
      if packet_type = ETX_OTA_PACKET_TYPE_DATA then
        let s1 := write_data_to_ram (buf.drop ETX_OTA_DATA_FIELD_INDEX) (read_u16 buf 2) s
        if s1.etx_ota_fw_received_size ≥ s1.custom_data.size then
          (ETX_OTA_EC_OK, { s1 with etx_ota_state := ETX_OTA_STATE_END })
        else (ETX_OTA_EC_OK, s1)
      else (ETX_OTA_EC_ERR, s)
    | ETX_OTA_STATE_END =>
      if packet_type = ETX_OTA_PACKET_TYPE_CMD ∧ cmd = ETX_OTA_CMD_END then
        let cal_crc := Firmware.crc32_mpeg2 s.custom_data.data s.custom_data.size
        if cal_crc ≠ s.custom_data.rec_crc then (ETX_OTA_EC_ERR, s)
        else (ETX_OTA_EC_OK, { s with etx_ota_state := ETX_OTA_STATE_IDLE })
      else (ETX_OTA_EC_ERR, s)

/-- The checks `etx_ota_receive_packet` runs once every field has been read into `buf`
(lines 941-975): `len` is the index of the EOF byte (a `uint16_t`), `data_len` and
`rec_data_crc` are the values read from the Data Length and CRC32 fields. -/
def etx_ota_receive_packet_checks (buf : List Nat) (len data_len rec_data_crc : Nat) :
    ETX_OTA_Status :=
  if buf.getD len 0 ≠ ETX_OTA_EOF then ETX_OTA_EC_ERR
  else if Firmware.crc32_mpeg2 (buf.drop ETX_OTA_DATA_FIELD_INDEX) data_len ≠ rec_data_crc then
    ETX_OTA_EC_ERR
  else if ETX_OTA_PACKET_MAX_SIZE < (len + 1) % 2 ^ 16 then ETX_OTA_EC_ERR
  else ETX_OTA_EC_OK

/-- What the node puts on the wire or asks of the UART during a transaction. -/
inductive Output where
  /-- A Response Type Packet sent by `etx_ota_send_resp` with this status. -/
  | resp (response_status : Nat)
  /-- The call `HAL_UART_Receive_IT(p_huart, Rx_Buffer, ETX_OTA_SOF_SIZE)`. -/
  | receive_it
  deriving DecidableEq, Repr

/-- Result of one pass through the body of the do-while loop of `start_etx_ota_transaction`. -/
structure Iteration where
  /-- Responses sent and receptions armed, in order. -/
  out : List Output
  /-- The value returned when the pass ends in a `return`, none when it reaches the loop test. -/
  ret : Option ETX_OTA_Status
  st : State
  Rx_Buffer : List Nat
  deriving DecidableEq, Repr

/-- One pass through the body of the do-while loop of `start_etx_ota_transaction`
(lines 679-747), given what `etx_ota_receive_packet(Rx_Buffer)` returned and left in
`Rx_Buffer`. -/
def start_etx_ota_transaction_body (recv : ETX_OTA_Status) (Rx_Buffer : List Nat) (s : State) :
    Iteration :=
  match recv with
  | ETX_OTA_EC_OK =>
    let r := etx_ota_process_data Rx_Buffer s
    let Rx_Buffer1 := Rx_Buffer.set 0 0
    match r.1 with
    | ETX_OTA_EC_OK => ⟨[Output.resp ETX_OTA_ACK], none, r.2, Rx_Buffer1⟩
    | ETX_OTA_EC_STOP => ⟨[Output.resp ETX_OTA_ACK], some ETX_OTA_EC_STOP, r.2, Rx_Buffer1⟩
    | ETX_OTA_EC_NR => ⟨[], some ETX_OTA_EC_ERR, r.2, Rx_Buffer1⟩
    | ETX_OTA_EC_NA => ⟨[Output.resp ETX_OTA_NACK], some ETX_OTA_EC_NA, r.2, Rx_Buffer1⟩
    | ETX_OTA_EC_ERR => ⟨[Output.resp ETX_OTA_NACK], some ETX_OTA_EC_ERR, r.2, Rx_Buffer1⟩
  | ETX_OTA_EC_NR => ⟨[Output.receive_it], some ETX_OTA_EC_NR, s, Rx_Buffer⟩
  | ETX_OTA_EC_ERR => ⟨[Output.resp ETX_OTA_NACK], some ETX_OTA_EC_ERR, s, Rx_Buffer⟩
  | other => ⟨[Output.resp ETX_OTA_NACK], some other, s, Rx_Buffer⟩

/-- `Rx_Buffer` after a frame has been received into it from index 0. -/
def rx_store (Rx_Buffer : List Nat) (frame : List Nat) : List Nat :=
  frame ++ Rx_Buffer.drop frame.length

/-- Runs `etx_ota_process_data` over a sequence of frames, each received into `Rx_Buffer`
first; returns the result of every call and the final state. -/
def process_frames : List (List Nat) → List Nat → State → List ETX_OTA_Status × State
  | [], _, s => ([], s)
  | frame :: rest, Rx_Buffer, s =>
    let r := etx_ota_process_data (rx_store Rx_Buffer frame) s
    let t := process_frames rest ((rx_store Rx_Buffer frame).set 0 0) r.2
    (r.1 :: t.1, t.2)

end Node

/-! ## Firmware-update configuration store -/

namespace FwConfig

/-- The HAL status type (`HAL_StatusTypeDef`). -/
inductive HAL_StatusTypeDef where
  | HAL_OK
  | HAL_ERROR
  | HAL_BUSY
  | HAL_TIMEOUT
  deriving DecidableEq, Repr

/-- Modelled from the spec: the enum `FirmUpdConf_Status` is declared in the absent
firmware_update_config.h; these are the codes firmware_update_config.c uses (success, the
transient "no response" failure, the hard failure, "no data" and "corrupted"). -/
inductive FirmUpdConf_Status where
  | FIRM_UPDT_CONF_EC_OK
  | FIRM_UPDT_CONF_EC_NR
  | FIRM_UPDT_CONF_EC_ERR
  | FIRM_UPDT_CONF_EC_NO_DATA
  | FIRM_UPDT_CONF_EC_CRPT
  deriving DecidableEq, Repr

open HAL_StatusTypeDef FirmUpdConf_Status

/-- The function `HAL_ret_handler` (lines 452-464); `HAL_OK` is passed through as the success
code. -/
def HAL_ret_handler : HAL_StatusTypeDef → FirmUpdConf_Status
  | HAL_BUSY => FIRM_UPDT_CONF_EC_NR
  | HAL_TIMEOUT => FIRM_UPDT_CONF_EC_NR
  | HAL_ERROR => FIRM_UPDT_CONF_EC_ERR
  | HAL_OK => FIRM_UPDT_CONF_EC_OK

def FLASH_BLOCK_NOT_ERASED : Nat := 0x00
def FLASH_BLOCK_ERASED : Nat := 0xFF
def DATA_BLOCK_32BIT_ERASED_VALUE : Nat := 0xFFFFFFFF
def DATA_BLOCK_16BIT_ERASED_VALUE : Nat := 0xFFFF
def DATA_BLOCK_8BIT_ERASED_VALUE : Nat := 0xFF

/-- Modelled from the spec: the record body `firmware_update_config_data_t` is declared in the
absent firmware_update_config.h.  The fields are those the sources use (`BL_fw_size`,
`BL_fw_rec_crc`, `App_fw_size`, `App_fw_rec_crc`, the 32-bit `reserved1`, the 16-bit
`reserved2`, `is_bl_fw_stored_in_app_fw`, `is_bl_fw_install_pending`): two (size, checksum)
pairs, reserved padding and two flag bytes, 24 bytes packed.  The order of the fields is a
choice of the model; no result below depends on it. -/
structure firmware_update_config_data_t where
  BL_fw_size : Nat
  BL_fw_rec_crc : Nat
  App_fw_size : Nat
  App_fw_rec_crc : Nat
  reserved1 : Nat
  reserved2 : Nat
  is_bl_fw_stored_in_app_fw : Nat
  is_bl_fw_install_pending : Nat
  deriving DecidableEq, Repr

/-- Size in bytes of `firmware_update_config_data_t`. -/
def FIRMWARE_UPDATE_CONFIG_DATA_SIZE : Nat := 24

/-- Size in 32-bit words of `firmware_update_config_t`: checksum, body, flags word. -/
def FIRMWARE_UPDATE_CONFIG_BLOCK_SIZE : Nat := (4 + FIRMWARE_UPDATE_CONFIG_DATA_SIZE + 4) / 4

def FIRMWARE_UPDATE_CONFIG_BLOCK_SIZE_WITHOUT_CRC : Nat :=
  FIRMWARE_UPDATE_CONFIG_BLOCK_SIZE * 4 - 4

/-- Memory image of a `firmware_update_config_data_t`. -/
def data_bytes (d : firmware_update_config_data_t) : List Nat :=
  u32_bytes d.BL_fw_size ++ u32_bytes d.BL_fw_rec_crc ++ u32_bytes d.App_fw_size
    ++ u32_bytes d.App_fw_rec_crc ++ u32_bytes d.reserved1 ++ u16_bytes d.reserved2
    ++ [d.is_bl_fw_stored_in_app_fw % 256, d.is_bl_fw_install_pending % 256]

/-- The `firmware_update_config_data_t` a memory image holds. -/
def data_of_bytes (b : List Nat) : firmware_update_config_data_t :=
  { BL_fw_size := read_u32 b 0
    BL_fw_rec_crc := read_u32 b 4
    App_fw_size := read_u32 b 8
    App_fw_rec_crc := read_u32 b 12
    reserved1 := read_u32 b 16
    reserved2 := read_u16 b 20
    is_bl_fw_stored_in_app_fw := b.getD 22 0
    is_bl_fw_install_pending := b.getD 23 0 }

/-- Every field of a body fits its C type. -/
def data_in_range (d : firmware_update_config_data_t) : Prop :=
  d.BL_fw_size < 2 ^ 32 ∧ d.BL_fw_rec_crc < 2 ^ 32 ∧ d.App_fw_size < 2 ^ 32
    ∧ d.App_fw_rec_crc < 2 ^ 32 ∧ d.reserved1 < 2 ^ 32 ∧ d.reserved2 < 2 ^ 16
    ∧ d.is_bl_fw_stored_in_app_fw < 2 ^ 8 ∧ d.is_bl_fw_install_pending < 2 ^ 8

instance (d : firmware_update_config_data_t) : Decidable (data_in_range d) := by
  unfold data_in_range
  exact inferInstance

/-- The designated flash: byte `k` of record slot `j`, slots counted from
`FIRMWARE_UPDATE_CONFIG_START_ADDR`.  With `S` slots in a page, page 1 holds the slots
`0 .. S - 1` and page 2 the slots `S .. 2 * S - 1` (`S = FW_UPDT_CONFIG_PAGE_SIZE / 32`, a
constant of the absent firmware_update_config.h; 2048 / 32 = 64 by the comments of the .c
file). -/
abbrev Flash := Nat → Nat → Nat

/-- The state of the store: the flash, the global `p_most_recent_val` (a slot index, none for
`NULL`) and the results the coming HAL calls will report (`HAL_OK` once the list is used up). -/
structure Store where
  flash : Flash
  p_most_recent_val : Option Nat
  hal : List HAL_StatusTypeDef

/-- The bytes `off .. off + len - 1` of a slot. -/
def slot_bytes (flash : Flash) (slot off len : Nat) : List Nat :=
  (List.range len).map (fun k => flash slot (off + k))

/-- The field `flags.is_erased` of a slot: the last byte of the record. -/
def is_erased (flash : Flash) (slot : Nat) : Nat :=
  flash slot (4 * FIRMWARE_UPDATE_CONFIG_BLOCK_SIZE - 1)

/-- The field `crc32` of a slot. -/
def stored_crc32 (flash : Flash) (slot : Nat) : Nat :=
  read_u32 (slot_bytes flash slot 0 4) 0

/-- The checksum `crc32_mpeg2((uint8_t *) &p->data, FIRMWARE_UPDATE_CONFIG_BLOCK_SIZE_WITHOUT_CRC)`
of a slot. -/
def computed_crc32 (flash : Flash) (slot : Nat) : Nat :=
  Firmware.crc32_mpeg2 (slot_bytes flash slot 4 FIRMWARE_UPDATE_CONFIG_BLOCK_SIZE_WITHOUT_CRC)
    FIRMWARE_UPDATE_CONFIG_BLOCK_SIZE_WITHOUT_CRC

/-- Result of the next HAL call. -/
def hal_next (st : Store) : HAL_StatusTypeDef × Store :=
  match st.hal with
  | [] => (HAL_OK, st)
  | r :: rest => (r, { st with hal := rest })

/-- Effect of a successful `HAL_FLASH_Program(FLASH_TYPEPROGRAM_WORD, ...)` on word `w` of a
slot: programming can only clear bits, so each byte becomes the AND of what it held and the
byte programmed (an erased byte takes the programmed value). -/
def flash_program_word (flash : Flash) (slot w word : Nat) : Flash :=
  fun j k =>
    if j = slot ∧ 4 * w ≤ k ∧ k < 4 * w + 4 then
      flash j k &&& (u32_bytes word).getD (k - 4 * w) 0
    else flash j k

/-- Effect of a successful `HAL_FLASHEx_Erase` on the page that starts at slot `first`: its `S`
slots become all-ones. -/
def flash_erase_page (S : Nat) (flash : Flash) (first : Nat) : Flash :=
  fun j k => if first ≤ j ∧ j < first + S then 0xFF else flash j k

/-- The function `page_erase` (lines 398-450). -/
def page_erase (S : Nat) (page_start : Nat) (st : Store) : FirmUpdConf_Status × Store :=
  let unlock := hal_next st
  if HAL_ret_handler unlock.1 ≠ FIRM_UPDT_CONF_EC_OK then (HAL_ret_handler unlock.1, unlock.2)
  else
    let erase := hal_next unlock.2
    if HAL_ret_handler erase.1 ≠ FIRM_UPDT_CONF_EC_OK then (HAL_ret_handler erase.1, erase.2)
    else
      let lock := hal_next { erase.2 with flash := flash_erase_page S erase.2.flash page_start }
      if HAL_ret_handler lock.1 ≠ FIRM_UPDT_CONF_EC_OK then (HAL_ret_handler lock.1, lock.2)
      else (FIRM_UPDT_CONF_EC_OK, lock.2)

/-- The function `restore_firm_updt_config_flash_memory` (lines 311-340). -/
def restore_firm_updt_config_flash_memory (S : Nat) (st : Store) : FirmUpdConf_Status × Store :=
  let r1 := page_erase S 0 st
  if r1.1 ≠ FIRM_UPDT_CONF_EC_OK then r1
  else
    let r2 := page_erase S S r1.2
    if r2.1 ≠ FIRM_UPDT_CONF_EC_OK then r2
    else (FIRM_UPDT_CONF_EC_OK, r2.2)

/-- The function `prep_page_swap` (lines 342-396). -/
def prep_page_swap (S : Nat) (st : Store) : FirmUpdConf_Status × Store :=
  if st.p_most_recent_val = some 0
      ∧ is_erased st.flash (2 * S - 1) = FLASH_BLOCK_NOT_ERASED then
    page_erase S S st
  else if st.p_most_recent_val = some S
      ∧ is_erased st.flash (S - 1) = FLASH_BLOCK_NOT_ERASED then
    page_erase S 0 st
  else (FIRM_UPDT_CONF_EC_OK, st)

/-- How the scan loop of `firmware_update_configurations_init` ends. -/
inductive ScanResult where
  /-- Left by `break` at a slot whose checksum is right. -/
  | found (p_most_recent_val : Nat)
  /-- Reached the checksum mismatch of lines 161-183. -/
  | corrupted (p_most_recent_val : Nat)
  /-- Ran to `FIRMWARE_UPDATE_CONFIG_END_ADDR_PLUS_ONE` without `break`. -/
  | exhausted (p_most_recent_val : Nat)
  deriving DecidableEq, Repr

/-- The for-loop of `firmware_update_configurations_init` (lines 153-188) with `remaining`
slots still to visit, `p_next_val` the slot visited next. -/
def init_scan (flash : Flash) : Nat → Nat → Nat → ScanResult
  | 0, _, p_most_recent_val => ScanResult.exhausted p_most_recent_val
  | remaining + 1, p_next_val, p_most_recent_val =>
    if is_erased flash p_next_val = FLASH_BLOCK_ERASED then
      if is_erased flash p_most_recent_val = FLASH_BLOCK_NOT_ERASED then
        if computed_crc32 flash p_most_recent_val ≠ stored_crc32 flash p_most_recent_val then
          ScanResult.corrupted p_most_recent_val
        else ScanResult.found p_most_recent_val
      else init_scan flash remaining (p_next_val + 1) p_next_val
    else init_scan flash remaining (p_next_val + 1) p_next_val

/-- The function `firmware_update_configurations_init` (lines 138-213). -/
def firmware_update_configurations_init (S : Nat) (st : Store) : FirmUpdConf_Status × Store :=
  match init_scan st.flash (2 * S) 0 (2 * S - 1) with
  | ScanResult.corrupted p =>
    let r := restore_firm_updt_config_flash_memory S { st with p_most_recent_val := some p }
    if r.1 ≠ FIRM_UPDT_CONF_EC_OK then (FIRM_UPDT_CONF_EC_CRPT, r.2)
    else (FIRM_UPDT_CONF_EC_OK, { r.2 with p_most_recent_val := none })
  | ScanResult.found p => prep_page_swap S { st with p_most_recent_val := some p }
  | ScanResult.exhausted p =>
    if is_erased st.flash p = FLASH_BLOCK_ERASED then
      prep_page_swap S { st with p_most_recent_val := none }
    else prep_page_swap S { st with p_most_recent_val := some p }

/-- The function `firmware_update_configurations_read` (lines 215-227): the status and the
contents copied into `*p_data`. -/
def firmware_update_configurations_read (st : Store) :
    FirmUpdConf_Status × firmware_update_config_data_t :=
  match st.p_most_recent_val with
  | none =>
    (FIRM_UPDT_CONF_EC_NO_DATA,
      data_of_bytes (slot_bytes st.flash 0 4 FIRMWARE_UPDATE_CONFIG_DATA_SIZE))
  | some p =>
    (FIRM_UPDT_CONF_EC_OK,
      data_of_bytes (slot_bytes st.flash p 4 FIRMWARE_UPDATE_CONFIG_DATA_SIZE))

/-- Memory image of the `new_val_struct` that `firmware_update_configurations_write` builds
(lines 241-247): checksum, body with the reserved fields forced to all-ones, flags word with the
not-erased marker. -/
def new_val_struct (p_data : firmware_update_config_data_t) : List Nat :=
  let body := data_bytes
    { p_data with
      reserved1 := DATA_BLOCK_32BIT_ERASED_VALUE
      reserved2 := DATA_BLOCK_16BIT_ERASED_VALUE }
  let flags := u16_bytes DATA_BLOCK_16BIT_ERASED_VALUE
    ++ [DATA_BLOCK_8BIT_ERASED_VALUE, FLASH_BLOCK_NOT_ERASED]
  u32_bytes (Firmware.crc32_mpeg2 (body ++ flags) FIRMWARE_UPDATE_CONFIG_BLOCK_SIZE_WITHOUT_CRC)
    ++ body ++ flags

/-- The slot `firmware_update_configurations_write` appends to (lines 238, 250-257). -/
def next_slot (S : Nat) (p_most_recent_val : Option Nat) : Nat :=
  match p_most_recent_val with
  | none => 0
  | some p => if p + 1 = 2 * S then 0 else p + 1

/-- The programming loop of `firmware_update_configurations_write` (lines 273-286) with
`remaining` words still to program, `words_written` the index of the next one. -/
def program_words (image : List Nat) (slot : Nat) : Nat → Nat → Store → FirmUpdConf_Status × Store
  | 0, _, st => (FIRM_UPDT_CONF_EC_OK, st)
  | remaining + 1, words_written, st =>
    let r := hal_next st
    if HAL_ret_handler r.1 ≠ FIRM_UPDT_CONF_EC_OK then (HAL_ret_handler r.1, r.2)
    else
      program_words image slot remaining (words_written + 1)
        { r.2 with
          flash := flash_program_word r.2.flash slot words_written
            (read_u32 image (4 * words_written)) }

/-- The function `firmware_update_configurations_write` (lines 229-309). -/
def firmware_update_configurations_write (S : Nat) (p_data : firmware_update_config_data_t)
    (st : Store) : FirmUpdConf_Status × Store :=
  let p_next_val := next_slot S st.p_most_recent_val
  let unlock := hal_next st
  if HAL_ret_handler unlock.1 ≠ FIRM_UPDT_CONF_EC_OK then (HAL_ret_handler unlock.1, unlock.2)
  else
    let prog := program_words (new_val_struct p_data) p_next_val
      FIRMWARE_UPDATE_CONFIG_BLOCK_SIZE 0 unlock.2
    if prog.1 ≠ FIRM_UPDT_CONF_EC_OK then prog
    else
      let lock := hal_next prog.2
      if HAL_ret_handler lock.1 ≠ FIRM_UPDT_CONF_EC_OK then (HAL_ret_handler lock.1, lock.2)
      else prep_page_swap S { lock.2 with p_most_recent_val := some p_next_val }

/-- The medium with every byte erased. -/
def erased_flash : Flash := fun _ _ => 0xFF

/-- A slot with every byte erased. -/
def slot_erased (flash : Flash) (slot : Nat) : Prop :=
  ∀ k < 4 * FIRMWARE_UPDATE_CONFIG_BLOCK_SIZE, flash slot k = 0xFF

instance (flash : Flash) (slot : Nat) : Decidable (slot_erased flash slot) := by
  unfold slot_erased
  exact inferInstance

/-- Successive calls of `firmware_update_configurations_write`, one per body, from a given
state: the status of every call and the final state. -/
def write_all (S : Nat) :
    List firmware_update_config_data_t → Store → List FirmUpdConf_Status × Store
  | [], st => ([], st)
  | b :: rest, st =>
    let r := firmware_update_configurations_write S b st
    let t := write_all S rest r.2
    (r.1 :: t.1, t.2)

/-- The body `write` stores for `p_data`: the reserved fields are forced to all-ones. -/
def stored_body (p_data : firmware_update_config_data_t) : firmware_update_config_data_t :=
  { p_data with
    reserved1 := DATA_BLOCK_32BIT_ERASED_VALUE
    reserved2 := DATA_BLOCK_16BIT_ERASED_VALUE }

/-- First slot of the page that holds slot `p`. -/
def page_start (S p : Nat) : Nat :=
  if p < S then 0 else S

/-- Slot `j` belongs to the log that ends at `p`: it lies in the page of `p`, not after `p`. -/
def in_log (S p j : Nat) : Prop :=
  page_start S p ≤ j ∧ j ≤ p

instance (S p j : Nat) : Decidable (in_log S p j) := by
  unfold in_log
  exact inferInstance

/-- The flash holds a log that ends at slot `p`: the slots of the log carry the not-erased
marker, every other slot of the two pages is erased, and the record at `p` has a stored
checksum equal to the checksum of its contents. -/
def log_state (S : Nat) (flash : Flash) (p : Nat) : Prop :=
  p < 2 * S
  ∧ (∀ j < 2 * S, in_log S p j → is_erased flash j = FLASH_BLOCK_NOT_ERASED)
  ∧ (∀ j < 2 * S, ¬ in_log S p j → slot_erased flash j)
  ∧ computed_crc32 flash p = stored_crc32 flash p

instance (S : Nat) (flash : Flash) (p : Nat) : Decidable (log_state S flash p) := by
  unfold log_state
  exact inferInstance

/-- The flash after the words `w0 .. w0 + n - 1` of `image` have been programmed into a slot
by successful calls of `HAL_FLASH_Program`. -/
def programmed (image : List Nat) (slot w0 n : Nat) (flash : Flash) : Flash :=
  fun j k =>
    if j = slot ∧ 4 * w0 ≤ k ∧ k < 4 * (w0 + n) then flash j k &&& image.getD k 0
    else flash j k

/-- The flash `prep_page_swap` leaves when the erase it asks for, if any, succeeds. -/
def swapped (S : Nat) (flash : Flash) (p_most_recent_val : Option Nat) : Flash :=
  if p_most_recent_val = some 0 ∧ is_erased flash (2 * S - 1) = FLASH_BLOCK_NOT_ERASED then
    flash_erase_page S flash S
  else if p_most_recent_val = some S ∧ is_erased flash (S - 1) = FLASH_BLOCK_NOT_ERASED then
    flash_erase_page S flash 0
  else flash

/-- The slot visited before slot `i` by the scan of `firmware_update_configurations_init` over
`N` slots: the scan starts with the last slot as predecessor of slot 0. -/
def prev_slot (N i : Nat) : Nat :=
  if i = 0 then N - 1 else i - 1

/-- The slot holds, byte for byte, the record `write` builds for `d`. -/
def holds_record (flash : Flash) (slot : Nat) (d : firmware_update_config_data_t) : Prop :=
  ∀ k < 32, flash slot k = (new_val_struct d).getD k 0

/-- The flash holds a log that ends at slot `p` with the record of `d`, every slot outside the
log being erased. -/
def log_of (S : Nat) (flash : Flash) (p : Nat) (d : firmware_update_config_data_t) : Prop :=
  p < 2 * S
  ∧ (∀ j < 2 * S, in_log S p j → is_erased flash j = FLASH_BLOCK_NOT_ERASED)
  ∧ (∀ j < 2 * S, ¬ in_log S p j → slot_erased flash j)
  ∧ holds_record flash p d

end FwConfig

/-! ## Node-side engine: reception over the UART, responses -/

namespace Node

open FwConfig.HAL_StatusTypeDef

def ETX_OTA_SOF_SIZE : Nat := 1
def ETX_OTA_PACKET_TYPE_SIZE : Nat := 1
def ETX_OTA_DATA_LENGTH_SIZE : Nat := 2
def ETX_OTA_CRC32_SIZE : Nat := 4
def ETX_OTA_EOF_SIZE : Nat := 1

/-- The function `HAL_ret_handler` of app_side_etx_ota.c (lines 1182-1194); `HAL_OK` has the
value of `ETX_OTA_EC_OK` and goes through the default case. -/
def HAL_ret_handler : FwConfig.HAL_StatusTypeDef → ETX_OTA_Status
  | HAL_BUSY => ETX_OTA_EC_NR
  | HAL_TIMEOUT => ETX_OTA_EC_NR
  | HAL_ERROR => ETX_OTA_EC_ERR
  | HAL_OK => ETX_OTA_EC_OK

/-- The UART as the blocking reads of `etx_ota_receive_packet` see it: `rx` holds the bytes the
host has sent and that have not been read yet, `hal` what the coming calls of
`HAL_UART_Receive` report (`HAL_OK` once the list is used up), and `reported` records the
status every call made so far has returned, oldest first. -/
structure Uart where
  rx : List Nat
  hal : List FwConfig.HAL_StatusTypeDef
  reported : List FwConfig.HAL_StatusTypeDef
  deriving DecidableEq, Repr

/-- Stores `bytes` at `buf[idx]`, `buf[idx + 1]`, ...  The list `buf` is the memory that starts
at the address of `Rx_Buffer`; a store past its end is dropped. -/
def store_bytes (buf : List Nat) (idx : Nat) : List Nat → List Nat
  | [] => buf
  | b :: bytes => store_bytes (buf.set idx b) (idx + 1) bytes

/-- The call `HAL_UART_Receive(p_huart, &buf[idx], Size, ETX_CUSTOM_HAL_TIMEOUT)` of the STM32
HAL: a call that the line lets succeed stores the next `Size` bytes and returns `HAL_OK`; when
fewer than `Size` bytes arrive, the ones that did are stored and the call returns `HAL_TIMEOUT`;
a call that reports another status stores nothing. -/
def HAL_UART_Receive (buf : List Nat) (idx Size : Nat) (u : Uart) :
    FwConfig.HAL_StatusTypeDef × List Nat × Uart :=
  if u.hal.headD HAL_OK = HAL_OK then
    if Size ≤ u.rx.length then
      (HAL_OK, store_bytes buf idx (u.rx.take Size),
        ⟨u.rx.drop Size, u.hal.tail, u.reported ++ [HAL_OK]⟩)
    else
      (HAL_TIMEOUT, store_bytes buf idx u.rx, ⟨[], u.hal.tail, u.reported ++ [HAL_TIMEOUT]⟩)
  else
    (u.hal.headD HAL_OK, buf, ⟨u.rx, u.hal.tail, u.reported ++ [u.hal.headD HAL_OK]⟩)

/-- The loop of `etx_ota_receive_packet` that reads the Data field one byte at a time
(lines 831-839), with `remaining = data_len - i` passes to go; `len` is the `uint16_t` index.
Returns the status, `len`, the buffer and the UART. -/
def receive_data_field : Nat → Nat → List Nat → Uart → ETX_OTA_Status × Nat × List Nat × Uart
  | 0, len, buf, u => (ETX_OTA_EC_OK, len, buf, u)
  | remaining + 1, len, buf, u =>
    let r := HAL_UART_Receive buf len 1 u
    if HAL_ret_handler r.1 ≠ ETX_OTA_EC_OK then
      (HAL_ret_handler r.1, (len + 1) % 2 ^ 16, r.2.1, r.2.2)
    else receive_data_field remaining ((len + 1) % 2 ^ 16) r.2.1 r.2.2

/-- The part of `etx_ota_receive_packet` that follows the Data field (lines 841-975): the
CRC32 field, the EOF field and the three checks. -/
def receive_crc_eof (data_len len : Nat) (buf : List Nat) (u : Uart) :
    ETX_OTA_Status × List Nat × Uart :=
  let r4 := HAL_UART_Receive buf len ETX_OTA_CRC32_SIZE u
  if HAL_ret_handler r4.1 ≠ ETX_OTA_EC_OK then (HAL_ret_handler r4.1, r4.2)
  else
    let rec_data_crc := read_u32 r4.2.1 len
    let len1 := (len + ETX_OTA_CRC32_SIZE) % 2 ^ 16
    let r5 := HAL_UART_Receive r4.2.1 len1 ETX_OTA_EOF_SIZE r4.2.2
    if HAL_ret_handler r5.1 ≠ ETX_OTA_EC_OK then (HAL_ret_handler r5.1, r5.2)
    else (etx_ota_receive_packet_checks r5.2.1 len1 data_len rec_data_crc, r5.2)

/-- The part of `etx_ota_receive_packet` that follows the SOF field (lines 797-975): the
Packet Type field and its validation, the Data Length field, then the rest. -/
def receive_after_sof (buf : List Nat) (u : Uart) : ETX_OTA_Status × List Nat × Uart :=
  let r1 := HAL_UART_Receive buf 1 ETX_OTA_PACKET_TYPE_SIZE u
  if HAL_ret_handler r1.1 ≠ ETX_OTA_EC_OK then (HAL_ret_handler r1.1, r1.2)
  else
    let packet_type := r1.2.1.getD 1 0
    if ¬ (packet_type = ETX_OTA_PACKET_TYPE_CMD ∨ packet_type = ETX_OTA_PACKET_TYPE_DATA
        ∨ packet_type = ETX_OTA_PACKET_TYPE_HEADER
        ∨ packet_type = ETX_OTA_PACKET_TYPE_RESPONSE) then
      (ETX_OTA_EC_ERR, r1.2)
    else
      let r2 := HAL_UART_Receive r1.2.1 2 ETX_OTA_DATA_LENGTH_SIZE r1.2.2
      if HAL_ret_handler r2.1 ≠ ETX_OTA_EC_OK then (HAL_ret_handler r2.1, r2.2)
      else
        let data_len := read_u16 r2.2.1 2
        let r3 := receive_data_field data_len (2 + ETX_OTA_DATA_LENGTH_SIZE) r2.2.1 r2.2.2
        if r3.1 ≠ ETX_OTA_EC_OK then (r3.1, r3.2.2)
        else receive_crc_eof data_len r3.2.1 r3.2.2.1 r3.2.2.2

/-- The function `etx_ota_receive_packet` (lines 758-975) for the hardware protocol
`ETX_OTA_hw_Protocol_UART`, called on `Rx_Buffer`.  (The branch for the Bluetooth module has
the same control flow, with `get_hm10_ota_data` of the absent HM-10 driver as the read.) -/
def etx_ota_receive_packet (Rx_Buffer : List Nat) (u : Uart) :
    ETX_OTA_Status × List Nat × Uart :=
  if Rx_Buffer.getD 0 0 = 0 then
    let r0 := HAL_UART_Receive Rx_Buffer 0 ETX_OTA_SOF_SIZE u
    if HAL_ret_handler r0.1 ≠ ETX_OTA_EC_OK then (HAL_ret_handler r0.1, r0.2)
    else if r0.2.1.getD 0 0 ≠ ETX_OTA_SOF then (ETX_OTA_EC_ERR, r0.2)
    else receive_after_sof r0.2.1 r0.2.2
  else receive_after_sof Rx_Buffer u

/-- The ten bytes of the `ETX_OTA_Response_Packet_t` that `etx_ota_send_resp` builds and hands
to `HAL_UART_Transmit` (lines 1141-1155). -/
def etx_ota_send_resp (response_status : Nat) : List Nat :=
  [ETX_OTA_SOF, ETX_OTA_PACKET_TYPE_RESPONSE] ++ u16_bytes 1 ++ [response_status % 256]
    ++ u32_bytes (Firmware.crc32_mpeg2 [response_status % 256] 1) ++ [ETX_OTA_EOF]

/-- One pass through the body of the do-while loop of `start_etx_ota_transaction`
(lines 679-747): the frame is received from the UART, then handled. -/
def start_etx_ota_transaction_iteration (Rx_Buffer : List Nat) (u : Uart) (s : State) :
    Iteration × Uart :=
  let r := etx_ota_receive_packet Rx_Buffer u
  (start_etx_ota_transaction_body r.1 r.2.1 s, r.2.2)

/-- The bytes of an ETX OTA packet on the wire, field by field: SOF, Packet Type, Data Length
(of `data`, little-endian), Data, CRC32 (little-endian), EOF. -/
def packet_bytes (sof packet_type : Nat) (data : List Nat) (crc eof : Nat) : List Nat :=
  [sof, packet_type] ++ u16_bytes data.length ++ data ++ u32_bytes crc ++ [eof]

/-- The frame arrives whole on a line without faults.  Inside a transaction the first byte of
`Rx_Buffer` has been cleared (line 685) and `etx_ota_receive_packet` reads every byte of the
frame; at the start of a transaction the first byte of the frame has already been stored in
`Rx_Buffer[0]` by the interrupt-driven reception (lines 605 and 638) and the blocking reads get
the bytes that follow it.  `rest` is what the line holds after the frame. -/
def frame_arrives (Rx_Buffer : List Nat) (u : Uart) (frame rest : List Nat) : Prop :=
  u.hal = []
  ∧ ((Rx_Buffer.getD 0 0 = 0 ∧ u.rx = frame ++ rest)
    ∨ (Rx_Buffer.getD 0 0 ≠ 0 ∧ Rx_Buffer.getD 0 0 = frame.getD 0 0 ∧ u.rx = frame.tail ++ rest))

/-- The frame is a Data Type Packet whose Data field holds exactly the bytes of `p`; the SOF
byte and what follows the Data field (CRC32 and EOF on a well-formed frame) are free, since
`etx_ota_process_data` does not look at them. -/
def carries_data (frame p : List Nat) : Prop :=
  ∃ (sof : Nat) (tail : List Nat),
    frame = sof :: ETX_OTA_PACKET_TYPE_DATA :: (u16_bytes p.length ++ p ++ tail)

/-- The statuses `t` that the blocking reads of one reception reported agree with the status
`st` it returned: a reception that returns OK saw `HAL_OK` only, and one in which a read
reported `HAL_BUSY` or `HAL_TIMEOUT` returns No Response. -/
def reports_agree (t : List FwConfig.HAL_StatusTypeDef) (st : ETX_OTA_Status) : Prop :=
  (st = ETX_OTA_EC_OK → ∀ x ∈ t, x = HAL_OK)
  ∧ ((HAL_BUSY ∈ t ∨ HAL_TIMEOUT ∈ t) → st = ETX_OTA_EC_NR)

/-- The Response Type Packets among the outputs of a pass. -/
def responses (out : List Output) : List Nat :=
  out.filterMap (fun o => match o with
    | Output.resp response_status => some response_status
    | Output.receive_it => none)

end Node

namespace Host

/-- The call `RS232_PollComport(comport, buf, size)` of the RS-232 library: `port` holds the
bytes waiting in the serial port, of which at most `size` are copied to the start of `buf`;
returns how many were copied, and the buffer. -/
def RS232_PollComport (port buf : List Nat) (size : Nat) : Nat × List Nat :=
  (min port.length size, port.take size ++ buf.drop (min port.length size))

/-- The function `is_ack_resp_received` (lines 443-470): `ETX_OTA_Packet_Buffer` is zeroed,
then polled for the `sizeof(ETX_OTA_Response_Packet_t)` = 10 bytes of a response. -/
def is_ack_resp_received (port : List Nat) : Bool :=
  let r := RS232_PollComport port (List.replicate ETX_OTA_PACKET_MAX_SIZE 0) 10
  let len := r.1 % 2 ^ 16
  let ETX_OTA_Packet_Buffer := r.2
  if len > 0 then
    if ETX_OTA_Packet_Buffer.getD 1 0 = ETX_OTA_PACKET_TYPE_RESPONSE then
      if read_u32 ETX_OTA_Packet_Buffer 5 = crc32_mpeg2 (ETX_OTA_Packet_Buffer.drop 4) 1 then
        if ETX_OTA_Packet_Buffer.getD 4 0 = ETX_OTA_ACK then true else false
      else false
    else false
  else false

end Host

/-! ## Configuration store: the erase that the page swap requests -/

namespace FwConfig

open HAL_StatusTypeDef FirmUpdConf_Status

/-- The page that `prep_page_swap` hands to `page_erase` (lines 351-386), named by the index of
its first slot (0 for page 1, `S` for page 2); `none` when neither condition holds and no erase
is asked for. -/
def prep_page_swap_request (S : Nat) (flash : Flash) (p_most_recent_val : Option Nat) :
    Option Nat :=
  if p_most_recent_val = some 0 ∧ is_erased flash (2 * S - 1) = FLASH_BLOCK_NOT_ERASED then
    some S
  else if p_most_recent_val = some S ∧ is_erased flash (S - 1) = FLASH_BLOCK_NOT_ERASED then
    some 0
  else none

/-- The erase that `firmware_update_configurations_write` asks for when its HAL calls succeed:
`prep_page_swap` is called (line 303) on the flash that holds the new record, with the pointer
already moved to the slot of that record (line 300). -/
def write_request (S : Nat) (p_data : firmware_update_config_data_t) (st : Store) : Option Nat :=
  prep_page_swap_request S
    (programmed (new_val_struct p_data) (next_slot S st.p_most_recent_val) 0
      FIRMWARE_UPDATE_CONFIG_BLOCK_SIZE st.flash)
    (some (next_slot S st.p_most_recent_val))

end FwConfig

/-! ## Controller-side driver: the send procedure -/

namespace Host

/-- The enum `ETX_OTA_Status` of etx_ota_protocol_host.h (the declaration is that of the header
of this name under blePcToolAPI, which lists every code that etx_ota_protocol_host.c of
uartPcToolAPI returns). -/
inductive ETX_OTA_Status where
  | ETX_OTA_EC_OK
  | ETX_OTA_EC_STOP
  | ETX_OTA_EC_NR
  | ETX_OTA_EC_NA
  | ETX_OTA_EC_ERR
  | ETX_OTA_EC_INV_CMD_LINE_ARG
  | ETX_OTA_EC_UNRECOG_PAYLOAD
  | ETX_OTA_EC_OPEN_COM_ERR
  | ETX_OTA_EC_OPEN_FILE_ERR
  | ETX_OTA_EC_READ_FILE_ERR
  | ETX_OTA_EC_START_CMD_SEND_DATA_ERR
  | ETX_OTA_EC_START_CMD_NACK_RESP
  | ETX_OTA_EC_HEADER_PCKT_SEND_DATA_ERR
  | ETX_OTA_EC_HEADER_PCKT_NACK_RESP
  | ETX_OTA_EC_DATA_PCKT_SEND_DATA_ERR
  | ETX_OTA_EC_DATA_PCKT_NACK_RESP
  | ETX_OTA_EC_END_CMD_SEND_DATA_ERR
  | ETX_OTA_EC_END_CMD_NACK_RESP
  | ETX_OTA_EC_ABORT_CMD_SEND_DATA_ERR
  | ETX_OTA_EC_ABORT_CMD_NACK_RESP
  | ETX_OTA_EC_ABORT_LOOP_ERR
  | ETX_OTA_EC_BLE_INIT_ERR
  | ETX_OTA_EC_BLE_AT_CMD_ERR
  | ETX_OTA_EC_BLE_TYPE_CMD_ERR
  | ETX_OTA_EC_BLE_RESET_CMD_ERR
  | ETX_OTA_EC_BLE_CONN_CMD_ERR
  deriving DecidableEq, Repr

/-- What the send procedure does to the outside, call by call with the value each call returned:
a record kept for the statements, never read by the procedure. -/
inductive Call where
  | RS232_OpenComport (error : Bool)
  | RS232_CloseComport
  | send_etx_ota_abort (ret : ETX_OTA_Status)
  | send_etx_ota_start (ret : ETX_OTA_Status)
  | send_etx_ota_header (ret : ETX_OTA_Status)
  | send_etx_ota_data (data_len : Nat) (ret : ETX_OTA_Status)
  | send_etx_ota_end (ret : ETX_OTA_Status)
  deriving DecidableEq, Repr

/-- The surroundings of the controller.  `comport_error` and `send_error` hold what the coming
calls of `RS232_OpenComport` and `RS232_SendByte` return (true: non-zero, the call failed; a
call beyond the list succeeds); `polls` holds the bytes waiting in the port at each coming call
of `RS232_PollComport` (nothing beyond the list); `file` is the content of the file at
`payload_path_or_data` (`none`: `fopen_s` fails) and `fread_error` tells that `fread` delivers
fewer bytes than asked.  `sent` collects the bytes handed to the port and `calls` the record of
calls. -/
structure World where
  comport_error : List Bool
  file : Option (List Nat)
  fread_error : Bool
  send_error : List Bool
  polls : List (List Nat)
  sent : List Nat
  calls : List Call
  deriving DecidableEq, Repr

/-- The fields of `ETX_OTA_API_t` that decide the frames sent (the serial settings and the
delays are left out).  For a firmware image `payload_path_or_data` is a path, whose file is
`World.file`; for custom data it holds the payload. -/
structure ETX_OTA_API_t where
  ETX_OTA_Payload_Type : Nat
  payload_path_or_data : List Nat
  payload_size : Nat
  flash_page_size_in_bytes : Nat
  ETX_bl_page_size : Nat
  ETX_app_page_size : Nat
  deriving DecidableEq, Repr

/-- The call `RS232_OpenComport` of the RS-232 library: true when it fails. -/
def RS232_OpenComport (w : World) : Bool × World :=
  (w.comport_error.headD false,
   { w with comport_error := w.comport_error.tail,
            calls := w.calls ++ [Call.RS232_OpenComport (w.comport_error.headD false)] })

/-- The call `RS232_CloseComport` of the RS-232 library. -/
def RS232_CloseComport (w : World) : World :=
  { w with calls := w.calls ++ [Call.RS232_CloseComport] }

/-- The call `RS232_SendByte` of the RS-232 library: true when it fails, and then the byte is
not sent. -/
def RS232_SendByte (byte : Nat) (w : World) : Bool × World :=
  if w.send_error.headD false then (true, { w with send_error := w.send_error.tail })
  else (false, { w with send_error := w.send_error.tail, sent := w.sent ++ [byte] })

/-- The bytes waiting in the port at the next call of `RS232_PollComport`. -/
def next_poll (w : World) : List Nat × World :=
  (w.polls.headD [], { w with polls := w.polls.tail })

/-- The loops that send the bytes of `ETX_OTA_Packet_Buffer` one by one (lines 545-553, 578-586,
617-625, 659-667): true when a call of `RS232_SendByte` fails, which ends the loop. -/
def send_bytes : List Nat → World → Bool × World
  | [], w => (false, w)
  | byte :: rest, w =>
    let s := RS232_SendByte byte w
    if s.1 then (true, s.2) else send_bytes rest s.2

/-- Return from one of the send functions, noted in the record of calls. -/
def returned (call : ETX_OTA_Status → Call) (ret : ETX_OTA_Status) (w : World) :
    ETX_OTA_Status × World :=
  (ret, { w with calls := w.calls ++ [call ret] })

/-- The byte loop of `send_etx_ota_abort` (lines 493-525): after each byte the port is polled for
the ten bytes of a response into a buffer of zeros; something received ends the function (OK on
an acknowledgement, the NACK code otherwise), nothing received goes on to the next byte, and the
end of the loop returns OK (line 528). -/
def send_etx_ota_abort_bytes : List Nat → World → ETX_OTA_Status × World
  | [], w => (ETX_OTA_Status.ETX_OTA_EC_OK, w)
  | byte :: rest, w =>
    let s := RS232_SendByte byte w
    if s.1 then (ETX_OTA_Status.ETX_OTA_EC_ABORT_CMD_SEND_DATA_ERR, s.2)
    else
      let p := next_poll s.2
      let r := RS232_PollComport p.1 (List.replicate 10 0) 10
      let len := r.1 % 2 ^ 16
      let tmp_ETX_OTA_Packet_Buffer := r.2
      if len > 0 then
        if tmp_ETX_OTA_Packet_Buffer.getD 1 0 = ETX_OTA_PACKET_TYPE_RESPONSE
            ∧ read_u32 tmp_ETX_OTA_Packet_Buffer 5
                = crc32_mpeg2 (tmp_ETX_OTA_Packet_Buffer.drop 4) 1
            ∧ tmp_ETX_OTA_Packet_Buffer.getD 4 0 = ETX_OTA_ACK then
          (ETX_OTA_Status.ETX_OTA_EC_OK, p.2)
        else (ETX_OTA_Status.ETX_OTA_EC_ABORT_CMD_NACK_RESP, p.2)
      else send_etx_ota_abort_bytes rest p.2

/-- The function `send_etx_ota_abort` (lines 472-529). -/
def send_etx_ota_abort (w : World) : ETX_OTA_Status × World :=
  let r := send_etx_ota_abort_bytes etx_ota_abort_packet w
  returned Call.send_etx_ota_abort r.1 r.2

/-- The body that `send_etx_ota_start`, `send_etx_ota_header`, `send_etx_ota_data` and
`send_etx_ota_end` share: the bytes of the packet are sent one by one, a failure of
`RS232_SendByte` returning `send_data_err`; then `is_ack_resp_received` polls the port once, and
anything but an acknowledgement returns `nack_resp`. -/
def send_packet (packet : List Nat) (call : ETX_OTA_Status → Call)
    (send_data_err nack_resp : ETX_OTA_Status) (w : World) : ETX_OTA_Status × World :=
  let s := send_bytes packet w
  if s.1 then returned call send_data_err s.2
  else
    let p := next_poll s.2
    if ¬ is_ack_resp_received p.1 then returned call nack_resp p.2
    else returned call ETX_OTA_Status.ETX_OTA_EC_OK p.2

/-- The function `send_etx_ota_start` (lines 531-562). -/
def send_etx_ota_start (w : World) : ETX_OTA_Status × World :=
  send_packet etx_ota_start_packet Call.send_etx_ota_start
    ETX_OTA_Status.ETX_OTA_EC_START_CMD_SEND_DATA_ERR
    ETX_OTA_Status.ETX_OTA_EC_START_CMD_NACK_RESP w

/-- The function `send_etx_ota_header` (lines 564-595). -/
def send_etx_ota_header (etx_ota_header_info : header_data_t) (w : World) :
    ETX_OTA_Status × World :=
  send_packet (etx_ota_header_packet etx_ota_header_info) Call.send_etx_ota_header
    ETX_OTA_Status.ETX_OTA_EC_HEADER_PCKT_SEND_DATA_ERR
    ETX_OTA_Status.ETX_OTA_EC_HEADER_PCKT_NACK_RESP w

/-- The function `send_etx_ota_data` (lines 597-643): `payload` is the memory the pointer
designates. -/
def send_etx_ota_data (payload : List Nat) (data_len : Nat) (w : World) :
    ETX_OTA_Status × World :=
  send_packet (etx_ota_data_packet payload data_len) (Call.send_etx_ota_data data_len)
    ETX_OTA_Status.ETX_OTA_EC_DATA_PCKT_SEND_DATA_ERR
    ETX_OTA_Status.ETX_OTA_EC_DATA_PCKT_NACK_RESP w

/-- The function `send_etx_ota_end` (lines 645-681). -/
def send_etx_ota_end (w : World) : ETX_OTA_Status × World :=
  send_packet etx_ota_end_packet Call.send_etx_ota_end
    ETX_OTA_Status.ETX_OTA_EC_END_CMD_SEND_DATA_ERR
    ETX_OTA_Status.ETX_OTA_EC_END_CMD_NACK_RESP w

/-- Number of calls of `RS232_OpenComport` in a record of calls: the number of runs of
`start_etx_ota_process`, whose first call it is (line 707). -/
def runs (calls : List Call) : Nat :=
  calls.countP (fun c => match c with
    | Call.RS232_OpenComport _ => true
    | _ => false)

/-- The number of passes of the Abort loop (line 777):
`ETX_OTA_PACKET_MAX_SIZE/sizeof(ETX_OTA_Command_Packet_t)+1`, the packed command packet being ten
bytes. -/
def ABORT_LOOP_ATTEMPTS : Nat := ETX_OTA_PACKET_MAX_SIZE / 10 + 1

/-- The Abort loop of `start_etx_ota_process` (lines 777-784) with `remaining` passes to go;
`ret` is the variable of that name, which the first pass assigns. -/
def abort_loop : Nat → ETX_OTA_Status → World → ETX_OTA_Status × World
  | 0, ret, w => (ret, w)
  | remaining + 1, _, w =>
    let r := send_etx_ota_abort w
    if r.1 = ETX_OTA_Status.ETX_OTA_EC_OK then r else abort_loop remaining r.1 r.2

/-- The payload of `start_etx_ota_process` (lines 716-768): the code returned when the payload is
turned down, or `payload_size` and `PAYLOAD_CONTENT`.  The two capacities are the products of
the 16-bit fields kept in 32 bits (lines 686-688); the size of the file is what `ftell` gives,
kept in 32 bits (line 732). -/
def get_payload (api : ETX_OTA_API_t) (w : World) : Except ETX_OTA_Status (Nat × List Nat) :=
  let ETX_OTA_BL_FW_SIZE := (api.flash_page_size_in_bytes * api.ETX_bl_page_size) % 2 ^ 32
  let ETX_OTA_APP_FW_SIZE := (api.flash_page_size_in_bytes * api.ETX_app_page_size) % 2 ^ 32
  if api.ETX_OTA_Payload_Type = ETX_OTA_Bootloader_Firmware_Image
      ∨ api.ETX_OTA_Payload_Type = ETX_OTA_Application_Firmware_Image then
    match w.file with
    | none => Except.error ETX_OTA_Status.ETX_OTA_EC_OPEN_FILE_ERR
    | some content =>
      let payload_size := content.length % 2 ^ 32
      let read_payload : Except ETX_OTA_Status (Nat × List Nat) :=
        if w.fread_error then Except.error ETX_OTA_Status.ETX_OTA_EC_READ_FILE_ERR
        else Except.ok (payload_size, content)
      if api.ETX_OTA_Payload_Type = ETX_OTA_Bootloader_Firmware_Image then
        if payload_size > ETX_OTA_BL_FW_SIZE then Except.error ETX_OTA_Status.ETX_OTA_EC_NA
        else read_payload
      else
        if payload_size > ETX_OTA_APP_FW_SIZE then Except.error ETX_OTA_Status.ETX_OTA_EC_NA
        else read_payload
  else if api.ETX_OTA_Payload_Type = ETX_OTA_Custom_Data then
    Except.ok (api.payload_size, api.payload_path_or_data)
  else Except.error ETX_OTA_Status.ETX_OTA_EC_UNRECOG_PAYLOAD

/-- The first part of `start_etx_ota_process` (lines 686-789): the port is opened, the payload
fetched and, when `payload_send_attempts` is 0, the Abort loop run.  Gives the code and the
surroundings of an early return, or the payload and the surroundings in which the Start command
is sent. -/
def start_etx_ota_process_setup (api : ETX_OTA_API_t) (payload_send_attempts : Nat) (w : World) :
    Except (ETX_OTA_Status × World) (Nat × List Nat × World) :=
  let o := RS232_OpenComport w
  if o.1 then Except.error (ETX_OTA_Status.ETX_OTA_EC_OPEN_COM_ERR, o.2)
  else
    match get_payload api o.2 with
    | Except.error e => Except.error (e, o.2)
    | Except.ok (payload_size, PAYLOAD_CONTENT) =>
      if payload_send_attempts = 0 then
        let a := abort_loop ABORT_LOOP_ATTEMPTS ETX_OTA_Status.ETX_OTA_EC_OK o.2
        if a.1 ≠ ETX_OTA_Status.ETX_OTA_EC_OK then
          Except.error (ETX_OTA_Status.ETX_OTA_EC_ABORT_LOOP_ERR, a.2)
        else Except.ok (payload_size, PAYLOAD_CONTENT, a.2)
      else Except.ok (payload_size, PAYLOAD_CONTENT, o.2)

/-- The Data loop of `start_etx_ota_process` (lines 839-856) from index `i` on. -/
def send_data_loop (PAYLOAD_CONTENT : List Nat) (payload_size : Nat) (i : Nat) (w : World) :
    ETX_OTA_Status × World :=
  if i < payload_size then
    let size :=
      if payload_size - i ≥ ETX_OTA_DATA_MAX_SIZE then ETX_OTA_DATA_MAX_SIZE
      else payload_size - i
    let r := send_etx_ota_data (PAYLOAD_CONTENT.drop i) size w
    if r.1 ≠ ETX_OTA_Status.ETX_OTA_EC_OK then r
    else send_data_loop PAYLOAD_CONTENT payload_size (i + size) r.2
  else (ETX_OTA_Status.ETX_OTA_EC_OK, w)
termination_by payload_size - i
decreasing_by
  all_goals simp_wf
  all_goals simp only [ETX_OTA_DATA_MAX_SIZE] at *
  all_goals split
  all_goals omega

/-- The last part of `start_etx_ota_process` (lines 837-871): the Data loop, the End command and
the closing of the port. -/
def send_payload_and_end (PAYLOAD_CONTENT : List Nat) (payload_size : Nat) (w : World) :
    ETX_OTA_Status × World :=
  let d := send_data_loop PAYLOAD_CONTENT payload_size 0 w
  if d.1 ≠ ETX_OTA_Status.ETX_OTA_EC_OK then d
  else
    let e := send_etx_ota_end d.2
    if e.1 ≠ ETX_OTA_Status.ETX_OTA_EC_OK then e
    else (ETX_OTA_Status.ETX_OTA_EC_OK, RS232_CloseComport e.2)

/-- The function `start_etx_ota_process` (lines 683-872).  The global `payload_send_attempts`
(8 bits, line 264) is passed in and returned with the code and the surroundings. -/
def start_etx_ota_process (api : ETX_OTA_API_t) (payload_send_attempts : Nat) (w : World) :
    ETX_OTA_Status × Nat × World :=
  match start_etx_ota_process_setup api payload_send_attempts w with
  | Except.error r => (r.1, payload_send_attempts, r.2)
  | Except.ok (payload_size, PAYLOAD_CONTENT, w1) =>
    let s := send_etx_ota_start w1
    if s.1 ≠ ETX_OTA_Status.ETX_OTA_EC_OK then
      if h : payload_send_attempts = 0 then
        start_etx_ota_process api ((payload_send_attempts + 1) % 256) (RS232_CloseComport s.2)
      else (s.1, (payload_send_attempts + 1) % 256, s.2)
    else
      let hd := send_etx_ota_header
        (etx_ota_header_info PAYLOAD_CONTENT payload_size api.ETX_OTA_Payload_Type) s.2
      if hd.1 ≠ ETX_OTA_Status.ETX_OTA_EC_OK then
        if h : payload_send_attempts = 0 then
          start_etx_ota_process api ((payload_send_attempts + 1) % 256)
            (RS232_CloseComport hd.2)
        else (hd.1, (payload_send_attempts + 1) % 256, hd.2)
      else
        let r := send_payload_and_end PAYLOAD_CONTENT payload_size hd.2
        (r.1, payload_send_attempts, r.2)
termination_by (if payload_send_attempts = 0 then 1 else 0)
decreasing_by
  all_goals simp_wf
  all_goals simp [h]

end Host

/-! ## Node-side engine: the order of the states, the transaction loop -/

namespace Node

/-- Position of a state in the order in which a transaction goes through the states: Start,
Header, Data, End, Idle (`start_etx_ota_transaction` sets Start at line 668, and Idle ends its
loop). -/
def state_position : ETX_OTA_State → Nat
  | ETX_OTA_STATE_START => 0
  | ETX_OTA_STATE_HEADER => 1
  | ETX_OTA_STATE_DATA => 2
  | ETX_OTA_STATE_END => 3
  | ETX_OTA_STATE_IDLE => 4

/-- The state after `etx_ota_process_data` has been called on each of the buffers in turn. -/
def states_after (bufs : List (List Nat)) (s : State) : State :=
  bufs.foldl (fun st buf => (etx_ota_process_data buf st).2) s

/-- The do-while loop of `start_etx_ota_transaction` (lines 677-749), followed for at most
`passes` passes: the responses sent and receptions armed, in order; the value returned (none
when the passes are used up before the loop is left); the state, `Rx_Buffer` and the UART. -/
def start_etx_ota_transaction_loop :
    Nat → List Nat → Uart → State → List Output × Option ETX_OTA_Status × State × List Nat × Uart
  | 0, Rx_Buffer, u, s => ([], none, s, Rx_Buffer, u)
  | passes + 1, Rx_Buffer, u, s =>
    let it := start_etx_ota_transaction_iteration Rx_Buffer u s
    match it.1.ret with
    | some ret => (it.1.out, some ret, it.1.st, it.1.Rx_Buffer, it.2)
    | none =>
      if it.1.st.etx_ota_state ≠ ETX_OTA_STATE_IDLE then
        let t := start_etx_ota_transaction_loop passes it.1.Rx_Buffer it.2 it.1.st
        (it.1.out ++ t.1, t.2)
      else
        (it.1.out ++ [Output.receive_it], some ETX_OTA_EC_OK, it.1.st, it.1.Rx_Buffer, it.2)

/-- The function `start_etx_ota_transaction` (lines 659-750), its loop followed for at most
`passes` passes. -/
def start_etx_ota_transaction (passes : Nat) (Rx_Buffer : List Nat) (u : Uart) (s : State) :
    List Output × Option ETX_OTA_Status × State × List Nat × Uart :=
  start_etx_ota_transaction_loop passes Rx_Buffer u
    { s with etx_ota_fw_received_size := 0, etx_ota_state := ETX_OTA_STATE_START }

end Node

/-! ## Checksum primitive: the table-driven code against the bit-by-bit reference -/

theorem crc_table_entry :
    ∀ i < 256, Host.crc_table.getD i 0 = crc32_shift^[8] (i <<< 24) := by
  decide!

theorem crc_table_lt : ∀ i < 256, Host.crc_table.getD i 0 < 2 ^ 32 := by
  decide!

theorem crc_table_low_byte_inverse_spec :
    ∀ i < 256, crc_table_low_byte_inverse.getD (Host.crc_table.getD i 0 % 256) 0 = i := by
  decide!

theorem crc_table_low_byte_inj (i j : Nat) (hi : i < 256) (hj : j < 256)
    (h : Host.crc_table.getD i 0 % 256 = Host.crc_table.getD j 0 % 256) : i = j := by
  rw [← crc_table_low_byte_inverse_spec i hi, ← crc_table_low_byte_inverse_spec j hj, h]

theorem testBit_mod_2_32 (a i : Nat) :
    (a % 4294967296).testBit i = (decide (i < 32) && a.testBit i) := by
  have h := Nat.testBit_mod_two_pow a 32 i
  simpa using h

theorem shl_mod_xor (x y k : Nat) :
    ((x ^^^ y) <<< k) % 4294967296
      = ((x <<< k) % 4294967296) ^^^ ((y <<< k) % 4294967296) := by
  apply Nat.eq_of_testBit_eq
  intro i
  simp only [testBit_mod_2_32, Nat.testBit_xor, Nat.testBit_shiftLeft]
  by_cases hi : i < 32 <;> by_cases hk : k ≤ i <;> simp [hi, hk]

theorem xor_xor_xor_comm (a b c d : Nat) :
    (a ^^^ b) ^^^ (c ^^^ d) = (a ^^^ c) ^^^ (b ^^^ d) := by
  ac_rfl

/-- The shift step is linear over XOR. -/
theorem crc32_shift_xor (x y : Nat) :
    crc32_shift (x ^^^ y) = crc32_shift x ^^^ crc32_shift y := by
  unfold crc32_shift
  rw [xor_xor_xor_comm]
  have h1 := shl_mod_xor x y 1
  norm_num at h1 ⊢
  rw [h1]
  congr 1
  by_cases hx : x.testBit 31 <;> by_cases hy : y.testBit 31 <;> simp [hx, hy]

theorem crc32_shift_iter_xor (k x y : Nat) :
    crc32_shift^[k] (x ^^^ y) = crc32_shift^[k] x ^^^ crc32_shift^[k] y := by
  induction k generalizing x y with
  | zero => rfl
  | succ k ih => simp only [Function.iterate_succ, Function.comp_apply, crc32_shift_xor, ih]

theorem crc32_shift_small (x : Nat) (h : x < 2 ^ 31) : crc32_shift x = x <<< 1 := by
  unfold crc32_shift
  have : x.testBit 31 = false := Nat.testBit_lt_two_pow h
  simp only [this, Nat.shiftLeft_eq]
  simp
  omega

theorem crc32_shift_iter_small (k x : Nat) (hk : k ≤ 32) (h : x < 2 ^ (32 - k)) :
    crc32_shift^[k] x = x <<< k := by
  induction k generalizing x with
  | zero => rfl
  | succ k ih =>
    have h31 : x < 2 ^ 31 :=
      lt_of_lt_of_le h (Nat.pow_le_pow_right (by norm_num) (by omega))
    have hx2 : x <<< 1 < 2 ^ (32 - k) := by
      rw [Nat.shiftLeft_eq]
      have : 2 ^ (32 - k) = 2 ^ (32 - (k + 1)) * 2 ^ 1 := by
        rw [← pow_add]; congr 1; omega
      rw [this]
      exact Nat.mul_lt_mul_of_pos_right h (by norm_num)
    rw [Function.iterate_succ, Function.comp_apply, crc32_shift_small x h31,
      ih _ (by omega) hx2]
    simp [Nat.shiftLeft_eq, pow_succ]; ring

/-- One round of the table-driven loop is one byte of the reference algorithm. -/
theorem crc32_mpeg2_round_eq_reference (c b : Nat) (hc : c < 2 ^ 32) (hb : b < 256) :
    Host.crc32_mpeg2_round c b = crc32_reference_byte c b := by
  unfold Host.crc32_mpeg2_round crc32_reference_byte
  have hhi : c >>> 24 < 256 := by rw [Nat.shiftRight_eq_div_pow]; omega
  have htop : (c >>> 24) ^^^ b < 256 := Nat.xor_lt_two_pow (n := 8) hhi hb
  have e1 : c ^^^ b <<< 24 = (((c >>> 24) ^^^ b) <<< 24) ^^^ (c % 2 ^ 24) := by
    apply Nat.eq_of_testBit_eq
    intro i
    simp only [Nat.testBit_xor, Nat.testBit_shiftLeft, Nat.testBit_shiftRight,
      Nat.testBit_mod_two_pow]
    by_cases hi : 24 ≤ i
    · have h1 : 24 + (i - 24) = i := by omega
      have h2 : ¬ i < 24 := by omega
      simp [hi, h1, h2]
    · have h2 : i < 24 := by omega
      simp [hi, h2]
  rw [e1, crc32_shift_iter_xor, ← crc_table_entry _ htop,
    crc32_shift_iter_small 8 (c % 2 ^ 24) (by norm_num) (by norm_num; omega)]
  simp only [Nat.mod_eq_of_lt hhi, Nat.mod_eq_of_lt htop]
  rw [Nat.xor_comm]
  congr 1
  simp [Nat.shiftLeft_eq]
  omega

theorem crc32_mpeg2_round_lt (c b : Nat) : Host.crc32_mpeg2_round c b < 2 ^ 32 := by
  unfold Host.crc32_mpeg2_round
  apply Nat.xor_lt_two_pow
  · exact Nat.mod_lt _ (by norm_num)
  · exact crc_table_lt _ (Nat.mod_lt _ (by norm_num))

theorem foldl_round_lt (l : List Nat) (c : Nat) (hc : c < 2 ^ 32) :
    l.foldl Host.crc32_mpeg2_round c < 2 ^ 32 := by
  induction l generalizing c with
  | nil => simpa using hc
  | cons b l ih => exact ih _ (crc32_mpeg2_round_lt c b)

/-- The index loop of `crc32_mpeg2` is a left fold over the first `n` bytes. -/
theorem foldl_range_getD (f : Nat → Nat → Nat) (l : List Nat) (n : Nat) (h : n ≤ l.length)
    (init : Nat) :
    (List.range n).foldl (fun c i => f c (l.getD i 0)) init = (l.take n).foldl f init := by
  induction n with
  | zero => simp
  | succ n ih =>
    have hn : n < l.length := by omega
    rw [List.range_succ, List.foldl_append, ih (by omega), List.take_succ,
      List.foldl_append]
    simp [List.getD_eq_getElem?_getD, List.getElem?_eq_getElem hn]

theorem crc32_mpeg2_eq_foldl (l : List Nat) (n : Nat) (h : n ≤ l.length) :
    Host.crc32_mpeg2 l n = (l.take n).foldl Host.crc32_mpeg2_round 0xFFFFFFFF := by
  unfold Host.crc32_mpeg2
  exact foldl_range_getD Host.crc32_mpeg2_round l n h _

theorem crc32_mpeg2_full (l : List Nat) :
    Host.crc32_mpeg2 l l.length = l.foldl Host.crc32_mpeg2_round 0xFFFFFFFF := by
  rw [crc32_mpeg2_eq_foldl l l.length (le_refl _), List.take_length]

theorem foldl_round_eq_reference (l : List Nat) (hl : ∀ b ∈ l, b < 256) (c : Nat)
    (hc : c < 2 ^ 32) :
    l.foldl Host.crc32_mpeg2_round c = l.foldl crc32_reference_byte c := by
  induction l generalizing c with
  | nil => rfl
  | cons b l ih =>
    simp only [List.foldl_cons]
    rw [← crc32_mpeg2_round_eq_reference c b hc (hl b (by simp))]
    exact ih (fun x hx => hl x (by simp [hx])) _ (crc32_mpeg2_round_lt c b)

/-- C5: for every byte sequence the table-driven `crc32_mpeg2` equals the bit-by-bit reference
CRC-32/MPEG-2 (initial value 0xFFFFFFFF, polynomial 0x04C11DB7, most significant bit first, no
reflection, no final XOR), and every entry `crc_table[i]`, `i` in 0..255, is the result of
eight shift steps applied to `i << 24`. -/
theorem crc32_mpeg2_refines_reference :
    (∀ data : List Nat, (∀ b ∈ data, b < 256) →
      Host.crc32_mpeg2 data data.length = crc32_reference data)
    ∧ (∀ i < 256, Host.crc_table.getD i 0 = crc32_shift^[8] (i <<< 24)) := by
  refine ⟨fun data hdata => ?_, crc_table_entry⟩
  rw [crc32_mpeg2_full]
  exact foldl_round_eq_reference data hdata _ (by norm_num)

/-- Witness for C5 at the payload `[0xDE, 0xAD, 0xBE, 0xEF]`. -/
theorem crc32_mpeg2_refines_reference_witness :
    (∀ b ∈ [0xDE, 0xAD, 0xBE, 0xEF], b < 256)
    ∧ Host.crc32_mpeg2 [0xDE, 0xAD, 0xBE, 0xEF] [0xDE, 0xAD, 0xBE, 0xEF].length
        = crc32_reference [0xDE, 0xAD, 0xBE, 0xEF] :=
  ⟨by decide, crc32_mpeg2_refines_reference.1 [0xDE, 0xAD, 0xBE, 0xEF] (by decide)⟩

/-- C6: `crc32_mpeg2` applied to the nine ASCII bytes of "123456789" returns 0x0376E6E7. -/
theorem crc32_mpeg2_check_value :
    Host.crc32_mpeg2 [0x31, 0x32, 0x33, 0x34, 0x35, 0x36, 0x37, 0x38, 0x39] 9 = 0x0376E6E7 := by
  decide

/-- C7: on a zero-length input `crc32_mpeg2` returns the initial value 0xFFFFFFFF whatever the
data pointer designates, in the controller's code and in the firmware's documented function. -/
theorem crc32_mpeg2_zero_length (p_data : List Nat) :
    Host.crc32_mpeg2 p_data 0 = 0xFFFFFFFF ∧ Firmware.crc32_mpeg2 p_data 0 = 0xFFFFFFFF := by
  constructor
  · rfl
  · simp [Firmware.crc32_mpeg2]

/-! ## Checksum sensitivity -/

theorem xor_byte_cancel (t b b' : Nat) (h : t ^^^ b = t ^^^ b') : b = b' :=
  Nat.xor_right_injective h

theorem shl8_xor_low_byte (a t : Nat) : ((a <<< 8) % 2 ^ 32 ^^^ t) % 2 ^ 8 = t % 2 ^ 8 := by
  apply Nat.eq_of_testBit_eq
  intro i
  simp only [Nat.testBit_mod_two_pow, Nat.testBit_xor, Nat.testBit_shiftLeft]
  by_cases hi : i < 8
  · have h8 : ¬ 8 ≤ i := by omega
    simp [hi, h8]
  · simp [hi]

/-- The table index used by one round. -/
theorem round_top (c b : Nat) (hc : c < 2 ^ 32) (hb : b < 256) :
    (((c >>> 24) % 256) ^^^ b) % 256 = (c >>> 24) ^^^ b ∧ (c >>> 24) ^^^ b < 256 := by
  have hhi : c >>> 24 < 256 := by rw [Nat.shiftRight_eq_div_pow]; omega
  have htop : (c >>> 24) ^^^ b < 256 := Nat.xor_lt_two_pow (n := 8) hhi hb
  rw [Nat.mod_eq_of_lt hhi, Nat.mod_eq_of_lt htop]
  exact ⟨rfl, htop⟩

/-- Two different bytes fed into the same register give different registers. -/
theorem round_byte_inj (c b b' : Nat) (hc : c < 2 ^ 32) (hb : b < 256) (hb' : b' < 256)
    (h : Host.crc32_mpeg2_round c b = Host.crc32_mpeg2_round c b') : b = b' := by
  unfold Host.crc32_mpeg2_round at h
  simp only [(round_top c b hc hb).1, (round_top c b' hc hb').1] at h
  have h1 := Nat.xor_right_injective h
  have h2 := crc_table_low_byte_inj _ _ (round_top c b hc hb).2 (round_top c b' hc hb').2
    (by rw [h1])
  exact Nat.xor_right_injective h2

/-- The same byte fed into two different registers gives different registers. -/
theorem round_state_inj (c c' b : Nat) (hc : c < 2 ^ 32) (hc' : c' < 2 ^ 32) (hb : b < 256)
    (h : Host.crc32_mpeg2_round c b = Host.crc32_mpeg2_round c' b) : c = c' := by
  unfold Host.crc32_mpeg2_round at h
  simp only [(round_top c b hc hb).1, (round_top c' b hc' hb).1] at h
  have hlow := congrArg (fun v => v % 2 ^ 8) h
  simp only [shl8_xor_low_byte] at hlow
  have hidx := crc_table_low_byte_inj _ _ (round_top c b hc hb).2 (round_top c' b hc' hb).2
    (by simpa using hlow)
  have hhi : c >>> 24 = c' >>> 24 := Nat.xor_left_injective hidx
  rw [hidx] at h
  have hshl : (c <<< 8) % 2 ^ 32 = (c' <<< 8) % 2 ^ 32 := Nat.xor_left_injective h
  rw [Nat.shiftRight_eq_div_pow, Nat.shiftRight_eq_div_pow] at hhi
  rw [Nat.shiftLeft_eq, Nat.shiftLeft_eq] at hshl
  omega

theorem foldl_round_state_inj (l : List Nat) (hl : ∀ b ∈ l, b < 256) (c c' : Nat)
    (hc : c < 2 ^ 32) (hc' : c' < 2 ^ 32)
    (h : l.foldl Host.crc32_mpeg2_round c = l.foldl Host.crc32_mpeg2_round c') : c = c' := by
  induction l generalizing c c' with
  | nil => simpa using h
  | cons b l ih =>
    simp only [List.foldl_cons] at h
    have hb : b < 256 := hl b (by simp)
    exact round_state_inj c c' b hc hc' hb
      (ih (fun x hx => hl x (by simp [hx])) _ _ (crc32_mpeg2_round_lt c b)
        (crc32_mpeg2_round_lt c' b) h)

/-- Replacing one byte of a byte sequence by a different byte changes the checksum. -/
theorem crc32_mpeg2_set_ne (D : List Nat) (hD : ∀ b ∈ D, b < 256) (i : Nat) (hi : i < D.length)
    (b' : Nat) (hb' : b' < 256) (hne : b' ≠ D.getD i 0) :
    Host.crc32_mpeg2 (D.set i b') (D.set i b').length ≠ Host.crc32_mpeg2 D D.length := by
  rw [crc32_mpeg2_full, crc32_mpeg2_full]
  have hsplit : D = D.take i ++ D.getD i 0 :: D.drop (i + 1) := by
    rw [List.getD_eq_getElem?_getD, List.getElem?_eq_getElem hi]
    simp
  have hset : D.set i b' = D.take i ++ b' :: D.drop (i + 1) := by
    rw [List.set_eq_take_append_cons_drop]
    simp [hi]
  rw [hset]
  conv_rhs => rw [hsplit]
  simp only [List.foldl_append, List.foldl_cons]
  intro h
  have hpre : (D.take i).foldl Host.crc32_mpeg2_round 0xFFFFFFFF < 2 ^ 32 :=
    foldl_round_lt _ _ (by norm_num)
  have hb : D.getD i 0 < 256 := by
    rw [List.getD_eq_getElem?_getD, List.getElem?_eq_getElem hi]
    exact hD _ (List.getElem_mem hi)
  have hsuf : ∀ b ∈ D.drop (i + 1), b < 256 := fun b hbm => hD b (List.mem_of_mem_drop hbm)
  have h1 := foldl_round_state_inj _ hsuf _ _ (crc32_mpeg2_round_lt _ _)
    (crc32_mpeg2_round_lt _ _) h
  exact hne (round_byte_inj _ _ _ hpre hb' hb h1)

theorem firmware_crc32_mpeg2_eq_host (p_data : List Nat) (n : Nat) (h0 : n ≠ 0)
    (h1 : n < 0xFFFFFFFF) : Firmware.crc32_mpeg2 p_data n = Host.crc32_mpeg2 p_data n := by
  unfold Firmware.crc32_mpeg2
  have h2 : n ≠ 0xFFFFFFFF := by omega
  simp [h0, h2]

theorem crc32_mpeg2_take (l : List Nat) (n : Nat) (h : n ≤ l.length) :
    Host.crc32_mpeg2 l n = Host.crc32_mpeg2 (l.take n) (l.take n).length := by
  rw [crc32_mpeg2_full, crc32_mpeg2_eq_foldl l n h]

/-- C8: replacing any one byte of a byte sequence `D` by a different byte value changes
`crc32_mpeg2`; hence a received frame whose Data field is `D` with one corrupted byte, and whose
CRC32 field still holds the checksum of `D`, is rejected by the checksum comparison of
`etx_ota_receive_packet`, whatever the rest of the buffer holds. -/
theorem crc32_mpeg2_single_byte_sensitivity (D : List Nat) (hD : ∀ b ∈ D, b < 256) (i : Nat)
    (hi : i < D.length) (b' : Nat) (hb' : b' < 256) (hne : b' ≠ D.getD i 0) :
    Host.crc32_mpeg2 (D.set i b') (D.set i b').length ≠ Host.crc32_mpeg2 D D.length
    ∧ ∀ (buf : List Nat) (len : Nat), D.length < 2 ^ 16 →
        (buf.drop ETX_OTA_DATA_FIELD_INDEX).take D.length = D.set i b' →
        Node.etx_ota_receive_packet_checks buf len D.length (Host.crc32_mpeg2 D D.length)
          = ETX_OTA_Status.ETX_OTA_EC_ERR := by
  have hcrc := crc32_mpeg2_set_ne D hD i hi b' hb' hne
  refine ⟨hcrc, fun buf len hlen hbuf => ?_⟩
  have hle : D.length ≤ (buf.drop ETX_OTA_DATA_FIELD_INDEX).length := by
    have h := congrArg List.length hbuf
    simp only [List.length_take, List.length_set] at h
    omega
  have hfw : Firmware.crc32_mpeg2 (buf.drop ETX_OTA_DATA_FIELD_INDEX) D.length
      = Host.crc32_mpeg2 (D.set i b') (D.set i b').length := by
    rw [firmware_crc32_mpeg2_eq_host _ _ (by omega) (by omega), crc32_mpeg2_take _ _ hle, hbuf]
  unfold Node.etx_ota_receive_packet_checks
  rw [hfw]
  by_cases he : buf.getD len 0 ≠ ETX_OTA_EOF
  · rw [if_pos he]
  · rw [if_neg he, if_pos hcrc]

/-- Witness for C8: the payload `[1, 2, 3]` with its middle byte replaced by `7`, inside the
Data Type Packet the controller builds for `[1, 2, 3]`. -/
theorem crc32_mpeg2_single_byte_sensitivity_witness :
    Host.crc32_mpeg2 ([1, 2, 3].set 1 7) ([1, 2, 3].set 1 7).length
        ≠ Host.crc32_mpeg2 [1, 2, 3] [1, 2, 3].length
    ∧ Node.etx_ota_receive_packet_checks
        ((Host.etx_ota_data_packet [1, 2, 3] 3).set 5 7) 11 [1, 2, 3].length
        (Host.crc32_mpeg2 [1, 2, 3] [1, 2, 3].length) = ETX_OTA_Status.ETX_OTA_EC_ERR :=
  ⟨(crc32_mpeg2_single_byte_sensitivity [1, 2, 3] (by decide) 1 (by decide) 7 (by decide)
      (by decide)).1,
   (crc32_mpeg2_single_byte_sensitivity [1, 2, 3] (by decide) 1 (by decide) 7 (by decide)
      (by decide)).2 _ 11 (by decide) (by decide)⟩

/-! ## Node-side engine: Abort and the Start state -/

/-- Counterexample to C9 as stated: a valid Abort command processed in state Data leaves
`etx_ota_state` at Data, not Idle. -/
theorem abort_does_not_set_idle :
    (Node.start_etx_ota_transaction_body ETX_OTA_Status.ETX_OTA_EC_OK Host.etx_ota_abort_packet
        ⟨ETX_OTA_State.ETX_OTA_STATE_DATA, 0, ⟨4, 0, [0, 0, 0, 0]⟩⟩).st.etx_ota_state
      = ETX_OTA_State.ETX_OTA_STATE_DATA
    ∧ (Node.start_etx_ota_transaction_body ETX_OTA_Status.ETX_OTA_EC_OK Host.etx_ota_abort_packet
        ⟨ETX_OTA_State.ETX_OTA_STATE_DATA, 0, ⟨4, 0, [0, 0, 0, 0]⟩⟩).st.etx_ota_state
      ≠ ETX_OTA_State.ETX_OTA_STATE_IDLE := by
  decide

/-- C9 (amended): in every state, for every received Command Type Packet carrying the Abort
command, `etx_ota_process_data` returns STOP and changes nothing (`etx_ota_state` keeps its
value), and the pass through the transaction loop sends exactly one Response, an ACK, and
returns STOP. -/
theorem abort_acknowledged_and_stops (s : Node.State) (buf : List Nat)
    (htype : buf.getD 1 0 = ETX_OTA_PACKET_TYPE_CMD) (hcmd : buf.getD 4 0 = ETX_OTA_CMD_ABORT) :
    Node.etx_ota_process_data buf s = (ETX_OTA_Status.ETX_OTA_EC_STOP, s)
    ∧ (Node.start_etx_ota_transaction_body ETX_OTA_Status.ETX_OTA_EC_OK buf s).out
        = [Node.Output.resp ETX_OTA_ACK]
    ∧ (Node.start_etx_ota_transaction_body ETX_OTA_Status.ETX_OTA_EC_OK buf s).ret
        = some ETX_OTA_Status.ETX_OTA_EC_STOP
    ∧ (Node.start_etx_ota_transaction_body ETX_OTA_Status.ETX_OTA_EC_OK buf s).st = s := by
  have h : Node.etx_ota_process_data buf s = (ETX_OTA_Status.ETX_OTA_EC_STOP, s) := by
    simp only [Node.etx_ota_process_data, htype, hcmd, and_self, if_true]
  refine ⟨h, ?_, ?_, ?_⟩ <;> simp [Node.start_etx_ota_transaction_body, h]

/-- Witness for C9 (amended): the Abort packet of the controller, received in state End. -/
theorem abort_acknowledged_and_stops_witness :
    Node.etx_ota_process_data Host.etx_ota_abort_packet
        ⟨ETX_OTA_State.ETX_OTA_STATE_END, 2, ⟨2, 5, [8, 9]⟩⟩
      = (ETX_OTA_Status.ETX_OTA_EC_STOP, ⟨ETX_OTA_State.ETX_OTA_STATE_END, 2, ⟨2, 5, [8, 9]⟩⟩)
    ∧ (Node.start_etx_ota_transaction_body ETX_OTA_Status.ETX_OTA_EC_OK
        Host.etx_ota_abort_packet ⟨ETX_OTA_State.ETX_OTA_STATE_END, 2, ⟨2, 5, [8, 9]⟩⟩).out
        = [Node.Output.resp ETX_OTA_ACK]
    ∧ (Node.start_etx_ota_transaction_body ETX_OTA_Status.ETX_OTA_EC_OK
        Host.etx_ota_abort_packet ⟨ETX_OTA_State.ETX_OTA_STATE_END, 2, ⟨2, 5, [8, 9]⟩⟩).ret
        = some ETX_OTA_Status.ETX_OTA_EC_STOP
    ∧ (Node.start_etx_ota_transaction_body ETX_OTA_Status.ETX_OTA_EC_OK
        Host.etx_ota_abort_packet ⟨ETX_OTA_State.ETX_OTA_STATE_END, 2, ⟨2, 5, [8, 9]⟩⟩).st
        = ⟨ETX_OTA_State.ETX_OTA_STATE_END, 2, ⟨2, 5, [8, 9]⟩⟩ :=
  abort_acknowledged_and_stops _ Host.etx_ota_abort_packet (by decide) (by decide)

/-- C10: in state Start a Command Type Packet carrying Start moves the state to Header and
returns OK; every other packet that is not a Command carrying Abort returns ERR and leaves the
state as it is, and the pass through the transaction loop answers with one NACK and returns
ERR. -/
theorem start_state_transitions (s : Node.State) (buf : List Nat)
    (hs : s.etx_ota_state = ETX_OTA_State.ETX_OTA_STATE_START) :
    ((buf.getD 1 0 = ETX_OTA_PACKET_TYPE_CMD ∧ buf.getD 4 0 = ETX_OTA_CMD_START) →
      Node.etx_ota_process_data buf s
        = (ETX_OTA_Status.ETX_OTA_EC_OK,
            { s with etx_ota_state := ETX_OTA_State.ETX_OTA_STATE_HEADER }))
    ∧ (¬ (buf.getD 1 0 = ETX_OTA_PACKET_TYPE_CMD ∧ buf.getD 4 0 = ETX_OTA_CMD_START) →
       ¬ (buf.getD 1 0 = ETX_OTA_PACKET_TYPE_CMD ∧ buf.getD 4 0 = ETX_OTA_CMD_ABORT) →
        Node.etx_ota_process_data buf s = (ETX_OTA_Status.ETX_OTA_EC_ERR, s)
        ∧ (Node.start_etx_ota_transaction_body ETX_OTA_Status.ETX_OTA_EC_OK buf s).out
            = [Node.Output.resp ETX_OTA_NACK]
        ∧ (Node.start_etx_ota_transaction_body ETX_OTA_Status.ETX_OTA_EC_OK buf s).ret
            = some ETX_OTA_Status.ETX_OTA_EC_ERR
        ∧ (Node.start_etx_ota_transaction_body ETX_OTA_Status.ETX_OTA_EC_OK buf s).st = s) := by
  constructor
  · intro h
    have hna : ¬ (buf.getD 1 0 = ETX_OTA_PACKET_TYPE_CMD ∧ buf.getD 4 0 = ETX_OTA_CMD_ABORT) := by
      intro hab
      have h2 := hab.2
      rw [h.2] at h2
      exact absurd h2 (by decide)
    simp only [Node.etx_ota_process_data]
    rw [if_neg hna]
    simp only [hs]
    rw [if_pos h]
  · intro hstart habort
    have h : Node.etx_ota_process_data buf s = (ETX_OTA_Status.ETX_OTA_EC_ERR, s) := by
      simp only [Node.etx_ota_process_data]
      rw [if_neg habort]
      simp only [hs]
      rw [if_neg hstart]
    refine ⟨h, ?_, ?_, ?_⟩ <;> simp [Node.start_etx_ota_transaction_body, h]

/-- Witness for C10: in state Start, the Start packet of the controller is accepted and its End
packet is refused. -/
theorem start_state_transitions_witness :
    Node.etx_ota_process_data Host.etx_ota_start_packet
        ⟨ETX_OTA_State.ETX_OTA_STATE_START, 0, ⟨0, 0, [0, 0]⟩⟩
      = (ETX_OTA_Status.ETX_OTA_EC_OK, ⟨ETX_OTA_State.ETX_OTA_STATE_HEADER, 0, ⟨0, 0, [0, 0]⟩⟩)
    ∧ Node.etx_ota_process_data Host.etx_ota_end_packet
        ⟨ETX_OTA_State.ETX_OTA_STATE_START, 0, ⟨0, 0, [0, 0]⟩⟩
      = (ETX_OTA_Status.ETX_OTA_EC_ERR, ⟨ETX_OTA_State.ETX_OTA_STATE_START, 0, ⟨0, 0, [0, 0]⟩⟩) :=
  ⟨(start_state_transitions ⟨ETX_OTA_State.ETX_OTA_STATE_START, 0, ⟨0, 0, [0, 0]⟩⟩
      Host.etx_ota_start_packet rfl).1 (by decide),
   ((start_state_transitions ⟨ETX_OTA_State.ETX_OTA_STATE_START, 0, ⟨0, 0, [0, 0]⟩⟩
      Host.etx_ota_end_packet rfl).2 (by decide) (by decide)).1⟩

/-! ## Round trip of a Custom Data payload -/

theorem getD_append_add (pre l : List Nat) (k : Nat) :
    (pre ++ l).getD (pre.length + k) 0 = l.getD k 0 := by
  simp [List.getD_eq_getElem?_getD, List.getElem?_append_right]

theorem getD_append_length (pre l : List Nat) :
    (pre ++ l).getD pre.length 0 = l.getD 0 0 := by
  simpa using getD_append_add pre l 0

theorem read_u32_u32_bytes (v : Nat) (hv : v < 2 ^ 32) (pre post : List Nat) :
    read_u32 (pre ++ u32_bytes v ++ post) pre.length = v := by
  simp only [read_u32, List.append_assoc, getD_append_add, getD_append_length, u32_bytes]
  simp
  omega

theorem read_u16_u16_bytes (v : Nat) (hv : v < 2 ^ 16) (pre post : List Nat) :
    read_u16 (pre ++ u16_bytes v ++ post) pre.length = v := by
  simp only [read_u16, List.append_assoc, getD_append_add, getD_append_length, u16_bytes]
  simp
  omega

theorem crc32_mpeg2_lt (l : List Nat) (n : Nat) : Host.crc32_mpeg2 l n < 2 ^ 32 := by
  unfold Host.crc32_mpeg2
  generalize List.range n = is
  have key : ∀ (js : List Nat) (c : Nat), c < 2 ^ 32 →
      js.foldl (fun checksum i => Host.crc32_mpeg2_round checksum (l.getD i 0)) c < 2 ^ 32 := by
    intro js
    induction js with
    | nil => intro c hc; simpa using hc
    | cons j js ih => intro c _; exact ih _ (crc32_mpeg2_round_lt _ _)
  exact key is _ (by norm_num)

theorem map_range_getD (l : List Nat) (n : Nat) (h : n ≤ l.length) :
    (List.range n).map (fun k => l.getD k 0) = l.take n := by
  apply List.ext_getElem?
  intro j
  by_cases hj : j < n
  · have hjl : j < l.length := by omega
    simp [List.getElem?_map, List.getElem?_range hj, List.getElem?_take, hj,
      List.getElem?_eq_getElem hjl]
  · simp [List.getElem?_map, List.getElem?_take, hj]
    omega

/-- Effect of `write_data_to_ram`: `data_len` bytes are stored from the offset
`etx_ota_fw_received_size` on, and the counter advances by `data_len`. -/
theorem write_data_to_ram_spec (data : List Nat) (data_len : Nat) (s : Node.State)
    (h32 : s.etx_ota_fw_received_size + data_len < 2 ^ 32) :
    (Node.write_data_to_ram data data_len s).etx_ota_state = s.etx_ota_state
    ∧ (Node.write_data_to_ram data data_len s).etx_ota_fw_received_size
        = s.etx_ota_fw_received_size + data_len
    ∧ (Node.write_data_to_ram data data_len s).custom_data.size = s.custom_data.size
    ∧ (Node.write_data_to_ram data data_len s).custom_data.rec_crc = s.custom_data.rec_crc
    ∧ (Node.write_data_to_ram data data_len s).custom_data.data.length
        = s.custom_data.data.length
    ∧ ∀ j, (Node.write_data_to_ram data data_len s).custom_data.data[j]?
        = if s.etx_ota_fw_received_size ≤ j ∧ j < s.etx_ota_fw_received_size + data_len
              ∧ j < s.custom_data.data.length
          then some (data.getD (j - s.etx_ota_fw_received_size) 0)
          else s.custom_data.data[j]? := by
  induction data_len with
  | zero =>
    simp only [Node.write_data_to_ram, List.range_zero, List.foldl_nil, Nat.add_zero, true_and]
    intro j
    have : ¬ (s.etx_ota_fw_received_size ≤ j ∧ j < s.etx_ota_fw_received_size
        ∧ j < s.custom_data.data.length) := by omega
    rw [if_neg this]
  | succ k ih =>
    obtain ⟨i1, i2, i3, i4, i5, i6⟩ := ih (by omega)
    have hstep : Node.write_data_to_ram data (k + 1) s
        = { Node.write_data_to_ram data k s with
            custom_data :=
              { (Node.write_data_to_ram data k s).custom_data with
                data := (Node.write_data_to_ram data k s).custom_data.data.set
                  (Node.write_data_to_ram data k s).etx_ota_fw_received_size (data.getD k 0) }
            etx_ota_fw_received_size :=
              ((Node.write_data_to_ram data k s).etx_ota_fw_received_size + 1) % 2 ^ 32 } := by
      simp only [Node.write_data_to_ram, List.range_succ, List.foldl_append, List.foldl_cons,
        List.foldl_nil]
    rw [hstep]
    refine ⟨i1, ?_, i3, i4, ?_, ?_⟩
    · simp only [i2]
      rw [Nat.mod_eq_of_lt (by omega)]
      omega
    · simp only [List.length_set, i5]
    · intro j
      simp only [List.getElem?_set, i2, i5, i6]
      by_cases hj : s.etx_ota_fw_received_size + k = j
      · subst hj
        by_cases hl : s.etx_ota_fw_received_size + k < s.custom_data.data.length
        · simp [hl]
        · have hnone : s.custom_data.data[s.etx_ota_fw_received_size + k]? = none :=
            List.getElem?_eq_none (by omega)
          simp [hl, hnone]
      · rw [if_neg hj]
        by_cases hc : s.etx_ota_fw_received_size ≤ j ∧ j < s.etx_ota_fw_received_size + k
            ∧ j < s.custom_data.data.length
        · rw [if_pos hc, if_pos (by omega)]
        · rw [if_neg hc, if_neg (by omega)]

theorem process_data_start_packet (Rx_Buffer : List Nat) (s : Node.State)
    (hs : s.etx_ota_state = ETX_OTA_State.ETX_OTA_STATE_START) :
    Node.etx_ota_process_data (Node.rx_store Rx_Buffer Host.etx_ota_start_packet) s
      = (ETX_OTA_Status.ETX_OTA_EC_OK,
          { s with etx_ota_state := ETX_OTA_State.ETX_OTA_STATE_HEADER }) := by
  have h1 : (Node.rx_store Rx_Buffer Host.etx_ota_start_packet).getD 1 0
      = ETX_OTA_PACKET_TYPE_CMD := by
    simp [Node.rx_store, Host.etx_ota_start_packet, Host.etx_ota_command_packet, u16_bytes]
  have h4 : (Node.rx_store Rx_Buffer Host.etx_ota_start_packet).getD 4 0
      = ETX_OTA_CMD_START := by
    simp [Node.rx_store, Host.etx_ota_start_packet, Host.etx_ota_command_packet, u16_bytes]
  have hna : ¬ ((Node.rx_store Rx_Buffer Host.etx_ota_start_packet).getD 1 0
        = ETX_OTA_PACKET_TYPE_CMD
      ∧ (Node.rx_store Rx_Buffer Host.etx_ota_start_packet).getD 4 0 = ETX_OTA_CMD_ABORT) := by
    rw [h4]; intro h; exact absurd h.2 (by decide)
  simp only [Node.etx_ota_process_data]
  rw [if_neg hna]
  simp only [hs]
  rw [if_pos ⟨h1, h4⟩]

theorem process_data_end_packet (Rx_Buffer : List Nat) (s : Node.State)
    (hs : s.etx_ota_state = ETX_OTA_State.ETX_OTA_STATE_END)
    (hcrc : Firmware.crc32_mpeg2 s.custom_data.data s.custom_data.size = s.custom_data.rec_crc) :
    Node.etx_ota_process_data (Node.rx_store Rx_Buffer Host.etx_ota_end_packet) s
      = (ETX_OTA_Status.ETX_OTA_EC_OK,
          { s with etx_ota_state := ETX_OTA_State.ETX_OTA_STATE_IDLE }) := by
  have h1 : (Node.rx_store Rx_Buffer Host.etx_ota_end_packet).getD 1 0
      = ETX_OTA_PACKET_TYPE_CMD := by
    simp [Node.rx_store, Host.etx_ota_end_packet, Host.etx_ota_command_packet, u16_bytes]
  have h4 : (Node.rx_store Rx_Buffer Host.etx_ota_end_packet).getD 4 0
      = ETX_OTA_CMD_END := by
    simp [Node.rx_store, Host.etx_ota_end_packet, Host.etx_ota_command_packet, u16_bytes]
  have hna : ¬ ((Node.rx_store Rx_Buffer Host.etx_ota_end_packet).getD 1 0
        = ETX_OTA_PACKET_TYPE_CMD
      ∧ (Node.rx_store Rx_Buffer Host.etx_ota_end_packet).getD 4 0 = ETX_OTA_CMD_ABORT) := by
    rw [h4]; intro h; exact absurd h.2 (by decide)
  simp only [Node.etx_ota_process_data]
  rw [if_neg hna]
  simp only [hs]
  rw [if_pos ⟨h1, h4⟩, if_neg (not_not.mpr hcrc)]

theorem process_data_header_packet (Rx_Buffer : List Nat) (s : Node.State)
    (info : Host.header_data_t)
    (hs : s.etx_ota_state = ETX_OTA_State.ETX_OTA_STATE_HEADER)
    (hsize : info.package_size < 2 ^ 32) (hcrc : info.package_crc < 2 ^ 32)
    (htype : info.payload_type = ETX_OTA_Custom_Data) :
    Node.etx_ota_process_data (Node.rx_store Rx_Buffer (Host.etx_ota_header_packet info)) s
      = (ETX_OTA_Status.ETX_OTA_EC_OK,
          { s with
            custom_data :=
              { s.custom_data with size := info.package_size, rec_crc := info.package_crc }
            etx_ota_state := ETX_OTA_State.ETX_OTA_STATE_DATA }) := by
  have h1 : (Node.rx_store Rx_Buffer (Host.etx_ota_header_packet info)).getD 1 0
      = ETX_OTA_PACKET_TYPE_HEADER := by
    simp [Node.rx_store, Host.etx_ota_header_packet, u16_bytes]
  have h19 : (Node.rx_store Rx_Buffer (Host.etx_ota_header_packet info)).getD
      (ETX_OTA_DATA_FIELD_INDEX + 15) 0 = ETX_OTA_Custom_Data := by
    simp [Node.rx_store, Host.etx_ota_header_packet, Host.header_data_bytes, u16_bytes,
      u32_bytes, ETX_OTA_DATA_FIELD_INDEX, htype, ETX_OTA_Custom_Data]
  have hsz : read_u32 (Node.rx_store Rx_Buffer (Host.etx_ota_header_packet info))
      ETX_OTA_DATA_FIELD_INDEX = info.package_size := by
    simp [Node.rx_store, Host.etx_ota_header_packet, Host.header_data_bytes, u16_bytes,
      u32_bytes, ETX_OTA_DATA_FIELD_INDEX, read_u32]
    omega
  have hrc : read_u32 (Node.rx_store Rx_Buffer (Host.etx_ota_header_packet info))
      (ETX_OTA_DATA_FIELD_INDEX + 4) = info.package_crc := by
    simp [Node.rx_store, Host.etx_ota_header_packet, Host.header_data_bytes, u16_bytes,
      u32_bytes, ETX_OTA_DATA_FIELD_INDEX, read_u32]
    omega
  have hna : ¬ ((Node.rx_store Rx_Buffer (Host.etx_ota_header_packet info)).getD 1 0
        = ETX_OTA_PACKET_TYPE_CMD
      ∧ (Node.rx_store Rx_Buffer (Host.etx_ota_header_packet info)).getD 4 0
        = ETX_OTA_CMD_ABORT) := by
    rw [h1]; intro h; exact absurd h.1 (by decide)
  have hnf : ¬ ((Node.rx_store Rx_Buffer (Host.etx_ota_header_packet info)).getD
        (ETX_OTA_DATA_FIELD_INDEX + 15) 0 = ETX_OTA_Application_Firmware_Image
      ∨ (Node.rx_store Rx_Buffer (Host.etx_ota_header_packet info)).getD
        (ETX_OTA_DATA_FIELD_INDEX + 15) 0 = ETX_OTA_Bootloader_Firmware_Image) := by
    rw [h19]; decide
  simp only [Node.etx_ota_process_data]
  rw [if_neg hna]
  simp only [hs]
  rw [if_pos h1, if_neg hnf, if_pos h19, hsz, hrc]

/-- A Data Type Packet of the controller, received in state Data: its `data_len` payload bytes
are stored from the offset `etx_ota_fw_received_size` on. -/
theorem process_data_data_packet (Rx_Buffer : List Nat) (s : Node.State) (payload : List Nat)
    (data_len : Nat) (hs : s.etx_ota_state = ETX_OTA_State.ETX_OTA_STATE_DATA)
    (hlen : data_len < 2 ^ 16) (h32 : s.etx_ota_fw_received_size + data_len < 2 ^ 32) :
    (Node.etx_ota_process_data
        (Node.rx_store Rx_Buffer (Host.etx_ota_data_packet payload data_len)) s).1
      = ETX_OTA_Status.ETX_OTA_EC_OK
    ∧ (Node.etx_ota_process_data
        (Node.rx_store Rx_Buffer (Host.etx_ota_data_packet payload data_len)) s).2.etx_ota_state
      = (if s.etx_ota_fw_received_size + data_len ≥ s.custom_data.size
          then ETX_OTA_State.ETX_OTA_STATE_END else ETX_OTA_State.ETX_OTA_STATE_DATA)
    ∧ (Node.etx_ota_process_data
        (Node.rx_store Rx_Buffer (Host.etx_ota_data_packet payload data_len))
          s).2.etx_ota_fw_received_size
      = s.etx_ota_fw_received_size + data_len
    ∧ (Node.etx_ota_process_data
        (Node.rx_store Rx_Buffer (Host.etx_ota_data_packet payload data_len)) s).2.custom_data.size
      = s.custom_data.size
    ∧ (Node.etx_ota_process_data
        (Node.rx_store Rx_Buffer (Host.etx_ota_data_packet payload data_len))
          s).2.custom_data.rec_crc
      = s.custom_data.rec_crc
    ∧ (Node.etx_ota_process_data
        (Node.rx_store Rx_Buffer (Host.etx_ota_data_packet payload data_len))
          s).2.custom_data.data.length
      = s.custom_data.data.length
    ∧ ∀ j, (Node.etx_ota_process_data
        (Node.rx_store Rx_Buffer (Host.etx_ota_data_packet payload data_len))
          s).2.custom_data.data[j]?
        = if s.etx_ota_fw_received_size ≤ j ∧ j < s.etx_ota_fw_received_size + data_len
              ∧ j < s.custom_data.data.length
          then some (payload.getD (j - s.etx_ota_fw_received_size) 0)
          else s.custom_data.data[j]? := by
  have h1 : (Node.rx_store Rx_Buffer (Host.etx_ota_data_packet payload data_len)).getD 1 0
      = ETX_OTA_PACKET_TYPE_DATA := by
    simp [Node.rx_store, Host.etx_ota_data_packet, u16_bytes]
  have hl : read_u16 (Node.rx_store Rx_Buffer (Host.etx_ota_data_packet payload data_len)) 2
      = data_len := by
    simp [Node.rx_store, Host.etx_ota_data_packet, u16_bytes, read_u16]
    omega
  have hd : ∃ tail, (Node.rx_store Rx_Buffer (Host.etx_ota_data_packet payload data_len)).drop
      ETX_OTA_DATA_FIELD_INDEX = (List.range data_len).map (fun k => payload.getD k 0) ++ tail := by
    refine ⟨u32_bytes (Host.crc32_mpeg2 payload data_len) ++ [ETX_OTA_EOF]
      ++ Rx_Buffer.drop (Host.etx_ota_data_packet payload data_len).length, ?_⟩
    simp [Node.rx_store, Host.etx_ota_data_packet, u16_bytes, ETX_OTA_DATA_FIELD_INDEX]
  obtain ⟨tail, hd⟩ := hd
  have hna : ¬ ((Node.rx_store Rx_Buffer (Host.etx_ota_data_packet payload data_len)).getD 1 0
        = ETX_OTA_PACKET_TYPE_CMD
      ∧ (Node.rx_store Rx_Buffer (Host.etx_ota_data_packet payload data_len)).getD 4 0
        = ETX_OTA_CMD_ABORT) := by
    rw [h1]; intro h; exact absurd h.1 (by decide)
  obtain ⟨w1, w2, w3, w4, w5, w6⟩ := write_data_to_ram_spec
    ((List.range data_len).map (fun k => payload.getD k 0) ++ tail) data_len s h32
  have hbyte : ∀ j, s.etx_ota_fw_received_size ≤ j →
      j < s.etx_ota_fw_received_size + data_len →
      ((List.range data_len).map (fun k => payload.getD k 0) ++ tail).getD
        (j - s.etx_ota_fw_received_size) 0 = payload.getD (j - s.etx_ota_fw_received_size) 0 := by
    intro j hj1 hj2
    have hk : j - s.etx_ota_fw_received_size < data_len := by omega
    rw [List.getD_eq_getElem?_getD, List.getElem?_append_left (by simpa using hk)]
    simp [List.getElem?_map, List.getElem?_range hk]
  simp only [Node.etx_ota_process_data]
  rw [if_neg hna]
  simp only [hs]
  rw [if_pos h1, hl, hd]
  by_cases hge : s.etx_ota_fw_received_size + data_len ≥ s.custom_data.size
  · rw [if_pos (by rw [w2, w3]; exact hge), if_pos hge]
    refine ⟨rfl, rfl, w2, w3, w4, w5, fun j => ?_⟩
    show (Node.write_data_to_ram _ data_len s).custom_data.data[j]? = _
    rw [w6 j]
    by_cases hc : s.etx_ota_fw_received_size ≤ j ∧ j < s.etx_ota_fw_received_size + data_len
        ∧ j < s.custom_data.data.length
    · rw [if_pos hc, if_pos hc, hbyte j hc.1 hc.2.1]
    · rw [if_neg hc, if_neg hc]
  · rw [if_neg (by rw [w2, w3]; exact hge), if_neg hge]
    refine ⟨rfl, ?_, w2, w3, w4, w5, fun j => ?_⟩
    · show (Node.write_data_to_ram _ data_len s).etx_ota_state = _
      rw [w1, hs]
    · show (Node.write_data_to_ram _ data_len s).custom_data.data[j]? = _
      rw [w6 j]
      by_cases hc : s.etx_ota_fw_received_size ≤ j ∧ j < s.etx_ota_fw_received_size + data_len
          ∧ j < s.custom_data.data.length
      · rw [if_pos hc, if_pos hc, hbyte j hc.1 hc.2.1]
      · rw [if_neg hc, if_neg hc]

theorem data_loop_done (P : List Nat) (n i : Nat) (h : ¬ i < n) : Host.data_loop P n i = [] := by
  rw [Host.data_loop, if_neg h]

theorem process_frames_cons (frame : List Nat) (rest : List (List Nat)) (Rx_Buffer : List Nat)
    (s : Node.State) :
    Node.process_frames (frame :: rest) Rx_Buffer s
      = ((Node.etx_ota_process_data (Node.rx_store Rx_Buffer frame) s).1
          :: (Node.process_frames rest ((Node.rx_store Rx_Buffer frame).set 0 0)
                (Node.etx_ota_process_data (Node.rx_store Rx_Buffer frame) s).2).1,
         (Node.process_frames rest ((Node.rx_store Rx_Buffer frame).set 0 0)
            (Node.etx_ota_process_data (Node.rx_store Rx_Buffer frame) s).2).2) := by
  simp only [Node.process_frames]

/-- The Data packets of the controller, received one after the other from state Data with `i`
bytes stored so far, are all answered OK, fill the buffer with the payload and leave the engine
in state End. -/
theorem data_loop_run (P : List Nat) (hn32 : P.length < 2 ^ 32) :
    ∀ (m i : Nat), P.length - i = m → i < P.length →
    ∀ (Rx_Buffer : List Nat) (s : Node.State) (rest : List (List Nat)),
      s.etx_ota_state = ETX_OTA_State.ETX_OTA_STATE_DATA →
      s.etx_ota_fw_received_size = i →
      s.custom_data.size = P.length →
      P.length ≤ s.custom_data.data.length →
      (∀ j < i, s.custom_data.data[j]? = P[j]?) →
      ∃ (Rx_Buffer1 : List Nat) (s1 : Node.State),
        s1.etx_ota_state = ETX_OTA_State.ETX_OTA_STATE_END
        ∧ s1.custom_data.size = P.length
        ∧ s1.custom_data.rec_crc = s.custom_data.rec_crc
        ∧ s1.custom_data.data.length = s.custom_data.data.length
        ∧ (∀ j < P.length, s1.custom_data.data[j]? = P[j]?)
        ∧ Node.process_frames (Host.data_loop P P.length i ++ rest) Rx_Buffer s
            = (List.replicate (Host.data_loop P P.length i).length ETX_OTA_Status.ETX_OTA_EC_OK
                ++ (Node.process_frames rest Rx_Buffer1 s1).1,
               (Node.process_frames rest Rx_Buffer1 s1).2) := by
  intro m
  induction m using Nat.strong_induction_on with
  | _ m ih =>
    intro i hm hi Rx_Buffer s rest hs hr hsz hcap hpre
    -- one packet of `size` bytes, then the rest of the loop
    have step : ∀ size, 1 ≤ size → size ≤ 1024 → i + size ≤ P.length →
        ∃ (Rx_Buffer1 : List Nat) (s1 : Node.State),
          s1.etx_ota_state = ETX_OTA_State.ETX_OTA_STATE_END
          ∧ s1.custom_data.size = P.length
          ∧ s1.custom_data.rec_crc = s.custom_data.rec_crc
          ∧ s1.custom_data.data.length = s.custom_data.data.length
          ∧ (∀ j < P.length, s1.custom_data.data[j]? = P[j]?)
          ∧ Node.process_frames
              (Host.etx_ota_data_packet (P.drop i) size
                :: Host.data_loop P P.length (i + size) ++ rest) Rx_Buffer s
              = (List.replicate
                  (Host.etx_ota_data_packet (P.drop i) size
                    :: Host.data_loop P P.length (i + size)).length
                  ETX_OTA_Status.ETX_OTA_EC_OK
                  ++ (Node.process_frames rest Rx_Buffer1 s1).1,
                 (Node.process_frames rest Rx_Buffer1 s1).2) := by
      intro size hs1 hs2 hs3
      obtain ⟨p1, p2, p3, p4, p5, p6, p7⟩ := process_data_data_packet Rx_Buffer s (P.drop i) size
        hs (by omega) (by omega)
      have hdata : ∀ j < i + size,
          (Node.etx_ota_process_data
            (Node.rx_store Rx_Buffer (Host.etx_ota_data_packet (P.drop i) size))
              s).2.custom_data.data[j]? = P[j]? := by
        intro j hj
        rw [p7 j, hr]
        by_cases hc : i ≤ j ∧ j < i + size ∧ j < s.custom_data.data.length
        · rw [if_pos hc, List.getD_eq_getElem?_getD, List.getElem?_drop]
          have hij : i + (j - i) = j := by omega
          have hjP : j < P.length := by omega
          rw [hij, List.getElem?_eq_getElem hjP]
          rfl
        · rw [if_neg hc]
          exact hpre j (by omega)
      rw [List.cons_append, process_frames_cons]
      by_cases hend : i + size = P.length
      · refine ⟨(Node.rx_store Rx_Buffer (Host.etx_ota_data_packet (P.drop i) size)).set 0 0,
          (Node.etx_ota_process_data
            (Node.rx_store Rx_Buffer (Host.etx_ota_data_packet (P.drop i) size)) s).2,
          ?_, ?_, p5, p6, ?_, ?_⟩
        · rw [p2, hr, hsz, if_pos (by omega)]
        · rw [p4, hsz]
        · intro j hj
          exact hdata j (by omega)
        · rw [data_loop_done P P.length (i + size) (by omega), p1]
          rfl
      · have hlt : i + size < P.length := by omega
        obtain ⟨Rx2, s2, q1, q2, q3, q4, q5, q6⟩ :=
          ih (P.length - (i + size)) (by omega) (i + size) rfl hlt
            ((Node.rx_store Rx_Buffer (Host.etx_ota_data_packet (P.drop i) size)).set 0 0)
            (Node.etx_ota_process_data
              (Node.rx_store Rx_Buffer (Host.etx_ota_data_packet (P.drop i) size)) s).2
            rest
            (by rw [p2, hr, hsz, if_neg (by omega)])
            (by rw [p3, hr])
            (by rw [p4, hsz])
            (by rw [p6]; exact hcap)
            hdata
        refine ⟨Rx2, s2, q1, q2, ?_, ?_, q5, ?_⟩
        · rw [q3, p5]
        · rw [q4, p6]
        · rw [q6, p1]
          rfl
    rw [Host.data_loop, if_pos hi]
    by_cases hbig : P.length - i ≥ ETX_OTA_DATA_MAX_SIZE
    · rw [if_pos hbig]
      have hb : P.length - i ≥ 1024 := hbig
      exact step ETX_OTA_DATA_MAX_SIZE (by decide) (by decide)
        (by show i + 1024 ≤ P.length; omega)
    · rw [if_neg hbig]
      have hb : ¬ P.length - i ≥ 1024 := hbig
      exact step (P.length - i) (by omega) (by omega) (by omega)

theorem take_eq_of_getElem? (data P : List Nat) (h : ∀ j < P.length, data[j]? = P[j]?) :
    data.take P.length = P := by
  apply List.ext_getElem?
  intro j
  by_cases hj : j < P.length
  · rw [List.getElem?_take_of_lt hj, h j hj]
  · rw [List.getElem?_eq_none (by simp; omega), List.getElem?_eq_none (by omega)]

/-- C1: round trip for Custom Data.  For every payload `P` of length 1 up to the capacity of the
node's custom-data buffer, running `etx_ota_process_data` over the frames that
`start_etx_ota_process` builds for `P` (Start, Header, the Data packets of the chunking loop,
End), from state Start with received size 0 and whatever `Rx_Buffer` held before, returns OK for
every frame, ends in state Idle and leaves the first `P.length` bytes of the custom-data buffer
equal to `P`.  The capacity is that of a `uint8_t` array inside a struct of a 32-bit target. -/
theorem custom_data_round_trip (P : List Nat) (s0 : Node.State) (Rx_Buffer : List Nat)
    (h1 : 1 ≤ P.length) (hcap : P.length ≤ s0.custom_data.data.length)
    (hcap32 : s0.custom_data.data.length < 0xFFFFFFFF)
    (hs : s0.etx_ota_state = ETX_OTA_State.ETX_OTA_STATE_START)
    (hr : s0.etx_ota_fw_received_size = 0) :
    (Node.process_frames
        (Host.start_etx_ota_process_frames P P.length ETX_OTA_Custom_Data) Rx_Buffer s0).1
      = List.replicate
          (Host.start_etx_ota_process_frames P P.length ETX_OTA_Custom_Data).length
          ETX_OTA_Status.ETX_OTA_EC_OK
    ∧ (Node.process_frames
        (Host.start_etx_ota_process_frames P P.length ETX_OTA_Custom_Data) Rx_Buffer
          s0).2.etx_ota_state = ETX_OTA_State.ETX_OTA_STATE_IDLE
    ∧ (Node.process_frames
        (Host.start_etx_ota_process_frames P P.length ETX_OTA_Custom_Data) Rx_Buffer
          s0).2.custom_data.data.take P.length = P := by
  have hn32 : P.length < 2 ^ 32 := by omega
  have e1 := process_data_start_packet Rx_Buffer s0 hs
  have e2 := process_data_header_packet
    ((Node.rx_store Rx_Buffer Host.etx_ota_start_packet).set 0 0)
    { s0 with etx_ota_state := ETX_OTA_State.ETX_OTA_STATE_HEADER }
    (Host.etx_ota_header_info P P.length ETX_OTA_Custom_Data) rfl hn32
    (crc32_mpeg2_lt P P.length) rfl
  obtain ⟨Rx3, s3, q1, q2, q3, q4, q5, q6⟩ := data_loop_run P hn32 P.length 0 rfl (by omega)
    ((Node.rx_store ((Node.rx_store Rx_Buffer Host.etx_ota_start_packet).set 0 0)
      (Host.etx_ota_header_packet
        (Host.etx_ota_header_info P P.length ETX_OTA_Custom_Data))).set 0 0)
    { s0 with
      custom_data :=
        { s0.custom_data with
          size := P.length
          rec_crc := Host.crc32_mpeg2 P P.length }
      etx_ota_state := ETX_OTA_State.ETX_OTA_STATE_DATA }
    [Host.etx_ota_end_packet] rfl hr rfl hcap (fun j hj => absurd hj (by omega))
  have htake : s3.custom_data.data.take P.length = P := take_eq_of_getElem? _ _ q5
  have hlen3 : P.length ≤ s3.custom_data.data.length := by rw [q4]; exact hcap
  have hcrc : Firmware.crc32_mpeg2 s3.custom_data.data s3.custom_data.size
      = s3.custom_data.rec_crc := by
    rw [q2, q3, firmware_crc32_mpeg2_eq_host _ _ (by omega) (by omega),
      crc32_mpeg2_take _ _ hlen3, htake]
  have e4 := process_data_end_packet Rx3 s3 q1 hcrc
  have hall : Node.process_frames
      (Host.start_etx_ota_process_frames P P.length ETX_OTA_Custom_Data) Rx_Buffer s0
      = (ETX_OTA_Status.ETX_OTA_EC_OK :: ETX_OTA_Status.ETX_OTA_EC_OK
          :: (List.replicate (Host.data_loop P P.length 0).length ETX_OTA_Status.ETX_OTA_EC_OK
              ++ [ETX_OTA_Status.ETX_OTA_EC_OK]),
         { s3 with etx_ota_state := ETX_OTA_State.ETX_OTA_STATE_IDLE }) := by
    unfold Host.start_etx_ota_process_frames
    rw [List.append_assoc, List.cons_append, List.cons_append, List.nil_append,
      process_frames_cons, e1, process_frames_cons]
    simp only []
    rw [e2]
    simp only [Host.etx_ota_header_info] at q6 ⊢
    rw [q6, process_frames_cons, e4]
    simp only [Node.process_frames]
  rw [hall]
  refine ⟨?_, rfl, htake⟩
  simp only [Host.start_etx_ota_process_frames, List.length_append, List.length_cons,
    List.length_nil]
  rw [show 0 + 1 + 1 + (Host.data_loop P P.length 0).length + (0 + 1)
      = ((Host.data_loop P P.length 0).length + 1) + 1 + 1 by omega]
  simp only [List.replicate_succ, List.cons.injEq, true_and]
  rw [← List.replicate_succ', List.replicate_succ]

/-- Witness for C1: the payload `[1, 2, 3]` sent to a node whose buffer holds four bytes. -/
theorem custom_data_round_trip_witness :
    (Node.process_frames
        (Host.start_etx_ota_process_frames [1, 2, 3] [1, 2, 3].length ETX_OTA_Custom_Data) []
        ⟨ETX_OTA_State.ETX_OTA_STATE_START, 0, ⟨0, 0, [0, 0, 0, 0]⟩⟩).1
      = List.replicate
          (Host.start_etx_ota_process_frames [1, 2, 3] [1, 2, 3].length
            ETX_OTA_Custom_Data).length
          ETX_OTA_Status.ETX_OTA_EC_OK
    ∧ (Node.process_frames
        (Host.start_etx_ota_process_frames [1, 2, 3] [1, 2, 3].length ETX_OTA_Custom_Data) []
        ⟨ETX_OTA_State.ETX_OTA_STATE_START, 0, ⟨0, 0, [0, 0, 0, 0]⟩⟩).2.etx_ota_state
      = ETX_OTA_State.ETX_OTA_STATE_IDLE
    ∧ (Node.process_frames
        (Host.start_etx_ota_process_frames [1, 2, 3] [1, 2, 3].length ETX_OTA_Custom_Data) []
        ⟨ETX_OTA_State.ETX_OTA_STATE_START, 0, ⟨0, 0, [0, 0, 0, 0]⟩⟩).2.custom_data.data.take
          [1, 2, 3].length = [1, 2, 3] :=
  custom_data_round_trip [1, 2, 3] ⟨ETX_OTA_State.ETX_OTA_STATE_START, 0, ⟨0, 0, [0, 0, 0, 0]⟩⟩ []
    (by decide) (by decide) (by decide) rfl rfl

/-! ## Configuration store: records and programming -/

namespace FwConfig

open HAL_StatusTypeDef FirmUpdConf_Status

theorem u32_bytes_lt (v : Nat) : ∀ b ∈ u32_bytes v, b < 256 := by
  intro b hb
  simp only [u32_bytes, List.mem_cons, List.mem_singleton, List.not_mem_nil, or_false] at hb
  omega

theorem u16_bytes_lt (v : Nat) : ∀ b ∈ u16_bytes v, b < 256 := by
  intro b hb
  simp only [u16_bytes, List.mem_cons, List.mem_singleton, List.not_mem_nil, or_false] at hb
  omega

theorem data_bytes_lt (d : firmware_update_config_data_t) : ∀ b ∈ data_bytes d, b < 256 := by
  intro b hb
  simp only [data_bytes, List.mem_append, List.mem_cons, List.mem_singleton, List.not_mem_nil,
    or_false] at hb
  rcases hb with ((((((h | h) | h) | h) | h) | h) | h)
  · exact u32_bytes_lt _ b h
  · exact u32_bytes_lt _ b h
  · exact u32_bytes_lt _ b h
  · exact u32_bytes_lt _ b h
  · exact u32_bytes_lt _ b h
  · exact u16_bytes_lt _ b h
  · omega

theorem data_bytes_length (d : firmware_update_config_data_t) : (data_bytes d).length = 24 := by
  simp [data_bytes, u32_bytes, u16_bytes]

theorem new_val_struct_length (d : firmware_update_config_data_t) :
    (new_val_struct d).length = 32 := by
  simp [new_val_struct, data_bytes_length, u32_bytes, u16_bytes]

theorem new_val_struct_lt (d : firmware_update_config_data_t) :
    ∀ b ∈ new_val_struct d, b < 256 := by
  intro b hb
  simp only [new_val_struct, List.mem_append] at hb
  rcases hb with ((h | h) | h)
  · exact u32_bytes_lt _ b h
  · exact data_bytes_lt _ b h
  · simp [u16_bytes, DATA_BLOCK_16BIT_ERASED_VALUE, DATA_BLOCK_8BIT_ERASED_VALUE,
      FLASH_BLOCK_NOT_ERASED] at h
    omega

theorem new_val_struct_getD_lt (d : firmware_update_config_data_t) (k : Nat) :
    (new_val_struct d).getD k 0 < 256 := by
  by_cases hk : k < (new_val_struct d).length
  · rw [List.getD_eq_getElem?_getD, List.getElem?_eq_getElem hk]
    exact new_val_struct_lt d _ (List.getElem_mem hk)
  · rw [List.getD_eq_getElem?_getD, List.getElem?_eq_none (by omega)]
    simp

theorem u32_bytes_of_bytes (a b c d : Nat) (ha : a < 256) (hb : b < 256) (hc : c < 256)
    (hd : d < 256) : u32_bytes (a + 256 * b + 65536 * c + 16777216 * d) = [a, b, c, d] := by
  simp only [u32_bytes, List.cons.injEq, and_true]
  refine ⟨?_, ?_, ?_, ?_⟩ <;> omega

/-- The word the loop programs gives back the four bytes it was read from. -/
theorem u32_bytes_read_u32 (image : List Nat) (himg : ∀ k, image.getD k 0 < 256) (w i : Nat)
    (hi : i < 4) : (u32_bytes (read_u32 image (4 * w))).getD i 0 = image.getD (4 * w + i) 0 := by
  unfold read_u32
  rw [u32_bytes_of_bytes _ _ _ _ (himg _) (himg _) (himg _) (himg _)]
  have hcases : i = 0 ∨ i = 1 ∨ i = 2 ∨ i = 3 := by omega
  rcases hcases with h | h | h | h <;> subst h <;> rfl

theorem and_erased (b : Nat) (hb : b < 256) : 0xFF &&& b = b := by
  have h := Nat.and_pow_two_sub_one_eq_mod b 8
  norm_num at h
  rw [Nat.and_comm, h]
  exact Nat.mod_eq_of_lt hb

end FwConfig

namespace FwConfig

open HAL_StatusTypeDef FirmUpdConf_Status

theorem HAL_ret_handler_ok (r : HAL_StatusTypeDef)
    (h : HAL_ret_handler r = FIRM_UPDT_CONF_EC_OK) : r = HAL_OK := by
  cases r <;> simp [HAL_ret_handler] at h ⊢

theorem hal_next_flash (st : Store) : (hal_next st).2.flash = st.flash := by
  unfold hal_next
  cases st.hal <;> rfl

theorem hal_next_ptr (st : Store) :
    (hal_next st).2.p_most_recent_val = st.p_most_recent_val := by
  unfold hal_next
  cases st.hal <;> rfl

theorem hal_next_nil (st : Store) (h : st.hal = []) : hal_next st = (HAL_OK, st) := by
  unfold hal_next
  rw [h]

theorem programmed_zero (image : List Nat) (slot w0 : Nat) (flash : Flash) :
    programmed image slot w0 0 flash = flash := by
  funext j k
  unfold programmed
  rw [if_neg (by omega)]

/-- Programming word `w0` and then the `n` words after it is programming `n + 1` words. -/
theorem programmed_succ (image : List Nat) (himg : ∀ k, image.getD k 0 < 256) (slot w0 n : Nat)
    (flash : Flash) :
    programmed image slot (w0 + 1) n
        (flash_program_word flash slot w0 (read_u32 image (4 * w0)))
      = programmed image slot w0 (n + 1) flash := by
  funext j k
  unfold programmed flash_program_word
  by_cases hj : j = slot
  · by_cases h1 : 4 * w0 ≤ k ∧ k < 4 * w0 + 4
    · rw [if_neg (by omega), if_pos ⟨hj, h1⟩, if_pos ⟨hj, by omega⟩,
        u32_bytes_read_u32 image himg w0 (k - 4 * w0) (by omega)]
      congr 2
      omega
    · by_cases h2 : 4 * (w0 + 1) ≤ k ∧ k < 4 * (w0 + 1 + n)
      · rw [if_pos ⟨hj, h2⟩, if_neg (by intro h; exact h1 h.2), if_pos ⟨hj, by omega⟩]
      · rw [if_neg (by intro h; exact h2 h.2), if_neg (by intro h; exact h1 h.2),
          if_neg (by intro h; omega)]
  · rw [if_neg (by intro h; exact hj h.1), if_neg (by intro h; exact hj h.1),
      if_neg (by intro h; exact hj h.1)]

/-- The programming loop never moves the pointer, and when it reports success every word has
been programmed. -/
theorem program_words_spec (image : List Nat) (himg : ∀ k, image.getD k 0 < 256) (slot : Nat) :
    ∀ (n w0 : Nat) (st : Store),
      (program_words image slot n w0 st).2.p_most_recent_val = st.p_most_recent_val
      ∧ ((program_words image slot n w0 st).1 = FIRM_UPDT_CONF_EC_OK →
          (program_words image slot n w0 st).2.flash = programmed image slot w0 n st.flash)
      ∧ (st.hal = [] → (program_words image slot n w0 st).1 = FIRM_UPDT_CONF_EC_OK
          ∧ (program_words image slot n w0 st).2.hal = []) := by
  intro n
  induction n with
  | zero =>
    intro w0 st
    rw [programmed_zero]
    exact ⟨rfl, fun _ => rfl, fun h => ⟨rfl, h⟩⟩
  | succ n ih =>
    intro w0 st
    simp only [program_words]
    by_cases hr : HAL_ret_handler (hal_next st).1 ≠ FIRM_UPDT_CONF_EC_OK
    · rw [if_pos hr]
      refine ⟨hal_next_ptr st, fun h => absurd h hr, fun h => ?_⟩
      rw [hal_next_nil st h] at hr
      exact absurd rfl hr
    · rw [if_neg hr]
      obtain ⟨i1, i2, i3⟩ := ih (w0 + 1)
        { (hal_next st).2 with
          flash := flash_program_word (hal_next st).2.flash slot w0 (read_u32 image (4 * w0)) }
      refine ⟨?_, fun h => ?_, fun h => ?_⟩
      · rw [i1]
        exact hal_next_ptr st
      · rw [i2 h]
        show programmed image slot (w0 + 1) n
          (flash_program_word (hal_next st).2.flash slot w0 (read_u32 image (4 * w0))) = _
        rw [hal_next_flash, programmed_succ image himg]
      · apply i3
        show (hal_next st).2.hal = []
        rw [hal_next_nil st h]
        exact h

end FwConfig

namespace FwConfig

open HAL_StatusTypeDef FirmUpdConf_Status

/-- `page_erase` never moves the pointer; when it reports success the page is erased; with every
HAL call succeeding it reports success. -/
theorem page_erase_spec (S page_start : Nat) (st : Store) :
    (page_erase S page_start st).2.p_most_recent_val = st.p_most_recent_val
    ∧ ((page_erase S page_start st).1 = FIRM_UPDT_CONF_EC_OK →
        (page_erase S page_start st).2.flash = flash_erase_page S st.flash page_start)
    ∧ (st.hal = [] →
        page_erase S page_start st
          = (FIRM_UPDT_CONF_EC_OK,
              { st with flash := flash_erase_page S st.flash page_start })) := by
  refine ⟨?_, ?_, ?_⟩
  · simp only [page_erase]
    split
    · exact hal_next_ptr st
    · split
      · rw [hal_next_ptr, hal_next_ptr]
      · split
        · rw [hal_next_ptr]
          show (hal_next (hal_next st).2).2.p_most_recent_val = _
          rw [hal_next_ptr, hal_next_ptr]
        · rw [hal_next_ptr]
          show (hal_next (hal_next st).2).2.p_most_recent_val = _
          rw [hal_next_ptr, hal_next_ptr]
  · simp only [page_erase]
    split
    · rename_i h1
      intro h
      exact absurd h h1
    · split
      · rename_i h2
        intro h
        exact absurd h h2
      · split
        · rename_i h3
          intro h
          exact absurd h h3
        · intro _
          rw [hal_next_flash]
          show flash_erase_page S (hal_next (hal_next st).2).2.flash page_start = _
          rw [hal_next_flash, hal_next_flash]
  · intro h
    have e1 := hal_next_nil st h
    have e2 := hal_next_nil { st with flash := flash_erase_page S st.flash page_start } h
    simp only [page_erase, e1, e2, HAL_ret_handler, ne_eq, not_true_eq_false, if_false]

/-- `prep_page_swap` never moves the pointer; when it reports success the flash is the swapped
one; with every HAL call succeeding it reports success. -/
theorem prep_page_swap_spec (S : Nat) (st : Store) :
    (prep_page_swap S st).2.p_most_recent_val = st.p_most_recent_val
    ∧ ((prep_page_swap S st).1 = FIRM_UPDT_CONF_EC_OK →
        (prep_page_swap S st).2.flash = swapped S st.flash st.p_most_recent_val)
    ∧ (st.hal = [] →
        (prep_page_swap S st).1 = FIRM_UPDT_CONF_EC_OK ∧ (prep_page_swap S st).2.hal = []) := by
  unfold prep_page_swap swapped
  by_cases c1 : st.p_most_recent_val = some 0
      ∧ is_erased st.flash (2 * S - 1) = FLASH_BLOCK_NOT_ERASED
  · rw [if_pos c1, if_pos c1]
    obtain ⟨e1, e2, e3⟩ := page_erase_spec S S st
    exact ⟨e1, e2, fun h => by rw [e3 h]; exact ⟨rfl, h⟩⟩
  · rw [if_neg c1, if_neg c1]
    by_cases c2 : st.p_most_recent_val = some S
        ∧ is_erased st.flash (S - 1) = FLASH_BLOCK_NOT_ERASED
    · rw [if_pos c2, if_pos c2]
      obtain ⟨e1, e2, e3⟩ := page_erase_spec S 0 st
      exact ⟨e1, e2, fun h => by rw [e3 h]; exact ⟨rfl, h⟩⟩
    · rw [if_neg c2, if_neg c2]
      exact ⟨rfl, fun _ => rfl, fun h => ⟨rfl, h⟩⟩

/-- When `firmware_update_configurations_write` reports success, the pointer designates the
append slot and the flash holds the programmed record, after the page swap; with every HAL call
succeeding it reports success. -/
theorem write_spec (S : Nat) (p_data : firmware_update_config_data_t) (st : Store) :
    ((firmware_update_configurations_write S p_data st).1 = FIRM_UPDT_CONF_EC_OK →
      (firmware_update_configurations_write S p_data st).2.p_most_recent_val
          = some (next_slot S st.p_most_recent_val)
      ∧ (firmware_update_configurations_write S p_data st).2.flash
          = swapped S
              (programmed (new_val_struct p_data) (next_slot S st.p_most_recent_val) 0
                FIRMWARE_UPDATE_CONFIG_BLOCK_SIZE st.flash)
              (some (next_slot S st.p_most_recent_val)))
    ∧ (st.hal = [] →
        (firmware_update_configurations_write S p_data st).1 = FIRM_UPDT_CONF_EC_OK
        ∧ (firmware_update_configurations_write S p_data st).2.hal = []) := by
  obtain ⟨g1, g2, g3⟩ := program_words_spec (new_val_struct p_data)
    (new_val_struct_getD_lt p_data) (next_slot S st.p_most_recent_val)
    FIRMWARE_UPDATE_CONFIG_BLOCK_SIZE 0 (hal_next st).2
  refine ⟨?_, ?_⟩
  · simp only [firmware_update_configurations_write]
    split
    · rename_i h1
      intro h
      exact absurd h h1
    · split
      · rename_i h2
        intro h
        exact absurd h h2
      · rename_i h2
        split
        · rename_i h3
          intro h
          exact absurd h h3
        · intro h
          obtain ⟨e1, e2, _⟩ := prep_page_swap_spec S
            { (hal_next (program_words (new_val_struct p_data)
                (next_slot S st.p_most_recent_val) FIRMWARE_UPDATE_CONFIG_BLOCK_SIZE 0
                (hal_next st).2).2).2 with
              p_most_recent_val := some (next_slot S st.p_most_recent_val) }
          refine ⟨e1, ?_⟩
          rw [e2 h]
          show swapped S (hal_next (program_words (new_val_struct p_data)
                (next_slot S st.p_most_recent_val) FIRMWARE_UPDATE_CONFIG_BLOCK_SIZE 0
                (hal_next st).2).2).2.flash _ = _
          rw [hal_next_flash, g2 (not_not.mp h2), hal_next_flash]
  · intro h
    have e1 := hal_next_nil st h
    rw [e1] at g3
    obtain ⟨g3a, g3b⟩ := g3 h
    have e2 := hal_next_nil _ g3b
    obtain ⟨_, _, e3⟩ := prep_page_swap_spec S
      { (program_words (new_val_struct p_data)
          (next_slot S st.p_most_recent_val) FIRMWARE_UPDATE_CONFIG_BLOCK_SIZE 0 st).2 with
        p_most_recent_val := some (next_slot S st.p_most_recent_val) }
    simp only [firmware_update_configurations_write, e1, e2, g3a, HAL_ret_handler, ne_eq,
      not_true_eq_false, if_false]
    exact e3 g3b

end FwConfig

namespace FwConfig

open HAL_StatusTypeDef FirmUpdConf_Status

theorem next_slot_ne (S p : Nat) : next_slot S (some p) ≠ p := by
  unfold next_slot
  simp only
  split <;> omega

/-- A record programmed into an erased slot reads back byte for byte. -/
theorem programmed_erased_slot (d : firmware_update_config_data_t) (slot : Nat) (flash : Flash)
    (he : slot_erased flash slot) (k : Nat) (hk : k < 32) :
    programmed (new_val_struct d) slot 0 FIRMWARE_UPDATE_CONFIG_BLOCK_SIZE flash slot k
      = (new_val_struct d).getD k 0 := by
  unfold programmed
  have hk2 : k < 4 * (0 + FIRMWARE_UPDATE_CONFIG_BLOCK_SIZE) := by
    show k < 4 * (0 + 8); omega
  rw [if_pos ⟨rfl, by omega, hk2⟩, he k (by show k < 4 * 8; omega)]
  exact and_erased _ (new_val_struct_getD_lt d k)

theorem programmed_other_slot (image : List Nat) (slot w0 n : Nat) (flash : Flash) (j k : Nat)
    (hj : j ≠ slot) : programmed image slot w0 n flash j k = flash j k := by
  unfold programmed
  rw [if_neg (by intro h; exact hj h.1)]

/-- The page swap leaves the slot of the latest record alone. -/
theorem swapped_latest (S : Nat) (flash : Flash) (p k : Nat) :
    swapped S flash (some p) p k = flash p k := by
  unfold swapped
  split
  · rename_i h
    have hp : p = 0 := by
      have := h.1
      simp only [Option.some.injEq] at this
      exact this
    unfold flash_erase_page
    rw [if_neg (by omega)]
  · split
    · rename_i h
      have hp : p = S := by
        have := h.1
        simp only [Option.some.injEq] at this
        exact this
      unfold flash_erase_page
      rw [if_neg (by omega)]
    · rfl

theorem flash_erase_page_byte (S : Nat) (flash : Flash) (first j k : Nat) :
    flash_erase_page S flash first j k = flash j k ∨ flash_erase_page S flash first j k = 0xFF := by
  show (if first ≤ j ∧ j < first + S then 0xFF else flash j k) = flash j k
    ∨ (if first ≤ j ∧ j < first + S then 0xFF else flash j k) = 0xFF
  split
  · exact Or.inr rfl
  · exact Or.inl rfl

/-- The page swap changes a byte only by erasing it. -/
theorem swapped_byte (S : Nat) (flash : Flash) (p : Option Nat) (j k : Nat) :
    swapped S flash p j k = flash j k ∨ swapped S flash p j k = 0xFF := by
  unfold swapped
  split
  · exact flash_erase_page_byte S flash S j k
  · split
    · exact flash_erase_page_byte S flash 0 j k
    · exact Or.inl rfl

theorem slot_bytes_of_image (flash : Flash) (slot : Nat) (image : List Nat)
    (h : ∀ k < image.length, flash slot k = image.getD k 0) (off len : Nat)
    (hlen : off + len ≤ image.length) :
    slot_bytes flash slot off len = (image.drop off).take len := by
  unfold slot_bytes
  rw [← map_range_getD (image.drop off) len (by simp; omega)]
  apply List.map_congr_left
  intro k hk
  have hk2 : k < len := List.mem_range.mp hk
  rw [h (off + k) (by omega), List.getD_eq_getElem?_getD, List.getD_eq_getElem?_getD,
    List.getElem?_drop]

theorem data_of_bytes_data_bytes (d : firmware_update_config_data_t) (hd : data_in_range d) :
    data_of_bytes (data_bytes d) = d := by
  obtain ⟨h1, h2, h3, h4, h5, h6, h7, h8⟩ := hd
  cases d
  simp only [data_of_bytes, data_bytes, u32_bytes, u16_bytes, read_u32, read_u16,
    List.cons_append, List.nil_append, List.getD_cons_zero, List.getD_cons_succ,
    firmware_update_config_data_t.mk.injEq] at *
  refine ⟨?_, ?_, ?_, ?_, ?_, ?_, ?_, ?_⟩ <;> omega

theorem stored_body_in_range (d : firmware_update_config_data_t) (hd : data_in_range d) :
    data_in_range (stored_body d) := by
  obtain ⟨h1, h2, h3, h4, _, _, h7, h8⟩ := hd
  unfold data_in_range stored_body
  dsimp only
  exact ⟨h1, h2, h3, h4, by decide, by decide, h7, h8⟩

/-- The record image: the checksum, then the 28 bytes it covers. -/
theorem new_val_struct_eq (d : firmware_update_config_data_t) :
    new_val_struct d
      = u32_bytes (Firmware.crc32_mpeg2 (data_bytes (stored_body d) ++ [0xFF, 0xFF, 0xFF, 0x00])
            FIRMWARE_UPDATE_CONFIG_BLOCK_SIZE_WITHOUT_CRC)
          ++ (data_bytes (stored_body d) ++ [0xFF, 0xFF, 0xFF, 0x00]) := by
  unfold new_val_struct stored_body
  dsimp only
  rw [List.append_assoc]
  rfl

theorem firmware_crc32_mpeg2_lt (l : List Nat) (n : Nat) : Firmware.crc32_mpeg2 l n < 2 ^ 32 := by
  unfold Firmware.crc32_mpeg2
  split
  · norm_num
  · exact crc32_mpeg2_lt l n

/-- What a slot that holds the record of `d` gives: the stored body (when the fields of `d` fit
their types), the not-erased marker and a checksum that matches. -/
theorem slot_holds_record (flash : Flash) (slot : Nat) (d : firmware_update_config_data_t)
    (h : ∀ k < 32, flash slot k = (new_val_struct d).getD k 0) :
    (data_in_range d →
      data_of_bytes (slot_bytes flash slot 4 FIRMWARE_UPDATE_CONFIG_DATA_SIZE) = stored_body d)
    ∧ is_erased flash slot = FLASH_BLOCK_NOT_ERASED
    ∧ computed_crc32 flash slot = stored_crc32 flash slot := by
  have hlen := new_val_struct_length d
  have h' : ∀ k < (new_val_struct d).length, flash slot k = (new_val_struct d).getD k 0 := by
    rw [hlen]; exact h
  have hb := data_bytes_length (stored_body d)
  have himg := new_val_struct_eq d
  have hcrc := firmware_crc32_mpeg2_lt (data_bytes (stored_body d) ++ [0xFF, 0xFF, 0xFF, 0x00])
    FIRMWARE_UPDATE_CONFIG_BLOCK_SIZE_WITHOUT_CRC
  obtain ⟨c, hc⟩ : ∃ c, c = Firmware.crc32_mpeg2
      (data_bytes (stored_body d) ++ [0xFF, 0xFF, 0xFF, 0x00])
      FIRMWARE_UPDATE_CONFIG_BLOCK_SIZE_WITHOUT_CRC := ⟨_, rfl⟩
  rw [← hc] at himg hcrc
  have hdrop : (new_val_struct d).drop 4 = data_bytes (stored_body d) ++ [0xFF, 0xFF, 0xFF, 0x00] := by
    rw [himg]
    rfl
  have htake4 : (new_val_struct d).take 4 = u32_bytes c := by
    rw [himg]
    rfl
  refine ⟨fun hd => ?_, ?_, ?_⟩
  · rw [slot_bytes_of_image flash slot _ h' 4 FIRMWARE_UPDATE_CONFIG_DATA_SIZE
      (by rw [hlen]; decide), hdrop,
      List.take_append_of_le_length (by rw [hb]; decide),
      List.take_of_length_le (by rw [hb]; decide),
      data_of_bytes_data_bytes _ (stored_body_in_range d hd)]
  · unfold is_erased
    rw [h _ (by decide)]
    have h31 : (4 * FIRMWARE_UPDATE_CONFIG_BLOCK_SIZE - 1) = 4 + 27 := by decide
    rw [h31, List.getD_eq_getElem?_getD, ← List.getElem?_drop, hdrop,
      List.getElem?_append_right (by rw [hb]; decide), hb]
    rfl
  · unfold computed_crc32 stored_crc32
    rw [slot_bytes_of_image flash slot _ h' 4 FIRMWARE_UPDATE_CONFIG_BLOCK_SIZE_WITHOUT_CRC
        (by rw [hlen]; decide),
      slot_bytes_of_image flash slot _ h' 0 4 (by rw [hlen]; decide), hdrop, List.drop_zero,
      htake4]
    have hfull : (data_bytes (stored_body d) ++ [0xFF, 0xFF, 0xFF, 0x00]).take
        FIRMWARE_UPDATE_CONFIG_BLOCK_SIZE_WITHOUT_CRC
        = data_bytes (stored_body d) ++ [0xFF, 0xFF, 0xFF, 0x00] := by
      apply List.take_of_length_le
      rw [List.length_append, hb]
      decide
    rw [hfull]
    have hr := read_u32_u32_bytes c hcrc [] []
    simp only [List.nil_append, List.append_nil, List.length_nil] at hr
    rw [hr, hc]

end FwConfig

/-- C2: store write-then-read.  From a store state whose next two append slots are erased, after
`firmware_update_configurations_write(A)` and then `firmware_update_configurations_write(B)`
both return OK, `firmware_update_configurations_read` returns OK with a body equal to `B` in
every non-reserved field, the reserved fields being all-ones. -/
theorem write_write_read (S : Nat) (A B : FwConfig.firmware_update_config_data_t)
    (st : FwConfig.Store) (hB : FwConfig.data_in_range B)
    (_he1 : FwConfig.slot_erased st.flash (FwConfig.next_slot S st.p_most_recent_val))
    (he2 : FwConfig.slot_erased st.flash
      (FwConfig.next_slot S (some (FwConfig.next_slot S st.p_most_recent_val))))
    (hwA : (FwConfig.firmware_update_configurations_write S A st).1
      = FwConfig.FirmUpdConf_Status.FIRM_UPDT_CONF_EC_OK)
    (hwB : (FwConfig.firmware_update_configurations_write S B
        (FwConfig.firmware_update_configurations_write S A st).2).1
      = FwConfig.FirmUpdConf_Status.FIRM_UPDT_CONF_EC_OK) :
    FwConfig.firmware_update_configurations_read
        (FwConfig.firmware_update_configurations_write S B
          (FwConfig.firmware_update_configurations_write S A st).2).2
      = (FwConfig.FirmUpdConf_Status.FIRM_UPDT_CONF_EC_OK,
          { B with
            reserved1 := 0xFFFFFFFF
            reserved2 := 0xFFFF }) := by
  obtain ⟨a1, a2⟩ := (FwConfig.write_spec S A st).1 hwA
  obtain ⟨b1, b2⟩ := (FwConfig.write_spec S B
    (FwConfig.firmware_update_configurations_write S A st).2).1 hwB
  rw [a1] at b1 b2
  -- the second append slot is still erased after the first write
  have he2' : FwConfig.slot_erased (FwConfig.firmware_update_configurations_write S A st).2.flash
      (FwConfig.next_slot S (some (FwConfig.next_slot S st.p_most_recent_val))) := by
    intro k hk
    rw [a2]
    rcases FwConfig.swapped_byte S _ (some (FwConfig.next_slot S st.p_most_recent_val))
      (FwConfig.next_slot S (some (FwConfig.next_slot S st.p_most_recent_val))) k with h | h
    · rw [h, FwConfig.programmed_other_slot _ _ _ _ _ _ _ (FwConfig.next_slot_ne S _)]
      exact he2 k hk
    · exact h
  have hslot : ∀ k < 32,
      (FwConfig.firmware_update_configurations_write S B
        (FwConfig.firmware_update_configurations_write S A st).2).2.flash
        (FwConfig.next_slot S (some (FwConfig.next_slot S st.p_most_recent_val))) k
        = (FwConfig.new_val_struct B).getD k 0 := by
    intro k hk
    rw [b2, FwConfig.swapped_latest, FwConfig.programmed_erased_slot B _ _ he2' k hk]
  have r1 := (FwConfig.slot_holds_record _ _ B hslot).1 hB
  unfold FwConfig.firmware_update_configurations_read
  rw [b1]
  dsimp only
  rw [r1]
  rfl

/-- Witness for C2: two writes into the erased medium with two slots per page, every HAL call
succeeding. -/
theorem write_write_read_witness :
    FwConfig.firmware_update_configurations_read
        (FwConfig.firmware_update_configurations_write 2 ⟨7, 8, 9, 10, 0, 0, 1, 0⟩
          (FwConfig.firmware_update_configurations_write 2 ⟨1, 2, 3, 4, 5, 6, 0, 1⟩
            ⟨FwConfig.erased_flash, none, []⟩).2).2
      = (FwConfig.FirmUpdConf_Status.FIRM_UPDT_CONF_EC_OK,
          { (⟨7, 8, 9, 10, 0, 0, 1, 0⟩ : FwConfig.firmware_update_config_data_t) with
            reserved1 := 0xFFFFFFFF
            reserved2 := 0xFFFF }) :=
  write_write_read 2 ⟨1, 2, 3, 4, 5, 6, 0, 1⟩ ⟨7, 8, 9, 10, 0, 0, 1, 0⟩
    ⟨FwConfig.erased_flash, none, []⟩ (by decide) (fun _ _ => rfl) (fun _ _ => rfl)
    ((FwConfig.write_spec 2 _ _).2 rfl).1
    ((FwConfig.write_spec 2 _ _).2 ((FwConfig.write_spec 2 _ _).2 rfl).2).1

/-! ## Configuration store: the scan of `firmware_update_configurations_init` -/

namespace FwConfig

open HAL_StatusTypeDef FirmUpdConf_Status

/-- The scan stops at the first slot that is erased while its predecessor is not. -/
theorem init_scan_finds (flash : Flash) (N i0 : Nat) (hi0 : i0 < N)
    (hb1 : is_erased flash i0 = FLASH_BLOCK_ERASED)
    (hb2 : is_erased flash (prev_slot N i0) = FLASH_BLOCK_NOT_ERASED)
    (hno : ∀ i < i0, ¬ (is_erased flash i = FLASH_BLOCK_ERASED
      ∧ is_erased flash (prev_slot N i) = FLASH_BLOCK_NOT_ERASED)) :
    init_scan flash N 0 (N - 1)
      = if computed_crc32 flash (prev_slot N i0) ≠ stored_crc32 flash (prev_slot N i0) then
          ScanResult.corrupted (prev_slot N i0)
        else ScanResult.found (prev_slot N i0) := by
  have key : ∀ d i, i + d = i0 →
      init_scan flash (N - i) i (prev_slot N i)
        = if computed_crc32 flash (prev_slot N i0) ≠ stored_crc32 flash (prev_slot N i0) then
            ScanResult.corrupted (prev_slot N i0)
          else ScanResult.found (prev_slot N i0) := by
    intro d
    induction d with
    | zero =>
      intro i hi
      have hi' : i = i0 := by omega
      subst hi'
      have hN : N - i = (N - i - 1) + 1 := by omega
      rw [hN, init_scan, if_pos hb1, if_pos hb2]
    | succ d ih =>
      intro i hi
      have hlt : i < i0 := by omega
      have hN : N - i = (N - (i + 1)) + 1 := by omega
      have hprev : prev_slot N (i + 1) = i := by
        unfold prev_slot
        rw [if_neg (by omega)]
        omega
      have hrec := ih (i + 1) (by omega)
      rw [hprev] at hrec
      rw [hN, init_scan]
      by_cases h1 : is_erased flash i = FLASH_BLOCK_ERASED
      · rw [if_pos h1]
        have h2 : ¬ is_erased flash (prev_slot N i) = FLASH_BLOCK_NOT_ERASED :=
          fun h => hno i hlt ⟨h1, h⟩
        rw [if_neg h2]
        exact hrec
      · rw [if_neg h1]
        exact hrec
  have h0 := key i0 0 (by omega)
  have hp : prev_slot N 0 = N - 1 := by
    unfold prev_slot
    rw [if_pos rfl]
  rw [hp] at h0
  exact h0

theorem erased_marker (flash : Flash) (slot : Nat) (h : slot_erased flash slot) :
    is_erased flash slot = FLASH_BLOCK_ERASED :=
  h _ (by decide)

/-- On a flash that holds a log ending at `p`, the markers single out `p`: the slot after `p`
(with wrap) is the first one the scan finds erased behind a not-erased one. -/
theorem log_markers_boundary (S : Nat) (hS : 1 ≤ S) (flash : Flash) (p : Nat)
    (hp : p < 2 * S)
    (hin : ∀ j < 2 * S, in_log S p j → is_erased flash j = FLASH_BLOCK_NOT_ERASED)
    (hout : ∀ j < 2 * S, ¬ in_log S p j → is_erased flash j = FLASH_BLOCK_ERASED) :
    next_slot S (some p) < 2 * S
    ∧ prev_slot (2 * S) (next_slot S (some p)) = p
    ∧ is_erased flash (next_slot S (some p)) = FLASH_BLOCK_ERASED
    ∧ is_erased flash p = FLASH_BLOCK_NOT_ERASED
    ∧ ∀ i < next_slot S (some p), ¬ (is_erased flash i = FLASH_BLOCK_ERASED
        ∧ is_erased flash (prev_slot (2 * S) i) = FLASH_BLOCK_NOT_ERASED) := by
  have hne : FLASH_BLOCK_ERASED ≠ FLASH_BLOCK_NOT_ERASED := by decide
  have hpin : in_log S p p := by
    unfold in_log page_start
    split <;> omega
  have hmark : ∀ j < 2 * S, (is_erased flash j = FLASH_BLOCK_NOT_ERASED ↔ in_log S p j) := by
    intro j hj
    constructor
    · intro h
      by_contra hc
      rw [hout j hj hc] at h
      exact hne h
    · exact hin j hj
  have hmark2 : ∀ j < 2 * S, (is_erased flash j = FLASH_BLOCK_ERASED ↔ ¬ in_log S p j) := by
    intro j hj
    constructor
    · intro h hc
      rw [hin j hj hc] at h
      exact hne h.symm
    · exact hout j hj
  unfold next_slot
  dsimp only
  by_cases hw : p + 1 = 2 * S
  · rw [if_pos hw]
    refine ⟨by omega, ?_, ?_, hin p hp hpin, fun i hi => absurd hi (by omega)⟩
    · unfold prev_slot
      rw [if_pos rfl]
      omega
    · apply hout 0 (by omega)
      unfold in_log page_start
      rw [if_neg (by omega)]
      omega
  · rw [if_neg hw]
    refine ⟨by omega, ?_, ?_, hin p hp hpin, ?_⟩
    · unfold prev_slot
      rw [if_neg (by omega)]
      omega
    · apply hout (p + 1) (by omega)
      unfold in_log
      omega
    · intro i hi hc
      have hi2 : i < 2 * S := by omega
      have h1 := (hmark2 i hi2).mp hc.1
      have hpv : prev_slot (2 * S) i < 2 * S := by
        unfold prev_slot
        split <;> omega
      have h2 := (hmark _ hpv).mp hc.2
      unfold in_log page_start prev_slot at *
      split at h1 <;> split at h2 <;> split at h2 <;> omega

end FwConfig

namespace FwConfig

open HAL_StatusTypeDef FirmUpdConf_Status

theorem is_erased_eq (flash : Flash) (slot : Nat) : is_erased flash slot = flash slot 31 := rfl

theorem flash_erase_page_apply (S : Nat) (flash : Flash) (first j k : Nat) :
    flash_erase_page S flash first j k
      = if first ≤ j ∧ j < first + S then 0xFF else flash j k := rfl

theorem holds_record_marker (flash : Flash) (slot : Nat) (d : firmware_update_config_data_t)
    (h : holds_record flash slot d) : is_erased flash slot = FLASH_BLOCK_NOT_ERASED :=
  (slot_holds_record flash slot d h).2.1

/-- Initialisation of a flash whose markers describe a log ending at `p`, the record at `p`
having a matching checksum, selects `p`, erases nothing and reports success. -/
theorem init_on_markers (S : Nat) (hS : 1 ≤ S) (st : Store) (p : Nat) (hp : p < 2 * S)
    (hin : ∀ j < 2 * S, in_log S p j → is_erased st.flash j = FLASH_BLOCK_NOT_ERASED)
    (hout' : ∀ j < 2 * S, ¬ in_log S p j → is_erased st.flash j = FLASH_BLOCK_ERASED)
    (hcrc : computed_crc32 st.flash p = stored_crc32 st.flash p) :
    firmware_update_configurations_init S st
      = (FIRM_UPDT_CONF_EC_OK, { st with p_most_recent_val := some p }) := by
  obtain ⟨b1, b2, b3, b4, b5⟩ := log_markers_boundary S hS st.flash p hp hin hout'
  have hscan := init_scan_finds st.flash (2 * S) (next_slot S (some p)) b1 b3
    (by rw [b2]; exact b4) b5
  rw [b2, if_neg (not_not.mpr hcrc)] at hscan
  have hne : FLASH_BLOCK_ERASED ≠ FLASH_BLOCK_NOT_ERASED := by decide
  unfold firmware_update_configurations_init
  rw [hscan]
  dsimp only
  unfold prep_page_swap
  dsimp only
  have c1 : ¬ (some p = some 0 ∧ is_erased st.flash (2 * S - 1) = FLASH_BLOCK_NOT_ERASED) := by
    intro h
    have h0 : p = 0 := by
      have := h.1
      simp only [Option.some.injEq] at this
      exact this
    have he := hout' (2 * S - 1) (by omega)
      (by unfold in_log page_start; rw [h0, if_pos (by omega)]; omega)
    rw [he] at h
    exact hne h.2
  have c2 : ¬ (some p = some S ∧ is_erased st.flash (S - 1) = FLASH_BLOCK_NOT_ERASED) := by
    intro h
    have h0 : p = S := by
      have := h.1
      simp only [Option.some.injEq] at this
      exact this
    have he := hout' (S - 1) (by omega)
      (by unfold in_log page_start; rw [h0, if_neg (by omega)]; omega)
    rw [he] at h
    exact hne h.2
  rw [if_neg c1, if_neg c2]

/-- Initialisation of a flash that holds a log ending at `p` selects `p`, erases nothing and
reports success, whatever the HAL would answer. -/
theorem init_on_log (S : Nat) (hS : 1 ≤ S) (st : Store) (p : Nat)
    (hlog : log_state S st.flash p) :
    firmware_update_configurations_init S st
      = (FIRM_UPDT_CONF_EC_OK, { st with p_most_recent_val := some p }) :=
  init_on_markers S hS st p hlog.1 hlog.2.1
    (fun j hj hn => erased_marker _ _ (hlog.2.2.1 j hj hn)) hlog.2.2.2

theorem log_of_log_state (S : Nat) (flash : Flash) (p : Nat) (d : firmware_update_config_data_t)
    (h : log_of S flash p d) : log_state S flash p :=
  ⟨h.1, h.2.1, h.2.2.1, (slot_holds_record flash p d h.2.2.2).2.2⟩

/-- A successful write onto a log that ends at `p` leaves a log that ends at the slot after `p`
(with wrap), holding the new record. -/
theorem write_step (S : Nat) (hS : 1 ≤ S) (st : Store) (hhal : st.hal = []) (p : Nat)
    (hptr : st.p_most_recent_val = some p) (hp : p < 2 * S)
    (hin : ∀ j < 2 * S, in_log S p j → is_erased st.flash j = FLASH_BLOCK_NOT_ERASED)
    (hout : ∀ j < 2 * S, ¬ in_log S p j → slot_erased st.flash j)
    (B : firmware_update_config_data_t) :
    (firmware_update_configurations_write S B st).1 = FIRM_UPDT_CONF_EC_OK
    ∧ (firmware_update_configurations_write S B st).2.hal = []
    ∧ (firmware_update_configurations_write S B st).2.p_most_recent_val
        = some (next_slot S (some p))
    ∧ log_of S (firmware_update_configurations_write S B st).2.flash (next_slot S (some p)) B := by
  obtain ⟨w1, w2⟩ := write_spec S B st
  obtain ⟨hok, hnil⟩ := w2 hhal
  obtain ⟨hp', hfl⟩ := w1 hok
  rw [hptr] at hp' hfl
  refine ⟨hok, hnil, hp', ?_⟩
  rw [hfl]
  have hne : FLASH_BLOCK_ERASED ≠ FLASH_BLOCK_NOT_ERASED := by decide
  have hnl : ¬ in_log S p (next_slot S (some p)) := by
    unfold in_log page_start next_slot
    dsimp only
    split <;> split <;> omega
  have hn2 : next_slot S (some p) < 2 * S := by
    unfold next_slot
    dsimp only
    split <;> omega
  have F1 : holds_record
      (programmed (new_val_struct B) (next_slot S (some p)) 0 FIRMWARE_UPDATE_CONFIG_BLOCK_SIZE
        st.flash) (next_slot S (some p)) B :=
    fun k hk => programmed_erased_slot B _ _ (hout _ hn2 hnl) k hk
  have F2 : ∀ j k, j ≠ next_slot S (some p) →
      programmed (new_val_struct B) (next_slot S (some p)) 0 FIRMWARE_UPDATE_CONFIG_BLOCK_SIZE
        st.flash j k = st.flash j k :=
    fun j k hj => programmed_other_slot _ _ _ _ _ j k hj
  generalize hf1 : programmed (new_val_struct B) (next_slot S (some p)) 0
    FIRMWARE_UPDATE_CONFIG_BLOCK_SIZE st.flash = flash1 at F1 F2
  have F3 : ∀ j, j ≠ next_slot S (some p) → is_erased flash1 j = is_erased st.flash j :=
    fun j hj => F2 j _ hj
  by_cases hA : p + 1 = 2 * S
  · -- wrap from the last slot of page 2 to the first slot of page 1
    have hn : next_slot S (some p) = 0 := by
      unfold next_slot; dsimp only; rw [if_pos hA]
    rw [hn] at F1 F2 F3 ⊢
    have hc1 : (some 0 : Option Nat) = some 0
        ∧ is_erased flash1 (2 * S - 1) = FLASH_BLOCK_NOT_ERASED := by
      refine ⟨rfl, ?_⟩
      rw [F3 _ (by omega)]
      exact hin _ (by omega) (by unfold in_log page_start; rw [if_neg (by omega)]; omega)
    unfold swapped
    rw [if_pos hc1]
    have hrec' : holds_record (flash_erase_page S flash1 S) 0 B := by
      intro k hk
      rw [flash_erase_page_apply, if_neg (by omega)]
      exact F1 k hk
    refine ⟨by omega, ?_, ?_, hrec'⟩
    · intro j hj hjl
      have hj0 : j = 0 := by
        unfold in_log page_start at hjl
        rw [if_pos (by omega)] at hjl
        omega
      rw [hj0]
      exact holds_record_marker _ _ B hrec'
    · intro j hj hjl k hk
      rw [flash_erase_page_apply]
      by_cases hjs : S ≤ j ∧ j < S + S
      · rw [if_pos hjs]
      · rw [if_neg hjs]
        have hj0 : j ≠ 0 := by
          intro h0
          apply hjl
          unfold in_log page_start
          rw [if_pos (by omega)]
          omega
        rw [F2 _ _ hj0]
        exact hout j hj (by unfold in_log page_start; rw [if_neg (by omega)]; omega) k hk
  · have hn : next_slot S (some p) = p + 1 := by
      unfold next_slot; dsimp only; rw [if_neg hA]
    rw [hn] at F1 F2 F3 hn2 ⊢
    by_cases hB : p + 1 = S
    · -- crossing from the last slot of page 1 to the first slot of page 2
      rw [hB] at F1 F2 F3 ⊢
      have hc1 : ¬ ((some S : Option Nat) = some 0
          ∧ is_erased flash1 (2 * S - 1) = FLASH_BLOCK_NOT_ERASED) := by
        intro h
        have := h.1
        simp only [Option.some.injEq] at this
        omega
      have hc2 : (some S : Option Nat) = some S
          ∧ is_erased flash1 (S - 1) = FLASH_BLOCK_NOT_ERASED := by
        refine ⟨rfl, ?_⟩
        rw [F3 _ (by omega)]
        exact hin _ (by omega) (by unfold in_log page_start; rw [if_pos (by omega)]; omega)
      unfold swapped
      rw [if_neg hc1, if_pos hc2]
      have hrec' : holds_record (flash_erase_page S flash1 0) S B := by
        intro k hk
        rw [flash_erase_page_apply, if_neg (by omega)]
        exact F1 k hk
      refine ⟨by omega, ?_, ?_, hrec'⟩
      · intro j hj hjl
        have hj0 : j = S := by
          unfold in_log page_start at hjl
          rw [if_neg (by omega)] at hjl
          omega
        rw [hj0]
        exact holds_record_marker _ _ B hrec'
      · intro j hj hjl k hk
        rw [flash_erase_page_apply]
        by_cases hjs : 0 ≤ j ∧ j < 0 + S
        · rw [if_pos hjs]
        · rw [if_neg hjs]
          have hj0 : j ≠ S := by
            intro h0
            apply hjl
            unfold in_log page_start
            rw [if_neg (by omega)]
            omega
          rw [F2 _ _ hj0]
          exact hout j hj (by unfold in_log page_start; rw [if_pos (by omega)]; omega) k hk
    · -- the next slot of the same page
      have hc1 : ¬ ((some (p + 1) : Option Nat) = some 0
          ∧ is_erased flash1 (2 * S - 1) = FLASH_BLOCK_NOT_ERASED) := by
        intro h
        have := h.1
        simp only [Option.some.injEq] at this
        omega
      have hc2 : ¬ ((some (p + 1) : Option Nat) = some S
          ∧ is_erased flash1 (S - 1) = FLASH_BLOCK_NOT_ERASED) := by
        intro h
        have := h.1
        simp only [Option.some.injEq] at this
        omega
      unfold swapped
      rw [if_neg hc1, if_neg hc2]
      have hps : page_start S (p + 1) = page_start S p := by
        unfold page_start
        split <;> split <;> omega
      refine ⟨by omega, ?_, ?_, F1⟩
      · intro j hj hjl
        by_cases hjp : j = p + 1
        · rw [hjp]
          exact holds_record_marker _ _ B F1
        · rw [F3 _ hjp]
          apply hin j hj
          unfold in_log at hjl ⊢
          rw [hps] at hjl
          omega
      · intro j hj hjl k hk
        have hjp : j ≠ p + 1 := by
          intro h0
          apply hjl
          unfold in_log
          rw [hps, h0]
          have := hnl
          unfold in_log at this
          rw [hn] at this
          unfold page_start
          split <;> omega
        rw [F2 _ _ hjp]
        apply hout j hj _ k hk
        intro hc
        apply hjl
        unfold in_log at hc ⊢
        rw [hps]
        omega

end FwConfig

namespace FwConfig

open HAL_StatusTypeDef FirmUpdConf_Status

/-- The first write into the erased medium leaves a log made of slot 0. -/
theorem write_first (S : Nat) (hS : 1 ≤ S) (B : firmware_update_config_data_t) :
    (firmware_update_configurations_write S B ⟨erased_flash, none, []⟩).1 = FIRM_UPDT_CONF_EC_OK
    ∧ (firmware_update_configurations_write S B ⟨erased_flash, none, []⟩).2.hal = []
    ∧ (firmware_update_configurations_write S B ⟨erased_flash, none, []⟩).2.p_most_recent_val
        = some 0
    ∧ log_of S (firmware_update_configurations_write S B ⟨erased_flash, none, []⟩).2.flash 0
        B := by
  obtain ⟨w1, w2⟩ := write_spec S B ⟨erased_flash, none, []⟩
  obtain ⟨hok, hnil⟩ := w2 rfl
  obtain ⟨hp', hfl⟩ := w1 hok
  refine ⟨hok, hnil, hp', ?_⟩
  rw [hfl]
  have hne : FLASH_BLOCK_ERASED ≠ FLASH_BLOCK_NOT_ERASED := by decide
  have hn : next_slot S (none : Option Nat) = 0 := rfl
  show log_of S (swapped S (programmed (new_val_struct B) (next_slot S none) 0
    FIRMWARE_UPDATE_CONFIG_BLOCK_SIZE erased_flash) (some (next_slot S none))) 0 B
  rw [hn]
  have F1 : holds_record
      (programmed (new_val_struct B) 0 0 FIRMWARE_UPDATE_CONFIG_BLOCK_SIZE erased_flash) 0 B :=
    fun k hk => programmed_erased_slot B _ _ (fun _ _ => rfl) k hk
  have F2 : ∀ j k, j ≠ 0 →
      programmed (new_val_struct B) 0 0 FIRMWARE_UPDATE_CONFIG_BLOCK_SIZE erased_flash j k
        = 0xFF :=
    fun j k hj => programmed_other_slot _ _ _ _ _ j k hj
  generalize programmed (new_val_struct B) 0 0 FIRMWARE_UPDATE_CONFIG_BLOCK_SIZE erased_flash
    = flash1 at F1 F2
  have hc1 : ¬ ((some 0 : Option Nat) = some 0
      ∧ is_erased flash1 (2 * S - 1) = FLASH_BLOCK_NOT_ERASED) := by
    intro h
    have h2 := h.2
    rw [is_erased_eq, F2 _ _ (by omega)] at h2
    exact hne h2
  have hc2 : ¬ ((some 0 : Option Nat) = some S
      ∧ is_erased flash1 (S - 1) = FLASH_BLOCK_NOT_ERASED) := by
    intro h
    have := h.1
    simp only [Option.some.injEq] at this
    omega
  unfold swapped
  rw [if_neg hc1, if_neg hc2]
  refine ⟨by omega, ?_, ?_, F1⟩
  · intro j hj hjl
    have hj0 : j = 0 := by
      unfold in_log page_start at hjl
      omega
    rw [hj0]
    exact holds_record_marker _ _ B F1
  · intro j hj hjl k hk
    have hj0 : j ≠ 0 := by
      intro h0
      apply hjl
      unfold in_log page_start
      rw [if_pos (by omega)]
      omega
    exact F2 j k hj0

theorem next_slot_mod (S p : Nat) (hp : p < 2 * S) :
    next_slot S (some p) = (p + 1) % (2 * S) := by
  unfold next_slot
  dsimp only
  split
  · rename_i h
    rw [h, Nat.mod_self]
  · rw [Nat.mod_eq_of_lt (by omega)]

/-- Successive successful writes onto a log keep a log: after them the log ends `bodies.length`
slots further (modulo the number of slots) and holds the last body written. -/
theorem write_all_log (S : Nat) (hS : 1 ≤ S) :
    ∀ (bodies : List firmware_update_config_data_t) (st : Store) (p : Nat)
      (d : firmware_update_config_data_t),
      st.hal = [] → st.p_most_recent_val = some p → log_of S st.flash p d →
      (∀ r ∈ (write_all S bodies st).1, r = FIRM_UPDT_CONF_EC_OK)
      ∧ (write_all S bodies st).2.p_most_recent_val = some ((p + bodies.length) % (2 * S))
      ∧ log_of S (write_all S bodies st).2.flash ((p + bodies.length) % (2 * S))
          (bodies.getLastD d) := by
  intro bodies
  induction bodies with
  | nil =>
    intro st p d _ hptr hlog
    have hp := hlog.1
    simp only [write_all, List.length_nil, Nat.add_zero, List.getLastD_nil,
      Nat.mod_eq_of_lt hp]
    exact ⟨fun r hr => absurd hr (List.not_mem_nil r), hptr, hlog⟩
  | cons b rest ih =>
    intro st p d hhal hptr hlog
    obtain ⟨s1, s2, s3, s4⟩ := write_step S hS st hhal p hptr hlog.1 hlog.2.1 hlog.2.2.1 b
    obtain ⟨i1, i2, i3⟩ := ih _ _ b s2 s3 s4
    have hp := hlog.1
    have hmod : (next_slot S (some p) + rest.length) % (2 * S)
        = (p + (rest.length + 1)) % (2 * S) := by
      rw [next_slot_mod S p hp, Nat.add_mod, Nat.mod_mod, ← Nat.add_mod]
      congr 1
      omega
    rw [hmod] at i2 i3
    simp only [write_all, List.length_cons, List.getLastD_cons]
    refine ⟨?_, i2, i3⟩
    intro r hr
    rcases List.mem_cons.mp hr with h | h
    · rw [h]; exact s1
    · exact i1 r h

end FwConfig

/-- C3: initialisation re-derives the latest record.  For every non-empty sequence of bodies
written into a fully erased medium, every HAL call succeeding, each write returns OK and leaves
the latest pointer at slot `(n - 1) mod 2S` (so the log crosses from page 1 into page 2 and wraps
back as `n` grows); `firmware_update_configurations_init`, run on that flash from any pointer
value, returns OK and selects exactly that slot without a HAL call, and `firmware_update_configurations_read` then
returns the last body written (its reserved fields all-ones). -/
theorem init_rederives_latest (S : Nat) (hS : 1 ≤ S)
    (bodies : List FwConfig.firmware_update_config_data_t) (hne : bodies ≠ [])
    (hrange : ∀ b ∈ bodies, FwConfig.data_in_range b) (ptr0 : Option Nat)
    (hal0 : List FwConfig.HAL_StatusTypeDef) :
    (∀ r ∈ (FwConfig.write_all S bodies ⟨FwConfig.erased_flash, none, []⟩).1,
        r = FwConfig.FirmUpdConf_Status.FIRM_UPDT_CONF_EC_OK)
    ∧ (FwConfig.write_all S bodies ⟨FwConfig.erased_flash, none, []⟩).2.p_most_recent_val
        = some ((bodies.length - 1) % (2 * S))
    ∧ (FwConfig.firmware_update_configurations_init S
        ⟨(FwConfig.write_all S bodies ⟨FwConfig.erased_flash, none, []⟩).2.flash, ptr0,
          hal0⟩).1
        = FwConfig.FirmUpdConf_Status.FIRM_UPDT_CONF_EC_OK
    ∧ (FwConfig.firmware_update_configurations_init S
        ⟨(FwConfig.write_all S bodies ⟨FwConfig.erased_flash, none, []⟩).2.flash, ptr0,
          hal0⟩).2.p_most_recent_val
        = (FwConfig.write_all S bodies ⟨FwConfig.erased_flash, none, []⟩).2.p_most_recent_val
    ∧ FwConfig.firmware_update_configurations_read
        (FwConfig.firmware_update_configurations_init S
          ⟨(FwConfig.write_all S bodies ⟨FwConfig.erased_flash, none, []⟩).2.flash, ptr0,
            hal0⟩).2
        = (FwConfig.FirmUpdConf_Status.FIRM_UPDT_CONF_EC_OK,
            FwConfig.stored_body (bodies.getLast hne)) := by
  cases bodies with
  | nil => exact absurd rfl hne
  | cons b rest =>
    obtain ⟨f1, f2, f3, f4⟩ := FwConfig.write_first S hS b
    obtain ⟨a1, a2, a3⟩ := FwConfig.write_all_log S hS rest _ 0 b f2 f3 f4
    have hall : FwConfig.write_all S (b :: rest) ⟨FwConfig.erased_flash, none, []⟩
        = ((FwConfig.firmware_update_configurations_write S b
              ⟨FwConfig.erased_flash, none, []⟩).1
            :: (FwConfig.write_all S rest (FwConfig.firmware_update_configurations_write S b
                ⟨FwConfig.erased_flash, none, []⟩).2).1,
           (FwConfig.write_all S rest (FwConfig.firmware_update_configurations_write S b
                ⟨FwConfig.erased_flash, none, []⟩).2).2) := rfl
    have hidx : (b :: rest).length - 1 = 0 + rest.length := by
      simp
    have hlast : (b :: rest).getLast hne = rest.getLastD b := by
      rw [List.getLast_eq_getLastD]
    rw [hall, hidx, hlast]
    dsimp only
    have hinit := FwConfig.init_on_log S hS
      ⟨(FwConfig.write_all S rest (FwConfig.firmware_update_configurations_write S b
        ⟨FwConfig.erased_flash, none, []⟩).2).2.flash, ptr0, hal0⟩ _
      (FwConfig.log_of_log_state _ _ _ _ a3)
    rw [hinit]
    have hlastmem : rest.getLastD b ∈ b :: rest := by
      rw [← hlast]
      exact List.getLast_mem hne
    have hread := (FwConfig.slot_holds_record _ _ _ a3.2.2.2).1 (hrange _ hlastmem)
    refine ⟨?_, a2, rfl, a2.symm, ?_⟩
    · intro r hr
      rcases List.mem_cons.mp hr with h | h
      · rw [h]; exact f1
      · exact a1 r h
    · unfold FwConfig.firmware_update_configurations_read
      dsimp only
      rw [hread]

/-- Witness for C3: five writes into an erased medium with two slots per page; the log has
crossed into page 2 and wrapped back to slot 0. -/
theorem init_rederives_latest_witness :
    (FwConfig.firmware_update_configurations_init 2
        ⟨(FwConfig.write_all 2
            [⟨1, 0, 0, 0, 0, 0, 0, 0⟩, ⟨2, 0, 0, 0, 0, 0, 0, 0⟩, ⟨3, 0, 0, 0, 0, 0, 0, 0⟩,
             ⟨4, 0, 0, 0, 0, 0, 0, 0⟩, ⟨5, 6, 7, 8, 0, 0, 1, 0⟩]
            ⟨FwConfig.erased_flash, none, []⟩).2.flash, none, []⟩).2.p_most_recent_val
      = some 0
    ∧ FwConfig.firmware_update_configurations_read
        (FwConfig.firmware_update_configurations_init 2
          ⟨(FwConfig.write_all 2
              [⟨1, 0, 0, 0, 0, 0, 0, 0⟩, ⟨2, 0, 0, 0, 0, 0, 0, 0⟩, ⟨3, 0, 0, 0, 0, 0, 0, 0⟩,
               ⟨4, 0, 0, 0, 0, 0, 0, 0⟩, ⟨5, 6, 7, 8, 0, 0, 1, 0⟩]
              ⟨FwConfig.erased_flash, none, []⟩).2.flash, none, []⟩).2
        = (FwConfig.FirmUpdConf_Status.FIRM_UPDT_CONF_EC_OK,
            ⟨5, 6, 7, 8, 0xFFFFFFFF, 0xFFFF, 1, 0⟩) := by
  have h := init_rederives_latest 2 (by decide)
    [⟨1, 0, 0, 0, 0, 0, 0, 0⟩, ⟨2, 0, 0, 0, 0, 0, 0, 0⟩, ⟨3, 0, 0, 0, 0, 0, 0, 0⟩,
     ⟨4, 0, 0, 0, 0, 0, 0, 0⟩, ⟨5, 6, 7, 8, 0, 0, 1, 0⟩] (by simp) (by decide) none []
  exact ⟨h.2.2.2.1.trans h.2.1, h.2.2.2.2⟩

/-! ## Configuration store: power loss during a write -/

namespace FwConfig

open HAL_StatusTypeDef FirmUpdConf_Status

end FwConfig

namespace FwConfig

open HAL_StatusTypeDef FirmUpdConf_Status

end FwConfig

/-- C11: in state Header, a Header Type Packet whose payload type is Application Firmware Image
or Bootloader Firmware Image makes `etx_ota_process_data` return Not Applicable with the state,
the recorded size and the recorded checksum untouched, and the pass of the transaction loop
ends the transaction with that outcome; a Header Type Packet whose payload type is Custom Data
copies the declared size and checksum into the custom-data record, moves to Data and returns
OK; a Header Type Packet with any other payload type, and any packet of another type that is
not the Abort command, returns the error outcome and changes nothing. -/
theorem header_state_transitions (buf : List Nat) (s : Node.State)
    (hs : s.etx_ota_state = ETX_OTA_State.ETX_OTA_STATE_HEADER) :
    (buf.getD 1 0 = ETX_OTA_PACKET_TYPE_HEADER →
      (buf.getD (ETX_OTA_DATA_FIELD_INDEX + 15) 0 = ETX_OTA_Application_Firmware_Image
        ∨ buf.getD (ETX_OTA_DATA_FIELD_INDEX + 15) 0 = ETX_OTA_Bootloader_Firmware_Image) →
      Node.etx_ota_process_data buf s = (ETX_OTA_Status.ETX_OTA_EC_NA, s)
      ∧ (Node.start_etx_ota_transaction_body ETX_OTA_Status.ETX_OTA_EC_OK buf s).ret
          = some ETX_OTA_Status.ETX_OTA_EC_NA
      ∧ (Node.start_etx_ota_transaction_body ETX_OTA_Status.ETX_OTA_EC_OK buf s).st = s)
    ∧ (buf.getD 1 0 = ETX_OTA_PACKET_TYPE_HEADER →
      buf.getD (ETX_OTA_DATA_FIELD_INDEX + 15) 0 = ETX_OTA_Custom_Data →
      Node.etx_ota_process_data buf s
        = (ETX_OTA_Status.ETX_OTA_EC_OK,
            { etx_ota_state := ETX_OTA_State.ETX_OTA_STATE_DATA
              etx_ota_fw_received_size := s.etx_ota_fw_received_size
              custom_data :=
                { size := read_u32 buf ETX_OTA_DATA_FIELD_INDEX
                  rec_crc := read_u32 buf (ETX_OTA_DATA_FIELD_INDEX + 4)
                  data := s.custom_data.data } }))
    ∧ (buf.getD 1 0 = ETX_OTA_PACKET_TYPE_HEADER →
      buf.getD (ETX_OTA_DATA_FIELD_INDEX + 15) 0 ≠ ETX_OTA_Application_Firmware_Image →
      buf.getD (ETX_OTA_DATA_FIELD_INDEX + 15) 0 ≠ ETX_OTA_Bootloader_Firmware_Image →
      buf.getD (ETX_OTA_DATA_FIELD_INDEX + 15) 0 ≠ ETX_OTA_Custom_Data →
      Node.etx_ota_process_data buf s = (ETX_OTA_Status.ETX_OTA_EC_ERR, s))
    ∧ (buf.getD 1 0 ≠ ETX_OTA_PACKET_TYPE_HEADER →
      ¬ (buf.getD 1 0 = ETX_OTA_PACKET_TYPE_CMD ∧ buf.getD 4 0 = ETX_OTA_CMD_ABORT) →
      Node.etx_ota_process_data buf s = (ETX_OTA_Status.ETX_OTA_EC_ERR, s)) := by
  have hh : ∀ x : Nat, x = ETX_OTA_PACKET_TYPE_HEADER →
      ¬ (x = ETX_OTA_PACKET_TYPE_CMD ∧ buf.getD 4 0 = ETX_OTA_CMD_ABORT) := by
    intro x hx h
    rw [hx] at h
    exact absurd h.1 (by decide)
  refine ⟨?_, ?_, ?_, ?_⟩
  · intro ht hp
    have e : Node.etx_ota_process_data buf s = (ETX_OTA_Status.ETX_OTA_EC_NA, s) := by
      simp only [Node.etx_ota_process_data]
      rw [if_neg (hh _ ht), hs]
      dsimp only
      rw [if_pos ht, if_pos hp]
    refine ⟨e, ?_, ?_⟩
    · simp only [Node.start_etx_ota_transaction_body]
      rw [e]
    · simp only [Node.start_etx_ota_transaction_body]
      rw [e]
  · intro ht hp
    have hp' : ¬ (buf.getD (ETX_OTA_DATA_FIELD_INDEX + 15) 0 = ETX_OTA_Application_Firmware_Image
        ∨ buf.getD (ETX_OTA_DATA_FIELD_INDEX + 15) 0 = ETX_OTA_Bootloader_Firmware_Image) := by
      rw [hp]
      decide
    simp only [Node.etx_ota_process_data]
    rw [if_neg (hh _ ht), hs]
    dsimp only
    rw [if_pos ht, if_neg hp', if_pos hp]
  · intro ht h0 h1 h2
    have hp' : ¬ (buf.getD (ETX_OTA_DATA_FIELD_INDEX + 15) 0 = ETX_OTA_Application_Firmware_Image
        ∨ buf.getD (ETX_OTA_DATA_FIELD_INDEX + 15) 0 = ETX_OTA_Bootloader_Firmware_Image) := by
      intro h
      cases h with
      | inl h => exact h0 h
      | inr h => exact h1 h
    simp only [Node.etx_ota_process_data]
    rw [if_neg (hh _ ht), hs]
    dsimp only
    rw [if_pos ht, if_neg hp', if_neg h2]
  · intro ht ha
    simp only [Node.etx_ota_process_data]
    rw [if_neg ha, hs]
    dsimp only
    rw [if_neg ht]

/-- Witness for C11: a Header Type Packet announcing five bytes of Custom Data, received in
state Header. -/
theorem header_state_transitions_witness :
    Node.etx_ota_process_data
        (Host.etx_ota_header_packet ⟨5, 0x12345678, 0xFFFFFFFF, 0xFFFF, 0xFF, 2⟩)
        ⟨ETX_OTA_State.ETX_OTA_STATE_HEADER, 0, ⟨0, 0, [0, 0, 0, 0, 0]⟩⟩
      = (ETX_OTA_Status.ETX_OTA_EC_OK,
          ⟨ETX_OTA_State.ETX_OTA_STATE_DATA, 0, ⟨5, 0x12345678, [0, 0, 0, 0, 0]⟩⟩) :=
  (header_state_transitions
    (Host.etx_ota_header_packet ⟨5, 0x12345678, 0xFFFFFFFF, 0xFFFF, 0xFF, 2⟩)
    ⟨ETX_OTA_State.ETX_OTA_STATE_HEADER, 0, ⟨0, 0, [0, 0, 0, 0, 0]⟩⟩ rfl).2.1
    (by decide) (by decide)

/-- C13: in state End, for a Command Type Packet carrying the End command, the declared size
being within the capacity of the custom-data buffer (so that the accumulated payload lies in
the buffer), `etx_ota_process_data` returns OK and moves to Idle if and only if `crc32_mpeg2`
recomputed over the accumulated payload (the first `size` bytes of the custom-data buffer)
equals the checksum recorded from the Header; when they differ it returns the error outcome and
changes nothing, so the state stays End, and the pass of the transaction loop sends one Nack and
ends the transaction with the error outcome.  Any other packet that is not the Abort command
returns the error outcome and changes nothing. -/
theorem end_state_transitions (buf : List Nat) (s : Node.State)
    (hs : s.etx_ota_state = ETX_OTA_State.ETX_OTA_STATE_END) :
    (buf.getD 1 0 = ETX_OTA_PACKET_TYPE_CMD → buf.getD 4 0 = ETX_OTA_CMD_END →
      s.custom_data.size ≤ s.custom_data.data.length →
      (((Node.etx_ota_process_data buf s).1 = ETX_OTA_Status.ETX_OTA_EC_OK
          ∧ (Node.etx_ota_process_data buf s).2.etx_ota_state
              = ETX_OTA_State.ETX_OTA_STATE_IDLE)
        ↔ Firmware.crc32_mpeg2 s.custom_data.data s.custom_data.size = s.custom_data.rec_crc)
      ∧ (Firmware.crc32_mpeg2 s.custom_data.data s.custom_data.size = s.custom_data.rec_crc →
          Node.etx_ota_process_data buf s
            = (ETX_OTA_Status.ETX_OTA_EC_OK,
                { s with etx_ota_state := ETX_OTA_State.ETX_OTA_STATE_IDLE }))
      ∧ (Firmware.crc32_mpeg2 s.custom_data.data s.custom_data.size ≠ s.custom_data.rec_crc →
          Node.etx_ota_process_data buf s = (ETX_OTA_Status.ETX_OTA_EC_ERR, s)
          ∧ (Node.start_etx_ota_transaction_body ETX_OTA_Status.ETX_OTA_EC_OK buf s).out
              = [Node.Output.resp ETX_OTA_NACK]
          ∧ (Node.start_etx_ota_transaction_body ETX_OTA_Status.ETX_OTA_EC_OK buf s).ret
              = some ETX_OTA_Status.ETX_OTA_EC_ERR
          ∧ (Node.start_etx_ota_transaction_body
                ETX_OTA_Status.ETX_OTA_EC_OK buf s).st.etx_ota_state
              = ETX_OTA_State.ETX_OTA_STATE_END))
    ∧ (¬ (buf.getD 1 0 = ETX_OTA_PACKET_TYPE_CMD ∧ buf.getD 4 0 = ETX_OTA_CMD_END) →
      ¬ (buf.getD 1 0 = ETX_OTA_PACKET_TYPE_CMD ∧ buf.getD 4 0 = ETX_OTA_CMD_ABORT) →
      Node.etx_ota_process_data buf s = (ETX_OTA_Status.ETX_OTA_EC_ERR, s)) := by
  refine ⟨?_, ?_⟩
  · intro ht hc _
    have ha : ¬ (buf.getD 1 0 = ETX_OTA_PACKET_TYPE_CMD ∧ buf.getD 4 0 = ETX_OTA_CMD_ABORT) := by
      intro h
      rw [hc] at h
      exact absurd h.2 (by decide)
    have hok : Firmware.crc32_mpeg2 s.custom_data.data s.custom_data.size = s.custom_data.rec_crc →
        Node.etx_ota_process_data buf s
          = (ETX_OTA_Status.ETX_OTA_EC_OK,
              { s with etx_ota_state := ETX_OTA_State.ETX_OTA_STATE_IDLE }) := by
      intro he
      simp only [Node.etx_ota_process_data]
      rw [if_neg ha, hs]
      dsimp only
      rw [if_pos ⟨ht, hc⟩, if_neg (not_not.mpr he)]
    have herr : Firmware.crc32_mpeg2 s.custom_data.data s.custom_data.size ≠ s.custom_data.rec_crc →
        Node.etx_ota_process_data buf s = (ETX_OTA_Status.ETX_OTA_EC_ERR, s) := by
      intro hne
      simp only [Node.etx_ota_process_data]
      rw [if_neg ha, hs]
      dsimp only
      rw [if_pos ⟨ht, hc⟩, if_pos hne]
    refine ⟨⟨?_, ?_⟩, hok, ?_⟩
    · intro h
      by_contra hne
      rw [herr hne] at h
      have h1 : ETX_OTA_Status.ETX_OTA_EC_ERR = ETX_OTA_Status.ETX_OTA_EC_OK := h.1
      exact absurd h1 (by decide)
    · intro he
      rw [hok he]
      exact ⟨rfl, rfl⟩
    · intro hne
      refine ⟨herr hne, ?_, ?_, ?_⟩
      · simp only [Node.start_etx_ota_transaction_body]
        rw [herr hne]
      · simp only [Node.start_etx_ota_transaction_body]
        rw [herr hne]
      · simp only [Node.start_etx_ota_transaction_body]
        rw [herr hne]
        exact hs
  · intro he ha
    simp only [Node.etx_ota_process_data]
    rw [if_neg ha, hs]
    dsimp only
    rw [if_neg he]

/-- Witness for C13: the End command received in state End after the three bytes "abc" were
stored, with a recorded checksum that is not theirs. -/
theorem end_state_transitions_witness :
    Node.etx_ota_process_data Host.etx_ota_end_packet
        ⟨ETX_OTA_State.ETX_OTA_STATE_END, 3, ⟨3, 0, [0x61, 0x62, 0x63]⟩⟩
      = (ETX_OTA_Status.ETX_OTA_EC_ERR,
          ⟨ETX_OTA_State.ETX_OTA_STATE_END, 3, ⟨3, 0, [0x61, 0x62, 0x63]⟩⟩) :=
  ((end_state_transitions Host.etx_ota_end_packet
    ⟨ETX_OTA_State.ETX_OTA_STATE_END, 3, ⟨3, 0, [0x61, 0x62, 0x63]⟩⟩ rfl).1
    (by decide) (by decide) (by decide)).2.2 (by decide) |>.1

/-- A Data Type Packet in any buffer, received in state Data: the `data_len` bytes that follow
the Data Length field are stored from the offset `etx_ota_fw_received_size` on. -/
theorem process_data_data_state (buf : List Nat) (s : Node.State)
    (hs : s.etx_ota_state = ETX_OTA_State.ETX_OTA_STATE_DATA)
    (ht : buf.getD 1 0 = ETX_OTA_PACKET_TYPE_DATA)
    (h32 : s.etx_ota_fw_received_size + read_u16 buf 2 < 2 ^ 32) :
    (Node.etx_ota_process_data buf s).1 = ETX_OTA_Status.ETX_OTA_EC_OK
    ∧ (Node.etx_ota_process_data buf s).2.etx_ota_state
      = (if s.etx_ota_fw_received_size + read_u16 buf 2 ≥ s.custom_data.size
          then ETX_OTA_State.ETX_OTA_STATE_END else ETX_OTA_State.ETX_OTA_STATE_DATA)
    ∧ (Node.etx_ota_process_data buf s).2.etx_ota_fw_received_size
      = s.etx_ota_fw_received_size + read_u16 buf 2
    ∧ (Node.etx_ota_process_data buf s).2.custom_data.size = s.custom_data.size
    ∧ (Node.etx_ota_process_data buf s).2.custom_data.rec_crc = s.custom_data.rec_crc
    ∧ (Node.etx_ota_process_data buf s).2.custom_data.data.length = s.custom_data.data.length
    ∧ ∀ j, (Node.etx_ota_process_data buf s).2.custom_data.data[j]?
        = if s.etx_ota_fw_received_size ≤ j
              ∧ j < s.etx_ota_fw_received_size + read_u16 buf 2
              ∧ j < s.custom_data.data.length
          then some (buf.getD (ETX_OTA_DATA_FIELD_INDEX + (j - s.etx_ota_fw_received_size)) 0)
          else s.custom_data.data[j]? := by
  have hna : ¬ (buf.getD 1 0 = ETX_OTA_PACKET_TYPE_CMD ∧ buf.getD 4 0 = ETX_OTA_CMD_ABORT) := by
    rw [ht]; intro h; exact absurd h.1 (by decide)
  obtain ⟨w1, w2, w3, w4, w5, w6⟩ := write_data_to_ram_spec
    (buf.drop ETX_OTA_DATA_FIELD_INDEX) (read_u16 buf 2) s h32
  have hbyte : ∀ k, (buf.drop ETX_OTA_DATA_FIELD_INDEX).getD k 0
      = buf.getD (ETX_OTA_DATA_FIELD_INDEX + k) 0 := by
    intro k
    rw [List.getD_eq_getElem?_getD, List.getD_eq_getElem?_getD, List.getElem?_drop]
  simp only [Node.etx_ota_process_data]
  rw [if_neg hna]
  simp only [hs]
  rw [if_pos ht]
  by_cases hge : s.etx_ota_fw_received_size + read_u16 buf 2 ≥ s.custom_data.size
  · rw [if_pos (by rw [w2, w3]; exact hge), if_pos hge]
    refine ⟨rfl, rfl, w2, w3, w4, w5, fun j => ?_⟩
    show (Node.write_data_to_ram _ (read_u16 buf 2) s).custom_data.data[j]? = _
    rw [w6 j, hbyte]
  · rw [if_neg (by rw [w2, w3]; exact hge), if_neg hge]
    refine ⟨rfl, ?_, w2, w3, w4, w5, fun j => ?_⟩
    · show (Node.write_data_to_ram _ (read_u16 buf 2) s).etx_ota_state = _
      rw [w1, hs]
    · show (Node.write_data_to_ram _ (read_u16 buf 2) s).custom_data.data[j]? = _
      rw [w6 j, hbyte]

/-- A list whose entries are those of `data` except on the window `[r, r + p.length)`, where
they are those of `p`, is `data` with `p` written over that window. -/
theorem eq_splice_of_getElem? (data p data1 : List Nat) (r : Nat)
    (hfit : r + p.length ≤ data.length) (hlen : data1.length = data.length)
    (h : ∀ j, data1[j]? = if r ≤ j ∧ j < r + p.length ∧ j < data.length
        then some (p.getD (j - r) 0) else data[j]?) :
    data1 = data.take r ++ p ++ data.drop (r + p.length) := by
  apply List.ext_getElem?
  intro j
  rw [h j]
  by_cases h1 : j < r
  · rw [if_neg (by omega), List.append_assoc,
      List.getElem?_append_left (by rw [List.length_take]; omega), List.getElem?_take_of_lt h1]
  · by_cases h2 : j < r + p.length
    · rw [if_pos (by omega), List.append_assoc,
        List.getElem?_append_right (by rw [List.length_take]; omega), List.length_take,
        Nat.min_eq_left (by omega), List.getElem?_append_left (by omega),
        List.getD_eq_getElem?_getD, List.getElem?_eq_getElem (by omega)]
      rfl
    · rw [if_neg (by omega),
        List.getElem?_append_right (by
          rw [List.length_append, List.length_take]; omega),
        List.getElem?_drop, List.length_append, List.length_take, Nat.min_eq_left (by omega)]
      congr 1
      omega

theorem splice_take (data p : List Nat) (r : Nat) (hfit : r + p.length ≤ data.length) :
    (data.take r ++ p ++ data.drop (r + p.length)).take (r + p.length) = data.take r ++ p := by
  apply List.take_left'
  rw [List.length_append, List.length_take]
  omega

theorem splice_drop (data p : List Nat) (r m : Nat) (hfit : r + p.length ≤ data.length) :
    (data.take r ++ p ++ data.drop (r + p.length)).drop (r + p.length + m)
      = data.drop (r + p.length + m) := by
  have hl : (data.take r ++ p).length = r + p.length := by
    rw [List.length_append, List.length_take]
    omega
  rw [← hl, List.drop_append, hl, List.drop_drop]

/-- What `etx_ota_process_data` reads from a Data Type Packet that carries `p`. -/
theorem carries_data_fields (frame p Rx_Buffer : List Nat) (h : Node.carries_data frame p)
    (hp : p.length < 2 ^ 16) :
    (Node.rx_store Rx_Buffer frame).getD 1 0 = ETX_OTA_PACKET_TYPE_DATA
    ∧ read_u16 (Node.rx_store Rx_Buffer frame) 2 = p.length
    ∧ ∀ k, k < p.length →
        (Node.rx_store Rx_Buffer frame).getD (ETX_OTA_DATA_FIELD_INDEX + k) 0 = p.getD k 0 := by
  obtain ⟨sof, tail, rfl⟩ := h
  refine ⟨?_, ?_, ?_⟩
  · simp [Node.rx_store]
  · simp [Node.rx_store, read_u16, u16_bytes]
    omega
  · intro k hk
    have e : Node.rx_store Rx_Buffer
        (sof :: ETX_OTA_PACKET_TYPE_DATA :: (u16_bytes p.length ++ p ++ tail))
        = [sof, ETX_OTA_PACKET_TYPE_DATA, p.length % 256, p.length / 256 % 256]
          ++ (p ++ (tail ++ Rx_Buffer.drop
              (sof :: ETX_OTA_PACKET_TYPE_DATA :: (u16_bytes p.length ++ p ++ tail)).length)) := by
      simp [Node.rx_store, u16_bytes]
    rw [e]
    have h4 : ETX_OTA_DATA_FIELD_INDEX + k
        = [sof, ETX_OTA_PACKET_TYPE_DATA, p.length % 256, p.length / 256 % 256].length + k := rfl
    rw [h4, getD_append_add, List.getD_eq_getElem?_getD, List.getD_eq_getElem?_getD,
      List.getElem?_append_left hk]

/-- Data Type Packets received one after the other in state Data, all but the last leaving the
received count below the declared size: every one is answered OK and the payloads are stored
back to back from the offset `etx_ota_fw_received_size` on. -/
theorem data_frames_run (frames ps : List (List Nat))
    (hf : List.Forall₂ Node.carries_data frames ps) :
    ∀ (Rx_Buffer : List Nat) (s : Node.State),
      s.etx_ota_state = ETX_OTA_State.ETX_OTA_STATE_DATA →
      (∀ p ∈ ps, p.length < 2 ^ 16) →
      s.etx_ota_fw_received_size + ps.flatten.length ≤ s.custom_data.data.length →
      s.custom_data.data.length < 2 ^ 32 →
      (∀ k, 0 < k → k < ps.length →
        s.etx_ota_fw_received_size + (ps.take k).flatten.length < s.custom_data.size) →
      (Node.process_frames frames Rx_Buffer s).1
          = List.replicate frames.length ETX_OTA_Status.ETX_OTA_EC_OK
      ∧ (Node.process_frames frames Rx_Buffer s).2.etx_ota_fw_received_size
          = s.etx_ota_fw_received_size + ps.flatten.length
      ∧ (Node.process_frames frames Rx_Buffer s).2.custom_data.data
          = s.custom_data.data.take s.etx_ota_fw_received_size ++ ps.flatten
            ++ s.custom_data.data.drop (s.etx_ota_fw_received_size + ps.flatten.length)
      ∧ (Node.process_frames frames Rx_Buffer s).2.custom_data.size = s.custom_data.size
      ∧ (Node.process_frames frames Rx_Buffer s).2.custom_data.rec_crc = s.custom_data.rec_crc
      ∧ (ps ≠ [] → (Node.process_frames frames Rx_Buffer s).2.etx_ota_state
          = (if s.etx_ota_fw_received_size + ps.flatten.length ≥ s.custom_data.size
              then ETX_OTA_State.ETX_OTA_STATE_END else ETX_OTA_State.ETX_OTA_STATE_DATA)) := by
  induction hf with
  | nil =>
    intro Rx_Buffer s _ _ _ _ _
    simp [Node.process_frames]
  | @cons frame p frames ps hc _ ih =>
    intro Rx_Buffer s hs hp hfit h32 hbelow
    have hpl : p.length < 2 ^ 16 := hp p (by simp)
    have hfl : (p :: ps).flatten.length = p.length + ps.flatten.length := by
      simp [List.flatten_cons]
    rw [hfl] at hfit
    obtain ⟨c1, c2, c3⟩ := carries_data_fields frame p Rx_Buffer hc hpl
    obtain ⟨d1, d2, d3, d4, d5, d6, d7⟩ := process_data_data_state
      (Node.rx_store Rx_Buffer frame) s hs c1 (by rw [c2]; omega)
    rw [c2] at d2 d3 d7
    have hdata : (Node.etx_ota_process_data (Node.rx_store Rx_Buffer frame) s).2.custom_data.data
        = s.custom_data.data.take s.etx_ota_fw_received_size ++ p
          ++ s.custom_data.data.drop (s.etx_ota_fw_received_size + p.length) := by
      apply eq_splice_of_getElem? _ _ _ _ (by omega) d6
      intro j
      rw [d7 j]
      by_cases hj : s.etx_ota_fw_received_size ≤ j ∧ j < s.etx_ota_fw_received_size + p.length
          ∧ j < s.custom_data.data.length
      · rw [if_pos hj, if_pos hj, c3 _ (by omega)]
      · rw [if_neg hj, if_neg hj]
    rw [process_frames_cons]
    dsimp only
    by_cases hnil : ps = []
    · subst hnil
      cases ‹List.Forall₂ Node.carries_data frames []›
      simp only [Node.process_frames, List.flatten_cons, List.flatten_nil, List.append_nil,
        List.length_cons, List.length_nil]
      refine ⟨?_, d3, hdata, d4, d5, fun _ => d2⟩
      rw [d1]
      rfl
    · have hpos : 0 < ps.length := List.length_pos.mpr hnil
      have h1 := hbelow 1 (by omega) (by simp; omega)
      have ht1 : ((p :: ps).take 1).flatten.length = p.length := by simp
      rw [ht1] at h1
      have hs1 : (Node.etx_ota_process_data (Node.rx_store Rx_Buffer frame) s).2.etx_ota_state
          = ETX_OTA_State.ETX_OTA_STATE_DATA := by
        rw [d2, if_neg (by omega)]
      obtain ⟨i1, i2, i3, i4, i5, i6⟩ := ih ((Node.rx_store Rx_Buffer frame).set 0 0)
        (Node.etx_ota_process_data (Node.rx_store Rx_Buffer frame) s).2 hs1
        (fun q hq => hp q (by simp [hq])) (by rw [d3, d6]; omega) (by rw [d6]; exact h32)
        (by
          intro k hk1 hk2
          have := hbelow (k + 1) (by omega) (by simp; omega)
          rw [List.take_succ_cons, List.flatten_cons, List.length_append] at this
          rw [d3, d4]
          omega)
      refine ⟨?_, ?_, ?_, ?_, ?_, fun _ => ?_⟩
      · rw [i1, d1]
        rfl
      · rw [i2, d3, hfl]
        omega
      · rw [i3, d3, hdata, splice_take _ _ _ (by omega), splice_drop _ _ _ _ (by omega), hfl,
          List.flatten_cons, Nat.add_assoc]
        simp only [List.append_assoc]
      · rw [i4, d4]
      · rw [i5, d5]
      · rw [i6 hnil, d3, d4, hfl]
        have e : s.etx_ota_fw_received_size + p.length + ps.flatten.length
            = s.etx_ota_fw_received_size + (p.length + ps.flatten.length) := by omega
        rw [e]

/-- C12: in state Data a Data Type Packet is answered OK and the received count
`etx_ota_fw_received_size` grows by its `data_len`; afterwards the state is End exactly when
the received count has reached the declared size and Data otherwise; when the custom-data
buffer has room for them, the `data_len` payload bytes are stored in it at the offset the
received count had.  Data Type Packets received one after the other, each in state Data, are
all answered OK and leave their payloads back to back in arrival order, from the start of the
buffer when the count started at 0.  A packet of another type that is not the Abort command
returns the error outcome and changes nothing. -/
theorem data_state_transitions (s : Node.State)
    (hs : s.etx_ota_state = ETX_OTA_State.ETX_OTA_STATE_DATA) :
    (∀ buf : List Nat, buf.getD 1 0 = ETX_OTA_PACKET_TYPE_DATA →
      s.etx_ota_fw_received_size + read_u16 buf 2 < 2 ^ 32 →
      (Node.etx_ota_process_data buf s).1 = ETX_OTA_Status.ETX_OTA_EC_OK
      ∧ (Node.etx_ota_process_data buf s).2.etx_ota_fw_received_size
          = s.etx_ota_fw_received_size + read_u16 buf 2
      ∧ (Node.etx_ota_process_data buf s).2.custom_data.size = s.custom_data.size
      ∧ (Node.etx_ota_process_data buf s).2.custom_data.rec_crc = s.custom_data.rec_crc
      ∧ ((Node.etx_ota_process_data buf s).2.etx_ota_state = ETX_OTA_State.ETX_OTA_STATE_END
          ↔ (Node.etx_ota_process_data buf s).2.etx_ota_fw_received_size
              ≥ (Node.etx_ota_process_data buf s).2.custom_data.size)
      ∧ ((Node.etx_ota_process_data buf s).2.etx_ota_state = ETX_OTA_State.ETX_OTA_STATE_DATA
          ↔ (Node.etx_ota_process_data buf s).2.etx_ota_fw_received_size
              < (Node.etx_ota_process_data buf s).2.custom_data.size)
      ∧ (s.etx_ota_fw_received_size + read_u16 buf 2 ≤ s.custom_data.data.length →
          (Node.etx_ota_process_data buf s).2.custom_data.data
            = s.custom_data.data.take s.etx_ota_fw_received_size
              ++ (List.range (read_u16 buf 2)).map
                  (fun k => buf.getD (ETX_OTA_DATA_FIELD_INDEX + k) 0)
              ++ s.custom_data.data.drop (s.etx_ota_fw_received_size + read_u16 buf 2)))
    ∧ (∀ (frames ps : List (List Nat)) (Rx_Buffer : List Nat),
      List.Forall₂ Node.carries_data frames ps →
      (∀ p ∈ ps, p.length < 2 ^ 16) →
      s.etx_ota_fw_received_size + ps.flatten.length ≤ s.custom_data.data.length →
      s.custom_data.data.length < 2 ^ 32 →
      (∀ k, 0 < k → k < ps.length →
        s.etx_ota_fw_received_size + (ps.take k).flatten.length < s.custom_data.size) →
      (Node.process_frames frames Rx_Buffer s).1
          = List.replicate frames.length ETX_OTA_Status.ETX_OTA_EC_OK
      ∧ (Node.process_frames frames Rx_Buffer s).2.etx_ota_fw_received_size
          = s.etx_ota_fw_received_size + ps.flatten.length
      ∧ (Node.process_frames frames Rx_Buffer s).2.custom_data.data
          = s.custom_data.data.take s.etx_ota_fw_received_size ++ ps.flatten
            ++ s.custom_data.data.drop (s.etx_ota_fw_received_size + ps.flatten.length)
      ∧ (s.etx_ota_fw_received_size = 0 →
          (Node.process_frames frames Rx_Buffer s).2.custom_data.data.take ps.flatten.length
            = ps.flatten))
    ∧ (∀ buf : List Nat, buf.getD 1 0 ≠ ETX_OTA_PACKET_TYPE_DATA →
      ¬ (buf.getD 1 0 = ETX_OTA_PACKET_TYPE_CMD ∧ buf.getD 4 0 = ETX_OTA_CMD_ABORT) →
      Node.etx_ota_process_data buf s = (ETX_OTA_Status.ETX_OTA_EC_ERR, s)) := by
  refine ⟨?_, ?_, ?_⟩
  · intro buf ht h32
    obtain ⟨d1, d2, d3, d4, d5, d6, d7⟩ := process_data_data_state buf s hs ht h32
    have hpl : ((List.range (read_u16 buf 2)).map
        (fun k => buf.getD (ETX_OTA_DATA_FIELD_INDEX + k) 0)).length = read_u16 buf 2 := by
      rw [List.length_map, List.length_range]
    refine ⟨d1, d3, d4, d5, ?_, ?_, ?_⟩
    · rw [d2, d3, d4]
      by_cases hge : s.etx_ota_fw_received_size + read_u16 buf 2 ≥ s.custom_data.size
      · rw [if_pos hge]
        exact ⟨fun _ => hge, fun _ => rfl⟩
      · rw [if_neg hge]
        exact ⟨fun h => absurd h (by decide), fun h => absurd h hge⟩
    · rw [d2, d3, d4]
      by_cases hge : s.etx_ota_fw_received_size + read_u16 buf 2 ≥ s.custom_data.size
      · rw [if_pos hge]
        exact ⟨fun h => absurd h (by decide), fun h => absurd hge (by omega)⟩
      · rw [if_neg hge]
        exact ⟨fun _ => by omega, fun _ => rfl⟩
    · intro hfit
      have := eq_splice_of_getElem? s.custom_data.data
        ((List.range (read_u16 buf 2)).map (fun k => buf.getD (ETX_OTA_DATA_FIELD_INDEX + k) 0))
        (Node.etx_ota_process_data buf s).2.custom_data.data s.etx_ota_fw_received_size
        (by rw [hpl]; exact hfit) d6
        (by
          intro j
          rw [d7 j, hpl]
          by_cases hj : s.etx_ota_fw_received_size ≤ j
              ∧ j < s.etx_ota_fw_received_size + read_u16 buf 2 ∧ j < s.custom_data.data.length
          · have hk : j - s.etx_ota_fw_received_size < read_u16 buf 2 := by omega
            have hget : ((List.range (read_u16 buf 2)).map
                (fun k => buf.getD (ETX_OTA_DATA_FIELD_INDEX + k) 0)).getD
                  (j - s.etx_ota_fw_received_size) 0
                = buf.getD (ETX_OTA_DATA_FIELD_INDEX + (j - s.etx_ota_fw_received_size)) 0 := by
              rw [List.getD_eq_getElem?_getD, List.getElem?_map, List.getElem?_range hk]
              rfl
            rw [if_pos hj, if_pos hj, hget]
          · rw [if_neg hj, if_neg hj])
      rw [hpl] at this
      exact this
  · intro frames ps Rx_Buffer hf hp hfit hcap hbelow
    obtain ⟨r1, r2, r3, _, _, _⟩ := data_frames_run frames ps hf Rx_Buffer s hs hp hfit hcap hbelow
    refine ⟨r1, r2, r3, fun h0 => ?_⟩
    rw [r3, h0, List.take_zero, List.nil_append]
    exact List.take_left' rfl
  · intro buf ht ha
    simp only [Node.etx_ota_process_data]
    rw [if_neg ha, hs]
    dsimp only
    rw [if_neg ht]

/-- Witness for C12: two Data Type Packets, carrying "ab" and "c", received in state Data with
a declared size of three bytes. -/
theorem data_state_transitions_witness :
    (Node.process_frames
        [Host.etx_ota_data_packet [0x61, 0x62] 2, Host.etx_ota_data_packet [0x63] 1] []
        ⟨ETX_OTA_State.ETX_OTA_STATE_DATA, 0, ⟨3, 0, [0, 0, 0, 0]⟩⟩).2.custom_data.data.take 3
      = [0x61, 0x62, 0x63] :=
  ((data_state_transitions ⟨ETX_OTA_State.ETX_OTA_STATE_DATA, 0, ⟨3, 0, [0, 0, 0, 0]⟩⟩ rfl).2.1
    [Host.etx_ota_data_packet [0x61, 0x62] 2, Host.etx_ota_data_packet [0x63] 1]
    [[0x61, 0x62], [0x63]] []
    (List.Forall₂.cons ⟨_, _, rfl⟩ (List.Forall₂.cons ⟨_, _, rfl⟩ List.Forall₂.nil))
    (by decide) (by decide) (by decide)
    (by
      intro k h1 h2
      have hk : k = 1 := by
        simp only [List.length_cons, List.length_nil] at h2
        omega
      subst hk
      decide)).2.2.2 rfl

/-! ## Reception of a frame -/

/-- Bytes stored right after the part `pre` of the memory that has been filled so far. -/
theorem store_bytes_frontier (bytes : List Nat) :
    ∀ (pre mem : List Nat), bytes.length ≤ mem.length →
      Node.store_bytes (pre ++ mem) pre.length bytes = pre ++ bytes ++ mem.drop bytes.length := by
  induction bytes with
  | nil =>
    intro pre mem _
    simp [Node.store_bytes]
  | cons b bs ih =>
    intro pre mem h
    cases mem with
    | nil => simp at h
    | cons m ms =>
      have hset : (pre ++ m :: ms).set pre.length b = (pre ++ [b]) ++ ms := by
        simp [List.set_append]
      have hlen : pre.length + 1 = (pre ++ [b]).length := by simp
      simp only [Node.store_bytes]
      rw [hset, hlen, ih (pre ++ [b]) ms (by simpa using h)]
      simp

/-- A blocking read on a line without faults that holds the bytes asked for. -/
theorem HAL_UART_Receive_frontier (pre mem bytes rest : List Nat) (Size : Nat)
    (reported : List FwConfig.HAL_StatusTypeDef) (hb : bytes.length = Size)
    (hm : Size ≤ mem.length) :
    Node.HAL_UART_Receive (pre ++ mem) pre.length Size ⟨bytes ++ rest, [], reported⟩
      = (FwConfig.HAL_StatusTypeDef.HAL_OK, pre ++ bytes ++ mem.drop Size,
          ⟨rest, [], reported ++ [FwConfig.HAL_StatusTypeDef.HAL_OK]⟩) := by
  have h1 : Size ≤ (bytes ++ rest).length := by
    rw [List.length_append]
    omega
  have h2 : (bytes ++ rest).take Size = bytes := List.take_left' hb
  have h3 : (bytes ++ rest).drop Size = rest := List.drop_left' hb
  simp only [Node.HAL_UART_Receive, List.headD_nil, List.tail_nil]
  rw [if_pos trivial, if_pos h1, h2, h3, store_bytes_frontier bytes pre mem (by omega), hb]

/-- The Data field loop on a line without faults that holds the `payload`. -/
theorem receive_data_field_frontier (payload : List Nat) :
    ∀ (pre mem rest : List Nat) (reported : List FwConfig.HAL_StatusTypeDef),
      payload.length ≤ mem.length → pre.length + payload.length < 2 ^ 16 →
      Node.receive_data_field payload.length pre.length (pre ++ mem)
          ⟨payload ++ rest, [], reported⟩
        = (ETX_OTA_Status.ETX_OTA_EC_OK, pre.length + payload.length,
            pre ++ payload ++ mem.drop payload.length,
            ⟨rest, [], reported ++ List.replicate payload.length
              FwConfig.HAL_StatusTypeDef.HAL_OK⟩) := by
  induction payload with
  | nil =>
    intro pre mem rest reported _ _
    simp [Node.receive_data_field]
  | cons b bs ih =>
    intro pre mem rest reported hm h16
    have hread := HAL_UART_Receive_frontier pre mem [b] (bs ++ rest) 1 reported rfl
      (by simp at hm; omega)
    have hmod : (pre.length + 1) % 2 ^ 16 = (pre ++ [b]).length := by
      rw [Nat.mod_eq_of_lt (by simp at h16; omega)]
      simp
    have hcons : (b :: bs) ++ rest = [b] ++ (bs ++ rest) := rfl
    simp only [List.length_cons, Node.receive_data_field]
    rw [hcons, hread]
    simp only [Node.HAL_ret_handler, ne_eq, not_true_eq_false, if_false]
    rw [hmod]
    have hdrop : mem.drop 1 = mem.tail := by simp
    have := ih (pre ++ [b]) (mem.drop 1) rest
      (reported ++ [FwConfig.HAL_StatusTypeDef.HAL_OK])
      (by simp at hm ⊢; omega) (by simp at h16 ⊢; omega)
    rw [this]
    simp [List.replicate_succ]
    omega

/-- A blocking read on a line without faults, at the index where the filled part `pre` of the
memory ends. -/
theorem HAL_UART_Receive_at (pre mem bytes rest : List Nat) (idx Size : Nat)
    (reported : List FwConfig.HAL_StatusTypeDef) (hidx : idx = pre.length)
    (hb : bytes.length = Size) (hm : Size ≤ mem.length) :
    Node.HAL_UART_Receive (pre ++ mem) idx Size ⟨bytes ++ rest, [], reported⟩
      = (FwConfig.HAL_StatusTypeDef.HAL_OK, pre ++ bytes ++ mem.drop Size,
          ⟨rest, [], reported ++ [FwConfig.HAL_StatusTypeDef.HAL_OK]⟩) := by
  subst hidx
  exact HAL_UART_Receive_frontier pre mem bytes rest Size reported hb hm

theorem read_u32_frontier (pre post : List Nat) (c0 c1 c2 c3 : Nat) :
    read_u32 (pre ++ [c0, c1, c2, c3] ++ post) pre.length
      = c0 + 256 * c1 + 65536 * c2 + 16777216 * c3 := by
  simp only [read_u32, List.append_assoc, getD_append_add, getD_append_length]
  rfl

theorem read_u16_frontier (pre post : List Nat) (l0 l1 : Nat) :
    read_u16 (pre ++ [l0, l1] ++ post) pre.length = l0 + 256 * l1 := by
  simp only [read_u16, List.append_assoc, getD_append_add, getD_append_length]
  rfl

/-- The CRC32 and EOF fields read on a line without faults, then the three checks. -/
theorem receive_crc_eof_frontier (pre mem rest : List Nat) (c0 c1 c2 c3 e data_len len : Nat)
    (reported : List FwConfig.HAL_StatusTypeDef) (hlen : len = pre.length)
    (hm : 5 ≤ mem.length) (h16 : pre.length + 4 < 2 ^ 16) :
    Node.receive_crc_eof data_len len (pre ++ mem)
        ⟨[c0, c1, c2, c3] ++ ([e] ++ rest), [], reported⟩
      = (Node.etx_ota_receive_packet_checks (pre ++ [c0, c1, c2, c3] ++ [e] ++ mem.drop 5)
            (pre.length + 4) data_len (c0 + 256 * c1 + 65536 * c2 + 16777216 * c3),
          pre ++ [c0, c1, c2, c3] ++ [e] ++ mem.drop 5,
          ⟨rest, [], reported ++ [FwConfig.HAL_StatusTypeDef.HAL_OK]
            ++ [FwConfig.HAL_StatusTypeDef.HAL_OK]⟩) := by
  subst hlen
  have hmod : (pre.length + Node.ETX_OTA_CRC32_SIZE) % 2 ^ 16 = pre.length + 4 :=
    Nat.mod_eq_of_lt h16
  have r4 := HAL_UART_Receive_at pre mem [c0, c1, c2, c3] ([e] ++ rest) pre.length
    Node.ETX_OTA_CRC32_SIZE reported rfl rfl (by simp only [Node.ETX_OTA_CRC32_SIZE]; omega)
  have r5 := HAL_UART_Receive_at (pre ++ [c0, c1, c2, c3]) (mem.drop Node.ETX_OTA_CRC32_SIZE)
    [e] rest (pre.length + 4) Node.ETX_OTA_EOF_SIZE
    (reported ++ [FwConfig.HAL_StatusTypeDef.HAL_OK]) (by simp) rfl
    (by simp only [Node.ETX_OTA_CRC32_SIZE, Node.ETX_OTA_EOF_SIZE, List.length_drop]; omega)
  have hdd : (mem.drop Node.ETX_OTA_CRC32_SIZE).drop Node.ETX_OTA_EOF_SIZE = mem.drop 5 := by
    rw [List.drop_drop]
    rfl
  rw [hdd] at r5
  simp only [Node.receive_crc_eof]
  rw [r4]
  simp only [Node.HAL_ret_handler, ne_eq, not_true_eq_false, if_false]
  rw [hmod, r5]
  simp only [Node.HAL_ret_handler, ne_eq, not_true_eq_false, if_false]
  rw [read_u32_frontier]

theorem firmware_crc32_mpeg2_append (data post : List Nat) :
    Firmware.crc32_mpeg2 (data ++ post) data.length = Firmware.crc32_mpeg2 data data.length := by
  unfold Firmware.crc32_mpeg2
  rw [crc32_mpeg2_eq_foldl (data ++ post) data.length (by simp), List.take_left' rfl,
    crc32_mpeg2_full]

/-- The three checks at the end of `etx_ota_receive_packet` on a buffer that holds a whole
frame: header fields `hdr`, Data field `data`, CRC32 field and EOF byte. -/
theorem receive_packet_checks_frontier (hdr data post : List Nat) (c0 c1 c2 c3 e crc : Nat)
    (hh : hdr.length = 4) :
    Node.etx_ota_receive_packet_checks (hdr ++ data ++ [c0, c1, c2, c3] ++ [e] ++ post)
        ((hdr ++ data).length + 4) data.length crc
      = if e ≠ ETX_OTA_EOF then ETX_OTA_Status.ETX_OTA_EC_ERR
        else if Firmware.crc32_mpeg2 data data.length ≠ crc then ETX_OTA_Status.ETX_OTA_EC_ERR
        else if ETX_OTA_PACKET_MAX_SIZE < (data.length + 9) % 2 ^ 16 then
          ETX_OTA_Status.ETX_OTA_EC_ERR
        else ETX_OTA_Status.ETX_OTA_EC_OK := by
  have he : (hdr ++ data ++ [c0, c1, c2, c3] ++ [e] ++ post).getD ((hdr ++ data).length + 4) 0
      = e := by
    have : (hdr ++ data ++ [c0, c1, c2, c3] ++ [e] ++ post)
        = (hdr ++ data ++ [c0, c1, c2, c3]) ++ ([e] ++ post) := by simp
    rw [this]
    have hl : (hdr ++ data).length + 4 = (hdr ++ data ++ [c0, c1, c2, c3]).length := by
      simp only [List.length_append, List.length_cons, List.length_nil]
    rw [hl, getD_append_length]
    rfl
  have hd : (hdr ++ data ++ [c0, c1, c2, c3] ++ [e] ++ post).drop ETX_OTA_DATA_FIELD_INDEX
      = data ++ ([c0, c1, c2, c3] ++ [e] ++ post) := by
    have : (hdr ++ data ++ [c0, c1, c2, c3] ++ [e] ++ post)
        = hdr ++ (data ++ ([c0, c1, c2, c3] ++ [e] ++ post)) := by simp
    rw [this]
    exact List.drop_left' hh
  have hl : ((hdr ++ data).length + 4 + 1) % 2 ^ 16 = (data.length + 9) % 2 ^ 16 := by
    rw [List.length_append, hh]
    congr 1
    omega
  simp only [Node.etx_ota_receive_packet_checks]
  rw [he, hd, firmware_crc32_mpeg2_append, hl]

/-- Reception of a whole frame after its SOF byte, on a line without faults. -/
theorem receive_after_sof_frame (sof kind l0 l1 c0 c1 c2 c3 e : Nat) (data mem rest : List Nat)
    (reported : List FwConfig.HAL_StatusTypeDef) (hn : data.length = l0 + 256 * l1)
    (hm : data.length + 8 ≤ mem.length) (h16 : data.length + 8 < 2 ^ 16) :
    (Node.receive_after_sof ([sof] ++ mem)
        ⟨[kind] ++ ([l0, l1] ++ (data ++ ([c0, c1, c2, c3] ++ ([e] ++ rest)))), [],
          reported⟩).1
      = (if ¬ (kind = ETX_OTA_PACKET_TYPE_CMD ∨ kind = ETX_OTA_PACKET_TYPE_DATA
            ∨ kind = ETX_OTA_PACKET_TYPE_HEADER ∨ kind = ETX_OTA_PACKET_TYPE_RESPONSE) then
          ETX_OTA_Status.ETX_OTA_EC_ERR
        else if e ≠ ETX_OTA_EOF then ETX_OTA_Status.ETX_OTA_EC_ERR
        else if Firmware.crc32_mpeg2 data data.length
            ≠ c0 + 256 * c1 + 65536 * c2 + 16777216 * c3 then ETX_OTA_Status.ETX_OTA_EC_ERR
        else if ETX_OTA_PACKET_MAX_SIZE < (data.length + 9) % 2 ^ 16 then
          ETX_OTA_Status.ETX_OTA_EC_ERR
        else ETX_OTA_Status.ETX_OTA_EC_OK)
    ∧ ((kind = ETX_OTA_PACKET_TYPE_CMD ∨ kind = ETX_OTA_PACKET_TYPE_DATA
          ∨ kind = ETX_OTA_PACKET_TYPE_HEADER ∨ kind = ETX_OTA_PACKET_TYPE_RESPONSE) →
        (Node.receive_after_sof ([sof] ++ mem)
          ⟨[kind] ++ ([l0, l1] ++ (data ++ ([c0, c1, c2, c3] ++ ([e] ++ rest)))), [],
            reported⟩).2.1
          = [sof, kind, l0, l1] ++ data ++ [c0, c1, c2, c3] ++ [e] ++ mem.drop (data.length + 8)
        ∧ (Node.receive_after_sof ([sof] ++ mem)
          ⟨[kind] ++ ([l0, l1] ++ (data ++ ([c0, c1, c2, c3] ++ ([e] ++ rest)))), [],
            reported⟩).2.2.rx = rest) := by
  have r1 := HAL_UART_Receive_at [sof] mem [kind]
    ([l0, l1] ++ (data ++ ([c0, c1, c2, c3] ++ ([e] ++ rest)))) 1 Node.ETX_OTA_PACKET_TYPE_SIZE
    reported rfl rfl (by simp only [Node.ETX_OTA_PACKET_TYPE_SIZE]; omega)
  have r2 := HAL_UART_Receive_at ([sof] ++ [kind]) (mem.drop Node.ETX_OTA_PACKET_TYPE_SIZE)
    [l0, l1] (data ++ ([c0, c1, c2, c3] ++ ([e] ++ rest))) 2 Node.ETX_OTA_DATA_LENGTH_SIZE
    (reported ++ [FwConfig.HAL_StatusTypeDef.HAL_OK]) rfl rfl
    (by simp only [Node.ETX_OTA_PACKET_TYPE_SIZE, Node.ETX_OTA_DATA_LENGTH_SIZE,
          List.length_drop]; omega)
  have r3 := receive_data_field_frontier data ([sof] ++ [kind] ++ [l0, l1])
    ((mem.drop Node.ETX_OTA_PACKET_TYPE_SIZE).drop Node.ETX_OTA_DATA_LENGTH_SIZE)
    ([c0, c1, c2, c3] ++ ([e] ++ rest))
    (reported ++ [FwConfig.HAL_StatusTypeDef.HAL_OK] ++ [FwConfig.HAL_StatusTypeDef.HAL_OK])
    (by simp only [Node.ETX_OTA_PACKET_TYPE_SIZE, Node.ETX_OTA_DATA_LENGTH_SIZE,
          List.length_drop]; omega)
    (by simp; omega)
  have r4 := receive_crc_eof_frontier ([sof] ++ [kind] ++ [l0, l1] ++ data)
    (((mem.drop Node.ETX_OTA_PACKET_TYPE_SIZE).drop Node.ETX_OTA_DATA_LENGTH_SIZE).drop
      data.length) rest c0 c1 c2 c3 e data.length
    (([sof] ++ [kind] ++ [l0, l1]).length + data.length)
    (reported ++ [FwConfig.HAL_StatusTypeDef.HAL_OK] ++ [FwConfig.HAL_StatusTypeDef.HAL_OK]
      ++ List.replicate data.length FwConfig.HAL_StatusTypeDef.HAL_OK)
    (by simp only [List.length_append, List.length_cons, List.length_nil])
    (by simp only [Node.ETX_OTA_PACKET_TYPE_SIZE, Node.ETX_OTA_DATA_LENGTH_SIZE,
          List.length_drop]; omega)
    (by simp; omega)
  have hmem : ((((mem.drop Node.ETX_OTA_PACKET_TYPE_SIZE).drop
      Node.ETX_OTA_DATA_LENGTH_SIZE).drop data.length).drop 5) = mem.drop (data.length + 8) := by
    simp only [List.drop_drop, Node.ETX_OTA_PACKET_TYPE_SIZE, Node.ETX_OTA_DATA_LENGTH_SIZE]
    congr 1
    omega
  have hk : ([sof] ++ [kind] ++ List.drop Node.ETX_OTA_PACKET_TYPE_SIZE mem).getD 1 0 = kind :=
    rfl
  have hlen : read_u16 ([sof] ++ [kind] ++ [l0, l1]
      ++ List.drop Node.ETX_OTA_DATA_LENGTH_SIZE (List.drop Node.ETX_OTA_PACKET_TYPE_SIZE mem)) 2
      = data.length := by
    rw [hn]
    exact read_u16_frontier ([sof] ++ [kind]) _ l0 l1
  have hchk := receive_packet_checks_frontier ([sof] ++ [kind] ++ [l0, l1]) data
    (mem.drop (data.length + 8)) c0 c1 c2 c3 e
    (c0 + 256 * c1 + 65536 * c2 + 16777216 * c3) rfl
  rw [hmem] at r4
  simp only [Node.receive_after_sof]
  rw [r1]
  simp only [Node.HAL_ret_handler, ne_eq, not_true_eq_false, if_false]
  rw [hk]
  by_cases hkind : kind = ETX_OTA_PACKET_TYPE_CMD ∨ kind = ETX_OTA_PACKET_TYPE_DATA
      ∨ kind = ETX_OTA_PACKET_TYPE_HEADER ∨ kind = ETX_OTA_PACKET_TYPE_RESPONSE
  · rw [if_neg (not_not.mpr hkind), if_neg (not_not.mpr hkind), r2]
    simp only [Node.HAL_ret_handler, ne_eq, not_true_eq_false, if_false]
    rw [hlen]
    have h22 : 2 + Node.ETX_OTA_DATA_LENGTH_SIZE = ([sof] ++ [kind] ++ [l0, l1]).length := rfl
    rw [h22, r3]
    simp only [ne_eq, not_true_eq_false, if_false]
    rw [r4, hchk]
    exact ⟨rfl, fun _ => ⟨rfl, rfl⟩⟩
  · rw [if_pos hkind, if_pos hkind]
    exact ⟨rfl, fun h => absurd h hkind⟩

/-- Reception of a whole frame on a line without faults, from a buffer whose first byte was
cleared and that is long enough to hold the frame: the status is decided by the SOF byte, the
Packet Type, the EOF byte, the checksum of the Data field and the 16-bit frame length, in this
order, and the buffer then starts with the bytes of the frame. -/
theorem receive_packet_frame (Rx_Buffer : List Nat) (sof kind : Nat) (data : List Nat)
    (crc eof : Nat) (rest : List Nat) (reported : List FwConfig.HAL_StatusTypeDef)
    (h0 : Rx_Buffer.getD 0 0 = 0) (hfit : data.length + 9 ≤ Rx_Buffer.length)
    (h16 : data.length + 8 < 2 ^ 16) (hcrc : crc < 2 ^ 32) :
    (Node.etx_ota_receive_packet Rx_Buffer
        ⟨Node.packet_bytes sof kind data crc eof ++ rest, [], reported⟩).1
      = (if sof ≠ ETX_OTA_SOF then ETX_OTA_Status.ETX_OTA_EC_ERR
        else if ¬ (kind = ETX_OTA_PACKET_TYPE_CMD ∨ kind = ETX_OTA_PACKET_TYPE_DATA
            ∨ kind = ETX_OTA_PACKET_TYPE_HEADER ∨ kind = ETX_OTA_PACKET_TYPE_RESPONSE) then
          ETX_OTA_Status.ETX_OTA_EC_ERR
        else if eof ≠ ETX_OTA_EOF then ETX_OTA_Status.ETX_OTA_EC_ERR
        else if Firmware.crc32_mpeg2 data data.length ≠ crc then ETX_OTA_Status.ETX_OTA_EC_ERR
        else if ETX_OTA_PACKET_MAX_SIZE < (data.length + 9) % 2 ^ 16 then
          ETX_OTA_Status.ETX_OTA_EC_ERR
        else ETX_OTA_Status.ETX_OTA_EC_OK)
    ∧ (sof = ETX_OTA_SOF →
        (kind = ETX_OTA_PACKET_TYPE_CMD ∨ kind = ETX_OTA_PACKET_TYPE_DATA
          ∨ kind = ETX_OTA_PACKET_TYPE_HEADER ∨ kind = ETX_OTA_PACKET_TYPE_RESPONSE) →
        (Node.etx_ota_receive_packet Rx_Buffer
          ⟨Node.packet_bytes sof kind data crc eof ++ rest, [], reported⟩).2.1
          = Node.packet_bytes sof kind data crc eof ++ Rx_Buffer.drop (data.length + 9)
        ∧ (Node.etx_ota_receive_packet Rx_Buffer
          ⟨Node.packet_bytes sof kind data crc eof ++ rest, [], reported⟩).2.2.rx = rest) := by
  have hbytes : Node.packet_bytes sof kind data crc eof ++ rest
      = [sof] ++ ([kind] ++ ([data.length % 256, data.length / 256 % 256]
          ++ (data ++ ([crc % 256, crc / 256 % 256, crc / 65536 % 256, crc / 16777216 % 256]
            ++ ([eof] ++ rest))))) := by
    simp [Node.packet_bytes, u16_bytes, u32_bytes]
  have hpk : Node.packet_bytes sof kind data crc eof
      = [sof, kind, data.length % 256, data.length / 256 % 256] ++ data
        ++ [crc % 256, crc / 256 % 256, crc / 65536 % 256, crc / 16777216 % 256] ++ [eof] := by
    simp [Node.packet_bytes, u16_bytes, u32_bytes]
  have hn : data.length = data.length % 256 + 256 * (data.length / 256 % 256) := by omega
  have hc : crc % 256 + 256 * (crc / 256 % 256) + 65536 * (crc / 65536 % 256)
      + 16777216 * (crc / 16777216 % 256) = crc := by omega
  have r0 := HAL_UART_Receive_at [] Rx_Buffer [sof]
    ([kind] ++ ([data.length % 256, data.length / 256 % 256]
      ++ (data ++ ([crc % 256, crc / 256 % 256, crc / 65536 % 256, crc / 16777216 % 256]
        ++ ([eof] ++ rest))))) 0 Node.ETX_OTA_SOF_SIZE reported rfl rfl
    (by simp only [Node.ETX_OTA_SOF_SIZE]; omega)
  simp only [List.nil_append] at r0
  obtain ⟨a1, a2⟩ := receive_after_sof_frame sof kind (data.length % 256)
    (data.length / 256 % 256) (crc % 256) (crc / 256 % 256) (crc / 65536 % 256)
    (crc / 16777216 % 256) eof data (Rx_Buffer.drop Node.ETX_OTA_SOF_SIZE) rest
    (reported ++ [FwConfig.HAL_StatusTypeDef.HAL_OK]) hn
    (by simp only [Node.ETX_OTA_SOF_SIZE, List.length_drop]; omega) h16
  rw [hc] at a1
  have hs : ([sof] ++ List.drop Node.ETX_OTA_SOF_SIZE Rx_Buffer).getD 0 0 = sof := rfl
  have hdrop : (Rx_Buffer.drop Node.ETX_OTA_SOF_SIZE).drop (data.length + 8)
      = Rx_Buffer.drop (data.length + 9) := by
    rw [List.drop_drop]
    congr 1
    simp only [Node.ETX_OTA_SOF_SIZE]
    omega
  simp only [Node.etx_ota_receive_packet]
  rw [if_pos h0, hbytes, r0]
  simp only [Node.HAL_ret_handler, ne_eq, not_true_eq_false, if_false]
  rw [hs]
  by_cases hsof : sof = ETX_OTA_SOF
  · rw [if_neg (not_not.mpr hsof), if_neg (not_not.mpr hsof), a1]
    refine ⟨rfl, fun _ hk => ?_⟩
    obtain ⟨b1, b2⟩ := a2 hk
    rw [b1, b2, hdrop, hpk]
    exact ⟨rfl, rfl⟩
  · rw [if_pos hsof, if_pos hsof]
    exact ⟨rfl, fun h => absurd h hsof⟩

/-- Reception of a whole frame that arrives on a line without faults, inside a transaction or
at its start: the start marker is tested only when `etx_ota_receive_packet` reads it itself. -/
theorem receive_packet_arrives (Rx_Buffer : List Nat) (u : Node.Uart) (sof kind : Nat)
    (data : List Nat) (crc eof : Nat) (rest : List Nat)
    (harr : Node.frame_arrives Rx_Buffer u (Node.packet_bytes sof kind data crc eof) rest)
    (hfit : data.length + 9 ≤ Rx_Buffer.length) (h16 : data.length + 8 < 2 ^ 16)
    (hcrc : crc < 2 ^ 32) :
    (Node.etx_ota_receive_packet Rx_Buffer u).1
      = (if Rx_Buffer.getD 0 0 = 0 ∧ sof ≠ ETX_OTA_SOF then ETX_OTA_Status.ETX_OTA_EC_ERR
        else if ¬ (kind = ETX_OTA_PACKET_TYPE_CMD ∨ kind = ETX_OTA_PACKET_TYPE_DATA
            ∨ kind = ETX_OTA_PACKET_TYPE_HEADER ∨ kind = ETX_OTA_PACKET_TYPE_RESPONSE) then
          ETX_OTA_Status.ETX_OTA_EC_ERR
        else if eof ≠ ETX_OTA_EOF then ETX_OTA_Status.ETX_OTA_EC_ERR
        else if Firmware.crc32_mpeg2 data data.length ≠ crc then ETX_OTA_Status.ETX_OTA_EC_ERR
        else if ETX_OTA_PACKET_MAX_SIZE < (data.length + 9) % 2 ^ 16 then
          ETX_OTA_Status.ETX_OTA_EC_ERR
        else ETX_OTA_Status.ETX_OTA_EC_OK)
    ∧ (¬ (Rx_Buffer.getD 0 0 = 0 ∧ sof ≠ ETX_OTA_SOF) →
        (kind = ETX_OTA_PACKET_TYPE_CMD ∨ kind = ETX_OTA_PACKET_TYPE_DATA
          ∨ kind = ETX_OTA_PACKET_TYPE_HEADER ∨ kind = ETX_OTA_PACKET_TYPE_RESPONSE) →
        (Node.etx_ota_receive_packet Rx_Buffer u).2.1
          = Node.packet_bytes sof kind data crc eof ++ Rx_Buffer.drop (data.length + 9)
        ∧ (Node.etx_ota_receive_packet Rx_Buffer u).2.2.rx = rest) := by
  obtain ⟨rx, hal, reported⟩ := u
  obtain ⟨hhal, harr⟩ := harr
  simp only at hhal harr
  subst hhal
  rcases harr with ⟨h0, hrx⟩ | ⟨hn0, hb, hrx⟩
  · subst hrx
    obtain ⟨a1, a2⟩ := receive_packet_frame Rx_Buffer sof kind data crc eof rest reported h0
      hfit h16 hcrc
    refine ⟨?_, fun hs hk => ?_⟩
    · rw [a1]
      by_cases hsof : sof = ETX_OTA_SOF
      · rw [if_neg (show ¬ (sof ≠ ETX_OTA_SOF) from not_not.mpr hsof),
          if_neg (show ¬ (Rx_Buffer.getD 0 0 = 0 ∧ sof ≠ ETX_OTA_SOF) from fun h => h.2 hsof)]
      · rw [if_pos (show sof ≠ ETX_OTA_SOF from hsof),
          if_pos (show Rx_Buffer.getD 0 0 = 0 ∧ sof ≠ ETX_OTA_SOF from ⟨h0, hsof⟩)]
    · exact a2 (by_contra fun h => hs ⟨h0, h⟩) hk
  · subst hrx
    have hsof : Rx_Buffer.getD 0 0 = sof := hb
    have hRx : Rx_Buffer = [sof] ++ Rx_Buffer.tail := by
      cases Rx_Buffer with
      | nil => simp at hfit
      | cons a l =>
        have : a = sof := hsof
        rw [this]
        rfl
    have htail : (Node.packet_bytes sof kind data crc eof).tail ++ rest
        = [kind] ++ ([data.length % 256, data.length / 256 % 256]
          ++ (data ++ ([crc % 256, crc / 256 % 256, crc / 65536 % 256, crc / 16777216 % 256]
            ++ ([eof] ++ rest)))) := by
      simp [Node.packet_bytes, u16_bytes, u32_bytes]
    have hpk : Node.packet_bytes sof kind data crc eof
        = [sof, kind, data.length % 256, data.length / 256 % 256] ++ data
          ++ [crc % 256, crc / 256 % 256, crc / 65536 % 256, crc / 16777216 % 256] ++ [eof] := by
      simp [Node.packet_bytes, u16_bytes, u32_bytes]
    have hn : data.length = data.length % 256 + 256 * (data.length / 256 % 256) := by omega
    have hc : crc % 256 + 256 * (crc / 256 % 256) + 65536 * (crc / 65536 % 256)
        + 16777216 * (crc / 16777216 % 256) = crc := by omega
    have hlt : Rx_Buffer.tail.length = Rx_Buffer.length - 1 := List.length_tail _
    obtain ⟨a1, a2⟩ := receive_after_sof_frame sof kind (data.length % 256)
      (data.length / 256 % 256) (crc % 256) (crc / 256 % 256) (crc / 65536 % 256)
      (crc / 16777216 % 256) eof data Rx_Buffer.tail rest reported hn (by omega) h16
    rw [hc] at a1
    have hdrop : Rx_Buffer.tail.drop (data.length + 8) = Rx_Buffer.drop (data.length + 9) := by
      rw [← List.drop_one, List.drop_drop]
      congr 1
      omega
    have hrecv : Node.etx_ota_receive_packet Rx_Buffer
        ⟨(Node.packet_bytes sof kind data crc eof).tail ++ rest, [], reported⟩
        = Node.receive_after_sof ([sof] ++ Rx_Buffer.tail)
          ⟨[kind] ++ ([data.length % 256, data.length / 256 % 256]
            ++ (data ++ ([crc % 256, crc / 256 % 256, crc / 65536 % 256, crc / 16777216 % 256]
              ++ ([eof] ++ rest)))), [], reported⟩ := by
      simp only [Node.etx_ota_receive_packet]
      rw [if_neg hn0, htail, ← hRx]
    rw [hrecv, a1,
      if_neg (show ¬ (Rx_Buffer.getD 0 0 = 0 ∧ sof ≠ ETX_OTA_SOF) from fun h => hn0 h.1)]
    refine ⟨rfl, fun _ hk => ?_⟩
    obtain ⟨b1, b2⟩ := a2 hk
    rw [b1, b2, hdrop, hpk]
    exact ⟨rfl, rfl⟩

/-! ## What the blocking reads report -/

theorem HAL_UART_Receive_reports (buf : List Nat) (idx Size : Nat) (u : Node.Uart) :
    (Node.HAL_UART_Receive buf idx Size u).2.2.reported
      = u.reported ++ [(Node.HAL_UART_Receive buf idx Size u).1] := by
  unfold Node.HAL_UART_Receive
  split
  · split <;> rfl
  · rfl

theorem HAL_ret_handler_ok_iff (h : FwConfig.HAL_StatusTypeDef) :
    Node.HAL_ret_handler h = ETX_OTA_Status.ETX_OTA_EC_OK
      ↔ h = FwConfig.HAL_StatusTypeDef.HAL_OK := by
  cases h <;> simp [Node.HAL_ret_handler]

theorem reports_agree_all_ok (t : List FwConfig.HAL_StatusTypeDef) (st : ETX_OTA_Status)
    (h : ∀ x ∈ t, x = FwConfig.HAL_StatusTypeDef.HAL_OK) : Node.reports_agree t st := by
  refine ⟨fun _ => h, fun hb => ?_⟩
  cases hb with
  | inl hb => exact absurd (h _ hb) (by decide)
  | inr hb => exact absurd (h _ hb) (by decide)

theorem reports_agree_append (t1 t2 : List FwConfig.HAL_StatusTypeDef) (st : ETX_OTA_Status)
    (h1 : ∀ x ∈ t1, x = FwConfig.HAL_StatusTypeDef.HAL_OK) (h2 : Node.reports_agree t2 st) :
    Node.reports_agree (t1 ++ t2) st := by
  refine ⟨fun hok x hx => ?_, fun hb => h2.2 ?_⟩
  · cases List.mem_append.mp hx with
    | inl hx => exact h1 x hx
    | inr hx => exact h2.1 hok x hx
  · cases hb with
    | inl hb =>
      cases List.mem_append.mp hb with
      | inl hb => exact absurd (h1 _ hb) (by decide)
      | inr hb => exact Or.inl hb
    | inr hb =>
      cases List.mem_append.mp hb with
      | inl hb => exact absurd (h1 _ hb) (by decide)
      | inr hb => exact Or.inr hb

theorem reports_agree_failed (h : FwConfig.HAL_StatusTypeDef)
    (hne : Node.HAL_ret_handler h ≠ ETX_OTA_Status.ETX_OTA_EC_OK) :
    Node.reports_agree [h] (Node.HAL_ret_handler h) := by
  refine ⟨fun hok => absurd hok hne, fun hb => ?_⟩
  cases hb with
  | inl hb =>
    rw [← List.mem_singleton.mp hb]
    rfl
  | inr hb =>
    rw [← List.mem_singleton.mp hb]
    rfl

theorem mem_singleton_ok (h : FwConfig.HAL_StatusTypeDef)
    (hok : Node.HAL_ret_handler h = ETX_OTA_Status.ETX_OTA_EC_OK) :
    ∀ x ∈ [h], x = FwConfig.HAL_StatusTypeDef.HAL_OK := by
  intro x hx
  rw [List.mem_singleton] at hx
  rw [hx]
  exact (HAL_ret_handler_ok_iff h).mp hok

theorem receive_data_field_reports (n : Nat) :
    ∀ (len : Nat) (buf : List Nat) (u : Node.Uart),
      ∃ t, (Node.receive_data_field n len buf u).2.2.2.reported = u.reported ++ t
        ∧ Node.reports_agree t (Node.receive_data_field n len buf u).1 := by
  induction n with
  | zero =>
    intro len buf u
    exact ⟨[], by simp [Node.receive_data_field], reports_agree_all_ok _ _ (by simp)⟩
  | succ n ih =>
    intro len buf u
    have hrep := HAL_UART_Receive_reports buf len 1 u
    simp only [Node.receive_data_field]
    by_cases hok : Node.HAL_ret_handler (Node.HAL_UART_Receive buf len 1 u).1
        = ETX_OTA_Status.ETX_OTA_EC_OK
    · rw [if_neg (not_not.mpr hok)]
      obtain ⟨t, ht, hR⟩ := ih ((len + 1) % 2 ^ 16) (Node.HAL_UART_Receive buf len 1 u).2.1
        (Node.HAL_UART_Receive buf len 1 u).2.2
      refine ⟨[(Node.HAL_UART_Receive buf len 1 u).1] ++ t, ?_, ?_⟩
      · rw [ht, hrep, List.append_assoc]
      · exact reports_agree_append _ _ _ (mem_singleton_ok _ hok) hR
    · rw [if_pos hok]
      exact ⟨[(Node.HAL_UART_Receive buf len 1 u).1], hrep, reports_agree_failed _ hok⟩

theorem receive_crc_eof_reports (data_len len : Nat) (buf : List Nat) (u : Node.Uart) :
    ∃ t, (Node.receive_crc_eof data_len len buf u).2.2.reported = u.reported ++ t
      ∧ Node.reports_agree t (Node.receive_crc_eof data_len len buf u).1 := by
  have h4 := HAL_UART_Receive_reports buf len Node.ETX_OTA_CRC32_SIZE u
  simp only [Node.receive_crc_eof]
  generalize Node.HAL_UART_Receive buf len Node.ETX_OTA_CRC32_SIZE u = r4 at h4 ⊢
  by_cases hok : Node.HAL_ret_handler r4.1 = ETX_OTA_Status.ETX_OTA_EC_OK
  · rw [if_neg (not_not.mpr hok)]
    have h5 := HAL_UART_Receive_reports r4.2.1 ((len + Node.ETX_OTA_CRC32_SIZE) % 2 ^ 16)
      Node.ETX_OTA_EOF_SIZE r4.2.2
    generalize Node.HAL_UART_Receive r4.2.1 ((len + Node.ETX_OTA_CRC32_SIZE) % 2 ^ 16)
      Node.ETX_OTA_EOF_SIZE r4.2.2 = r5 at h5 ⊢
    by_cases hok5 : Node.HAL_ret_handler r5.1 = ETX_OTA_Status.ETX_OTA_EC_OK
    · rw [if_neg (not_not.mpr hok5)]
      refine ⟨[r4.1] ++ [r5.1], ?_, ?_⟩
      · rw [h5, h4, List.append_assoc]
      · exact reports_agree_append _ _ _ (mem_singleton_ok _ hok)
          (reports_agree_all_ok _ _ (mem_singleton_ok _ hok5))
    · rw [if_pos hok5]
      refine ⟨[r4.1] ++ [r5.1], ?_, ?_⟩
      · rw [h5, h4, List.append_assoc]
      · exact reports_agree_append _ _ _ (mem_singleton_ok _ hok) (reports_agree_failed _ hok5)
  · rw [if_pos hok]
    exact ⟨[r4.1], h4, reports_agree_failed _ hok⟩

theorem receive_after_sof_reports (buf : List Nat) (u : Node.Uart) :
    ∃ t, (Node.receive_after_sof buf u).2.2.reported = u.reported ++ t
      ∧ Node.reports_agree t (Node.receive_after_sof buf u).1 := by
  have h1 := HAL_UART_Receive_reports buf 1 Node.ETX_OTA_PACKET_TYPE_SIZE u
  simp only [Node.receive_after_sof]
  generalize Node.HAL_UART_Receive buf 1 Node.ETX_OTA_PACKET_TYPE_SIZE u = r1 at h1 ⊢
  by_cases hok1 : Node.HAL_ret_handler r1.1 = ETX_OTA_Status.ETX_OTA_EC_OK
  · rw [if_neg (not_not.mpr hok1)]
    split
    · exact ⟨[r1.1], h1, reports_agree_all_ok _ _ (mem_singleton_ok _ hok1)⟩
    · have h2 := HAL_UART_Receive_reports r1.2.1 2 Node.ETX_OTA_DATA_LENGTH_SIZE r1.2.2
      generalize Node.HAL_UART_Receive r1.2.1 2 Node.ETX_OTA_DATA_LENGTH_SIZE r1.2.2 = r2
        at h2 ⊢
      by_cases hok2 : Node.HAL_ret_handler r2.1 = ETX_OTA_Status.ETX_OTA_EC_OK
      · rw [if_neg (not_not.mpr hok2)]
        obtain ⟨t3, h3, R3⟩ := receive_data_field_reports (read_u16 r2.2.1 2)
          (2 + Node.ETX_OTA_DATA_LENGTH_SIZE) r2.2.1 r2.2.2
        generalize Node.receive_data_field (read_u16 r2.2.1 2)
          (2 + Node.ETX_OTA_DATA_LENGTH_SIZE) r2.2.1 r2.2.2 = r3 at h3 R3 ⊢
        by_cases hok3 : r3.1 = ETX_OTA_Status.ETX_OTA_EC_OK
        · rw [if_neg (not_not.mpr hok3)]
          obtain ⟨t4, h4, R4⟩ := receive_crc_eof_reports (read_u16 r2.2.1 2) r3.2.1 r3.2.2.1
            r3.2.2.2
          refine ⟨[r1.1] ++ ([r2.1] ++ (t3 ++ t4)), ?_, ?_⟩
          · rw [h4, h3, h2, h1]
            simp only [List.append_assoc]
          · exact reports_agree_append _ _ _ (mem_singleton_ok _ hok1)
              (reports_agree_append _ _ _ (mem_singleton_ok _ hok2)
                (reports_agree_append _ _ _ (R3.1 hok3) R4))
        · rw [if_pos hok3]
          refine ⟨[r1.1] ++ ([r2.1] ++ t3), ?_, ?_⟩
          · show r3.2.2.2.reported = _
            rw [h3, h2, h1]
            simp only [List.append_assoc]
          · exact reports_agree_append _ _ _ (mem_singleton_ok _ hok1)
              (reports_agree_append _ _ _ (mem_singleton_ok _ hok2) R3)
      · rw [if_pos hok2]
        refine ⟨[r1.1] ++ [r2.1], ?_, ?_⟩
        · rw [h2, h1, List.append_assoc]
        · exact reports_agree_append _ _ _ (mem_singleton_ok _ hok1)
            (reports_agree_failed _ hok2)
  · rw [if_pos hok1]
    exact ⟨[r1.1], h1, reports_agree_failed _ hok1⟩

/-- The statuses the blocking reads of one call of `etx_ota_receive_packet` report agree with
the status the call returns. -/
theorem receive_packet_reports (Rx_Buffer : List Nat) (u : Node.Uart) :
    ∃ t, (Node.etx_ota_receive_packet Rx_Buffer u).2.2.reported = u.reported ++ t
      ∧ Node.reports_agree t (Node.etx_ota_receive_packet Rx_Buffer u).1 := by
  simp only [Node.etx_ota_receive_packet]
  split
  · have h0 := HAL_UART_Receive_reports Rx_Buffer 0 Node.ETX_OTA_SOF_SIZE u
    generalize Node.HAL_UART_Receive Rx_Buffer 0 Node.ETX_OTA_SOF_SIZE u = r0 at h0 ⊢
    by_cases hok0 : Node.HAL_ret_handler r0.1 = ETX_OTA_Status.ETX_OTA_EC_OK
    · rw [if_neg (not_not.mpr hok0)]
      split
      · exact ⟨[r0.1], h0, reports_agree_all_ok _ _ (mem_singleton_ok _ hok0)⟩
      · obtain ⟨t, ht, hR⟩ := receive_after_sof_reports r0.2.1 r0.2.2
        refine ⟨[r0.1] ++ t, ?_, reports_agree_append _ _ _ (mem_singleton_ok _ hok0) hR⟩
        rw [ht, h0, List.append_assoc]
    · rw [if_pos hok0]
      exact ⟨[r0.1], h0, reports_agree_failed _ hok0⟩
  · exact receive_after_sof_reports Rx_Buffer u

/-! ## Responses of the transaction loop -/

theorem process_data_status (buf : List Nat) (s : Node.State) :
    (Node.etx_ota_process_data buf s).1 ≠ ETX_OTA_Status.ETX_OTA_EC_NR := by
  simp only [Node.etx_ota_process_data]
  split
  · simp
  · cases s.etx_ota_state <;> dsimp only <;> repeat' split
    all_goals simp

theorem transaction_body_ok (buf : List Nat) (s : Node.State) :
    ((Node.etx_ota_process_data buf s).1 = ETX_OTA_Status.ETX_OTA_EC_OK
        ∨ (Node.etx_ota_process_data buf s).1 = ETX_OTA_Status.ETX_OTA_EC_STOP →
      (Node.start_etx_ota_transaction_body ETX_OTA_Status.ETX_OTA_EC_OK buf s).out
        = [Node.Output.resp ETX_OTA_ACK])
    ∧ ((Node.etx_ota_process_data buf s).1 = ETX_OTA_Status.ETX_OTA_EC_NA
        ∨ (Node.etx_ota_process_data buf s).1 = ETX_OTA_Status.ETX_OTA_EC_ERR →
      (Node.start_etx_ota_transaction_body ETX_OTA_Status.ETX_OTA_EC_OK buf s).out
        = [Node.Output.resp ETX_OTA_NACK])
    ∧ (Node.responses
        (Node.start_etx_ota_transaction_body ETX_OTA_Status.ETX_OTA_EC_OK buf s).out).length
        = 1 := by
  have hnr := process_data_status buf s
  simp only [Node.start_etx_ota_transaction_body]
  generalize Node.etx_ota_process_data buf s = r at hnr ⊢
  obtain ⟨st, s1⟩ := r
  cases st
  · simp [Node.responses]
  · simp [Node.responses]
  · exact absurd rfl hnr
  · simp [Node.responses]
  · simp [Node.responses]

/-- C14: for every state and every frame that `etx_ota_receive_packet` accepts, the pass of the
loop of `start_etx_ota_transaction` sends exactly one Response Type Packet: an Ack when
`etx_ota_process_data` returns OK or Stop, a Nack when it returns Not Applicable or the error
outcome; `etx_ota_process_data` never returns No Response, so the branch that sends nothing is
not taken. -/
theorem one_response_per_frame (Rx_Buffer : List Nat) (u : Node.Uart) (s : Node.State)
    (hrecv : (Node.etx_ota_receive_packet Rx_Buffer u).1 = ETX_OTA_Status.ETX_OTA_EC_OK) :
    (Node.etx_ota_process_data (Node.etx_ota_receive_packet Rx_Buffer u).2.1 s).1
        ≠ ETX_OTA_Status.ETX_OTA_EC_NR
    ∧ ((Node.etx_ota_process_data (Node.etx_ota_receive_packet Rx_Buffer u).2.1 s).1
          = ETX_OTA_Status.ETX_OTA_EC_OK
        ∨ (Node.etx_ota_process_data (Node.etx_ota_receive_packet Rx_Buffer u).2.1 s).1
          = ETX_OTA_Status.ETX_OTA_EC_STOP →
      (Node.start_etx_ota_transaction_iteration Rx_Buffer u s).1.out
        = [Node.Output.resp ETX_OTA_ACK])
    ∧ ((Node.etx_ota_process_data (Node.etx_ota_receive_packet Rx_Buffer u).2.1 s).1
          = ETX_OTA_Status.ETX_OTA_EC_NA
        ∨ (Node.etx_ota_process_data (Node.etx_ota_receive_packet Rx_Buffer u).2.1 s).1
          = ETX_OTA_Status.ETX_OTA_EC_ERR →
      (Node.start_etx_ota_transaction_iteration Rx_Buffer u s).1.out
        = [Node.Output.resp ETX_OTA_NACK])
    ∧ (Node.responses (Node.start_etx_ota_transaction_iteration Rx_Buffer u s).1.out).length
        = 1 := by
  simp only [Node.start_etx_ota_transaction_iteration]
  rw [hrecv]
  exact ⟨process_data_status _ _, transaction_body_ok _ _⟩

/-- Witness for C14: the Start command as first frame of a transaction, its SOF byte already
in `Rx_Buffer[0]`. -/
theorem one_response_per_frame_witness :
    (Node.start_etx_ota_transaction_iteration (ETX_OTA_SOF :: List.replicate 1032 0)
        ⟨Host.etx_ota_start_packet.tail, [], []⟩
        ⟨ETX_OTA_State.ETX_OTA_STATE_START, 0, ⟨0, 0, []⟩⟩).1.out
      = [Node.Output.resp ETX_OTA_ACK] :=
  (one_response_per_frame (ETX_OTA_SOF :: List.replicate 1032 0)
    ⟨Host.etx_ota_start_packet.tail, [], []⟩
    ⟨ETX_OTA_State.ETX_OTA_STATE_START, 0, ⟨0, 0, []⟩⟩ (by decide)).2.1 (by decide)

/-- C16, as stated, fails: a Header Type Packet that announces an Application Firmware Image,
received in state Header, is answered with a Nack before the transaction ends with the Not
Applicable outcome. -/
theorem not_applicable_is_nacked :
    (Node.start_etx_ota_transaction_iteration (List.replicate ETX_OTA_PACKET_MAX_SIZE 0)
        ⟨Host.etx_ota_header_packet
          ⟨1024, 0, 0xFFFFFFFF, 0xFFFF, 0xFF, ETX_OTA_Application_Firmware_Image⟩, [], []⟩
        ⟨ETX_OTA_State.ETX_OTA_STATE_HEADER, 0, ⟨0, 0, []⟩⟩).1.out
      = [Node.Output.resp ETX_OTA_NACK]
    ∧ (Node.start_etx_ota_transaction_iteration (List.replicate ETX_OTA_PACKET_MAX_SIZE 0)
        ⟨Host.etx_ota_header_packet
          ⟨1024, 0, 0xFFFFFFFF, 0xFFFF, 0xFF, ETX_OTA_Application_Firmware_Image⟩, [], []⟩
        ⟨ETX_OTA_State.ETX_OTA_STATE_HEADER, 0, ⟨0, 0, []⟩⟩).1.ret
      = some ETX_OTA_Status.ETX_OTA_EC_NA := by
  decide

/-- C16 (amended): when a Header Type Packet declaring an Application or Bootloader Firmware
Image is processed in state Header, the pass of the transaction loop sends exactly one Response
Type Packet, a Nack, and ends the transaction with the Not Applicable outcome, the state being
left as it was. -/
theorem not_applicable_sends_nack (buf : List Nat) (s : Node.State)
    (hs : s.etx_ota_state = ETX_OTA_State.ETX_OTA_STATE_HEADER)
    (ht : buf.getD 1 0 = ETX_OTA_PACKET_TYPE_HEADER)
    (hp : buf.getD (ETX_OTA_DATA_FIELD_INDEX + 15) 0 = ETX_OTA_Application_Firmware_Image
      ∨ buf.getD (ETX_OTA_DATA_FIELD_INDEX + 15) 0 = ETX_OTA_Bootloader_Firmware_Image) :
    (Node.start_etx_ota_transaction_body ETX_OTA_Status.ETX_OTA_EC_OK buf s).out
      = [Node.Output.resp ETX_OTA_NACK]
    ∧ (Node.start_etx_ota_transaction_body ETX_OTA_Status.ETX_OTA_EC_OK buf s).ret
      = some ETX_OTA_Status.ETX_OTA_EC_NA
    ∧ (Node.start_etx_ota_transaction_body ETX_OTA_Status.ETX_OTA_EC_OK buf s).st = s := by
  have hna : ¬ (buf.getD 1 0 = ETX_OTA_PACKET_TYPE_CMD ∧ buf.getD 4 0 = ETX_OTA_CMD_ABORT) := by
    rw [ht]
    intro h
    exact absurd h.1 (by decide)
  have e : Node.etx_ota_process_data buf s = (ETX_OTA_Status.ETX_OTA_EC_NA, s) := by
    simp only [Node.etx_ota_process_data]
    rw [if_neg hna, hs]
    dsimp only
    rw [if_pos ht, if_pos hp]
  simp only [Node.start_etx_ota_transaction_body]
  rw [e]
  exact ⟨rfl, rfl, rfl⟩

/-- Witness for C16 (amended): a Header Type Packet announcing a Bootloader Firmware Image. -/
theorem not_applicable_sends_nack_witness :
    (Node.start_etx_ota_transaction_body ETX_OTA_Status.ETX_OTA_EC_OK
        (Host.etx_ota_header_packet
          ⟨2048, 0, 0xFFFFFFFF, 0xFFFF, 0xFF, ETX_OTA_Bootloader_Firmware_Image⟩)
        ⟨ETX_OTA_State.ETX_OTA_STATE_HEADER, 0, ⟨0, 0, []⟩⟩).out
      = [Node.Output.resp ETX_OTA_NACK] :=
  (not_applicable_sends_nack
    (Host.etx_ota_header_packet
      ⟨2048, 0, 0xFFFFFFFF, 0xFFFF, 0xFF, ETX_OTA_Bootloader_Firmware_Image⟩)
    ⟨ETX_OTA_State.ETX_OTA_STATE_HEADER, 0, ⟨0, 0, []⟩⟩ rfl (by decide)
    (Or.inr (by decide))).1

/-- C17: if a blocking read inside `etx_ota_receive_packet` reports busy or timeout, the call
returns No Response, and the pass of the loop of `start_etx_ota_transaction` returns No
Response (which is not the error outcome), sends no Response Type Packet, arms the one-byte
reception again and leaves the state as it was. -/
theorem timeout_not_fatal (Rx_Buffer : List Nat) (u : Node.Uart) (s : Node.State)
    (t : List FwConfig.HAL_StatusTypeDef)
    (ht : (Node.etx_ota_receive_packet Rx_Buffer u).2.2.reported = u.reported ++ t)
    (hb : FwConfig.HAL_StatusTypeDef.HAL_BUSY ∈ t ∨ FwConfig.HAL_StatusTypeDef.HAL_TIMEOUT ∈ t) :
    (Node.etx_ota_receive_packet Rx_Buffer u).1 = ETX_OTA_Status.ETX_OTA_EC_NR
    ∧ (Node.start_etx_ota_transaction_iteration Rx_Buffer u s).1.ret
        = some ETX_OTA_Status.ETX_OTA_EC_NR
    ∧ ETX_OTA_Status.ETX_OTA_EC_NR ≠ ETX_OTA_Status.ETX_OTA_EC_ERR
    ∧ (Node.start_etx_ota_transaction_iteration Rx_Buffer u s).1.out = [Node.Output.receive_it]
    ∧ Node.responses (Node.start_etx_ota_transaction_iteration Rx_Buffer u s).1.out = []
    ∧ (Node.start_etx_ota_transaction_iteration Rx_Buffer u s).1.st = s := by
  obtain ⟨t1, ht1, hR⟩ := receive_packet_reports Rx_Buffer u
  have ht' : t1 = t := List.append_cancel_left (ht1.symm.trans ht)
  rw [ht'] at hR
  have hnr := hR.2 hb
  simp only [Node.start_etx_ota_transaction_iteration]
  rw [hnr]
  exact ⟨rfl, rfl, by decide, rfl, rfl, rfl⟩

/-- Witness for C17: at the start of a transaction the line goes silent after the Packet
Type. -/
theorem timeout_not_fatal_witness :
    (Node.start_etx_ota_transaction_iteration (ETX_OTA_SOF :: List.replicate 1032 0)
        ⟨[ETX_OTA_PACKET_TYPE_CMD], [], []⟩
        ⟨ETX_OTA_State.ETX_OTA_STATE_START, 0, ⟨0, 0, []⟩⟩).1.out
      = [Node.Output.receive_it] :=
  (timeout_not_fatal (ETX_OTA_SOF :: List.replicate 1032 0) ⟨[ETX_OTA_PACKET_TYPE_CMD], [], []⟩
    ⟨ETX_OTA_State.ETX_OTA_STATE_START, 0, ⟨0, 0, []⟩⟩
    [FwConfig.HAL_StatusTypeDef.HAL_OK, FwConfig.HAL_StatusTypeDef.HAL_TIMEOUT]
    (by decide) (Or.inr (by decide))).2.2.2.1

/-- C15, as stated, fails: inside a transaction (state Header, first byte of `Rx_Buffer`
cleared) a frame with a wrong start marker, and a command whose CRC32 field does not hold the
checksum of its payload, are both answered with a Nack. -/
theorem malformed_frame_is_nacked :
    (Node.start_etx_ota_transaction_iteration (List.replicate ETX_OTA_PACKET_MAX_SIZE 0)
        ⟨Node.packet_bytes 0x55 ETX_OTA_PACKET_TYPE_CMD [ETX_OTA_CMD_START]
          (Host.crc32_mpeg2 [ETX_OTA_CMD_START] 1) ETX_OTA_EOF, [], []⟩
        ⟨ETX_OTA_State.ETX_OTA_STATE_HEADER, 0, ⟨0, 0, []⟩⟩).1.out
      = [Node.Output.resp ETX_OTA_NACK]
    ∧ (Node.start_etx_ota_transaction_iteration (List.replicate ETX_OTA_PACKET_MAX_SIZE 0)
        ⟨Node.packet_bytes ETX_OTA_SOF ETX_OTA_PACKET_TYPE_CMD [ETX_OTA_CMD_START] 0
          ETX_OTA_EOF, [], []⟩
        ⟨ETX_OTA_State.ETX_OTA_STATE_HEADER, 0, ⟨0, 0, []⟩⟩).1.out
      = [Node.Output.resp ETX_OTA_NACK] := by
  decide

/-- C15 (amended): when a frame that fits the receive buffer arrives and is malformed at the
framing layer (a start marker that `etx_ota_receive_packet` reads and that is wrong, an unknown
Packet Type, a wrong end marker, or a CRC32 field different from the checksum of the Data
field), `etx_ota_receive_packet` returns the error outcome and the pass of the transaction loop
sends exactly one Response Type Packet, a Nack, and ends the transaction with the error
outcome, the state being left as it was. -/
theorem malformed_frame_gets_nack (Rx_Buffer : List Nat) (u : Node.Uart) (sof kind : Nat)
    (data : List Nat) (crc eof : Nat) (rest : List Nat) (s : Node.State)
    (harr : Node.frame_arrives Rx_Buffer u (Node.packet_bytes sof kind data crc eof) rest)
    (hfit : data.length + 9 ≤ Rx_Buffer.length)
    (h16 : data.length + 8 < 2 ^ 16) (hcrc : crc < 2 ^ 32)
    (hbad : (Rx_Buffer.getD 0 0 = 0 ∧ sof ≠ ETX_OTA_SOF)
      ∨ ¬ (kind = ETX_OTA_PACKET_TYPE_CMD ∨ kind = ETX_OTA_PACKET_TYPE_DATA
          ∨ kind = ETX_OTA_PACKET_TYPE_HEADER ∨ kind = ETX_OTA_PACKET_TYPE_RESPONSE)
      ∨ eof ≠ ETX_OTA_EOF
      ∨ Firmware.crc32_mpeg2 data data.length ≠ crc) :
    (Node.etx_ota_receive_packet Rx_Buffer u).1 = ETX_OTA_Status.ETX_OTA_EC_ERR
    ∧ (Node.start_etx_ota_transaction_iteration Rx_Buffer u s).1.out
      = [Node.Output.resp ETX_OTA_NACK]
    ∧ (Node.start_etx_ota_transaction_iteration Rx_Buffer u s).1.ret
      = some ETX_OTA_Status.ETX_OTA_EC_ERR
    ∧ (Node.start_etx_ota_transaction_iteration Rx_Buffer u s).1.st = s := by
  have herr : (Node.etx_ota_receive_packet Rx_Buffer u).1 = ETX_OTA_Status.ETX_OTA_EC_ERR := by
    rw [(receive_packet_arrives Rx_Buffer u sof kind data crc eof rest harr hfit h16 hcrc).1]
    split_ifs with h1 h2 h3 h4 h5
    all_goals first
      | rfl
      | (exfalso; tauto)
  simp only [Node.start_etx_ota_transaction_iteration]
  rw [herr]
  exact ⟨rfl, rfl, rfl, rfl⟩

/-- Witness for C15 (amended): an End command whose end marker is wrong. -/
theorem malformed_frame_gets_nack_witness :
    (Node.start_etx_ota_transaction_iteration (List.replicate ETX_OTA_PACKET_MAX_SIZE 0)
        ⟨Node.packet_bytes ETX_OTA_SOF ETX_OTA_PACKET_TYPE_CMD [ETX_OTA_CMD_END]
          (Host.crc32_mpeg2 [ETX_OTA_CMD_END] 1) 0xBC ++ [], [], []⟩
        ⟨ETX_OTA_State.ETX_OTA_STATE_END, 0, ⟨0, 0, []⟩⟩).1.out
      = [Node.Output.resp ETX_OTA_NACK] :=
  (malformed_frame_gets_nack (List.replicate ETX_OTA_PACKET_MAX_SIZE 0)
    ⟨Node.packet_bytes ETX_OTA_SOF ETX_OTA_PACKET_TYPE_CMD [ETX_OTA_CMD_END]
      (Host.crc32_mpeg2 [ETX_OTA_CMD_END] 1) 0xBC ++ [], [], []⟩ ETX_OTA_SOF
    ETX_OTA_PACKET_TYPE_CMD [ETX_OTA_CMD_END] (Host.crc32_mpeg2 [ETX_OTA_CMD_END] 1) 0xBC []
    ⟨ETX_OTA_State.ETX_OTA_STATE_END, 0, ⟨0, 0, []⟩⟩
    ⟨rfl, Or.inl ⟨by decide, rfl⟩⟩
    (by simp only [List.length_replicate]; decide)
    (by decide) (crc32_mpeg2_lt _ _) (Or.inr (Or.inr (Or.inl (by decide))))).2.1

/-! ## Frame acceptance -/

/-- For a frame of fewer than 65536 bytes that starts with the SOF byte, arrives whole on a
line without faults and is held by the memory at `Rx_Buffer`, `etx_ota_receive_packet` returns
OK exactly when the Packet Type is one of the four known ones, the byte after the CRC32 field
is the EOF byte, the CRC32 field holds the checksum of the Data field, and the frame has at
most `ETX_OTA_PACKET_MAX_SIZE` bytes. -/
theorem receive_packet_accepts_iff (Rx_Buffer : List Nat) (u : Node.Uart) (kind : Nat)
    (data : List Nat) (crc eof : Nat) (rest : List Nat)
    (harr : Node.frame_arrives Rx_Buffer u (Node.packet_bytes ETX_OTA_SOF kind data crc eof)
      rest)
    (hfit : data.length + 9 ≤ Rx_Buffer.length)
    (h16 : data.length + 9 < 2 ^ 16) (hcrc : crc < 2 ^ 32) :
    (Node.etx_ota_receive_packet Rx_Buffer u).1 = ETX_OTA_Status.ETX_OTA_EC_OK
    ↔ ((kind = ETX_OTA_PACKET_TYPE_CMD ∨ kind = ETX_OTA_PACKET_TYPE_DATA
          ∨ kind = ETX_OTA_PACKET_TYPE_HEADER ∨ kind = ETX_OTA_PACKET_TYPE_RESPONSE)
        ∧ eof = ETX_OTA_EOF
        ∧ Firmware.crc32_mpeg2 data data.length = crc
        ∧ data.length + 9 ≤ ETX_OTA_PACKET_MAX_SIZE) := by
  rw [(receive_packet_arrives Rx_Buffer u ETX_OTA_SOF kind data crc eof rest harr hfit
    (by omega) hcrc).1, Nat.mod_eq_of_lt h16]
  rw [if_neg (show ¬ (Rx_Buffer.getD 0 0 = 0 ∧ ETX_OTA_SOF ≠ ETX_OTA_SOF) from
    fun h => h.2 rfl)]
  by_cases h2 : kind = ETX_OTA_PACKET_TYPE_CMD ∨ kind = ETX_OTA_PACKET_TYPE_DATA
      ∨ kind = ETX_OTA_PACKET_TYPE_HEADER ∨ kind = ETX_OTA_PACKET_TYPE_RESPONSE
  · rw [if_neg (not_not.mpr h2)]
    by_cases h3 : eof = ETX_OTA_EOF
    · rw [if_neg (not_not.mpr h3)]
      by_cases h4 : Firmware.crc32_mpeg2 data data.length = crc
      · rw [if_neg (not_not.mpr h4)]
        by_cases h5 : ETX_OTA_PACKET_MAX_SIZE < data.length + 9
        · rw [if_pos h5]
          exact ⟨fun h => absurd h (by decide), fun h => absurd h.2.2.2 (by omega)⟩
        · rw [if_neg h5]
          exact ⟨fun _ => ⟨h2, h3, h4, by omega⟩, fun _ => rfl⟩
      · rw [if_pos h4]
        exact ⟨fun h => absurd h (by decide), fun h => absurd h.2.2.1 h4⟩
    · rw [if_pos h3]
      exact ⟨fun h => absurd h (by decide), fun h => absurd h.2.1 h3⟩
  · rw [if_pos h2]
    exact ⟨fun h => absurd h (by decide), fun h => absurd h.1 h2⟩

theorem packet_bytes_length (sof kind : Nat) (data : List Nat) (crc eof : Nat) :
    (Node.packet_bytes sof kind data crc eof).length = data.length + 9 := by
  simp only [Node.packet_bytes, u16_bytes, u32_bytes, List.length_append, List.length_cons,
    List.length_nil]
  omega

/-- C18: the claim fails at a frame of 65536 bytes.  With a Data Length field of 65527, a Data
field of that many bytes, its checksum in the CRC32 field and the EOF byte in place, the 16-bit
index `len` is back at 0 when the frame length is tested against `ETX_OTA_PACKET_MAX_SIZE`
(1033), and `etx_ota_receive_packet` returns OK. -/
theorem receive_packet_accepts_65536_byte_frame :
    (Node.etx_ota_receive_packet (List.replicate 65536 0)
        ⟨Node.packet_bytes ETX_OTA_SOF ETX_OTA_PACKET_TYPE_DATA (List.replicate 65527 0)
          (Firmware.crc32_mpeg2 (List.replicate 65527 0) 65527) ETX_OTA_EOF, [], []⟩).1
      = ETX_OTA_Status.ETX_OTA_EC_OK
    ∧ (Node.packet_bytes ETX_OTA_SOF ETX_OTA_PACKET_TYPE_DATA (List.replicate 65527 0)
          (Firmware.crc32_mpeg2 (List.replicate 65527 0) 65527) ETX_OTA_EOF).length = 65536
    ∧ ETX_OTA_PACKET_MAX_SIZE = 1033 := by
  have hlen : (List.replicate 65527 0).length = 65527 := List.length_replicate _ _
  have h := (receive_packet_frame (List.replicate 65536 0) ETX_OTA_SOF ETX_OTA_PACKET_TYPE_DATA
    (List.replicate 65527 0) (Firmware.crc32_mpeg2 (List.replicate 65527 0) 65527) ETX_OTA_EOF
    [] []
    (by rw [List.getD_eq_getElem?_getD, List.getElem?_replicate]; rfl)
    (by rw [hlen, List.length_replicate])
    (by rw [hlen]; decide)
    (FwConfig.firmware_crc32_mpeg2_lt _ _)).1
  rw [List.append_nil, hlen] at h
  refine ⟨?_, ?_, rfl⟩
  · rw [h, if_neg (not_not.mpr rfl), if_neg (not_not.mpr (Or.inr (Or.inl rfl))),
      if_neg (not_not.mpr rfl), if_neg (not_not.mpr rfl), if_neg (by decide)]
  · rw [packet_bytes_length, hlen]

/-! ## Wire-format agreement -/

/-- A well-formed packet with 1 to 1024 bytes of data, checksummed by the controller, is
accepted by `etx_ota_receive_packet`, which leaves its bytes at the start of the buffer. -/
theorem receive_accepts_packet (Rx_Buffer : List Nat) (u : Node.Uart) (kind : Nat)
    (data rest : List Nat)
    (harr : Node.frame_arrives Rx_Buffer u
      (Node.packet_bytes ETX_OTA_SOF kind data (Host.crc32_mpeg2 data data.length) ETX_OTA_EOF)
      rest)
    (hbuf : ETX_OTA_PACKET_MAX_SIZE ≤ Rx_Buffer.length)
    (hk : kind = ETX_OTA_PACKET_TYPE_CMD ∨ kind = ETX_OTA_PACKET_TYPE_DATA
      ∨ kind = ETX_OTA_PACKET_TYPE_HEADER ∨ kind = ETX_OTA_PACKET_TYPE_RESPONSE)
    (h1 : 1 ≤ data.length) (h2 : data.length ≤ ETX_OTA_DATA_MAX_SIZE) :
    (Node.etx_ota_receive_packet Rx_Buffer u).1 = ETX_OTA_Status.ETX_OTA_EC_OK
    ∧ (Node.etx_ota_receive_packet Rx_Buffer u).2.1
      = Node.packet_bytes ETX_OTA_SOF kind data (Host.crc32_mpeg2 data data.length) ETX_OTA_EOF
        ++ Rx_Buffer.drop (data.length + 9)
    ∧ (Node.etx_ota_receive_packet Rx_Buffer u).2.2.rx = rest := by
  have hmax : ETX_OTA_PACKET_MAX_SIZE = 1033 := rfl
  have hdmax : ETX_OTA_DATA_MAX_SIZE = 1024 := rfl
  have hfw : Firmware.crc32_mpeg2 data data.length = Host.crc32_mpeg2 data data.length :=
    firmware_crc32_mpeg2_eq_host data data.length (by omega) (by omega)
  have hsof : ¬ (Rx_Buffer.getD 0 0 = 0 ∧ ETX_OTA_SOF ≠ ETX_OTA_SOF) := fun h => h.2 rfl
  obtain ⟨a1, a2⟩ := receive_packet_arrives Rx_Buffer u ETX_OTA_SOF kind data
    (Host.crc32_mpeg2 data data.length) ETX_OTA_EOF rest harr (by omega) (by omega)
    (crc32_mpeg2_lt _ _)
  refine ⟨?_, (a2 hsof hk).1, (a2 hsof hk).2⟩
  rw [a1, if_neg hsof, if_neg (not_not.mpr hk), if_neg (not_not.mpr rfl),
    if_neg (not_not.mpr hfw), if_neg (by rw [Nat.mod_eq_of_lt (by omega)]; omega)]

/-- The fields of a packet that sits at the start of a buffer. -/
theorem packet_bytes_fields (sof kind : Nat) (data : List Nat) (crc eof : Nat)
    (tail : List Nat) (hlen : data.length < 2 ^ 16) :
    (Node.packet_bytes sof kind data crc eof ++ tail).getD 1 0 = kind
    ∧ read_u16 (Node.packet_bytes sof kind data crc eof ++ tail) 2 = data.length
    ∧ ((Node.packet_bytes sof kind data crc eof ++ tail).drop ETX_OTA_DATA_FIELD_INDEX).take
        data.length = data := by
  have e : Node.packet_bytes sof kind data crc eof ++ tail
      = [sof, kind, data.length % 256, data.length / 256 % 256]
        ++ (data ++ (u32_bytes crc ++ [eof] ++ tail)) := by
    simp [Node.packet_bytes, u16_bytes]
  rw [e]
  refine ⟨rfl, ?_, ?_⟩
  · show data.length % 256 + 256 * (data.length / 256 % 256) = data.length
    omega
  · have hd : ([sof, kind, data.length % 256, data.length / 256 % 256]
        ++ (data ++ (u32_bytes crc ++ [eof] ++ tail))).drop ETX_OTA_DATA_FIELD_INDEX
        = data ++ (u32_bytes crc ++ [eof] ++ tail) := List.drop_left' rfl
    rw [hd]
    exact List.take_left' rfl

theorem command_packet_eq (cmd : Nat) :
    Host.etx_ota_command_packet cmd
      = Node.packet_bytes ETX_OTA_SOF ETX_OTA_PACKET_TYPE_CMD [cmd]
          (Host.crc32_mpeg2 [cmd] [cmd].length) ETX_OTA_EOF := rfl

theorem header_data_bytes_length (h : Host.header_data_t) :
    (Host.header_data_bytes h).length = 16 := rfl

theorem header_packet_eq (h : Host.header_data_t) :
    Host.etx_ota_header_packet h
      = Node.packet_bytes ETX_OTA_SOF ETX_OTA_PACKET_TYPE_HEADER (Host.header_data_bytes h)
          (Host.crc32_mpeg2 (Host.header_data_bytes h) (Host.header_data_bytes h).length)
          ETX_OTA_EOF := rfl

theorem data_packet_eq (payload : List Nat) :
    Host.etx_ota_data_packet payload payload.length
      = Node.packet_bytes ETX_OTA_SOF ETX_OTA_PACKET_TYPE_DATA payload
          (Host.crc32_mpeg2 payload payload.length) ETX_OTA_EOF := by
  unfold Host.etx_ota_data_packet Node.packet_bytes
  rw [map_range_getD payload payload.length (le_refl _), List.take_length]

/-- A well-formed packet of the controller is accepted, and its Packet Type, Data Length and
Data field are read back from the buffer. -/
theorem receive_recovers_packet (Rx_Buffer : List Nat) (u : Node.Uart) (kind : Nat)
    (data rest : List Nat) (packet : List Nat)
    (hp : packet = Node.packet_bytes ETX_OTA_SOF kind data (Host.crc32_mpeg2 data data.length)
      ETX_OTA_EOF)
    (harr : Node.frame_arrives Rx_Buffer u packet rest)
    (hbuf : ETX_OTA_PACKET_MAX_SIZE ≤ Rx_Buffer.length)
    (hk : kind = ETX_OTA_PACKET_TYPE_CMD ∨ kind = ETX_OTA_PACKET_TYPE_DATA
      ∨ kind = ETX_OTA_PACKET_TYPE_HEADER ∨ kind = ETX_OTA_PACKET_TYPE_RESPONSE)
    (h1 : 1 ≤ data.length) (h2 : data.length ≤ ETX_OTA_DATA_MAX_SIZE) :
    packet.length = data.length + 9
    ∧ (Node.etx_ota_receive_packet Rx_Buffer u).1 = ETX_OTA_Status.ETX_OTA_EC_OK
    ∧ (Node.etx_ota_receive_packet Rx_Buffer u).2.1.getD 1 0 = kind
    ∧ read_u16 (Node.etx_ota_receive_packet Rx_Buffer u).2.1 2 = data.length
    ∧ ((Node.etx_ota_receive_packet Rx_Buffer u).2.1.drop ETX_OTA_DATA_FIELD_INDEX).take
        data.length = data
    ∧ (Node.etx_ota_receive_packet Rx_Buffer u).2.1.take packet.length = packet
    ∧ (Node.etx_ota_receive_packet Rx_Buffer u).2.2.rx = rest := by
  have hdmax : ETX_OTA_DATA_MAX_SIZE = 1024 := rfl
  subst hp
  obtain ⟨a1, a2, a3⟩ := receive_accepts_packet Rx_Buffer u kind data rest harr hbuf hk h1 h2
  obtain ⟨f1, f2, f3⟩ := packet_bytes_fields ETX_OTA_SOF kind data
    (Host.crc32_mpeg2 data data.length) ETX_OTA_EOF (Rx_Buffer.drop (data.length + 9))
    (by omega)
  rw [a2]
  exact ⟨packet_bytes_length _ _ _ _ _, a1, f1, f2, f3, List.take_left' rfl, a3⟩

/-- C19: let a frame that the controller builds arrive whole on a line without faults, inside a
transaction or as its first frame.  Every Command Type Packet (10 bytes), every Header Type
Packet (25 bytes) and every Data Type Packet with a payload of 1 to 1024 bytes (payload
length + 9 bytes) is accepted by `etx_ota_receive_packet`, and the Packet Type, the Data
Length and the bytes of the Data field read from the buffer are the ones the controller put
in. -/
theorem controller_frames_accepted (Rx_Buffer : List Nat) (u : Node.Uart) (rest : List Nat)
    (hbuf : ETX_OTA_PACKET_MAX_SIZE ≤ Rx_Buffer.length) :
    (∀ cmd : Nat, Node.frame_arrives Rx_Buffer u (Host.etx_ota_command_packet cmd) rest →
      (Host.etx_ota_command_packet cmd).length = 10
      ∧ (Node.etx_ota_receive_packet Rx_Buffer u).1 = ETX_OTA_Status.ETX_OTA_EC_OK
      ∧ (Node.etx_ota_receive_packet Rx_Buffer u).2.1.getD 1 0 = ETX_OTA_PACKET_TYPE_CMD
      ∧ read_u16 (Node.etx_ota_receive_packet Rx_Buffer u).2.1 2 = 1
      ∧ ((Node.etx_ota_receive_packet Rx_Buffer u).2.1.drop ETX_OTA_DATA_FIELD_INDEX).take 1
          = [cmd])
    ∧ (∀ h : Host.header_data_t,
      Node.frame_arrives Rx_Buffer u (Host.etx_ota_header_packet h) rest →
      (Host.etx_ota_header_packet h).length = 25
      ∧ (Node.etx_ota_receive_packet Rx_Buffer u).1 = ETX_OTA_Status.ETX_OTA_EC_OK
      ∧ (Node.etx_ota_receive_packet Rx_Buffer u).2.1.getD 1 0 = ETX_OTA_PACKET_TYPE_HEADER
      ∧ read_u16 (Node.etx_ota_receive_packet Rx_Buffer u).2.1 2 = 16
      ∧ ((Node.etx_ota_receive_packet Rx_Buffer u).2.1.drop ETX_OTA_DATA_FIELD_INDEX).take 16
          = Host.header_data_bytes h)
    ∧ (∀ payload : List Nat, 1 ≤ payload.length → payload.length ≤ 1024 →
      Node.frame_arrives Rx_Buffer u (Host.etx_ota_data_packet payload payload.length) rest →
      (Host.etx_ota_data_packet payload payload.length).length = payload.length + 9
      ∧ (Node.etx_ota_receive_packet Rx_Buffer u).1 = ETX_OTA_Status.ETX_OTA_EC_OK
      ∧ (Node.etx_ota_receive_packet Rx_Buffer u).2.1.getD 1 0 = ETX_OTA_PACKET_TYPE_DATA
      ∧ read_u16 (Node.etx_ota_receive_packet Rx_Buffer u).2.1 2 = payload.length
      ∧ ((Node.etx_ota_receive_packet Rx_Buffer u).2.1.drop ETX_OTA_DATA_FIELD_INDEX).take
          payload.length = payload) := by
  refine ⟨fun cmd harr => ?_, fun h harr => ?_, fun payload h1 h2 harr => ?_⟩
  · obtain ⟨r1, r2, r3, r4, r5, _, _⟩ := receive_recovers_packet Rx_Buffer u
      ETX_OTA_PACKET_TYPE_CMD [cmd] rest (Host.etx_ota_command_packet cmd)
      (command_packet_eq cmd) harr hbuf (Or.inl rfl) (le_refl 1)
      (show 1 ≤ ETX_OTA_DATA_MAX_SIZE by decide)
    exact ⟨r1, r2, r3, r4, r5⟩
  · obtain ⟨r1, r2, r3, r4, r5, _, _⟩ := receive_recovers_packet Rx_Buffer u
      ETX_OTA_PACKET_TYPE_HEADER (Host.header_data_bytes h) rest (Host.etx_ota_header_packet h)
      (header_packet_eq h) harr hbuf (Or.inr (Or.inr (Or.inl rfl)))
      (by rw [header_data_bytes_length]; decide) (by rw [header_data_bytes_length]; decide)
    rw [header_data_bytes_length] at r1 r4 r5
    exact ⟨r1, r2, r3, r4, r5⟩
  · obtain ⟨r1, r2, r3, r4, r5, _, _⟩ := receive_recovers_packet Rx_Buffer u
      ETX_OTA_PACKET_TYPE_DATA payload rest (Host.etx_ota_data_packet payload payload.length)
      (data_packet_eq payload) harr hbuf (Or.inr (Or.inl rfl)) h1 h2
    exact ⟨r1, r2, r3, r4, r5⟩

/-- Witness for C19: the Abort command as first frame of a transaction, its SOF byte already in
`Rx_Buffer[0]`. -/
theorem controller_frames_accepted_witness :
    (Node.etx_ota_receive_packet (ETX_OTA_SOF :: List.replicate 1032 0)
        ⟨(Host.etx_ota_command_packet ETX_OTA_CMD_ABORT).tail ++ [], [], []⟩).1
      = ETX_OTA_Status.ETX_OTA_EC_OK :=
  ((controller_frames_accepted (ETX_OTA_SOF :: List.replicate 1032 0)
    ⟨(Host.etx_ota_command_packet ETX_OTA_CMD_ABORT).tail ++ [], [], []⟩ []
    (by simp only [List.length_cons, List.length_replicate]; decide)).1 ETX_OTA_CMD_ABORT
    ⟨rfl, Or.inr ⟨by decide, by decide, rfl⟩⟩).2.1

theorem is_ack_resp_received_iff (port : List Nat) :
    Host.is_ack_resp_received port = true
      ↔ (port ≠ []
        ∧ (Host.RS232_PollComport port (List.replicate ETX_OTA_PACKET_MAX_SIZE 0) 10).2.getD 1 0
            = ETX_OTA_PACKET_TYPE_RESPONSE
        ∧ read_u32 (Host.RS232_PollComport port (List.replicate ETX_OTA_PACKET_MAX_SIZE 0) 10).2 5
            = Host.crc32_mpeg2
                ((Host.RS232_PollComport port (List.replicate ETX_OTA_PACKET_MAX_SIZE 0)
                  10).2.drop 4) 1
        ∧ (Host.RS232_PollComport port (List.replicate ETX_OTA_PACKET_MAX_SIZE 0) 10).2.getD 4 0
            = ETX_OTA_ACK) := by
  have hlen : (Host.RS232_PollComport port (List.replicate ETX_OTA_PACKET_MAX_SIZE 0) 10).1
      % 2 ^ 16 > 0 ↔ port ≠ [] := by
    show (min port.length 10) % 2 ^ 16 > 0 ↔ port ≠ []
    rw [Nat.mod_eq_of_lt (by omega)]
    cases port with
    | nil => simp
    | cons a l => simp
  simp only [Host.is_ack_resp_received]
  generalize Host.RS232_PollComport port (List.replicate ETX_OTA_PACKET_MAX_SIZE 0) 10 = r
    at hlen ⊢
  by_cases h1 : r.1 % 2 ^ 16 > 0
  · rw [if_pos h1]
    by_cases h2 : r.2.getD 1 0 = ETX_OTA_PACKET_TYPE_RESPONSE
    · rw [if_pos h2]
      by_cases h3 : read_u32 r.2 5 = Host.crc32_mpeg2 (r.2.drop 4) 1
      · rw [if_pos h3]
        by_cases h4 : r.2.getD 4 0 = ETX_OTA_ACK
        · rw [if_pos h4]
          exact ⟨fun _ => ⟨hlen.mp h1, h2, h3, h4⟩, fun _ => rfl⟩
        · rw [if_neg h4]
          exact ⟨fun h => absurd h (by decide), fun h => absurd h.2.2.2 h4⟩
      · rw [if_neg h3]
        exact ⟨fun h => absurd h (by decide), fun h => absurd h.2.2.1 h3⟩
    · rw [if_neg h2]
      exact ⟨fun h => absurd h (by decide), fun h => absurd h.2.1 h2⟩
  · rw [if_neg h1]
    exact ⟨fun h => absurd h (by decide), fun h => absurd (hlen.mpr h.1) h1⟩

/-- C20: for the status Ack and for the status Nack, the Response Type Packet that
`etx_ota_send_resp` builds has ten bytes, and `is_ack_resp_received` of the controller returns
true on it if and only if the status is Ack.  On any bytes, `is_ack_resp_received` returns
false when nothing was received, when the Packet Type is not Response, when the CRC32 field
differs from `crc32_mpeg2` of the status byte, or when the status is not Ack; it returns true
otherwise. -/
theorem response_frames_agree :
    (∀ response_status : Nat,
      response_status = ETX_OTA_ACK ∨ response_status = ETX_OTA_NACK →
      (Node.etx_ota_send_resp response_status).length = 10
      ∧ (Host.is_ack_resp_received (Node.etx_ota_send_resp response_status) = true
          ↔ response_status = ETX_OTA_ACK))
    ∧ (∀ port : List Nat,
      (port = []
        ∨ (Host.RS232_PollComport port (List.replicate ETX_OTA_PACKET_MAX_SIZE 0) 10).2.getD 1 0
            ≠ ETX_OTA_PACKET_TYPE_RESPONSE
        ∨ read_u32 (Host.RS232_PollComport port (List.replicate ETX_OTA_PACKET_MAX_SIZE 0) 10).2 5
            ≠ Host.crc32_mpeg2
                ((Host.RS232_PollComport port (List.replicate ETX_OTA_PACKET_MAX_SIZE 0)
                  10).2.drop 4) 1
        ∨ (Host.RS232_PollComport port (List.replicate ETX_OTA_PACKET_MAX_SIZE 0) 10).2.getD 4 0
            ≠ ETX_OTA_ACK)
      ↔ Host.is_ack_resp_received port = false) := by
  refine ⟨fun response_status h => ?_, fun port => ?_⟩
  · rcases h with h | h
    · subst h
      exact ⟨rfl, by decide⟩
    · subst h
      exact ⟨rfl, by decide⟩
  · have hiff := is_ack_resp_received_iff port
    constructor
    · intro h
      cases hv : Host.is_ack_resp_received port with
      | false => rfl
      | true =>
        obtain ⟨a1, a2, a3, a4⟩ := hiff.mp hv
        rcases h with h | h | h | h
        · exact absurd h a1
        · exact absurd a2 h
        · exact absurd a3 h
        · exact absurd a4 h
    · intro h
      by_contra hn
      have : Host.is_ack_resp_received port = true := by
        apply hiff.mpr
        refine ⟨fun e => hn (Or.inl e), ?_, ?_, ?_⟩
        · by_contra h2
          exact hn (Or.inr (Or.inl h2))
        · by_contra h3
          exact hn (Or.inr (Or.inr (Or.inl h3)))
        · by_contra h4
          exact hn (Or.inr (Or.inr (Or.inr h4)))
      rw [h] at this
      exact absurd this (by decide)

/-- Witness for C20: the Nack response is not taken for an Ack. -/
theorem response_frames_agree_witness :
    ¬ (Host.is_ack_resp_received (Node.etx_ota_send_resp ETX_OTA_NACK) = true) :=
  fun h => absurd ((response_frames_agree.1 ETX_OTA_NACK (Or.inr rfl)).2.mp h) (by decide)

/-- Where the length test does its work: a frame whose Data field is longer than 1024 bytes and
short enough for the 16-bit index not to wrap (at most 65526 bytes) is never accepted. -/
theorem receive_packet_rejects_long_payload (Rx_Buffer : List Nat) (u : Node.Uart) (kind : Nat)
    (data : List Nat) (crc eof : Nat) (rest : List Nat)
    (harr : Node.frame_arrives Rx_Buffer u (Node.packet_bytes ETX_OTA_SOF kind data crc eof)
      rest)
    (hfit : data.length + 9 ≤ Rx_Buffer.length)
    (hlong : ETX_OTA_DATA_MAX_SIZE < data.length) (h16 : data.length + 9 < 2 ^ 16)
    (hcrc : crc < 2 ^ 32) :
    (Node.etx_ota_receive_packet Rx_Buffer u).1 ≠ ETX_OTA_Status.ETX_OTA_EC_OK := by
  intro h
  have h4 := ((receive_packet_accepts_iff Rx_Buffer u kind data crc eof rest harr hfit h16
    hcrc).mp h).2.2.2
  have h5 : ETX_OTA_DATA_MAX_SIZE + 9 = ETX_OTA_PACKET_MAX_SIZE := by decide
  omega

/-- C21: the claim fails at a Data Length of 65527.  A frame with that Data Length, a Data field
of that many bytes (whatever they are), the checksum of the Data field in its CRC32 field and the
EOF byte is 65536 bytes long; the 16-bit index `len` is back at 0 when it is compared with
`ETX_OTA_PACKET_MAX_SIZE`, and `etx_ota_receive_packet` returns OK with the Data Length field
65527 in `Rx_Buffer`, although 65527 exceeds `ETX_OTA_DATA_MAX_SIZE` (1024). -/
theorem receive_packet_length_check_wraps (Rx_Buffer : List Nat) (u : Node.Uart) (kind : Nat)
    (data rest : List Nat)
    (harr : Node.frame_arrives Rx_Buffer u
      (Node.packet_bytes ETX_OTA_SOF kind data (Firmware.crc32_mpeg2 data data.length)
        ETX_OTA_EOF) rest)
    (hkind : kind = ETX_OTA_PACKET_TYPE_CMD ∨ kind = ETX_OTA_PACKET_TYPE_DATA
      ∨ kind = ETX_OTA_PACKET_TYPE_HEADER ∨ kind = ETX_OTA_PACKET_TYPE_RESPONSE)
    (hfit : data.length + 9 ≤ Rx_Buffer.length) (hlen : data.length = 65527) :
    (Node.etx_ota_receive_packet Rx_Buffer u).1 = ETX_OTA_Status.ETX_OTA_EC_OK
    ∧ read_u16 (Node.etx_ota_receive_packet Rx_Buffer u).2.1 2 = 65527
    ∧ ETX_OTA_DATA_MAX_SIZE = 1024 := by
  obtain ⟨h1, h2⟩ := receive_packet_arrives Rx_Buffer u ETX_OTA_SOF kind data
    (Firmware.crc32_mpeg2 data data.length) ETX_OTA_EOF rest harr hfit (by rw [hlen]; decide)
    (FwConfig.firmware_crc32_mpeg2_lt _ _)
  have hsof : ¬ (Rx_Buffer.getD 0 0 = 0 ∧ ETX_OTA_SOF ≠ ETX_OTA_SOF) := fun h => h.2 rfl
  refine ⟨?_, ?_, rfl⟩
  · rw [h1, if_neg hsof, if_neg (not_not.mpr hkind), if_neg (not_not.mpr rfl),
      if_neg (not_not.mpr rfl), hlen, if_neg (by decide)]
  · rw [(h2 hsof hkind).1, (packet_bytes_fields _ _ _ _ _ _ (by rw [hlen]; decide)).2.1, hlen]

theorem receive_packet_length_check_wraps_witness :
    (Node.etx_ota_receive_packet (ETX_OTA_SOF :: List.replicate 65535 0)
        ⟨(Node.packet_bytes ETX_OTA_SOF ETX_OTA_PACKET_TYPE_HEADER (List.replicate 65527 0xFF)
          (Firmware.crc32_mpeg2 (List.replicate 65527 0xFF)
            (List.replicate 65527 0xFF).length) ETX_OTA_EOF).tail ++ [], [], []⟩).1
      = ETX_OTA_Status.ETX_OTA_EC_OK
    ∧ read_u16 (Node.etx_ota_receive_packet (ETX_OTA_SOF :: List.replicate 65535 0)
        ⟨(Node.packet_bytes ETX_OTA_SOF ETX_OTA_PACKET_TYPE_HEADER (List.replicate 65527 0xFF)
          (Firmware.crc32_mpeg2 (List.replicate 65527 0xFF)
            (List.replicate 65527 0xFF).length) ETX_OTA_EOF).tail ++ [], [], []⟩).2.1 2 = 65527
    ∧ ETX_OTA_DATA_MAX_SIZE = 1024 :=
  receive_packet_length_check_wraps (ETX_OTA_SOF :: List.replicate 65535 0)
    ⟨(Node.packet_bytes ETX_OTA_SOF ETX_OTA_PACKET_TYPE_HEADER (List.replicate 65527 0xFF)
      (Firmware.crc32_mpeg2 (List.replicate 65527 0xFF)
        (List.replicate 65527 0xFF).length) ETX_OTA_EOF).tail ++ [], [], []⟩
    ETX_OTA_PACKET_TYPE_HEADER (List.replicate 65527 0xFF) []
    ⟨rfl, Or.inr ⟨by decide, rfl, rfl⟩⟩ (Or.inr (Or.inr (Or.inl rfl)))
    (by rw [List.length_replicate, List.length_cons, List.length_replicate])
    (List.length_replicate _ _)

namespace FwConfig

open HAL_StatusTypeDef FirmUpdConf_Status

/-- Whatever the HAL calls return, `page_erase` leaves the flash as it was or with the one page
erased. -/
theorem page_erase_flash (S page_start : Nat) (st : Store) :
    (page_erase S page_start st).2.flash = st.flash
    ∨ (page_erase S page_start st).2.flash = flash_erase_page S st.flash page_start := by
  simp only [page_erase]
  split
  · exact Or.inl (hal_next_flash st)
  · split
    · left
      rw [hal_next_flash, hal_next_flash]
    · right
      split
      · rw [hal_next_flash]
        show flash_erase_page S (hal_next (hal_next st).2).2.flash page_start = _
        rw [hal_next_flash, hal_next_flash]
      · rw [hal_next_flash]
        show flash_erase_page S (hal_next (hal_next st).2).2.flash page_start = _
        rw [hal_next_flash, hal_next_flash]

/-- The function `prep_page_swap` is at most one call of `page_erase`, for the page of its
request. -/
theorem prep_page_swap_eq_request (S : Nat) (st : Store) :
    prep_page_swap S st
      = (match prep_page_swap_request S st.flash st.p_most_recent_val with
          | none => (FIRM_UPDT_CONF_EC_OK, st)
          | some t => page_erase S t st) := by
  unfold prep_page_swap prep_page_swap_request
  by_cases c1 : st.p_most_recent_val = some 0
      ∧ is_erased st.flash (2 * S - 1) = FLASH_BLOCK_NOT_ERASED
  · rw [if_pos c1, if_pos c1]
  · rw [if_neg c1, if_neg c1]
    by_cases c2 : st.p_most_recent_val = some S
        ∧ is_erased st.flash (S - 1) = FLASH_BLOCK_NOT_ERASED
    · rw [if_pos c2, if_pos c2]
    · rw [if_neg c2, if_neg c2]

/-- The page requested is one of the two pages, and never the page of the latest record. -/
theorem prep_page_swap_request_other_page (S : Nat) (hS : 1 ≤ S) (flash : Flash)
    (ptr : Option Nat) (t : Nat) (h : prep_page_swap_request S flash ptr = some t) :
    (t = 0 ∨ t = S) ∧ ∀ p, ptr = some p → page_start S p ≠ t := by
  unfold prep_page_swap_request at h
  by_cases c1 : ptr = some 0 ∧ is_erased flash (2 * S - 1) = FLASH_BLOCK_NOT_ERASED
  · rw [if_pos c1] at h
    have ht : S = t := Option.some.inj h
    refine ⟨Or.inr ht.symm, ?_⟩
    intro p hp
    have hp0 : p = 0 := by
      have := c1.1
      rw [hp] at this
      exact Option.some.inj this
    rw [hp0]
    unfold page_start
    rw [if_pos (by omega)]
    omega
  · rw [if_neg c1] at h
    by_cases c2 : ptr = some S ∧ is_erased flash (S - 1) = FLASH_BLOCK_NOT_ERASED
    · rw [if_pos c2] at h
      have ht : 0 = t := Option.some.inj h
      refine ⟨Or.inl ht.symm, ?_⟩
      intro p hp
      have hpS : p = S := by
        have := c2.1
        rw [hp] at this
        exact Option.some.inj this
      rw [hpS]
      unfold page_start
      rw [if_neg (by omega)]
      omega
    · rw [if_neg c2] at h
      exact absurd h (by simp)

/-- Erasing a page leaves the slots of the other page as they were. -/
theorem flash_erase_page_other_page (S : Nat) (flash : Flash) (t j k : Nat)
    (ht : t = 0 ∨ t = S) (hj : page_start S j ≠ t) :
    flash_erase_page S flash t j k = flash j k := by
  unfold page_start at hj
  rw [flash_erase_page_apply, if_neg]
  intro hc
  rcases ht with h0 | h0
  · rw [h0] at hj hc
    rw [if_pos (by omega)] at hj
    exact hj rfl
  · rw [h0] at hj hc
    rw [if_neg (by omega)] at hj
    exact hj rfl

/-- Whatever the HAL calls return, `prep_page_swap` leaves every slot of the page of the latest
record as it was. -/
theorem prep_page_swap_keeps_latest_page (S : Nat) (hS : 1 ≤ S) (st : Store) (p j k : Nat)
    (hp : st.p_most_recent_val = some p) (hj : page_start S j = page_start S p) :
    (prep_page_swap S st).2.flash j k = st.flash j k := by
  rw [prep_page_swap_eq_request]
  cases hr : prep_page_swap_request S st.flash st.p_most_recent_val with
  | none => rfl
  | some t =>
    obtain ⟨h1, h2⟩ := prep_page_swap_request_other_page S hS st.flash st.p_most_recent_val t hr
    show (page_erase S t st).2.flash j k = st.flash j k
    rcases page_erase_flash S t st with e | e
    · rw [e]
    · rw [e]
      exact flash_erase_page_other_page S st.flash t j k h1 (by rw [hj]; exact h2 p hp)

/-- The flash of the page swap, in terms of the request. -/
theorem swapped_eq_request (S : Nat) (flash : Flash) (ptr : Option Nat) :
    swapped S flash ptr
      = (match prep_page_swap_request S flash ptr with
          | none => flash
          | some t => flash_erase_page S flash t) := by
  unfold swapped prep_page_swap_request
  by_cases c1 : ptr = some 0 ∧ is_erased flash (2 * S - 1) = FLASH_BLOCK_NOT_ERASED
  · rw [if_pos c1, if_pos c1]
  · rw [if_neg c1, if_neg c1]
    by_cases c2 : ptr = some S ∧ is_erased flash (S - 1) = FLASH_BLOCK_NOT_ERASED
    · rw [if_pos c2, if_pos c2]
    · rw [if_neg c2, if_neg c2]

/-- The flash of the page swap agrees with the flash before it on the page of the latest
record. -/
theorem swapped_latest_page (S : Nat) (hS : 1 ≤ S) (flash : Flash) (p j k : Nat)
    (hj : page_start S j = page_start S p) :
    swapped S flash (some p) j k = flash j k := by
  rw [swapped_eq_request]
  cases hr : prep_page_swap_request S flash (some p) with
  | none => rfl
  | some t =>
    obtain ⟨h1, h2⟩ := prep_page_swap_request_other_page S hS flash (some p) t hr
    exact flash_erase_page_other_page S flash t j k h1 (by rw [hj]; exact h2 p rfl)

/-- With every HAL call succeeding, `firmware_update_configurations_write` programs the record
and performs the erase of its request, nothing else. -/
theorem write_eq_request (S : Nat) (p_data : firmware_update_config_data_t) (st : Store)
    (hhal : st.hal = []) :
    (firmware_update_configurations_write S p_data st).1 = FIRM_UPDT_CONF_EC_OK
    ∧ (firmware_update_configurations_write S p_data st).2.hal = []
    ∧ (firmware_update_configurations_write S p_data st).2.p_most_recent_val
        = some (next_slot S st.p_most_recent_val)
    ∧ (firmware_update_configurations_write S p_data st).2.flash
        = (match write_request S p_data st with
            | none => programmed (new_val_struct p_data) (next_slot S st.p_most_recent_val) 0
                FIRMWARE_UPDATE_CONFIG_BLOCK_SIZE st.flash
            | some t => flash_erase_page S
                (programmed (new_val_struct p_data) (next_slot S st.p_most_recent_val) 0
                  FIRMWARE_UPDATE_CONFIG_BLOCK_SIZE st.flash) t) := by
  obtain ⟨w1, w2⟩ := write_spec S p_data st
  obtain ⟨hok, hnil⟩ := w2 hhal
  obtain ⟨hp, hfl⟩ := w1 hok
  refine ⟨hok, hnil, hp, ?_⟩
  rw [hfl, swapped_eq_request]
  rfl

end FwConfig

/-- C28: the page swap never erases the region of the latest record.  For every state of the
store and every outcome of the HAL calls: the erase `prep_page_swap` asks for, if any, is for one
of the two regions and not for the region of the slot the latest-record pointer designates;
`prep_page_swap` is at most one call of `page_erase`, for that region; and it leaves every byte
of the region of the latest record as it was.  This holds at each call, those of
`firmware_update_configurations_write` and `firmware_update_configurations_init` included: a
write that returns OK leaves the region of the slot it programmed as the programming left it,
and an initialisation whose scan does not end at a checksum mismatch leaves the region of the
slot it selects as it found it.  After a write that returns OK into an erased append slot, the
pointer designates that slot and the slot holds the record just written. -/
theorem swap_never_erases_latest_region (S : Nat) (hS : 1 ≤ S) :
    (∀ (st : FwConfig.Store) (t : Nat),
      FwConfig.prep_page_swap_request S st.flash st.p_most_recent_val = some t →
        (t = 0 ∨ t = S) ∧ ∀ p, st.p_most_recent_val = some p → FwConfig.page_start S p ≠ t)
    ∧ (∀ st : FwConfig.Store,
        FwConfig.prep_page_swap S st
          = (match FwConfig.prep_page_swap_request S st.flash st.p_most_recent_val with
              | none => (FwConfig.FirmUpdConf_Status.FIRM_UPDT_CONF_EC_OK, st)
              | some t => FwConfig.page_erase S t st))
    ∧ (∀ (st : FwConfig.Store) (p j k : Nat), st.p_most_recent_val = some p →
        FwConfig.page_start S j = FwConfig.page_start S p →
        (FwConfig.prep_page_swap S st).2.flash j k = st.flash j k)
    ∧ (∀ (d : FwConfig.firmware_update_config_data_t) (st : FwConfig.Store) (j k : Nat),
        (FwConfig.firmware_update_configurations_write S d st).1
          = FwConfig.FirmUpdConf_Status.FIRM_UPDT_CONF_EC_OK →
        FwConfig.page_start S j
          = FwConfig.page_start S (FwConfig.next_slot S st.p_most_recent_val) →
        (FwConfig.firmware_update_configurations_write S d st).2.flash j k
          = FwConfig.programmed (FwConfig.new_val_struct d)
              (FwConfig.next_slot S st.p_most_recent_val) 0
              FwConfig.FIRMWARE_UPDATE_CONFIG_BLOCK_SIZE st.flash j k)
    ∧ (∀ (st : FwConfig.Store) (p j k : Nat),
        (∀ q, FwConfig.init_scan st.flash (2 * S) 0 (2 * S - 1)
          ≠ FwConfig.ScanResult.corrupted q) →
        (FwConfig.firmware_update_configurations_init S st).2.p_most_recent_val = some p →
        FwConfig.page_start S j = FwConfig.page_start S p →
        (FwConfig.firmware_update_configurations_init S st).2.flash j k = st.flash j k)
    ∧ (∀ (d : FwConfig.firmware_update_config_data_t) (st : FwConfig.Store),
        (FwConfig.firmware_update_configurations_write S d st).1
          = FwConfig.FirmUpdConf_Status.FIRM_UPDT_CONF_EC_OK →
        FwConfig.slot_erased st.flash (FwConfig.next_slot S st.p_most_recent_val) →
        (FwConfig.firmware_update_configurations_write S d st).2.p_most_recent_val
          = some (FwConfig.next_slot S st.p_most_recent_val)
        ∧ FwConfig.holds_record (FwConfig.firmware_update_configurations_write S d st).2.flash
            (FwConfig.next_slot S st.p_most_recent_val) d) := by
  refine ⟨?_, ?_, ?_, ?_, ?_, ?_⟩
  · intro st t h
    exact FwConfig.prep_page_swap_request_other_page S hS st.flash st.p_most_recent_val t h
  · intro st
    exact FwConfig.prep_page_swap_eq_request S st
  · intro st p j k hp hj
    exact FwConfig.prep_page_swap_keeps_latest_page S hS st p j k hp hj
  · intro d st j k hok hj
    rw [((FwConfig.write_spec S d st).1 hok).2]
    exact FwConfig.swapped_latest_page S hS _ _ j k hj
  · intro st p j k hscan hp hj
    unfold FwConfig.firmware_update_configurations_init at hp ⊢
    cases hs : FwConfig.init_scan st.flash (2 * S) 0 (2 * S - 1) with
    | corrupted q => exact absurd hs (hscan q)
    | found q =>
      rw [hs] at hp
      simp only at hp ⊢
      have hq := (FwConfig.prep_page_swap_spec S { st with p_most_recent_val := some q }).1
      rw [hp] at hq
      have hpq : p = q := Option.some.inj hq
      rw [hpq] at hj
      exact FwConfig.prep_page_swap_keeps_latest_page S hS
        { st with p_most_recent_val := some q } q j k rfl hj
    | exhausted q =>
      rw [hs] at hp
      simp only at hp ⊢
      by_cases he : FwConfig.is_erased st.flash q = FwConfig.FLASH_BLOCK_ERASED
      · rw [if_pos he] at hp ⊢
        have hq := (FwConfig.prep_page_swap_spec S { st with p_most_recent_val := none }).1
        rw [hp] at hq
        exact absurd hq (by simp)
      · rw [if_neg he] at hp ⊢
        have hq := (FwConfig.prep_page_swap_spec S { st with p_most_recent_val := some q }).1
        rw [hp] at hq
        have hpq : p = q := Option.some.inj hq
        rw [hpq] at hj
        exact FwConfig.prep_page_swap_keeps_latest_page S hS
          { st with p_most_recent_val := some q } q j k rfl hj
  · intro d st hok he
    obtain ⟨hp, hfl⟩ := (FwConfig.write_spec S d st).1 hok
    refine ⟨hp, ?_⟩
    intro k hk
    rw [hfl, FwConfig.swapped_latest]
    exact FwConfig.programmed_erased_slot d _ _ he k hk

/-- Witness for C28: with two slots per region, the pointer at slot 0 and the last slot of region
2 in use, the swap asks for region 2 (first slot 2), which is not the region of slot 0; and the
first write into the erased medium leaves its record in slot 0. -/
theorem swap_never_erases_latest_region_witness :
    ((2 = 0 ∨ 2 = 2) ∧ ∀ p, (some 0 : Option Nat) = some p → FwConfig.page_start 2 p ≠ 2)
    ∧ ((FwConfig.firmware_update_configurations_write 2 ⟨5, 6, 7, 8, 0, 0, 1, 0⟩
          ⟨FwConfig.erased_flash, none, []⟩).2.p_most_recent_val = some 0
      ∧ FwConfig.holds_record
          (FwConfig.firmware_update_configurations_write 2 ⟨5, 6, 7, 8, 0, 0, 1, 0⟩
            ⟨FwConfig.erased_flash, none, []⟩).2.flash 0 ⟨5, 6, 7, 8, 0, 0, 1, 0⟩) :=
  ⟨(swap_never_erases_latest_region 2 (by decide)).1
      ⟨fun j _ => if j = 3 then 0 else 0xFF, some 0, []⟩ 2 (by decide),
    (swap_never_erases_latest_region 2 (by decide)).2.2.2.2.2 ⟨5, 6, 7, 8, 0, 0, 1, 0⟩
      ⟨FwConfig.erased_flash, none, []⟩
      ((FwConfig.write_spec 2 ⟨5, 6, 7, 8, 0, 0, 1, 0⟩
        ⟨FwConfig.erased_flash, none, []⟩).2 rfl).1
      (fun _ _ => rfl)⟩

namespace FwConfig

open HAL_StatusTypeDef FirmUpdConf_Status

theorem write_all_hal (S : Nat) :
    ∀ (bodies : List firmware_update_config_data_t) (st : Store), st.hal = [] →
      (write_all S bodies st).2.hal = [] := by
  intro bodies
  induction bodies with
  | nil => intro st h; exact h
  | cons b rest ih =>
    intro st h
    exact ih _ ((write_spec S b st).2 h).2

/-- The store after `bodies.length` successful writes into the erased medium: untouched when
there was no write, else a log that ends at slot `(n - 1) mod 2S`. -/
theorem write_all_from_erased (S : Nat) (hS : 1 ≤ S)
    (bodies : List firmware_update_config_data_t) :
    (write_all S bodies ⟨erased_flash, none, []⟩).2.hal = []
    ∧ (bodies.length = 0 →
        (write_all S bodies ⟨erased_flash, none, []⟩).2.flash = erased_flash
        ∧ (write_all S bodies ⟨erased_flash, none, []⟩).2.p_most_recent_val = none)
    ∧ (bodies.length ≠ 0 →
        (write_all S bodies ⟨erased_flash, none, []⟩).2.p_most_recent_val
          = some ((bodies.length - 1) % (2 * S))
        ∧ ∃ d, log_of S (write_all S bodies ⟨erased_flash, none, []⟩).2.flash
            ((bodies.length - 1) % (2 * S)) d) := by
  refine ⟨write_all_hal S bodies _ rfl, ?_, ?_⟩
  · intro h
    rw [List.length_eq_zero.mp h]
    exact ⟨rfl, rfl⟩
  · intro h
    cases bodies with
    | nil => exact absurd rfl h
    | cons b rest =>
      obtain ⟨_, f2, f3, f4⟩ := write_first S hS b
      obtain ⟨_, i2, i3⟩ := write_all_log S hS rest _ 0 b f2 f3 f4
      rw [Nat.zero_add] at i2 i3
      have hl : (b :: rest).length - 1 = rest.length := by
        rw [List.length_cons]; omega
      rw [hl]
      exact ⟨i2, _, i3⟩

/-- The request of a write onto a log that ends at slot `p`: region 1 when the record goes to
the first slot of region 2, region 2 when it goes (wrapping) to the first slot of region 1,
nothing otherwise. -/
theorem write_request_on_log (S : Nat) (hS : 1 ≤ S) (st : Store) (p : Nat)
    (d0 d : firmware_update_config_data_t)
    (hptr : st.p_most_recent_val = some p) (hlog : log_of S st.flash p d0) :
    write_request S d st
      = (if (p + 1) % (2 * S) = S then some 0
         else if (p + 1) % (2 * S) = 0 then some S else none) := by
  obtain ⟨hp, hin, hout, _⟩ := hlog
  have hlast : is_erased st.flash p = FLASH_BLOCK_NOT_ERASED :=
    hin p hp ⟨by unfold page_start; split <;> omega, le_refl p⟩
  unfold write_request prep_page_swap_request
  rw [hptr, next_slot_mod S p hp]
  by_cases hA : (p + 1) % (2 * S) = 0
  · -- the record wraps to slot 0: the log ended at the last slot of region 2
    have hpl : p = 2 * S - 1 := by
      by_cases hq : p + 1 = 2 * S
      · omega
      · rw [Nat.mod_eq_of_lt (by omega)] at hA
        omega
    rw [hA]
    have hm : is_erased (programmed (new_val_struct d) 0 0 FIRMWARE_UPDATE_CONFIG_BLOCK_SIZE
        st.flash) (2 * S - 1) = FLASH_BLOCK_NOT_ERASED := by
      rw [is_erased_eq, programmed_other_slot _ _ _ _ _ _ _ (by omega), ← hpl]
      exact hlast
    rw [if_pos ⟨rfl, hm⟩, if_neg (by omega), if_pos rfl]
  · by_cases hB : (p + 1) % (2 * S) = S
    · have hpl : p = S - 1 := by
        by_cases hq : p + 1 = 2 * S
        · rw [hq, Nat.mod_self] at hB
          omega
        · rw [Nat.mod_eq_of_lt (by omega)] at hB
          omega
      rw [hB]
      have hm : is_erased (programmed (new_val_struct d) S 0 FIRMWARE_UPDATE_CONFIG_BLOCK_SIZE
          st.flash) (S - 1) = FLASH_BLOCK_NOT_ERASED := by
        rw [is_erased_eq, programmed_other_slot _ _ _ _ _ _ _ (by omega), ← hpl]
        exact hlast
      rw [if_neg (fun h => by have := Option.some.inj h.1; omega), if_pos ⟨rfl, hm⟩,
        if_pos rfl]
    · rw [if_neg (fun h => hA (Option.some.inj h.1)),
        if_neg (fun h => hB (Option.some.inj h.1)), if_neg hB, if_neg hA]

/-- The first write into the erased medium asks for no erase. -/
theorem write_request_on_erased (S : Nat) (hS : 1 ≤ S) (st : Store)
    (d : firmware_update_config_data_t)
    (hptr : st.p_most_recent_val = none) (hfl : st.flash = erased_flash) :
    write_request S d st = none := by
  unfold write_request prep_page_swap_request
  rw [hptr, hfl]
  have hn : next_slot S (none : Option Nat) = 0 := rfl
  rw [hn]
  have hm : is_erased (programmed (new_val_struct d) 0 0 FIRMWARE_UPDATE_CONFIG_BLOCK_SIZE
      erased_flash) (2 * S - 1) ≠ FLASH_BLOCK_NOT_ERASED := by
    rw [is_erased_eq, programmed_other_slot _ _ _ _ _ _ _ (by omega)]
    show (0xFF : Nat) ≠ 0
    decide
  rw [if_neg (fun h => hm h.2), if_neg (fun h => by have := Option.some.inj h.1; omega)]

end FwConfig

/-- C29: one erase when the log crosses a region.  Into the erased store with `S` slots per
region, every HAL call succeeding, let `bodies.length` writes have been made; the next write
(number `bodies.length + 1`) returns OK, programs its record and performs exactly the erase of
its request: the erase of region 1 (first slot 0) when `bodies.length mod 2S = S`, the erase of
region 2 (first slot `S`) when `bodies.length mod 2S = 0` and `bodies.length` is not 0, and no
erase otherwise.  So each of the first `S` writes triggers no erase, write number `S + 1`
triggers the erase of region 1 alone, and the write that wraps back to the first slot of region
1, number `2S + 1`, triggers the erase of region 2 alone; no write performs more than one
erase. -/
theorem one_erase_per_region_crossing (S : Nat) (hS : 1 ≤ S)
    (bodies : List FwConfig.firmware_update_config_data_t)
    (d : FwConfig.firmware_update_config_data_t) :
    FwConfig.write_request S d (FwConfig.write_all S bodies ⟨FwConfig.erased_flash, none, []⟩).2
      = (if bodies.length % (2 * S) = S then some 0
         else if bodies.length % (2 * S) = 0 ∧ bodies.length ≠ 0 then some S else none)
    ∧ (FwConfig.firmware_update_configurations_write S d
        (FwConfig.write_all S bodies ⟨FwConfig.erased_flash, none, []⟩).2).1
        = FwConfig.FirmUpdConf_Status.FIRM_UPDT_CONF_EC_OK
    ∧ (FwConfig.firmware_update_configurations_write S d
        (FwConfig.write_all S bodies ⟨FwConfig.erased_flash, none, []⟩).2).2.flash
        = (match FwConfig.write_request S d
              (FwConfig.write_all S bodies ⟨FwConfig.erased_flash, none, []⟩).2 with
            | none =>
              FwConfig.programmed (FwConfig.new_val_struct d)
                (FwConfig.next_slot S
                  (FwConfig.write_all S bodies
                    ⟨FwConfig.erased_flash, none, []⟩).2.p_most_recent_val)
                0 FwConfig.FIRMWARE_UPDATE_CONFIG_BLOCK_SIZE
                (FwConfig.write_all S bodies ⟨FwConfig.erased_flash, none, []⟩).2.flash
            | some t =>
              FwConfig.flash_erase_page S
                (FwConfig.programmed (FwConfig.new_val_struct d)
                  (FwConfig.next_slot S
                    (FwConfig.write_all S bodies
                      ⟨FwConfig.erased_flash, none, []⟩).2.p_most_recent_val)
                  0 FwConfig.FIRMWARE_UPDATE_CONFIG_BLOCK_SIZE
                  (FwConfig.write_all S bodies ⟨FwConfig.erased_flash, none, []⟩).2.flash) t)
    ∧ (bodies.length < S →
        FwConfig.write_request S d
          (FwConfig.write_all S bodies ⟨FwConfig.erased_flash, none, []⟩).2 = none)
    ∧ (bodies.length = S →
        FwConfig.write_request S d
          (FwConfig.write_all S bodies ⟨FwConfig.erased_flash, none, []⟩).2 = some 0)
    ∧ (bodies.length = 2 * S →
        FwConfig.write_request S d
          (FwConfig.write_all S bodies ⟨FwConfig.erased_flash, none, []⟩).2 = some S) := by
  obtain ⟨hhal, h0, h1⟩ := FwConfig.write_all_from_erased S hS bodies
  obtain ⟨w1, _, _, w4⟩ := FwConfig.write_eq_request S d
    (FwConfig.write_all S bodies ⟨FwConfig.erased_flash, none, []⟩).2 hhal
  have hreq : FwConfig.write_request S d
        (FwConfig.write_all S bodies ⟨FwConfig.erased_flash, none, []⟩).2
      = (if bodies.length % (2 * S) = S then some 0
         else if bodies.length % (2 * S) = 0 ∧ bodies.length ≠ 0 then some S else none) := by
    by_cases hn : bodies.length = 0
    · obtain ⟨e1, e2⟩ := h0 hn
      rw [FwConfig.write_request_on_erased S hS _ d e2 e1, hn, Nat.zero_mod,
        if_neg (by omega), if_neg (fun h => h.2 rfl)]
    · obtain ⟨e1, d0, e2⟩ := h1 hn
      rw [FwConfig.write_request_on_log S hS _ _ d0 d e1 e2]
      have hm : ((bodies.length - 1) % (2 * S) + 1) % (2 * S) = bodies.length % (2 * S) := by
        rw [Nat.add_mod, Nat.mod_mod, ← Nat.add_mod]
        congr 1
        omega
      rw [hm]
      by_cases hB : bodies.length % (2 * S) = S
      · rw [if_pos hB, if_pos hB]
      · rw [if_neg hB, if_neg hB]
        by_cases hA : bodies.length % (2 * S) = 0
        · rw [if_pos hA, if_pos ⟨hA, hn⟩]
        · rw [if_neg hA, if_neg (fun h => hA h.1)]
  refine ⟨hreq, w1, w4, ?_, ?_, ?_⟩
  · intro h
    rw [hreq, Nat.mod_eq_of_lt (by omega), if_neg (by omega), if_neg (by omega)]
  · intro h
    rw [hreq, h, Nat.mod_eq_of_lt (by omega), if_pos rfl]
  · intro h
    rw [hreq, h, Nat.mod_self, if_neg (by omega), if_pos ⟨rfl, by omega⟩]

/-- Witness for C29: with two slots per region, the third write asks for the erase of region 1
and the fifth write, which wraps to slot 0, for the erase of region 2 (first slot 2). -/
theorem one_erase_per_region_crossing_witness :
    FwConfig.write_request 2 ⟨5, 6, 7, 8, 0, 0, 1, 0⟩
        (FwConfig.write_all 2 [⟨1, 0, 0, 0, 0, 0, 0, 0⟩, ⟨2, 0, 0, 0, 0, 0, 0, 0⟩]
          ⟨FwConfig.erased_flash, none, []⟩).2 = some 0
    ∧ FwConfig.write_request 2 ⟨5, 6, 7, 8, 0, 0, 1, 0⟩
        (FwConfig.write_all 2
          [⟨1, 0, 0, 0, 0, 0, 0, 0⟩, ⟨2, 0, 0, 0, 0, 0, 0, 0⟩, ⟨3, 0, 0, 0, 0, 0, 0, 0⟩,
           ⟨4, 0, 0, 0, 0, 0, 0, 0⟩]
          ⟨FwConfig.erased_flash, none, []⟩).2 = some 2 :=
  ⟨(one_erase_per_region_crossing 2 (by decide)
      [⟨1, 0, 0, 0, 0, 0, 0, 0⟩, ⟨2, 0, 0, 0, 0, 0, 0, 0⟩] ⟨5, 6, 7, 8, 0, 0, 1, 0⟩).2.2.2.2.1
      rfl,
    (one_erase_per_region_crossing 2 (by decide)
      [⟨1, 0, 0, 0, 0, 0, 0, 0⟩, ⟨2, 0, 0, 0, 0, 0, 0, 0⟩, ⟨3, 0, 0, 0, 0, 0, 0, 0⟩,
       ⟨4, 0, 0, 0, 0, 0, 0, 0⟩] ⟨5, 6, 7, 8, 0, 0, 1, 0⟩).2.2.2.2.2 rfl⟩

namespace FwConfig

open HAL_StatusTypeDef FirmUpdConf_Status

/-- The record `firmware_update_configurations_write` builds: 32 bytes, the last one the
not-erased marker, the first four the checksum of the 28 bytes that follow them. -/
theorem new_val_struct_fields (d : firmware_update_config_data_t) :
    (new_val_struct d).length = 32
    ∧ (new_val_struct d).getD 31 0 = FLASH_BLOCK_NOT_ERASED
    ∧ read_u32 (new_val_struct d) 0
        = Firmware.crc32_mpeg2 ((new_val_struct d).drop 4)
            FIRMWARE_UPDATE_CONFIG_BLOCK_SIZE_WITHOUT_CRC := by
  have hlen := new_val_struct_length d
  have hb := data_bytes_length (stored_body d)
  have himg := new_val_struct_eq d
  have hcrc := firmware_crc32_mpeg2_lt (data_bytes (stored_body d) ++ [0xFF, 0xFF, 0xFF, 0x00])
    FIRMWARE_UPDATE_CONFIG_BLOCK_SIZE_WITHOUT_CRC
  obtain ⟨c, hc⟩ : ∃ c, c = Firmware.crc32_mpeg2
      (data_bytes (stored_body d) ++ [0xFF, 0xFF, 0xFF, 0x00])
      FIRMWARE_UPDATE_CONFIG_BLOCK_SIZE_WITHOUT_CRC := ⟨_, rfl⟩
  rw [← hc] at himg hcrc
  have hdrop : (new_val_struct d).drop 4
      = data_bytes (stored_body d) ++ [0xFF, 0xFF, 0xFF, 0x00] := by
    rw [himg]
    rfl
  refine ⟨hlen, ?_, ?_⟩
  · have h31 : (new_val_struct d).getD 31 0 = ((new_val_struct d).drop 4).getD 27 0 := by
      rw [List.getD_eq_getElem?_getD, List.getD_eq_getElem?_getD, List.getElem?_drop]
    rw [h31, hdrop, List.getD_eq_getElem?_getD,
      List.getElem?_append_right (by rw [hb]; decide), hb]
    rfl
  · rw [hdrop, ← hc]
    have h := read_u32_u32_bytes c hcrc []
      (data_bytes (stored_body d) ++ [0xFF, 0xFF, 0xFF, 0x00])
    rw [List.nil_append, List.length_nil] at h
    rw [himg]
    exact h

end FwConfig

/-- C30: append slot and wrap.  `firmware_update_configurations_write` programs the slot after
the latest record: slot 0 when there is no latest record, the slot that follows otherwise, and
slot 0 again after the last slot of region 2.  The record it builds has 32 bytes, ends with the
not-erased marker 0x00 and starts with the checksum of its other 28 bytes.  When the write
returns OK the pointer designates that slot, every byte of the slot is the former byte AND the
byte of the record, the other slots of its region are as they were, the marker of the slot reads
0x00, and when the slot was erased before, it holds the record byte for byte and its stored
checksum is the checksum of the rest of the stored record. -/
theorem write_appends_after_latest (S : Nat) (hS : 1 ≤ S)
    (d : FwConfig.firmware_update_config_data_t) (st : FwConfig.Store) :
    FwConfig.next_slot S none = 0
    ∧ (∀ p, p + 1 < 2 * S → FwConfig.next_slot S (some p) = p + 1)
    ∧ FwConfig.next_slot S (some (2 * S - 1)) = 0
    ∧ ((FwConfig.new_val_struct d).length = 32
      ∧ (FwConfig.new_val_struct d).getD 31 0 = FwConfig.FLASH_BLOCK_NOT_ERASED
      ∧ read_u32 (FwConfig.new_val_struct d) 0
          = Firmware.crc32_mpeg2 ((FwConfig.new_val_struct d).drop 4)
              FwConfig.FIRMWARE_UPDATE_CONFIG_BLOCK_SIZE_WITHOUT_CRC)
    ∧ ((FwConfig.firmware_update_configurations_write S d st).1
          = FwConfig.FirmUpdConf_Status.FIRM_UPDT_CONF_EC_OK →
        (FwConfig.firmware_update_configurations_write S d st).2.p_most_recent_val
          = some (FwConfig.next_slot S st.p_most_recent_val)
        ∧ (∀ k < 32,
            (FwConfig.firmware_update_configurations_write S d st).2.flash
                (FwConfig.next_slot S st.p_most_recent_val) k
              = st.flash (FwConfig.next_slot S st.p_most_recent_val) k
                  &&& (FwConfig.new_val_struct d).getD k 0)
        ∧ (∀ j k, j ≠ FwConfig.next_slot S st.p_most_recent_val →
            FwConfig.page_start S j
              = FwConfig.page_start S (FwConfig.next_slot S st.p_most_recent_val) →
            (FwConfig.firmware_update_configurations_write S d st).2.flash j k = st.flash j k)
        ∧ FwConfig.is_erased (FwConfig.firmware_update_configurations_write S d st).2.flash
            (FwConfig.next_slot S st.p_most_recent_val) = FwConfig.FLASH_BLOCK_NOT_ERASED
        ∧ (FwConfig.slot_erased st.flash (FwConfig.next_slot S st.p_most_recent_val) →
            FwConfig.holds_record (FwConfig.firmware_update_configurations_write S d st).2.flash
              (FwConfig.next_slot S st.p_most_recent_val) d
            ∧ FwConfig.stored_crc32 (FwConfig.firmware_update_configurations_write S d st).2.flash
                (FwConfig.next_slot S st.p_most_recent_val)
              = FwConfig.computed_crc32
                  (FwConfig.firmware_update_configurations_write S d st).2.flash
                  (FwConfig.next_slot S st.p_most_recent_val))) := by
  refine ⟨rfl, ?_, ?_, FwConfig.new_val_struct_fields d, ?_⟩
  · intro p hp
    unfold FwConfig.next_slot
    dsimp only
    rw [if_neg (by omega)]
  · unfold FwConfig.next_slot
    dsimp only
    rw [if_pos (by omega)]
  · intro hok
    obtain ⟨hp, hfl⟩ := (FwConfig.write_spec S d st).1 hok
    have hprog : ∀ k < 32,
        (FwConfig.firmware_update_configurations_write S d st).2.flash
            (FwConfig.next_slot S st.p_most_recent_val) k
          = st.flash (FwConfig.next_slot S st.p_most_recent_val) k
              &&& (FwConfig.new_val_struct d).getD k 0 := by
      intro k hk
      rw [hfl, FwConfig.swapped_latest]
      unfold FwConfig.programmed
      rw [if_pos ⟨rfl, by omega, by show k < 4 * (0 + 8); omega⟩]
    have hholds : FwConfig.slot_erased st.flash (FwConfig.next_slot S st.p_most_recent_val) →
        FwConfig.holds_record (FwConfig.firmware_update_configurations_write S d st).2.flash
          (FwConfig.next_slot S st.p_most_recent_val) d := by
      intro he k hk
      rw [hfl, FwConfig.swapped_latest]
      exact FwConfig.programmed_erased_slot d _ _ he k hk
    refine ⟨hp, hprog, ?_, ?_, ?_⟩
    · intro j k hj hpage
      rw [hfl, FwConfig.swapped_latest_page S hS _ _ j k hpage]
      exact FwConfig.programmed_other_slot _ _ _ _ _ j k hj
    · rw [FwConfig.is_erased_eq, hprog 31 (by omega), (FwConfig.new_val_struct_fields d).2.1]
      exact Nat.and_zero _
    · intro he
      exact ⟨hholds he, ((FwConfig.slot_holds_record _ _ d (hholds he)).2.2).symm⟩

/-- Witness for C30: with two slots per region, the slot after slot 3, the last slot of region
2, is slot 0; and the fifth write into the erased medium returns OK and leaves the pointer at the
slot after the fourth record. -/
theorem write_appends_after_latest_witness :
    FwConfig.next_slot 2 (some (2 * 2 - 1)) = 0
    ∧ (FwConfig.firmware_update_configurations_write 2 ⟨5, 6, 7, 8, 0, 0, 1, 0⟩
        (FwConfig.write_all 2
          [⟨1, 0, 0, 0, 0, 0, 0, 0⟩, ⟨2, 0, 0, 0, 0, 0, 0, 0⟩, ⟨3, 0, 0, 0, 0, 0, 0, 0⟩,
           ⟨4, 0, 0, 0, 0, 0, 0, 0⟩]
          ⟨FwConfig.erased_flash, none, []⟩).2).2.p_most_recent_val
      = some (FwConfig.next_slot 2
          (FwConfig.write_all 2
            [⟨1, 0, 0, 0, 0, 0, 0, 0⟩, ⟨2, 0, 0, 0, 0, 0, 0, 0⟩, ⟨3, 0, 0, 0, 0, 0, 0, 0⟩,
             ⟨4, 0, 0, 0, 0, 0, 0, 0⟩]
            ⟨FwConfig.erased_flash, none, []⟩).2.p_most_recent_val) :=
  ⟨(write_appends_after_latest 2 (by decide) ⟨5, 6, 7, 8, 0, 0, 1, 0⟩
      ⟨FwConfig.erased_flash, none, []⟩).2.2.1,
    ((write_appends_after_latest 2 (by decide) ⟨5, 6, 7, 8, 0, 0, 1, 0⟩
      (FwConfig.write_all 2
        [⟨1, 0, 0, 0, 0, 0, 0, 0⟩, ⟨2, 0, 0, 0, 0, 0, 0, 0⟩, ⟨3, 0, 0, 0, 0, 0, 0, 0⟩,
         ⟨4, 0, 0, 0, 0, 0, 0, 0⟩]
        ⟨FwConfig.erased_flash, none, []⟩).2).2.2.2.2
      ((FwConfig.write_spec 2 ⟨5, 6, 7, 8, 0, 0, 1, 0⟩ _).2
        (FwConfig.write_all_hal 2 _ _ rfl)).1).1⟩

/-! ## The send procedure of the controller -/

namespace Host

theorem RS232_SendByte_error (byte : Nat) (w : World) (h : w.send_error.headD false = true) :
    RS232_SendByte byte w = (true, { w with send_error := w.send_error.tail }) := by
  unfold RS232_SendByte
  rw [if_pos h]

theorem RS232_SendByte_sent (byte : Nat) (w : World) (h : w.send_error.headD false = false) :
    RS232_SendByte byte w
      = (false, { w with send_error := w.send_error.tail, sent := w.sent ++ [byte] }) := by
  unfold RS232_SendByte
  rw [if_neg (by rw [h]; decide)]

theorem send_bytes_cons (byte : Nat) (rest : List Nat) (w : World) :
    send_bytes (byte :: rest) w
      = if (RS232_SendByte byte w).1 then (true, (RS232_SendByte byte w).2)
        else send_bytes rest (RS232_SendByte byte w).2 := rfl

/-- What the byte loops leave alone: `RS232_SendByte` touches `send_error` and `sent` only. -/
theorem send_bytes_frame (l : List Nat) :
    ∀ w : World, (send_bytes l w).2.calls = w.calls
      ∧ (send_bytes l w).2.polls = w.polls
      ∧ (send_bytes l w).2.file = w.file
      ∧ (send_bytes l w).2.fread_error = w.fread_error
      ∧ (send_bytes l w).2.comport_error = w.comport_error := by
  induction l with
  | nil => intro w; exact ⟨rfl, rfl, rfl, rfl, rfl⟩
  | cons b rest ih =>
    intro w
    rw [send_bytes_cons]
    cases h : w.send_error.headD false with
    | true =>
      rw [RS232_SendByte_error b w h, if_pos rfl]
      exact ⟨rfl, rfl, rfl, rfl, rfl⟩
    | false =>
      rw [RS232_SendByte_sent b w h, if_neg Bool.false_ne_true]
      exact ih _

/-- The bytes a byte loop hands to the port: all of them when no call fails. -/
theorem send_bytes_sent (l : List Nat) :
    ∀ w : World, (send_bytes l w).1 = false → (send_bytes l w).2.sent = w.sent ++ l := by
  induction l with
  | nil => intro w _; exact (List.append_nil _).symm
  | cons b rest ih =>
    intro w
    rw [send_bytes_cons]
    cases h : w.send_error.headD false with
    | true =>
      rw [RS232_SendByte_error b w h, if_pos rfl]
      intro hc
      exact absurd hc.symm Bool.false_ne_true
    | false =>
      rw [RS232_SendByte_sent b w h, if_neg Bool.false_ne_true]
      intro hc
      rw [ih _ hc]
      simp only [List.append_assoc, List.singleton_append]

/-- With no failure of `RS232_SendByte` ahead, a byte loop sends its bytes. -/
theorem send_bytes_ok (l : List Nat) :
    ∀ w : World, w.send_error = [] →
      send_bytes l w = (false, { w with sent := w.sent ++ l }) := by
  induction l with
  | nil => intro w _; simp only [send_bytes, List.append_nil]
  | cons b rest ih =>
    intro w hw
    rw [send_bytes_cons, RS232_SendByte_sent b w (by rw [hw]; rfl), if_neg Bool.false_ne_true,
      ih _ (by rw [hw]; rfl)]
    simp only [List.append_assoc, List.singleton_append, hw, List.tail_nil]

end Host

namespace Host

theorem runs_append (a b : List Call) : runs (a ++ b) = runs a + runs b := by
  unfold runs
  exact List.countP_append _ a b

/-- One of the four send functions: the call is noted with the code it returns, which is OK or
one of the two codes of the function; the file and the results of the coming calls of
`RS232_OpenComport` are left alone; and OK means that the whole packet went to the port. -/
theorem send_packet_spec (packet : List Nat) (call : ETX_OTA_Status → Call)
    (send_data_err nack_resp : ETX_OTA_Status) (w : World) :
    (send_packet packet call send_data_err nack_resp w).2.calls
        = w.calls ++ [call (send_packet packet call send_data_err nack_resp w).1]
    ∧ ((send_packet packet call send_data_err nack_resp w).1 = ETX_OTA_Status.ETX_OTA_EC_OK
        ∨ (send_packet packet call send_data_err nack_resp w).1 = send_data_err
        ∨ (send_packet packet call send_data_err nack_resp w).1 = nack_resp)
    ∧ (send_packet packet call send_data_err nack_resp w).2.file = w.file
    ∧ (send_packet packet call send_data_err nack_resp w).2.fread_error = w.fread_error
    ∧ (send_packet packet call send_data_err nack_resp w).2.comport_error = w.comport_error
    ∧ ((send_bytes packet w).1 = false →
        (send_packet packet call send_data_err nack_resp w).2.sent = w.sent ++ packet) := by
  obtain ⟨f1, _, f3, f4, f5⟩ := send_bytes_frame packet w
  have f6 := send_bytes_sent packet w
  unfold send_packet
  dsimp only
  cases hs : (send_bytes packet w).1 with
  | true =>
    rw [if_pos rfl]
    refine ⟨?_, Or.inr (Or.inl rfl), f3, f4, f5, fun h => absurd h.symm Bool.false_ne_true⟩
    show (send_bytes packet w).2.calls ++ _ = _
    rw [f1]
    rfl
  | false =>
    rw [if_neg Bool.false_ne_true]
    cases ha : is_ack_resp_received (next_poll (send_bytes packet w).2).1 with
    | true =>
      rw [if_neg (by simp)]
      refine ⟨?_, Or.inl rfl, f3, f4, f5, fun _ => f6 hs⟩
      show (send_bytes packet w).2.calls ++ _ = _
      rw [f1]
      rfl
    | false =>
      rw [if_pos (by simp)]
      refine ⟨?_, Or.inr (Or.inr rfl), f3, f4, f5, fun _ => f6 hs⟩
      show (send_bytes packet w).2.calls ++ _ = _
      rw [f1]
      rfl

/-- A send function returns OK exactly when every byte was sent and the poll that follows
brought an acknowledgement. -/
theorem send_packet_ok_iff (packet : List Nat) (call : ETX_OTA_Status → Call)
    (send_data_err nack_resp : ETX_OTA_Status)
    (he : send_data_err ≠ ETX_OTA_Status.ETX_OTA_EC_OK)
    (hn : nack_resp ≠ ETX_OTA_Status.ETX_OTA_EC_OK) (w : World) :
    (send_packet packet call send_data_err nack_resp w).1 = ETX_OTA_Status.ETX_OTA_EC_OK
    ↔ ((send_bytes packet w).1 = false
        ∧ is_ack_resp_received ((send_bytes packet w).2.polls.headD []) = true) := by
  unfold send_packet
  dsimp only
  cases hs : (send_bytes packet w).1 with
  | true =>
    rw [if_pos rfl]
    exact ⟨fun h => absurd h he, fun h => absurd h.1.symm Bool.false_ne_true⟩
  | false =>
    rw [if_neg Bool.false_ne_true]
    cases ha : is_ack_resp_received (next_poll (send_bytes packet w).2).1 with
    | true =>
      rw [if_neg (by simp)]
      exact ⟨fun _ => ⟨rfl, ha⟩, fun _ => rfl⟩
    | false =>
      rw [if_pos (by simp)]
      refine ⟨fun h => absurd h hn, fun h => ?_⟩
      have h2 : is_ack_resp_received (next_poll (send_bytes packet w).2).1 = true := h.2
      rw [ha] at h2
      exact absurd h2 Bool.false_ne_true

end Host

namespace Host

theorem send_etx_ota_abort_bytes_cons (byte : Nat) (rest : List Nat) (w : World) :
    send_etx_ota_abort_bytes (byte :: rest) w
      = if (RS232_SendByte byte w).1 then
          (ETX_OTA_Status.ETX_OTA_EC_ABORT_CMD_SEND_DATA_ERR, (RS232_SendByte byte w).2)
        else
          if (RS232_PollComport (next_poll (RS232_SendByte byte w).2).1
              (List.replicate 10 0) 10).1 % 2 ^ 16 > 0 then
            if (RS232_PollComport (next_poll (RS232_SendByte byte w).2).1
                  (List.replicate 10 0) 10).2.getD 1 0 = ETX_OTA_PACKET_TYPE_RESPONSE
                ∧ read_u32 (RS232_PollComport (next_poll (RS232_SendByte byte w).2).1
                    (List.replicate 10 0) 10).2 5
                  = crc32_mpeg2 ((RS232_PollComport (next_poll (RS232_SendByte byte w).2).1
                      (List.replicate 10 0) 10).2.drop 4) 1
                ∧ (RS232_PollComport (next_poll (RS232_SendByte byte w).2).1
                    (List.replicate 10 0) 10).2.getD 4 0 = ETX_OTA_ACK then
              (ETX_OTA_Status.ETX_OTA_EC_OK, (next_poll (RS232_SendByte byte w).2).2)
            else
              (ETX_OTA_Status.ETX_OTA_EC_ABORT_CMD_NACK_RESP,
                (next_poll (RS232_SendByte byte w).2).2)
          else send_etx_ota_abort_bytes rest (next_poll (RS232_SendByte byte w).2).2 := rfl

/-- The byte loop of `send_etx_ota_abort`: the code is OK or one of the two Abort codes, and
the record of calls, the file and the results of the coming calls of `RS232_OpenComport` are
left alone. -/
theorem send_etx_ota_abort_bytes_frame (l : List Nat) :
    ∀ w : World,
      ((send_etx_ota_abort_bytes l w).1 = ETX_OTA_Status.ETX_OTA_EC_OK
        ∨ (send_etx_ota_abort_bytes l w).1 = ETX_OTA_Status.ETX_OTA_EC_ABORT_CMD_SEND_DATA_ERR
        ∨ (send_etx_ota_abort_bytes l w).1 = ETX_OTA_Status.ETX_OTA_EC_ABORT_CMD_NACK_RESP)
      ∧ (send_etx_ota_abort_bytes l w).2.calls = w.calls
      ∧ (send_etx_ota_abort_bytes l w).2.file = w.file
      ∧ (send_etx_ota_abort_bytes l w).2.fread_error = w.fread_error
      ∧ (send_etx_ota_abort_bytes l w).2.comport_error = w.comport_error := by
  induction l with
  | nil => intro w; exact ⟨Or.inl rfl, rfl, rfl, rfl, rfl⟩
  | cons b rest ih =>
    intro w
    rw [send_etx_ota_abort_bytes_cons]
    cases h : w.send_error.headD false with
    | true =>
      rw [RS232_SendByte_error b w h, if_pos rfl]
      exact ⟨Or.inr (Or.inl rfl), rfl, rfl, rfl, rfl⟩
    | false =>
      rw [RS232_SendByte_sent b w h, if_neg Bool.false_ne_true]
      split
      · split
        · exact ⟨Or.inl rfl, rfl, rfl, rfl, rfl⟩
        · exact ⟨Or.inr (Or.inr rfl), rfl, rfl, rfl, rfl⟩
      · exact ih _

/-- When nothing at all comes back from the node and every byte can be sent, the byte loop of
`send_etx_ota_abort` runs to its end and the function returns OK. -/
theorem send_etx_ota_abort_bytes_silent (l : List Nat) :
    ∀ w : World, w.send_error = [] → w.polls = [] →
      send_etx_ota_abort_bytes l w
        = (ETX_OTA_Status.ETX_OTA_EC_OK, { w with sent := w.sent ++ l }) := by
  induction l with
  | nil => intro w _ _; simp only [send_etx_ota_abort_bytes, List.append_nil]
  | cons b rest ih =>
    intro w hs hp
    rw [send_etx_ota_abort_bytes_cons, RS232_SendByte_sent b w (by rw [hs]; rfl),
      if_neg Bool.false_ne_true]
    have hpoll : next_poll { w with send_error := w.send_error.tail, sent := w.sent ++ [b] }
        = ([], { w with send_error := [], sent := w.sent ++ [b] }) := by
      unfold next_poll
      simp only [hp, hs, List.headD_nil, List.tail_nil]
    rw [hpoll]
    have hlen : ¬ (RS232_PollComport [] (List.replicate 10 0) 10).1 % 2 ^ 16 > 0 := by decide
    rw [if_neg hlen]
    dsimp only
    rw [ih { w with send_error := [], sent := w.sent ++ [b] } rfl hp]
    simp only [List.append_assoc, List.singleton_append, hs]

/-- The function `send_etx_ota_abort`: the call is noted with the code it returns. -/
theorem send_etx_ota_abort_spec (w : World) :
    (send_etx_ota_abort w).2.calls = w.calls ++ [Call.send_etx_ota_abort (send_etx_ota_abort w).1]
    ∧ ((send_etx_ota_abort w).1 = ETX_OTA_Status.ETX_OTA_EC_OK
        ∨ (send_etx_ota_abort w).1 = ETX_OTA_Status.ETX_OTA_EC_ABORT_CMD_SEND_DATA_ERR
        ∨ (send_etx_ota_abort w).1 = ETX_OTA_Status.ETX_OTA_EC_ABORT_CMD_NACK_RESP)
    ∧ (send_etx_ota_abort w).2.file = w.file
    ∧ (send_etx_ota_abort w).2.fread_error = w.fread_error
    ∧ (send_etx_ota_abort w).2.comport_error = w.comport_error := by
  obtain ⟨f1, f2, f3, f4, f5⟩ := send_etx_ota_abort_bytes_frame etx_ota_abort_packet w
  unfold send_etx_ota_abort returned
  dsimp only
  rw [f2]
  exact ⟨rfl, f1, f3, f4, f5⟩

theorem abort_loop_succ (n : Nat) (ret : ETX_OTA_Status) (w : World) :
    abort_loop (n + 1) ret w
      = if (send_etx_ota_abort w).1 = ETX_OTA_Status.ETX_OTA_EC_OK then send_etx_ota_abort w
        else abort_loop n (send_etx_ota_abort w).1 (send_etx_ota_abort w).2 := rfl

/-- The Abort loop: the Aborts it sends are noted in order with the codes `t` they returned; they
are at most `n`; every one before the last returned something else than OK; the loop ends with
the code of the last one; and it ends with something else than OK only after `n` Aborts. -/
theorem abort_loop_spec (n : Nat) :
    ∀ (ret : ETX_OTA_Status) (w : World), ∃ t : List ETX_OTA_Status,
      (abort_loop n ret w).2.calls = w.calls ++ t.map Call.send_etx_ota_abort
      ∧ t.length ≤ n
      ∧ (∀ r ∈ t.dropLast, r ≠ ETX_OTA_Status.ETX_OTA_EC_OK)
      ∧ (abort_loop n ret w).1 = t.getLastD ret
      ∧ ((abort_loop n ret w).1 ≠ ETX_OTA_Status.ETX_OTA_EC_OK → t.length = n)
      ∧ (n ≠ 0 → t ≠ [])
      ∧ (abort_loop n ret w).2.file = w.file
      ∧ (abort_loop n ret w).2.fread_error = w.fread_error
      ∧ (abort_loop n ret w).2.comport_error = w.comport_error := by
  induction n with
  | zero =>
    intro ret w
    exact ⟨[], (List.append_nil _).symm, le_refl 0, fun r hr => absurd hr (List.not_mem_nil r),
      rfl, fun _ => rfl, fun h => absurd rfl h, rfl, rfl, rfl⟩
  | succ n ih =>
    intro ret w
    obtain ⟨a1, _, a3, a4, a5⟩ := send_etx_ota_abort_spec w
    rw [abort_loop_succ]
    by_cases hok : (send_etx_ota_abort w).1 = ETX_OTA_Status.ETX_OTA_EC_OK
    · rw [if_pos hok]
      refine ⟨[ETX_OTA_Status.ETX_OTA_EC_OK], ?_, by simp, ?_, hok, fun h => absurd hok h,
        fun _ => List.cons_ne_nil _ _, a3, a4, a5⟩
      · rw [a1, hok]
        rfl
      · intro r hr
        exact absurd hr (List.not_mem_nil r)
    · rw [if_neg hok]
      obtain ⟨t, i1, i2, i3, i4, i5, _, i6, i7, i8⟩ :=
        ih (send_etx_ota_abort w).1 (send_etx_ota_abort w).2
      refine ⟨(send_etx_ota_abort w).1 :: t, ?_, ?_, ?_, ?_, ?_, fun _ => List.cons_ne_nil _ _,
        i6.trans a3, i7.trans a4, i8.trans a5⟩
      · rw [i1, a1, List.map_cons, List.append_assoc, List.singleton_append]
      · rw [List.length_cons]
        omega
      · intro r hr
        cases t with
        | nil => exact absurd hr (List.not_mem_nil r)
        | cons x xs =>
          rw [List.dropLast_cons₂] at hr
          rcases List.mem_cons.mp hr with h | h
          · rw [h]; exact hok
          · exact i3 r h
      · rw [i4, List.getLastD_cons]
      · intro h
        rw [List.length_cons, i5 h]

end Host

namespace Host

theorem send_data_loop_eq (P : List Nat) (n i : Nat) (w : World) :
    send_data_loop P n i w
      = if i < n then
          if (send_etx_ota_data (P.drop i)
                (if n - i ≥ ETX_OTA_DATA_MAX_SIZE then ETX_OTA_DATA_MAX_SIZE else n - i) w).1
              ≠ ETX_OTA_Status.ETX_OTA_EC_OK then
            send_etx_ota_data (P.drop i)
              (if n - i ≥ ETX_OTA_DATA_MAX_SIZE then ETX_OTA_DATA_MAX_SIZE else n - i) w
          else
            send_data_loop P n
              (i + (if n - i ≥ ETX_OTA_DATA_MAX_SIZE then ETX_OTA_DATA_MAX_SIZE else n - i))
              (send_etx_ota_data (P.drop i)
                (if n - i ≥ ETX_OTA_DATA_MAX_SIZE then ETX_OTA_DATA_MAX_SIZE else n - i) w).2
        else (ETX_OTA_Status.ETX_OTA_EC_OK, w) := by
  rw [send_data_loop]

theorem start_etx_ota_process_eq (api : ETX_OTA_API_t) (a : Nat) (w : World) :
    start_etx_ota_process api a w
      = match start_etx_ota_process_setup api a w with
        | Except.error r => (r.1, a, r.2)
        | Except.ok (payload_size, PAYLOAD_CONTENT, w1) =>
          if (send_etx_ota_start w1).1 ≠ ETX_OTA_Status.ETX_OTA_EC_OK then
            if a = 0 then
              start_etx_ota_process api 1 (RS232_CloseComport (send_etx_ota_start w1).2)
            else ((send_etx_ota_start w1).1, (a + 1) % 256, (send_etx_ota_start w1).2)
          else
            if (send_etx_ota_header
                (etx_ota_header_info PAYLOAD_CONTENT payload_size api.ETX_OTA_Payload_Type)
                (send_etx_ota_start w1).2).1 ≠ ETX_OTA_Status.ETX_OTA_EC_OK then
              if a = 0 then
                start_etx_ota_process api 1
                  (RS232_CloseComport (send_etx_ota_header
                    (etx_ota_header_info PAYLOAD_CONTENT payload_size api.ETX_OTA_Payload_Type)
                    (send_etx_ota_start w1).2).2)
              else
                ((send_etx_ota_header
                    (etx_ota_header_info PAYLOAD_CONTENT payload_size api.ETX_OTA_Payload_Type)
                    (send_etx_ota_start w1).2).1, (a + 1) % 256,
                  (send_etx_ota_header
                    (etx_ota_header_info PAYLOAD_CONTENT payload_size api.ETX_OTA_Payload_Type)
                    (send_etx_ota_start w1).2).2)
            else
              ((send_payload_and_end PAYLOAD_CONTENT payload_size
                  (send_etx_ota_header
                    (etx_ota_header_info PAYLOAD_CONTENT payload_size api.ETX_OTA_Payload_Type)
                    (send_etx_ota_start w1).2).2).1, a,
                (send_payload_and_end PAYLOAD_CONTENT payload_size
                  (send_etx_ota_header
                    (etx_ota_header_info PAYLOAD_CONTENT payload_size api.ETX_OTA_Payload_Type)
                    (send_etx_ota_start w1).2).2).2) := by
  rw [start_etx_ota_process]
  cases start_etx_ota_process_setup api a w with
  | error r => rfl
  | ok v =>
    obtain ⟨n, c, w1⟩ := v
    dsimp only
    by_cases h : a = 0
    · subst h
      simp only [dif_pos, if_pos]
    · simp only [dif_neg h, if_neg h]

/-- The size of the chunk that the Data loop sends from index `i`. -/
theorem chunk_size_bounds (n i : Nat) (h : i < n) :
    1 ≤ (if n - i ≥ ETX_OTA_DATA_MAX_SIZE then ETX_OTA_DATA_MAX_SIZE else n - i)
    ∧ (if n - i ≥ ETX_OTA_DATA_MAX_SIZE then ETX_OTA_DATA_MAX_SIZE else n - i) ≤ n - i
    ∧ (if n - i ≥ ETX_OTA_DATA_MAX_SIZE then ETX_OTA_DATA_MAX_SIZE else n - i)
        ≤ ETX_OTA_DATA_MAX_SIZE := by
  have h1 : ETX_OTA_DATA_MAX_SIZE = 1024 := rfl
  rw [h1]
  split <;> omega

/-- The Data loop notes Data calls only; its code is OK or one of the two Data codes; the file
and the results of the coming calls of `RS232_OpenComport` are left alone. -/
theorem send_data_loop_frame (P : List Nat) (n : Nat) :
    ∀ (m i : Nat) (w : World), n - i ≤ m →
      (∃ t : List Call, (send_data_loop P n i w).2.calls = w.calls ++ t
        ∧ ∀ c ∈ t, ∃ size r, c = Call.send_etx_ota_data size r)
      ∧ ((send_data_loop P n i w).1 = ETX_OTA_Status.ETX_OTA_EC_OK
        ∨ (send_data_loop P n i w).1 = ETX_OTA_Status.ETX_OTA_EC_DATA_PCKT_SEND_DATA_ERR
        ∨ (send_data_loop P n i w).1 = ETX_OTA_Status.ETX_OTA_EC_DATA_PCKT_NACK_RESP)
      ∧ (send_data_loop P n i w).2.file = w.file
      ∧ (send_data_loop P n i w).2.fread_error = w.fread_error
      ∧ (send_data_loop P n i w).2.comport_error = w.comport_error := by
  intro m
  induction m with
  | zero =>
    intro i w hm
    rw [send_data_loop_eq, if_neg (by omega)]
    exact ⟨⟨[], (List.append_nil _).symm, fun c hc => absurd hc (List.not_mem_nil c)⟩,
      Or.inl rfl, rfl, rfl, rfl⟩
  | succ m ih =>
    intro i w hm
    rw [send_data_loop_eq]
    by_cases hi : i < n
    · rw [if_pos hi]
      obtain ⟨b1, _, _⟩ := chunk_size_bounds n i hi
      generalize (if n - i ≥ ETX_OTA_DATA_MAX_SIZE then ETX_OTA_DATA_MAX_SIZE else n - i)
        = size at b1 ⊢
      have hs : (send_etx_ota_data (P.drop i) size w).2.calls
            = w.calls ++ [Call.send_etx_ota_data size (send_etx_ota_data (P.drop i) size w).1]
          ∧ ((send_etx_ota_data (P.drop i) size w).1 = ETX_OTA_Status.ETX_OTA_EC_OK
            ∨ (send_etx_ota_data (P.drop i) size w).1
                = ETX_OTA_Status.ETX_OTA_EC_DATA_PCKT_SEND_DATA_ERR
            ∨ (send_etx_ota_data (P.drop i) size w).1
                = ETX_OTA_Status.ETX_OTA_EC_DATA_PCKT_NACK_RESP)
          ∧ (send_etx_ota_data (P.drop i) size w).2.file = w.file
          ∧ (send_etx_ota_data (P.drop i) size w).2.fread_error = w.fread_error
          ∧ (send_etx_ota_data (P.drop i) size w).2.comport_error = w.comport_error
          ∧ _ := send_packet_spec _ _ _ _ w
      obtain ⟨s1, s2, s3, s4, s5, _⟩ := hs
      by_cases hok : (send_etx_ota_data (P.drop i) size w).1 = ETX_OTA_Status.ETX_OTA_EC_OK
      · rw [if_neg (not_not.mpr hok)]
        obtain ⟨⟨t, i1, i2⟩, i3, i4, i5, i6⟩ :=
          ih (i + size) (send_etx_ota_data (P.drop i) size w).2 (by omega)
        refine ⟨⟨Call.send_etx_ota_data size (send_etx_ota_data (P.drop i) size w).1 :: t,
          ?_, ?_⟩, i3, i4.trans s3, i5.trans s4, i6.trans s5⟩
        · rw [i1, s1, List.append_assoc, List.singleton_append]
        · intro c hc
          rcases List.mem_cons.mp hc with h | h
          · exact ⟨_, _, h⟩
          · exact i2 c h
      · rw [if_pos hok]
        refine ⟨⟨[Call.send_etx_ota_data size (send_etx_ota_data (P.drop i) size w).1],
          s1, ?_⟩, s2, s3, s4, s5⟩
        intro c hc
        exact ⟨_, _, List.mem_singleton.mp hc⟩
    · rw [if_neg hi]
      exact ⟨⟨[], (List.append_nil _).symm, fun c hc => absurd hc (List.not_mem_nil c)⟩,
        Or.inl rfl, rfl, rfl, rfl⟩

/-- A Data loop that ends with something else than OK ends with the outcome of one call of
`send_etx_ota_data`, the one for the chunk at some index `j`: nothing is done after it. -/
theorem send_data_loop_fails (P : List Nat) (n : Nat) :
    ∀ (m i : Nat) (w : World), n - i ≤ m →
      (send_data_loop P n i w).1 ≠ ETX_OTA_Status.ETX_OTA_EC_OK →
      ∃ (j : Nat) (w1 : World), i ≤ j ∧ j < n
        ∧ send_data_loop P n i w
          = send_etx_ota_data (P.drop j)
              (if n - j ≥ ETX_OTA_DATA_MAX_SIZE then ETX_OTA_DATA_MAX_SIZE else n - j) w1 := by
  intro m
  induction m with
  | zero =>
    intro i w hm
    rw [send_data_loop_eq, if_neg (by omega)]
    intro h
    exact absurd rfl h
  | succ m ih =>
    intro i w hm
    rw [send_data_loop_eq]
    by_cases hi : i < n
    · rw [if_pos hi]
      obtain ⟨b1, _, _⟩ := chunk_size_bounds n i hi
      by_cases hok : (send_etx_ota_data (P.drop i)
          (if n - i ≥ ETX_OTA_DATA_MAX_SIZE then ETX_OTA_DATA_MAX_SIZE else n - i) w).1
          = ETX_OTA_Status.ETX_OTA_EC_OK
      · rw [if_neg (not_not.mpr hok)]
        intro h
        obtain ⟨j, w1, j1, j2, j3⟩ := ih _ _ (by omega) h
        exact ⟨j, w1, by omega, j2, j3⟩
      · rw [if_pos hok]
        intro _
        exact ⟨i, w, le_refl i, hi, rfl⟩
    · rw [if_neg hi]
      intro h
      exact absurd rfl h

end Host

/-- The Data packet for the first `size` bytes of `Q`, field by field. -/
theorem data_packet_take (Q : List Nat) (size : Nat) (h : size ≤ Q.length) :
    Host.etx_ota_data_packet Q size
      = Node.packet_bytes ETX_OTA_SOF ETX_OTA_PACKET_TYPE_DATA (Q.take size)
          (Host.crc32_mpeg2 (Q.take size) (Q.take size).length) ETX_OTA_EOF := by
  have hl : (Q.take size).length = size := by
    rw [List.length_take]
    exact min_eq_left h
  unfold Host.etx_ota_data_packet Node.packet_bytes
  rw [map_range_getD Q size h, crc32_mpeg2_take Q size h, hl]

/-- The packets of the Data loop, one per chunk of 1024 bytes of the payload, from index `i`
on. -/
theorem data_loop_frames (P : List Nat) :
    ∀ (m i : Nat), P.length - i ≤ m →
      Host.data_loop P P.length i
        = (List.range ((P.length - i + 1023) / 1024)).map
            (fun k => Node.packet_bytes ETX_OTA_SOF ETX_OTA_PACKET_TYPE_DATA
              ((P.drop (i + 1024 * k)).take 1024)
              (Host.crc32_mpeg2 ((P.drop (i + 1024 * k)).take 1024)
                ((P.drop (i + 1024 * k)).take 1024).length) ETX_OTA_EOF) := by
  intro m
  induction m with
  | zero =>
    intro i hm
    have h0 : (P.length - i + 1023) / 1024 = 0 := by omega
    rw [data_loop_done P P.length i (by omega), h0]
    rfl
  | succ m ih =>
    intro i hm
    by_cases hi : i < P.length
    · rw [Host.data_loop, if_pos hi]
      have hmax : ETX_OTA_DATA_MAX_SIZE = 1024 := rfl
      by_cases hge : P.length - i ≥ ETX_OTA_DATA_MAX_SIZE
      · rw [if_pos hge, hmax]
        rw [hmax] at hge
        have hc : (P.length - i + 1023) / 1024 = (P.length - (i + 1024) + 1023) / 1024 + 1 := by
          omega
        rw [hc, List.range_succ_eq_map, List.map_cons, List.map_map, ih (i + 1024) (by omega),
          data_packet_take (P.drop i) 1024 (by rw [List.length_drop]; omega)]
        congr 1
        apply List.map_congr_left
        intro k _
        show _ = Node.packet_bytes ETX_OTA_SOF ETX_OTA_PACKET_TYPE_DATA
          ((P.drop (i + 1024 * (k + 1))).take 1024)
          (Host.crc32_mpeg2 ((P.drop (i + 1024 * (k + 1))).take 1024)
            ((P.drop (i + 1024 * (k + 1))).take 1024).length) ETX_OTA_EOF
        rw [show i + 1024 * (k + 1) = i + 1024 + 1024 * k by omega]
      · rw [if_neg hge]
        rw [hmax] at hge
        have hc : (P.length - i + 1023) / 1024 = 1 := by omega
        rw [hc, data_loop_done P P.length (i + (P.length - i)) (by omega),
          data_packet_take (P.drop i) (P.length - i) (by rw [List.length_drop])]
        have ht : (P.drop i).take (P.length - i) = (P.drop (i + 1024 * 0)).take 1024 := by
          rw [Nat.mul_zero, Nat.add_zero,
            List.take_of_length_le (by rw [List.length_drop]),
            List.take_of_length_le (by rw [List.length_drop]; omega)]
        rw [ht]
        rfl
    · have h0 : (P.length - i + 1023) / 1024 = 0 := by omega
      rw [data_loop_done P P.length i hi, h0]
      rfl

/-- The chunks of 1024 bytes of a payload, in order, make up the payload. -/
theorem chunks_flatten :
    ∀ (m : Nat) (P : List Nat), P.length ≤ m →
      ((List.range ((P.length + 1023) / 1024)).map
        (fun k => (P.drop (1024 * k)).take 1024)).flatten = P := by
  intro m
  induction m with
  | zero =>
    intro P hm
    have hP : P = [] := List.length_eq_zero.mp (by omega)
    rw [hP]
    rfl
  | succ m ih =>
    intro P hm
    by_cases h0 : P.length = 0
    · rw [List.length_eq_zero.mp h0]
      rfl
    · have hc : (P.length + 1023) / 1024 = ((P.drop 1024).length + 1023) / 1024 + 1 := by
        rw [List.length_drop]
        omega
      rw [hc, List.range_succ_eq_map, List.map_cons, List.map_map, List.flatten_cons]
      have ht : (List.map ((fun k => (P.drop (1024 * k)).take 1024) ∘ Nat.succ)
            (List.range (((P.drop 1024).length + 1023) / 1024)))
          = (List.range (((P.drop 1024).length + 1023) / 1024)).map
              (fun k => ((P.drop 1024).drop (1024 * k)).take 1024) := by
        apply List.map_congr_left
        intro k _
        show (P.drop (1024 * (k + 1))).take 1024 = ((P.drop 1024).drop (1024 * k)).take 1024
        rw [List.drop_drop]
        congr 2
        omega
      rw [ht, ih (P.drop 1024) (by rw [List.length_drop]; omega)]
      exact List.take_append_drop 1024 P

namespace Host

/-- A Data loop that ends with OK has handed to the port, in order, the bytes of the packets of
`data_loop`, one call of `send_etx_ota_data` for each. -/
theorem send_data_loop_ok (P : List Nat) (n : Nat) :
    ∀ (m i : Nat) (w : World), n - i ≤ m →
      (send_data_loop P n i w).1 = ETX_OTA_Status.ETX_OTA_EC_OK →
      (send_data_loop P n i w).2.sent = w.sent ++ (data_loop P n i).flatten
      ∧ ∃ t : List Call, (send_data_loop P n i w).2.calls = w.calls ++ t
          ∧ t.length = (data_loop P n i).length
          ∧ ∀ c ∈ t, ∃ size, c = Call.send_etx_ota_data size ETX_OTA_Status.ETX_OTA_EC_OK := by
  intro m
  induction m with
  | zero =>
    intro i w hm _
    rw [send_data_loop_eq, if_neg (by omega), data_loop_done P n i (by omega)]
    exact ⟨(List.append_nil _).symm, [], (List.append_nil _).symm, rfl,
      fun c hc => absurd hc (List.not_mem_nil c)⟩
  | succ m ih =>
    intro i w hm
    by_cases hi : i < n
    · have hd : data_loop P n i
          = etx_ota_data_packet (P.drop i)
              (if n - i ≥ ETX_OTA_DATA_MAX_SIZE then ETX_OTA_DATA_MAX_SIZE else n - i)
            :: data_loop P n
              (i + (if n - i ≥ ETX_OTA_DATA_MAX_SIZE then ETX_OTA_DATA_MAX_SIZE else n - i)) := by
        rw [data_loop, if_pos hi]
        by_cases hge : n - i ≥ ETX_OTA_DATA_MAX_SIZE
        · rw [if_pos hge, if_pos hge]
        · rw [if_neg hge, if_neg hge]
      rw [send_data_loop_eq, if_pos hi, hd]
      obtain ⟨b1, _, _⟩ := chunk_size_bounds n i hi
      generalize (if n - i ≥ ETX_OTA_DATA_MAX_SIZE then ETX_OTA_DATA_MAX_SIZE else n - i)
        = size at b1 ⊢
      have hs : (send_etx_ota_data (P.drop i) size w).2.calls
            = w.calls ++ [Call.send_etx_ota_data size (send_etx_ota_data (P.drop i) size w).1]
          ∧ _ ∧ _ ∧ _ ∧ _
          ∧ ((send_bytes (etx_ota_data_packet (P.drop i) size) w).1 = false →
              (send_etx_ota_data (P.drop i) size w).2.sent
                = w.sent ++ etx_ota_data_packet (P.drop i) size) :=
        send_packet_spec _ _ _ _ w
      obtain ⟨s1, _, _, _, _, s6⟩ := hs
      have hiff : (send_etx_ota_data (P.drop i) size w).1 = ETX_OTA_Status.ETX_OTA_EC_OK
          ↔ _ := send_packet_ok_iff _ _ _ _ (by decide) (by decide) w
      by_cases hok : (send_etx_ota_data (P.drop i) size w).1 = ETX_OTA_Status.ETX_OTA_EC_OK
      · rw [if_neg (not_not.mpr hok)]
        intro h
        obtain ⟨i1, t, i2, i3, i4⟩ :=
          ih (i + size) (send_etx_ota_data (P.drop i) size w).2 (by omega) h
        refine ⟨?_, Call.send_etx_ota_data size ETX_OTA_Status.ETX_OTA_EC_OK :: t, ?_, ?_, ?_⟩
        · rw [i1, s6 (hiff.mp hok).1, List.flatten_cons, List.append_assoc]
        · rw [i2, s1, hok, List.append_assoc, List.singleton_append]
        · rw [List.length_cons, List.length_cons, i3]
        · intro c hc
          rcases List.mem_cons.mp hc with h | h
          · exact ⟨_, h⟩
          · exact i4 c h
      · rw [if_pos hok]
        intro h
        exact absurd h hok
    · rw [send_data_loop_eq, if_neg hi, data_loop_done P n i hi]
      intro _
      exact ⟨(List.append_nil _).symm, [], (List.append_nil _).symm, rfl,
        fun c hc => absurd hc (List.not_mem_nil c)⟩

end Host

namespace Host

theorem runs_data_calls (t : List Call)
    (h : ∀ c ∈ t, ∃ size r, c = Call.send_etx_ota_data size r) : runs t = 0 := by
  unfold runs
  rw [List.countP_eq_zero]
  intro c hc
  obtain ⟨size, r, e⟩ := h c hc
  rw [e]
  exact Bool.false_ne_true

theorem runs_abort_calls (t : List ETX_OTA_Status) :
    runs (t.map Call.send_etx_ota_abort) = 0 := by
  unfold runs
  rw [List.countP_eq_zero]
  intro c hc
  obtain ⟨r, _, e⟩ := List.mem_map.mp hc
  rw [← e]
  exact Bool.false_ne_true

/-- A send function starts no run. -/
theorem send_packet_runs (packet : List Nat) (call : ETX_OTA_Status → Call)
    (send_data_err nack_resp : ETX_OTA_Status) (w : World) (h : ∀ r, runs [call r] = 0) :
    runs (send_packet packet call send_data_err nack_resp w).2.calls = runs w.calls := by
  rw [(send_packet_spec packet call send_data_err nack_resp w).1, runs_append, h]
  rfl

/-- The payload is fetched from the file alone. -/
theorem get_payload_congr (api : ETX_OTA_API_t) (w w1 : World) (h1 : w1.file = w.file)
    (h2 : w1.fread_error = w.fread_error) : get_payload api w1 = get_payload api w := by
  unfold get_payload
  rw [h1, h2]

/-- The codes with which the payload is turned down. -/
theorem get_payload_error (api : ETX_OTA_API_t) (w : World) (e : ETX_OTA_Status)
    (h : get_payload api w = Except.error e) :
    e = ETX_OTA_Status.ETX_OTA_EC_OPEN_FILE_ERR ∨ e = ETX_OTA_Status.ETX_OTA_EC_NA
      ∨ e = ETX_OTA_Status.ETX_OTA_EC_READ_FILE_ERR
      ∨ e = ETX_OTA_Status.ETX_OTA_EC_UNRECOG_PAYLOAD := by
  unfold get_payload at h
  dsimp only at h
  split at h
  · split at h
    · exact Or.inl (Except.error.inj h).symm
    · split at h
      · split at h
        · exact Or.inr (Or.inl (Except.error.inj h).symm)
        · split at h
          · exact Or.inr (Or.inr (Or.inl (Except.error.inj h).symm))
          · exact absurd h (by simp)
      · split at h
        · exact Or.inr (Or.inl (Except.error.inj h).symm)
        · split at h
          · exact Or.inr (Or.inr (Or.inl (Except.error.inj h).symm))
          · exact absurd h (by simp)
  · split at h
    · exact absurd h (by simp)
    · exact Or.inr (Or.inr (Or.inr (Except.error.inj h).symm))

/-- The payload is turned down with `ETX_OTA_EC_NA` exactly when it is a firmware image whose
file is larger than the capacity for its kind. -/
theorem get_payload_na_iff (api : ETX_OTA_API_t) (w : World) :
    get_payload api w = Except.error ETX_OTA_Status.ETX_OTA_EC_NA
    ↔ ∃ content, w.file = some content
        ∧ ((api.ETX_OTA_Payload_Type = ETX_OTA_Bootloader_Firmware_Image
            ∧ content.length % 2 ^ 32
                > (api.flash_page_size_in_bytes * api.ETX_bl_page_size) % 2 ^ 32)
          ∨ (api.ETX_OTA_Payload_Type = ETX_OTA_Application_Firmware_Image
            ∧ content.length % 2 ^ 32
                > (api.flash_page_size_in_bytes * api.ETX_app_page_size) % 2 ^ 32)) := by
  have hne : ETX_OTA_Bootloader_Firmware_Image ≠ ETX_OTA_Application_Firmware_Image := by
    decide
  unfold get_payload
  dsimp only
  by_cases hk : api.ETX_OTA_Payload_Type = ETX_OTA_Bootloader_Firmware_Image
      ∨ api.ETX_OTA_Payload_Type = ETX_OTA_Application_Firmware_Image
  · rw [if_pos hk]
    cases hf : w.file with
    | none =>
      dsimp only
      constructor
      · intro h
        exact absurd (Except.error.inj h) (by decide)
      · rintro ⟨content, h, _⟩
        exact absurd h (by simp)
    | some content =>
      dsimp only
      by_cases hb : api.ETX_OTA_Payload_Type = ETX_OTA_Bootloader_Firmware_Image
      · rw [if_pos hb]
        by_cases hs : content.length % 2 ^ 32
            > (api.flash_page_size_in_bytes * api.ETX_bl_page_size) % 2 ^ 32
        · rw [if_pos hs]
          exact ⟨fun _ => ⟨content, rfl, Or.inl ⟨hb, hs⟩⟩, fun _ => rfl⟩
        · rw [if_neg hs]
          constructor
          · intro h
            split at h
            · exact absurd (Except.error.inj h) (by decide)
            · exact absurd h (by simp)
          · rintro ⟨c, hc, h⟩
            have hcc : content = c := Option.some.inj hc
            rw [← hcc] at h
            rcases h with h | h
            · exact absurd h.2 hs
            · exact absurd (hb.symm.trans h.1) hne
      · rw [if_neg hb]
        have ha : api.ETX_OTA_Payload_Type = ETX_OTA_Application_Firmware_Image := by
          rcases hk with h | h
          · exact absurd h hb
          · exact h
        by_cases hs : content.length % 2 ^ 32
            > (api.flash_page_size_in_bytes * api.ETX_app_page_size) % 2 ^ 32
        · rw [if_pos hs]
          exact ⟨fun _ => ⟨content, rfl, Or.inr ⟨ha, hs⟩⟩, fun _ => rfl⟩
        · rw [if_neg hs]
          constructor
          · intro h
            split at h
            · exact absurd (Except.error.inj h) (by decide)
            · exact absurd h (by simp)
          · rintro ⟨c, hc, h⟩
            have hcc : content = c := Option.some.inj hc
            rw [← hcc] at h
            rcases h with h | h
            · exact absurd h.1 hb
            · exact absurd h.2 hs
  · rw [if_neg hk]
    constructor
    · intro h
      split at h
      · exact absurd h (by simp)
      · exact absurd (Except.error.inj h) (by decide)
    · rintro ⟨c, _, h⟩
      rcases h with h | h
      · exact absurd (Or.inl h.1) hk
      · exact absurd (Or.inr h.1) hk

end Host

namespace Host

theorem RS232_OpenComport_frame (w : World) :
    runs (RS232_OpenComport w).2.calls = runs w.calls + 1
    ∧ (RS232_OpenComport w).2.file = w.file
    ∧ (RS232_OpenComport w).2.fread_error = w.fread_error
    ∧ (RS232_OpenComport w).2.sent = w.sent := by
  refine ⟨?_, rfl, rfl, rfl⟩
  show runs (w.calls ++ [Call.RS232_OpenComport (w.comport_error.headD false)]) = _
  rw [runs_append]
  rfl

theorem RS232_CloseComport_frame (w : World) :
    runs (RS232_CloseComport w).calls = runs w.calls
    ∧ (RS232_CloseComport w).file = w.file
    ∧ (RS232_CloseComport w).fread_error = w.fread_error := by
  refine ⟨?_, rfl, rfl⟩
  show runs (w.calls ++ [Call.RS232_CloseComport]) = _
  rw [runs_append]
  rfl

/-- The Abort loop starts no run and leaves the file alone. -/
theorem abort_loop_frame (n : Nat) (ret : ETX_OTA_Status) (w : World) :
    runs (abort_loop n ret w).2.calls = runs w.calls
    ∧ (abort_loop n ret w).2.file = w.file
    ∧ (abort_loop n ret w).2.fread_error = w.fread_error := by
  obtain ⟨t, h1, _, _, _, _, _, h6, h7, _⟩ := abort_loop_spec n ret w
  refine ⟨?_, h6, h7⟩
  rw [h1, runs_append, runs_abort_calls]
  rfl

/-- How the first part of `start_etx_ota_process` ends: the port cannot be opened; the payload is
turned down; the Abort loop fails (first run only); or the Start command is next, after the Abort
loop in a first run and right after the payload otherwise. -/
theorem setup_cases (api : ETX_OTA_API_t) (a : Nat) (w : World) :
    ((RS232_OpenComport w).1 = true
      ∧ start_etx_ota_process_setup api a w
        = Except.error (ETX_OTA_Status.ETX_OTA_EC_OPEN_COM_ERR, (RS232_OpenComport w).2))
    ∨ ((RS232_OpenComport w).1 = false
      ∧ ∃ e, get_payload api (RS232_OpenComport w).2 = Except.error e
        ∧ start_etx_ota_process_setup api a w = Except.error (e, (RS232_OpenComport w).2))
    ∨ ((RS232_OpenComport w).1 = false
      ∧ ∃ n c, get_payload api (RS232_OpenComport w).2 = Except.ok (n, c)
        ∧ a = 0
        ∧ (abort_loop ABORT_LOOP_ATTEMPTS ETX_OTA_Status.ETX_OTA_EC_OK
            (RS232_OpenComport w).2).1 ≠ ETX_OTA_Status.ETX_OTA_EC_OK
        ∧ start_etx_ota_process_setup api a w
          = Except.error (ETX_OTA_Status.ETX_OTA_EC_ABORT_LOOP_ERR,
              (abort_loop ABORT_LOOP_ATTEMPTS ETX_OTA_Status.ETX_OTA_EC_OK
                (RS232_OpenComport w).2).2))
    ∨ ((RS232_OpenComport w).1 = false
      ∧ ∃ n c, get_payload api (RS232_OpenComport w).2 = Except.ok (n, c)
        ∧ a = 0
        ∧ (abort_loop ABORT_LOOP_ATTEMPTS ETX_OTA_Status.ETX_OTA_EC_OK
            (RS232_OpenComport w).2).1 = ETX_OTA_Status.ETX_OTA_EC_OK
        ∧ start_etx_ota_process_setup api a w
          = Except.ok (n, c,
              (abort_loop ABORT_LOOP_ATTEMPTS ETX_OTA_Status.ETX_OTA_EC_OK
                (RS232_OpenComport w).2).2))
    ∨ ((RS232_OpenComport w).1 = false
      ∧ ∃ n c, get_payload api (RS232_OpenComport w).2 = Except.ok (n, c)
        ∧ a ≠ 0
        ∧ start_etx_ota_process_setup api a w = Except.ok (n, c, (RS232_OpenComport w).2)) := by
  unfold start_etx_ota_process_setup
  dsimp only
  cases ho : (RS232_OpenComport w).1 with
  | true =>
    left
    rw [if_pos rfl]
    exact ⟨rfl, rfl⟩
  | false =>
    right
    rw [if_neg Bool.false_ne_true]
    cases hg : get_payload api (RS232_OpenComport w).2 with
    | error e =>
      left
      exact ⟨rfl, e, rfl, rfl⟩
    | ok v =>
      right
      obtain ⟨n, c⟩ := v
      dsimp only
      by_cases ha : a = 0
      · rw [if_pos ha]
        by_cases hl : (abort_loop ABORT_LOOP_ATTEMPTS ETX_OTA_Status.ETX_OTA_EC_OK
            (RS232_OpenComport w).2).1 = ETX_OTA_Status.ETX_OTA_EC_OK
        · right; left
          rw [if_neg (not_not.mpr hl)]
          exact ⟨rfl, n, c, rfl, ha, hl, rfl⟩
        · left
          rw [if_pos hl]
          exact ⟨rfl, n, c, rfl, ha, hl, rfl⟩
      · right; right
        rw [if_neg ha]
        exact ⟨rfl, n, c, rfl, ha, rfl⟩

/-- The first part of `start_etx_ota_process` starts one run and leaves the file alone; the
payload it goes on with is the one fetched from the file. -/
theorem setup_frame (api : ETX_OTA_API_t) (a : Nat) (w : World) :
    (∀ r, start_etx_ota_process_setup api a w = Except.error r →
      runs r.2.calls = runs w.calls + 1 ∧ r.2.file = w.file ∧ r.2.fread_error = w.fread_error
      ∧ (r.1 = ETX_OTA_Status.ETX_OTA_EC_NA →
          get_payload api w = Except.error ETX_OTA_Status.ETX_OTA_EC_NA))
    ∧ (∀ n c w1, start_etx_ota_process_setup api a w = Except.ok (n, c, w1) →
      runs w1.calls = runs w.calls + 1 ∧ w1.file = w.file ∧ w1.fread_error = w.fread_error) := by
  obtain ⟨o1, o2, o3, _⟩ := RS232_OpenComport_frame w
  obtain ⟨l1, l2, l3⟩ := abort_loop_frame ABORT_LOOP_ATTEMPTS ETX_OTA_Status.ETX_OTA_EC_OK
    (RS232_OpenComport w).2
  have hg := get_payload_congr api w (RS232_OpenComport w).2 o2 o3
  rcases setup_cases api a w with ⟨_, h⟩ | ⟨_, e, he, h⟩ | ⟨_, n, c, _, _, _, h⟩
    | ⟨_, n, c, _, _, _, h⟩ | ⟨_, n, c, _, _, h⟩
  · rw [h]
    refine ⟨?_, fun n c w1 hc => absurd hc (by simp)⟩
    intro r hr
    rw [← Except.error.inj hr]
    exact ⟨o1, o2, o3, fun hc => absurd
      (show ETX_OTA_Status.ETX_OTA_EC_OPEN_COM_ERR = ETX_OTA_Status.ETX_OTA_EC_NA from hc)
      (by decide)⟩
  · rw [h]
    refine ⟨?_, fun n c w1 hc => absurd hc (by simp)⟩
    intro r hr
    rw [← Except.error.inj hr]
    refine ⟨o1, o2, o3, fun hc => ?_⟩
    have hc2 : e = ETX_OTA_Status.ETX_OTA_EC_NA := hc
    rw [← hg, he, hc2]
  · rw [h]
    refine ⟨?_, fun n c w1 hc => absurd hc (by simp)⟩
    intro r hr
    rw [← Except.error.inj hr]
    exact ⟨l1.trans o1, l2.trans o2, l3.trans o3, fun hc => absurd
      (show ETX_OTA_Status.ETX_OTA_EC_ABORT_LOOP_ERR = ETX_OTA_Status.ETX_OTA_EC_NA from hc)
      (by decide)⟩
  · rw [h]
    refine ⟨fun r hr => absurd hr (by simp), ?_⟩
    intro n1 c1 w1 hc
    have e1 := Except.ok.inj hc
    rw [← (Prod.mk.inj (Prod.mk.inj e1).2).2]
    exact ⟨l1.trans o1, l2.trans o2, l3.trans o3⟩
  · rw [h]
    refine ⟨fun r hr => absurd hr (by simp), ?_⟩
    intro n1 c1 w1 hc
    have e1 := Except.ok.inj hc
    rw [← (Prod.mk.inj (Prod.mk.inj e1).2).2]
    exact ⟨o1, o2, o3⟩

/-- The last part of `start_etx_ota_process`: its code is OK or one of the Data and End codes; it
starts no run and leaves the file alone. -/
theorem send_payload_and_end_spec (P : List Nat) (n : Nat) (w : World) :
    ((send_payload_and_end P n w).1 = ETX_OTA_Status.ETX_OTA_EC_OK
      ∨ (send_payload_and_end P n w).1 = ETX_OTA_Status.ETX_OTA_EC_DATA_PCKT_SEND_DATA_ERR
      ∨ (send_payload_and_end P n w).1 = ETX_OTA_Status.ETX_OTA_EC_DATA_PCKT_NACK_RESP
      ∨ (send_payload_and_end P n w).1 = ETX_OTA_Status.ETX_OTA_EC_END_CMD_SEND_DATA_ERR
      ∨ (send_payload_and_end P n w).1 = ETX_OTA_Status.ETX_OTA_EC_END_CMD_NACK_RESP)
    ∧ runs (send_payload_and_end P n w).2.calls = runs w.calls
    ∧ (send_payload_and_end P n w).2.file = w.file
    ∧ (send_payload_and_end P n w).2.fread_error = w.fread_error := by
  obtain ⟨⟨t, d1, d2⟩, d3, d4, d5, _⟩ := send_data_loop_frame P n n 0 w (by omega)
  have dr : runs (send_data_loop P n 0 w).2.calls = runs w.calls := by
    rw [d1, runs_append, runs_data_calls t d2]
    rfl
  have he : _ ∧ ((send_etx_ota_end (send_data_loop P n 0 w).2).1
        = ETX_OTA_Status.ETX_OTA_EC_OK
      ∨ (send_etx_ota_end (send_data_loop P n 0 w).2).1
        = ETX_OTA_Status.ETX_OTA_EC_END_CMD_SEND_DATA_ERR
      ∨ (send_etx_ota_end (send_data_loop P n 0 w).2).1
        = ETX_OTA_Status.ETX_OTA_EC_END_CMD_NACK_RESP)
      ∧ (send_etx_ota_end (send_data_loop P n 0 w).2).2.file = (send_data_loop P n 0 w).2.file
      ∧ (send_etx_ota_end (send_data_loop P n 0 w).2).2.fread_error
        = (send_data_loop P n 0 w).2.fread_error ∧ _ ∧ _ :=
    send_packet_spec etx_ota_end_packet Call.send_etx_ota_end _ _ (send_data_loop P n 0 w).2
  obtain ⟨_, e2, e3, e4, _, _⟩ := he
  have er : runs (send_etx_ota_end (send_data_loop P n 0 w).2).2.calls
      = runs (send_data_loop P n 0 w).2.calls :=
    send_packet_runs etx_ota_end_packet Call.send_etx_ota_end _ _ _ (fun _ => rfl)
  unfold send_payload_and_end
  dsimp only
  by_cases hd : (send_data_loop P n 0 w).1 = ETX_OTA_Status.ETX_OTA_EC_OK
  · rw [if_neg (not_not.mpr hd)]
    by_cases hend : (send_etx_ota_end (send_data_loop P n 0 w).2).1
        = ETX_OTA_Status.ETX_OTA_EC_OK
    · rw [if_neg (not_not.mpr hend)]
      exact ⟨Or.inl rfl, ((RS232_CloseComport_frame _).1.trans er).trans dr, e3.trans d4,
        e4.trans d5⟩
    · rw [if_pos hend]
      refine ⟨?_, er.trans dr, e3.trans d4, e4.trans d5⟩
      rcases e2 with h | h | h
      · exact absurd h hend
      · exact Or.inr (Or.inr (Or.inr (Or.inl h)))
      · exact Or.inr (Or.inr (Or.inr (Or.inr h)))
  · rw [if_pos hd]
    refine ⟨?_, dr, d4, d5⟩
    rcases d3 with h | h | h
    · exact absurd h hd
    · exact Or.inr (Or.inl h)
    · exact Or.inr (Or.inr (Or.inl h))

end Host

namespace Host

theorem send_etx_ota_start_frame (w : World) :
    ((send_etx_ota_start w).1 = ETX_OTA_Status.ETX_OTA_EC_OK
      ∨ (send_etx_ota_start w).1 = ETX_OTA_Status.ETX_OTA_EC_START_CMD_SEND_DATA_ERR
      ∨ (send_etx_ota_start w).1 = ETX_OTA_Status.ETX_OTA_EC_START_CMD_NACK_RESP)
    ∧ runs (send_etx_ota_start w).2.calls = runs w.calls
    ∧ (send_etx_ota_start w).2.file = w.file
    ∧ (send_etx_ota_start w).2.fread_error = w.fread_error := by
  obtain ⟨_, h2, h3, h4, _, _⟩ := send_packet_spec etx_ota_start_packet Call.send_etx_ota_start
    ETX_OTA_Status.ETX_OTA_EC_START_CMD_SEND_DATA_ERR
    ETX_OTA_Status.ETX_OTA_EC_START_CMD_NACK_RESP w
  exact ⟨h2, send_packet_runs _ _ _ _ w (fun _ => rfl), h3, h4⟩

theorem send_etx_ota_header_frame (info : header_data_t) (w : World) :
    ((send_etx_ota_header info w).1 = ETX_OTA_Status.ETX_OTA_EC_OK
      ∨ (send_etx_ota_header info w).1 = ETX_OTA_Status.ETX_OTA_EC_HEADER_PCKT_SEND_DATA_ERR
      ∨ (send_etx_ota_header info w).1 = ETX_OTA_Status.ETX_OTA_EC_HEADER_PCKT_NACK_RESP)
    ∧ runs (send_etx_ota_header info w).2.calls = runs w.calls
    ∧ (send_etx_ota_header info w).2.file = w.file
    ∧ (send_etx_ota_header info w).2.fread_error = w.fread_error := by
  obtain ⟨_, h2, h3, h4, _, _⟩ := send_packet_spec (etx_ota_header_packet info)
    Call.send_etx_ota_header ETX_OTA_Status.ETX_OTA_EC_HEADER_PCKT_SEND_DATA_ERR
    ETX_OTA_Status.ETX_OTA_EC_HEADER_PCKT_NACK_RESP w
  exact ⟨h2, send_packet_runs _ _ _ _ w (fun _ => rfl), h3, h4⟩

/-- A run with `payload_send_attempts` other than 0, from the Start command on: the code is OK or
a code of one of the four send functions, no further run is started, and the attempts counter
is left alone or advanced by one. -/
theorem after_setup_rerun (api : ETX_OTA_API_t) (a : Nat) (w : World) (ha : a ≠ 0)
    (n : Nat) (c : List Nat) (w1 : World)
    (h : start_etx_ota_process_setup api a w = Except.ok (n, c, w1)) :
    (start_etx_ota_process api a w).1 ∈
        [ETX_OTA_Status.ETX_OTA_EC_OK, ETX_OTA_Status.ETX_OTA_EC_START_CMD_SEND_DATA_ERR,
         ETX_OTA_Status.ETX_OTA_EC_START_CMD_NACK_RESP,
         ETX_OTA_Status.ETX_OTA_EC_HEADER_PCKT_SEND_DATA_ERR,
         ETX_OTA_Status.ETX_OTA_EC_HEADER_PCKT_NACK_RESP,
         ETX_OTA_Status.ETX_OTA_EC_DATA_PCKT_SEND_DATA_ERR,
         ETX_OTA_Status.ETX_OTA_EC_DATA_PCKT_NACK_RESP,
         ETX_OTA_Status.ETX_OTA_EC_END_CMD_SEND_DATA_ERR,
         ETX_OTA_Status.ETX_OTA_EC_END_CMD_NACK_RESP]
    ∧ runs (start_etx_ota_process api a w).2.2.calls = runs w1.calls
    ∧ ((start_etx_ota_process api a w).2.1 = a
      ∨ (start_etx_ota_process api a w).2.1 = (a + 1) % 256) := by
  rw [start_etx_ota_process_eq, h]
  dsimp only
  obtain ⟨s1, s2, _, _⟩ := send_etx_ota_start_frame w1
  by_cases hs : (send_etx_ota_start w1).1 = ETX_OTA_Status.ETX_OTA_EC_OK
  · rw [if_neg (not_not.mpr hs)]
    obtain ⟨h1, h2, _, _⟩ := send_etx_ota_header_frame
      (etx_ota_header_info c n api.ETX_OTA_Payload_Type) (send_etx_ota_start w1).2
    by_cases hh : (send_etx_ota_header (etx_ota_header_info c n api.ETX_OTA_Payload_Type)
        (send_etx_ota_start w1).2).1 = ETX_OTA_Status.ETX_OTA_EC_OK
    · rw [if_neg (not_not.mpr hh)]
      obtain ⟨p1, p2, _, _⟩ := send_payload_and_end_spec c n
        (send_etx_ota_header (etx_ota_header_info c n api.ETX_OTA_Payload_Type)
          (send_etx_ota_start w1).2).2
      refine ⟨?_, (p2.trans h2).trans s2, Or.inl rfl⟩
      rcases p1 with p | p | p | p | p <;> rw [p] <;> decide
    · rw [if_pos hh, if_neg ha]
      refine ⟨?_, h2.trans s2, Or.inr rfl⟩
      rcases h1 with p | p | p
      · exact absurd p hh
      · rw [p]; decide
      · rw [p]; decide
  · rw [if_pos hs, if_neg ha]
    refine ⟨?_, s2, Or.inr rfl⟩
    rcases s1 with p | p | p
    · exact absurd p hs
    · rw [p]; decide
    · rw [p]; decide

/-- An early return of the first part is the return of `start_etx_ota_process`. -/
theorem process_of_setup_error (api : ETX_OTA_API_t) (a : Nat) (w : World)
    (r : ETX_OTA_Status × World) (h : start_etx_ota_process_setup api a w = Except.error r) :
    start_etx_ota_process api a w = (r.1, a, r.2) := by
  rw [start_etx_ota_process_eq, h]

/-- A run with `payload_send_attempts` other than 0 is a single run: it opens the port once, never
returns the Abort loop code, and returns `ETX_OTA_EC_NA` only for a payload that is turned down
for its size. -/
theorem single_run_spec (api : ETX_OTA_API_t) (a : Nat) (w : World) (ha : a ≠ 0) :
    runs (start_etx_ota_process api a w).2.2.calls = runs w.calls + 1
    ∧ (start_etx_ota_process api a w).1 ≠ ETX_OTA_Status.ETX_OTA_EC_ABORT_LOOP_ERR
    ∧ ((start_etx_ota_process api a w).1 = ETX_OTA_Status.ETX_OTA_EC_NA →
        get_payload api w = Except.error ETX_OTA_Status.ETX_OTA_EC_NA)
    ∧ ((start_etx_ota_process api a w).2.1 = a
      ∨ (start_etx_ota_process api a w).2.1 = (a + 1) % 256) := by
  obtain ⟨f1, f2⟩ := setup_frame api a w
  rcases setup_cases api a w with ⟨_, h⟩ | ⟨_, e, he, h⟩ | ⟨_, n, c, _, h0, _, h⟩
    | ⟨_, n, c, _, h0, _, h⟩ | ⟨_, n, c, _, _, h⟩
  · obtain ⟨g1, _, _, g4⟩ := f1 _ h
    rw [process_of_setup_error api a w _ h]
    exact ⟨g1, show ETX_OTA_Status.ETX_OTA_EC_OPEN_COM_ERR
      ≠ ETX_OTA_Status.ETX_OTA_EC_ABORT_LOOP_ERR from by decide, g4, Or.inl rfl⟩
  · obtain ⟨g1, _, _, g4⟩ := f1 _ h
    rw [process_of_setup_error api a w _ h]
    refine ⟨g1, ?_, g4, Or.inl rfl⟩
    show e ≠ ETX_OTA_Status.ETX_OTA_EC_ABORT_LOOP_ERR
    rcases get_payload_error api _ e he with p | p | p | p <;> rw [p] <;> decide
  · exact absurd h0 ha
  · exact absurd h0 ha
  · obtain ⟨g1, _, _⟩ := f2 _ _ _ h
    obtain ⟨r1, r2, r3⟩ := after_setup_rerun api a w ha n c _ h
    refine ⟨r2.trans g1, ?_, ?_, r3⟩
    · intro hc
      rw [hc] at r1
      exact absurd r1 (by decide)
    · intro hc
      rw [hc] at r1
      exact absurd r1 (by decide)

end Host

namespace Host

/-- A Start command that fails: in a first run the whole procedure is run once more, with the
attempts counter at 1 and the port closed; otherwise the code of the Start command is returned. -/
theorem process_start_fails (api : ETX_OTA_API_t) (a : Nat) (w : World)
    (n : Nat) (c : List Nat) (w1 : World)
    (h : start_etx_ota_process_setup api a w = Except.ok (n, c, w1))
    (hs : (send_etx_ota_start w1).1 ≠ ETX_OTA_Status.ETX_OTA_EC_OK) :
    start_etx_ota_process api a w
      = if a = 0 then
          start_etx_ota_process api 1 (RS232_CloseComport (send_etx_ota_start w1).2)
        else ((send_etx_ota_start w1).1, (a + 1) % 256, (send_etx_ota_start w1).2) := by
  rw [start_etx_ota_process_eq, h]
  dsimp only
  rw [if_pos hs]

/-- A Header packet that fails, likewise. -/
theorem process_header_fails (api : ETX_OTA_API_t) (a : Nat) (w : World)
    (n : Nat) (c : List Nat) (w1 : World)
    (h : start_etx_ota_process_setup api a w = Except.ok (n, c, w1))
    (hs : (send_etx_ota_start w1).1 = ETX_OTA_Status.ETX_OTA_EC_OK)
    (hh : (send_etx_ota_header (etx_ota_header_info c n api.ETX_OTA_Payload_Type)
      (send_etx_ota_start w1).2).1 ≠ ETX_OTA_Status.ETX_OTA_EC_OK) :
    start_etx_ota_process api a w
      = if a = 0 then
          start_etx_ota_process api 1
            (RS232_CloseComport (send_etx_ota_header
              (etx_ota_header_info c n api.ETX_OTA_Payload_Type) (send_etx_ota_start w1).2).2)
        else
          ((send_etx_ota_header (etx_ota_header_info c n api.ETX_OTA_Payload_Type)
              (send_etx_ota_start w1).2).1, (a + 1) % 256,
            (send_etx_ota_header (etx_ota_header_info c n api.ETX_OTA_Payload_Type)
              (send_etx_ota_start w1).2).2) := by
  rw [start_etx_ota_process_eq, h]
  dsimp only
  rw [if_neg (not_not.mpr hs), if_pos hh]

/-- After an acknowledged Start command and Header packet, the procedure ends as its last part
does. -/
theorem process_sends_payload (api : ETX_OTA_API_t) (a : Nat) (w : World)
    (n : Nat) (c : List Nat) (w1 : World)
    (h : start_etx_ota_process_setup api a w = Except.ok (n, c, w1))
    (hs : (send_etx_ota_start w1).1 = ETX_OTA_Status.ETX_OTA_EC_OK)
    (hh : (send_etx_ota_header (etx_ota_header_info c n api.ETX_OTA_Payload_Type)
      (send_etx_ota_start w1).2).1 = ETX_OTA_Status.ETX_OTA_EC_OK) :
    start_etx_ota_process api a w
      = ((send_payload_and_end c n
            (send_etx_ota_header (etx_ota_header_info c n api.ETX_OTA_Payload_Type)
              (send_etx_ota_start w1).2).2).1, a,
          (send_payload_and_end c n
            (send_etx_ota_header (etx_ota_header_info c n api.ETX_OTA_Payload_Type)
              (send_etx_ota_start w1).2).2).2) := by
  rw [start_etx_ota_process_eq, h]
  dsimp only
  rw [if_neg (not_not.mpr hs), if_neg (not_not.mpr hh)]

/-- A first run (`payload_send_attempts` 0), from the Start command on: the port is opened at
most once more, the Abort loop code is not returned, `ETX_OTA_EC_NA` is returned only for a
payload turned down for its size, and the attempts counter ends at 2 at most. -/
theorem after_setup_first (api : ETX_OTA_API_t) (w : World)
    (n : Nat) (c : List Nat) (w1 : World)
    (h : start_etx_ota_process_setup api 0 w = Except.ok (n, c, w1)) :
    (runs (start_etx_ota_process api 0 w).2.2.calls = runs w1.calls
      ∨ runs (start_etx_ota_process api 0 w).2.2.calls = runs w1.calls + 1)
    ∧ (start_etx_ota_process api 0 w).1 ≠ ETX_OTA_Status.ETX_OTA_EC_ABORT_LOOP_ERR
    ∧ ((start_etx_ota_process api 0 w).1 = ETX_OTA_Status.ETX_OTA_EC_NA →
        get_payload api w1 = Except.error ETX_OTA_Status.ETX_OTA_EC_NA)
    ∧ (start_etx_ota_process api 0 w).2.1 ≤ 2 := by
  obtain ⟨s1, s2, s3, s4⟩ := send_etx_ota_start_frame w1
  have hrerun : ∀ w2 : World, runs w2.calls = runs w1.calls → w2.file = w1.file →
      w2.fread_error = w1.fread_error →
      (runs (start_etx_ota_process api 1 (RS232_CloseComport w2)).2.2.calls = runs w1.calls
        ∨ runs (start_etx_ota_process api 1 (RS232_CloseComport w2)).2.2.calls
          = runs w1.calls + 1)
      ∧ (start_etx_ota_process api 1 (RS232_CloseComport w2)).1
          ≠ ETX_OTA_Status.ETX_OTA_EC_ABORT_LOOP_ERR
      ∧ ((start_etx_ota_process api 1 (RS232_CloseComport w2)).1
            = ETX_OTA_Status.ETX_OTA_EC_NA →
          get_payload api w1 = Except.error ETX_OTA_Status.ETX_OTA_EC_NA)
      ∧ (start_etx_ota_process api 1 (RS232_CloseComport w2)).2.1 ≤ 2 := by
    intro w2 e1 e2 e3
    obtain ⟨c1, c2, c3⟩ := RS232_CloseComport_frame w2
    obtain ⟨r1, r2, r3, r4⟩ := single_run_spec api 1 (RS232_CloseComport w2) (by decide)
    refine ⟨Or.inr (by rw [r1, c1, e1]), r2, ?_, ?_⟩
    · intro hc
      rw [← get_payload_congr api w1 (RS232_CloseComport w2) (c2.trans e2) (c3.trans e3)]
      exact r3 hc
    · rcases r4 with p | p
      · rw [p]; decide
      · exact le_of_eq p
  by_cases hs : (send_etx_ota_start w1).1 = ETX_OTA_Status.ETX_OTA_EC_OK
  · obtain ⟨h1, h2, h3, h4⟩ := send_etx_ota_header_frame
      (etx_ota_header_info c n api.ETX_OTA_Payload_Type) (send_etx_ota_start w1).2
    by_cases hh : (send_etx_ota_header (etx_ota_header_info c n api.ETX_OTA_Payload_Type)
        (send_etx_ota_start w1).2).1 = ETX_OTA_Status.ETX_OTA_EC_OK
    · rw [process_sends_payload api 0 w n c w1 h hs hh]
      obtain ⟨p1, p2, _, _⟩ := send_payload_and_end_spec c n
        (send_etx_ota_header (etx_ota_header_info c n api.ETX_OTA_Payload_Type)
          (send_etx_ota_start w1).2).2
      refine ⟨Or.inl ((p2.trans h2).trans s2), ?_, ?_, Nat.zero_le 2⟩
      · rcases p1 with p | p | p | p | p <;> intro hc <;> rw [p] at hc
          <;> exact absurd hc (by decide)
      · rcases p1 with p | p | p | p | p <;> intro hc <;> rw [p] at hc
          <;> exact absurd hc (by decide)
    · rw [process_header_fails api 0 w n c w1 h hs hh, if_pos rfl]
      exact hrerun _ (h2.trans s2) (h3.trans s3) (h4.trans s4)
  · rw [process_start_fails api 0 w n c w1 h hs, if_pos rfl]
    exact hrerun _ s2 s3 s4

/-- A first run of `start_etx_ota_process` opens the port once or twice, returns
`ETX_OTA_EC_NA` only for a payload turned down for its size, and leaves the attempts counter at
2 at most. -/
theorem first_run_spec (api : ETX_OTA_API_t) (w : World) :
    (runs (start_etx_ota_process api 0 w).2.2.calls = runs w.calls + 1
      ∨ runs (start_etx_ota_process api 0 w).2.2.calls = runs w.calls + 2)
    ∧ ((start_etx_ota_process api 0 w).1 = ETX_OTA_Status.ETX_OTA_EC_NA →
        get_payload api w = Except.error ETX_OTA_Status.ETX_OTA_EC_NA)
    ∧ (start_etx_ota_process api 0 w).2.1 ≤ 2 := by
  obtain ⟨f1, f2⟩ := setup_frame api 0 w
  cases hsetup : start_etx_ota_process_setup api 0 w with
  | error r =>
    obtain ⟨g1, _, _, g4⟩ := f1 r hsetup
    rw [process_of_setup_error api 0 w r hsetup]
    exact ⟨Or.inl g1, g4, Nat.zero_le 2⟩
  | ok v =>
    obtain ⟨n, c, w1⟩ := v
    obtain ⟨g1, g2, g3⟩ := f2 n c w1 hsetup
    obtain ⟨a1, _, a3, a4⟩ := after_setup_first api w n c w1 hsetup
    refine ⟨?_, ?_, a4⟩
    · rcases a1 with p | p
      · exact Or.inl (p.trans g1)
      · exact Or.inr (by rw [p, g1])
    · intro hc
      rw [← get_payload_congr api w w1 g2 g3]
      exact a3 hc

/-- A first run returns the Abort loop code exactly when the port was opened, the payload
fetched and the Abort loop ended with something else than OK; and then it returns right after the
Abort loop. -/
theorem abort_loop_err_iff (api : ETX_OTA_API_t) (w : World) :
    ((start_etx_ota_process api 0 w).1 = ETX_OTA_Status.ETX_OTA_EC_ABORT_LOOP_ERR
      ↔ ((RS232_OpenComport w).1 = false
        ∧ (∃ n c, get_payload api (RS232_OpenComport w).2 = Except.ok (n, c))
        ∧ (abort_loop ABORT_LOOP_ATTEMPTS ETX_OTA_Status.ETX_OTA_EC_OK
            (RS232_OpenComport w).2).1 ≠ ETX_OTA_Status.ETX_OTA_EC_OK))
    ∧ ((RS232_OpenComport w).1 = false →
        (∃ n c, get_payload api (RS232_OpenComport w).2 = Except.ok (n, c)) →
        (abort_loop ABORT_LOOP_ATTEMPTS ETX_OTA_Status.ETX_OTA_EC_OK
            (RS232_OpenComport w).2).1 ≠ ETX_OTA_Status.ETX_OTA_EC_OK →
        start_etx_ota_process api 0 w
          = (ETX_OTA_Status.ETX_OTA_EC_ABORT_LOOP_ERR, 0,
              (abort_loop ABORT_LOOP_ATTEMPTS ETX_OTA_Status.ETX_OTA_EC_OK
                (RS232_OpenComport w).2).2)) := by
  rcases setup_cases api 0 w with ⟨o, h⟩ | ⟨o, e, he, h⟩ | ⟨o, n, c, hg, _, hl, h⟩
    | ⟨o, n, c, hg, _, hl, h⟩ | ⟨_, n, c, _, h0, _⟩
  · rw [process_of_setup_error api 0 w _ h]
    refine ⟨⟨fun hc => absurd (show ETX_OTA_Status.ETX_OTA_EC_OPEN_COM_ERR
      = ETX_OTA_Status.ETX_OTA_EC_ABORT_LOOP_ERR from hc) (by decide), fun hc => ?_⟩,
      fun hc => ?_⟩
    · rw [o] at hc
      exact absurd hc.1 (by decide)
    · rw [o] at hc
      exact absurd hc (by decide)
  · rw [process_of_setup_error api 0 w _ h]
    have hne : e ≠ ETX_OTA_Status.ETX_OTA_EC_ABORT_LOOP_ERR := by
      rcases get_payload_error api _ e he with p | p | p | p <;> rw [p] <;> decide
    refine ⟨⟨fun hc => absurd hc hne, fun hc => ?_⟩, fun _ hc => ?_⟩
    · obtain ⟨n, c, hg⟩ := hc.2.1
      rw [he] at hg
      exact absurd hg (by simp)
    · obtain ⟨n, c, hg⟩ := hc
      rw [he] at hg
      exact absurd hg (by simp)
  · rw [process_of_setup_error api 0 w _ h]
    exact ⟨⟨fun _ => ⟨o, ⟨n, c, hg⟩, hl⟩, fun _ => rfl⟩, fun _ _ _ => rfl⟩
  · obtain ⟨_, a2, _, _⟩ := after_setup_first api w n c _ h
    exact ⟨⟨fun hc => absurd hc a2, fun hc => absurd hl hc.2.2⟩, fun _ _ hc => absurd hl hc⟩
  · exact absurd rfl h0

end Host

/-- C23: no retry of a chunk.  Let a run of `start_etx_ota_process` have got its Start command
and its Header packet acknowledged, and let the Data loop end with something else than OK.  Then
the procedure returns what the Data loop returns, with the surroundings as the Data loop left
them and the attempts counter untouched; the Data loop ended with the outcome of one call of
`send_etx_ota_data`, for the chunk at some index `j`, a Data code; and that call is the last one
in the record of calls: the chunk is not sent again, no further Data packet and no End command is
sent, the port is not closed and the procedure is not run again. -/
theorem data_failure_returned_at_once (api : Host.ETX_OTA_API_t) (a : Nat) (w : Host.World)
    (n : Nat) (c : List Nat) (w1 : Host.World)
    (hsetup : Host.start_etx_ota_process_setup api a w = Except.ok (n, c, w1))
    (hstart : (Host.send_etx_ota_start w1).1 = Host.ETX_OTA_Status.ETX_OTA_EC_OK)
    (hheader : (Host.send_etx_ota_header
        (Host.etx_ota_header_info c n api.ETX_OTA_Payload_Type)
        (Host.send_etx_ota_start w1).2).1 = Host.ETX_OTA_Status.ETX_OTA_EC_OK)
    (hdata : (Host.send_data_loop c n 0
        (Host.send_etx_ota_header (Host.etx_ota_header_info c n api.ETX_OTA_Payload_Type)
          (Host.send_etx_ota_start w1).2).2).1 ≠ Host.ETX_OTA_Status.ETX_OTA_EC_OK) :
    Host.start_etx_ota_process api a w
      = ((Host.send_data_loop c n 0
            (Host.send_etx_ota_header (Host.etx_ota_header_info c n api.ETX_OTA_Payload_Type)
              (Host.send_etx_ota_start w1).2).2).1, a,
          (Host.send_data_loop c n 0
            (Host.send_etx_ota_header (Host.etx_ota_header_info c n api.ETX_OTA_Payload_Type)
              (Host.send_etx_ota_start w1).2).2).2)
    ∧ ((Host.start_etx_ota_process api a w).1
          = Host.ETX_OTA_Status.ETX_OTA_EC_DATA_PCKT_SEND_DATA_ERR
        ∨ (Host.start_etx_ota_process api a w).1
          = Host.ETX_OTA_Status.ETX_OTA_EC_DATA_PCKT_NACK_RESP)
    ∧ ∃ (j : Nat) (wj : Host.World), j < n
        ∧ Host.send_data_loop c n 0
            (Host.send_etx_ota_header (Host.etx_ota_header_info c n api.ETX_OTA_Payload_Type)
              (Host.send_etx_ota_start w1).2).2
          = Host.send_etx_ota_data (c.drop j)
              (if n - j ≥ ETX_OTA_DATA_MAX_SIZE then ETX_OTA_DATA_MAX_SIZE else n - j) wj
        ∧ (Host.start_etx_ota_process api a w).2.2.calls
          = wj.calls ++ [Host.Call.send_etx_ota_data
              (if n - j ≥ ETX_OTA_DATA_MAX_SIZE then ETX_OTA_DATA_MAX_SIZE else n - j)
              (Host.start_etx_ota_process api a w).1] := by
  have hp : Host.start_etx_ota_process api a w
      = ((Host.send_data_loop c n 0
            (Host.send_etx_ota_header (Host.etx_ota_header_info c n api.ETX_OTA_Payload_Type)
              (Host.send_etx_ota_start w1).2).2).1, a,
          (Host.send_data_loop c n 0
            (Host.send_etx_ota_header (Host.etx_ota_header_info c n api.ETX_OTA_Payload_Type)
              (Host.send_etx_ota_start w1).2).2).2) := by
    rw [Host.process_sends_payload api a w n c w1 hsetup hstart hheader]
    unfold Host.send_payload_and_end
    dsimp only
    rw [if_pos hdata]
  obtain ⟨_, d3, _, _, _⟩ := Host.send_data_loop_frame c n n 0
    (Host.send_etx_ota_header (Host.etx_ota_header_info c n api.ETX_OTA_Payload_Type)
      (Host.send_etx_ota_start w1).2).2 (by omega)
  obtain ⟨j, wj, _, j2, j3⟩ := Host.send_data_loop_fails c n n 0
    (Host.send_etx_ota_header (Host.etx_ota_header_info c n api.ETX_OTA_Payload_Type)
      (Host.send_etx_ota_start w1).2).2 (by omega) hdata
  refine ⟨hp, ?_, j, wj, j2, j3, ?_⟩
  · rw [hp]
    rcases d3 with h | h | h
    · exact absurd h hdata
    · exact Or.inl h
    · exact Or.inr h
  · rw [hp]
    show (Host.send_data_loop c n 0 _).2.calls
      = wj.calls ++ [Host.Call.send_etx_ota_data _ (Host.send_data_loop c n 0 _).1]
    rw [j3]
    exact (Host.send_packet_spec _ _ _ _ wj).1

/-- Witness for C23: a custom payload of three bytes, sent in a run with the attempts counter at
1; the node acknowledges the Start command and the Header packet and does not answer the Data
packet.  The procedure returns the NACK code of the Data packet, and the calls are: the opening
of the port, Start, Header, and the one Data packet. -/
theorem data_failure_returned_at_once_witness :
    (Host.start_etx_ota_process ⟨ETX_OTA_Custom_Data, [1, 2, 3], 3, 1024, 34, 86⟩ 1
        ⟨[], none, false, [],
          [Node.etx_ota_send_resp ETX_OTA_ACK, Node.etx_ota_send_resp ETX_OTA_ACK], [], []⟩).1
      = Host.ETX_OTA_Status.ETX_OTA_EC_DATA_PCKT_NACK_RESP
    ∧ (Host.start_etx_ota_process ⟨ETX_OTA_Custom_Data, [1, 2, 3], 3, 1024, 34, 86⟩ 1
        ⟨[], none, false, [],
          [Node.etx_ota_send_resp ETX_OTA_ACK, Node.etx_ota_send_resp ETX_OTA_ACK], [],
          []⟩).2.2.calls
      = [Host.Call.RS232_OpenComport false,
         Host.Call.send_etx_ota_start Host.ETX_OTA_Status.ETX_OTA_EC_OK,
         Host.Call.send_etx_ota_header Host.ETX_OTA_Status.ETX_OTA_EC_OK,
         Host.Call.send_etx_ota_data 3 Host.ETX_OTA_Status.ETX_OTA_EC_DATA_PCKT_NACK_RESP] := by
  have hloop : Host.send_data_loop [1, 2, 3] 3 0
        (Host.send_etx_ota_header
          (Host.etx_ota_header_info [1, 2, 3] 3 ETX_OTA_Custom_Data)
          (Host.send_etx_ota_start
            ⟨[], none, false, [],
              [Node.etx_ota_send_resp ETX_OTA_ACK, Node.etx_ota_send_resp ETX_OTA_ACK], [],
              [Host.Call.RS232_OpenComport false]⟩).2).2
      = Host.send_etx_ota_data [1, 2, 3] 3
          (Host.send_etx_ota_header
            (Host.etx_ota_header_info [1, 2, 3] 3 ETX_OTA_Custom_Data)
            (Host.send_etx_ota_start
              ⟨[], none, false, [],
                [Node.etx_ota_send_resp ETX_OTA_ACK, Node.etx_ota_send_resp ETX_OTA_ACK], [],
                [Host.Call.RS232_OpenComport false]⟩).2).2 := by
    rw [Host.send_data_loop_eq, if_pos (by decide), if_pos (by decide)]
    rfl
  have h := (data_failure_returned_at_once ⟨ETX_OTA_Custom_Data, [1, 2, 3], 3, 1024, 34, 86⟩ 1
    ⟨[], none, false, [],
      [Node.etx_ota_send_resp ETX_OTA_ACK, Node.etx_ota_send_resp ETX_OTA_ACK], [], []⟩
    3 [1, 2, 3]
    ⟨[], none, false, [],
      [Node.etx_ota_send_resp ETX_OTA_ACK, Node.etx_ota_send_resp ETX_OTA_ACK], [],
      [Host.Call.RS232_OpenComport false]⟩
    rfl (by decide) (by decide) (by rw [hloop]; decide)).1
  rw [h, hloop]
  exact ⟨by decide, by decide⟩

/-- C24: the Abort loop is bounded.  The loop makes at most 104 passes
(`ETX_OTA_PACKET_MAX_SIZE / 10 + 1`, with `ETX_OTA_PACKET_MAX_SIZE` = 1033).  Whatever the node
does, the loop sends Abort commands `failed ++ [last]` in this order, at most 104 of them and
nothing else; everyone in `failed` returned something else than OK; the loop ends right after
`last`, with its code; and when `last` did not return OK either, 104 Aborts have been sent.  So
the loop ends with something else than OK exactly when 104 Aborts were sent and all failed.  A
first run of `start_etx_ota_process` (attempts counter 0) returns `ETX_OTA_EC_ABORT_LOOP_ERR`
exactly when, the port opened and the payload fetched, the Abort loop ends so, and it returns
then with the surroundings as the Abort loop left them: no Start command, Header or Data packet
is sent. -/
theorem abort_loop_bounded :
    Host.ABORT_LOOP_ATTEMPTS = 104
    ∧ ETX_OTA_PACKET_MAX_SIZE = 1033
    ∧ (∀ (ret : Host.ETX_OTA_Status) (w : Host.World),
        ∃ (failed : List Host.ETX_OTA_Status) (last : Host.ETX_OTA_Status),
          (Host.abort_loop Host.ABORT_LOOP_ATTEMPTS ret w).2.calls
            = w.calls ++ (failed ++ [last]).map Host.Call.send_etx_ota_abort
          ∧ (failed ++ [last]).length ≤ 104
          ∧ (∀ r ∈ failed, r ≠ Host.ETX_OTA_Status.ETX_OTA_EC_OK)
          ∧ (Host.abort_loop Host.ABORT_LOOP_ATTEMPTS ret w).1 = last
          ∧ ((Host.abort_loop Host.ABORT_LOOP_ATTEMPTS ret w).1
                ≠ Host.ETX_OTA_Status.ETX_OTA_EC_OK
              ↔ ((failed ++ [last]).length = 104
                ∧ ∀ r ∈ failed ++ [last], r ≠ Host.ETX_OTA_Status.ETX_OTA_EC_OK)))
    ∧ (∀ (api : Host.ETX_OTA_API_t) (w : Host.World),
        ((Host.start_etx_ota_process api 0 w).1 = Host.ETX_OTA_Status.ETX_OTA_EC_ABORT_LOOP_ERR
          ↔ ((Host.RS232_OpenComport w).1 = false
            ∧ (∃ n c, Host.get_payload api (Host.RS232_OpenComport w).2 = Except.ok (n, c))
            ∧ (Host.abort_loop Host.ABORT_LOOP_ATTEMPTS Host.ETX_OTA_Status.ETX_OTA_EC_OK
                (Host.RS232_OpenComport w).2).1 ≠ Host.ETX_OTA_Status.ETX_OTA_EC_OK))
        ∧ ((Host.start_etx_ota_process api 0 w).1
              = Host.ETX_OTA_Status.ETX_OTA_EC_ABORT_LOOP_ERR →
            Host.start_etx_ota_process api 0 w
              = (Host.ETX_OTA_Status.ETX_OTA_EC_ABORT_LOOP_ERR, 0,
                  (Host.abort_loop Host.ABORT_LOOP_ATTEMPTS Host.ETX_OTA_Status.ETX_OTA_EC_OK
                    (Host.RS232_OpenComport w).2).2))) := by
  have hn : Host.ABORT_LOOP_ATTEMPTS = 104 := by decide
  refine ⟨hn, by decide, ?_, ?_⟩
  · intro ret w
    obtain ⟨t, h1, h2, h3, h4, h5, h6, _, _, _⟩ :=
      Host.abort_loop_spec Host.ABORT_LOOP_ATTEMPTS ret w
    rw [hn] at h2
    rcases List.eq_nil_or_concat t with e | ⟨failed, last, e⟩
    · exact absurd e (h6 (by rw [hn]; decide))
    · rw [List.concat_eq_append] at e
      rw [e] at h1 h2 h3 h4 h5
      rw [List.dropLast_concat] at h3
      rw [List.getLastD_concat] at h4
      refine ⟨failed, last, h1, h2, h3, h4, ?_⟩
      constructor
      · intro hne
        refine ⟨(h5 hne).trans hn, ?_⟩
        intro r hr
        rcases List.mem_append.mp hr with h | h
        · exact h3 r h
        · rw [List.mem_singleton.mp h, ← h4]
          exact hne
      · intro hall
        rw [h4]
        exact hall.2 last (List.mem_append_right _ (List.mem_singleton.mpr rfl))
  · intro api w
    obtain ⟨i1, i2⟩ := Host.abort_loop_err_iff api w
    refine ⟨i1, fun h => ?_⟩
    obtain ⟨c1, c2, c3⟩ := i1.mp h
    exact i2 c1 c2 c3

/-- The Abort loop can fail: when `RS232_SendByte` fails 104 times in a row, a first run for a
custom payload returns `ETX_OTA_EC_ABORT_LOOP_ERR` after 104 Aborts. -/
theorem abort_loop_err_example :
    (Host.start_etx_ota_process ⟨ETX_OTA_Custom_Data, [1, 2, 3], 3, 1024, 34, 86⟩ 0
        ⟨[], none, false, List.replicate 104 true, [], [], []⟩).1
      = Host.ETX_OTA_Status.ETX_OTA_EC_ABORT_LOOP_ERR
    ∧ (Host.abort_loop Host.ABORT_LOOP_ATTEMPTS Host.ETX_OTA_Status.ETX_OTA_EC_OK
        (Host.RS232_OpenComport
          ⟨[], none, false, List.replicate 104 true, [], [], []⟩).2).2.calls.length = 105 :=
  ⟨(Host.abort_loop_err_iff _ _).1.mpr ⟨rfl, ⟨3, [1, 2, 3], rfl⟩, by decide!⟩, by decide!⟩

/-- C25: the claim fails when the node sends nothing.  With every byte of the Abort command sent
and no byte received at any of the polls, `send_etx_ota_abort` leaves its byte loop at the end
and returns OK although no acknowledgement was received; the Abort loop of
`start_etx_ota_process` then stops after this one Abort, with OK.  In the same surroundings
`send_etx_ota_start` and `send_etx_ota_end`, which wait for the acknowledgement with
`is_ack_resp_received`, return their NACK codes. -/
theorem abort_ok_without_acknowledgement (w : Host.World) (ret : Host.ETX_OTA_Status)
    (hs : w.send_error = []) (hp : w.polls = []) :
    Host.send_etx_ota_abort w
      = (Host.ETX_OTA_Status.ETX_OTA_EC_OK,
          { w with sent := w.sent ++ Host.etx_ota_abort_packet,
                   calls := w.calls
                     ++ [Host.Call.send_etx_ota_abort Host.ETX_OTA_Status.ETX_OTA_EC_OK] })
    ∧ Host.abort_loop Host.ABORT_LOOP_ATTEMPTS ret w = Host.send_etx_ota_abort w
    ∧ (Host.send_etx_ota_start w).1 = Host.ETX_OTA_Status.ETX_OTA_EC_START_CMD_NACK_RESP
    ∧ (Host.send_etx_ota_end w).1 = Host.ETX_OTA_Status.ETX_OTA_EC_END_CMD_NACK_RESP := by
  have ha : Host.send_etx_ota_abort w
      = (Host.ETX_OTA_Status.ETX_OTA_EC_OK,
          { w with sent := w.sent ++ Host.etx_ota_abort_packet,
                   calls := w.calls
                     ++ [Host.Call.send_etx_ota_abort Host.ETX_OTA_Status.ETX_OTA_EC_OK] }) := by
    unfold Host.send_etx_ota_abort
    dsimp only
    rw [Host.send_etx_ota_abort_bytes_silent Host.etx_ota_abort_packet w hs hp]
    rfl
  have hnack : ∀ (packet : List Nat) (call : Host.ETX_OTA_Status → Host.Call)
      (e n : Host.ETX_OTA_Status), (Host.send_packet packet call e n w).1 = n := by
    intro packet call e n
    unfold Host.send_packet
    dsimp only
    rw [Host.send_bytes_ok packet w hs, if_neg Bool.false_ne_true]
    have hpoll : (Host.next_poll { w with sent := w.sent ++ packet }).1 = [] := by
      show w.polls.headD [] = []
      rw [hp]
      rfl
    rw [hpoll, if_pos (by decide)]
    rfl
  refine ⟨ha, ?_, hnack _ _ _ _, hnack _ _ _ _⟩
  have h104 : Host.ABORT_LOOP_ATTEMPTS = 103 + 1 := by decide
  rw [h104, Host.abort_loop_succ, if_pos (by rw [ha])]

/-- Witness for C25: surroundings in which every byte can be sent and nothing is ever received;
the ten bytes of the Abort command go out and the function returns OK. -/
theorem abort_ok_without_acknowledgement_witness :
    Host.send_etx_ota_abort ⟨[], none, false, [], [], [], []⟩
      = (Host.ETX_OTA_Status.ETX_OTA_EC_OK,
          ⟨[], none, false, [], [], [] ++ Host.etx_ota_abort_packet,
            [] ++ [Host.Call.send_etx_ota_abort Host.ETX_OTA_Status.ETX_OTA_EC_OK]⟩) :=
  (abort_ok_without_acknowledgement ⟨[], none, false, [], [], [], []⟩
    Host.ETX_OTA_Status.ETX_OTA_EC_OK rfl rfl).1

/-- C26: exactly one retry.  A first run of `start_etx_ota_process` (attempts counter 0) opens the
port once or twice, that is, the procedure runs at most twice, and leaves the counter at 2 at
most.  In a first run a Start command or a Header packet that fails makes the procedure close the
port and run once more with the counter at 1, which makes two runs; with both acknowledged there
is one run.  With the counter other than 0 the procedure is a single run, and a Start command or
a Header packet that fails is returned with its code, the counter advanced by one (8 bits) and
nothing done after the failed call.  `start_etx_ota_process` being total, the recursion ends. -/
theorem exactly_one_retry (api : Host.ETX_OTA_API_t) (w : Host.World) :
    (Host.runs (Host.start_etx_ota_process api 0 w).2.2.calls = Host.runs w.calls + 1
      ∨ Host.runs (Host.start_etx_ota_process api 0 w).2.2.calls = Host.runs w.calls + 2)
    ∧ (Host.start_etx_ota_process api 0 w).2.1 ≤ 2
    ∧ (∀ (n : Nat) (c : List Nat) (w1 : Host.World),
        Host.start_etx_ota_process_setup api 0 w = Except.ok (n, c, w1) →
        ((Host.send_etx_ota_start w1).1 ≠ Host.ETX_OTA_Status.ETX_OTA_EC_OK →
          Host.start_etx_ota_process api 0 w
            = Host.start_etx_ota_process api 1
                (Host.RS232_CloseComport (Host.send_etx_ota_start w1).2)
          ∧ Host.runs (Host.start_etx_ota_process api 0 w).2.2.calls = Host.runs w.calls + 2)
        ∧ ((Host.send_etx_ota_start w1).1 = Host.ETX_OTA_Status.ETX_OTA_EC_OK →
          (Host.send_etx_ota_header (Host.etx_ota_header_info c n api.ETX_OTA_Payload_Type)
            (Host.send_etx_ota_start w1).2).1 ≠ Host.ETX_OTA_Status.ETX_OTA_EC_OK →
          Host.start_etx_ota_process api 0 w
            = Host.start_etx_ota_process api 1
                (Host.RS232_CloseComport
                  (Host.send_etx_ota_header
                    (Host.etx_ota_header_info c n api.ETX_OTA_Payload_Type)
                    (Host.send_etx_ota_start w1).2).2)
          ∧ Host.runs (Host.start_etx_ota_process api 0 w).2.2.calls = Host.runs w.calls + 2)
        ∧ ((Host.send_etx_ota_start w1).1 = Host.ETX_OTA_Status.ETX_OTA_EC_OK →
          (Host.send_etx_ota_header (Host.etx_ota_header_info c n api.ETX_OTA_Payload_Type)
            (Host.send_etx_ota_start w1).2).1 = Host.ETX_OTA_Status.ETX_OTA_EC_OK →
          Host.runs (Host.start_etx_ota_process api 0 w).2.2.calls = Host.runs w.calls + 1))
    ∧ (∀ (a : Nat) (w2 : Host.World), a ≠ 0 →
        Host.runs (Host.start_etx_ota_process api a w2).2.2.calls = Host.runs w2.calls + 1
        ∧ ∀ (n : Nat) (c : List Nat) (w1 : Host.World),
            Host.start_etx_ota_process_setup api a w2 = Except.ok (n, c, w1) →
            ((Host.send_etx_ota_start w1).1 ≠ Host.ETX_OTA_Status.ETX_OTA_EC_OK →
              Host.start_etx_ota_process api a w2
                = ((Host.send_etx_ota_start w1).1, (a + 1) % 256,
                    (Host.send_etx_ota_start w1).2))
            ∧ ((Host.send_etx_ota_start w1).1 = Host.ETX_OTA_Status.ETX_OTA_EC_OK →
              (Host.send_etx_ota_header
                (Host.etx_ota_header_info c n api.ETX_OTA_Payload_Type)
                (Host.send_etx_ota_start w1).2).1 ≠ Host.ETX_OTA_Status.ETX_OTA_EC_OK →
              Host.start_etx_ota_process api a w2
                = ((Host.send_etx_ota_header
                      (Host.etx_ota_header_info c n api.ETX_OTA_Payload_Type)
                      (Host.send_etx_ota_start w1).2).1, (a + 1) % 256,
                    (Host.send_etx_ota_header
                      (Host.etx_ota_header_info c n api.ETX_OTA_Payload_Type)
                      (Host.send_etx_ota_start w1).2).2))) := by
  obtain ⟨f1, _, f3⟩ := Host.first_run_spec api w
  refine ⟨f1, f3, ?_, ?_⟩
  · intro n c w1 hsetup
    obtain ⟨g1, _, _⟩ := (Host.setup_frame api 0 w).2 n c w1 hsetup
    obtain ⟨s1, s2, _, _⟩ := Host.send_etx_ota_start_frame w1
    obtain ⟨h1, h2, _, _⟩ := Host.send_etx_ota_header_frame
      (Host.etx_ota_header_info c n api.ETX_OTA_Payload_Type) (Host.send_etx_ota_start w1).2
    refine ⟨?_, ?_, ?_⟩
    · intro hs
      have e := Host.process_start_fails api 0 w n c w1 hsetup hs
      rw [if_pos rfl] at e
      refine ⟨e, ?_⟩
      rw [e, (Host.single_run_spec api 1 _ (by decide)).1,
        (Host.RS232_CloseComport_frame _).1, s2, g1]
    · intro hs hh
      have e := Host.process_header_fails api 0 w n c w1 hsetup hs hh
      rw [if_pos rfl] at e
      refine ⟨e, ?_⟩
      rw [e, (Host.single_run_spec api 1 _ (by decide)).1,
        (Host.RS232_CloseComport_frame _).1, h2, s2, g1]
    · intro hs hh
      rw [Host.process_sends_payload api 0 w n c w1 hsetup hs hh]
      show Host.runs (Host.send_payload_and_end c n _).2.calls = _
      rw [(Host.send_payload_and_end_spec c n _).2.1, h2, s2, g1]
  · intro a w2 ha
    refine ⟨(Host.single_run_spec api a w2 ha).1, ?_⟩
    intro n c w1 hsetup
    refine ⟨?_, ?_⟩
    · intro hs
      have e := Host.process_start_fails api a w2 n c w1 hsetup hs
      rw [if_neg ha] at e
      exact e
    · intro hs hh
      have e := Host.process_header_fails api a w2 n c w1 hsetup hs hh
      rw [if_neg ha] at e
      exact e

/-- Witness for C26: a first run for a custom payload in which the node acknowledges the Abort
command and then stays silent.  The Start command of the first run fails, the procedure runs once
more, the Start command fails again and its NACK code is returned: two runs, and the attempts
counter at 2. -/
theorem exactly_one_retry_witness :
    (Host.start_etx_ota_process ⟨ETX_OTA_Custom_Data, [1, 2, 3], 3, 1024, 34, 86⟩ 0
        ⟨[], none, false, [], [Node.etx_ota_send_resp ETX_OTA_ACK], [], []⟩).1
      = Host.ETX_OTA_Status.ETX_OTA_EC_START_CMD_NACK_RESP
    ∧ (Host.start_etx_ota_process ⟨ETX_OTA_Custom_Data, [1, 2, 3], 3, 1024, 34, 86⟩ 0
        ⟨[], none, false, [], [Node.etx_ota_send_resp ETX_OTA_ACK], [], []⟩).2.1 = 2
    ∧ Host.runs (Host.start_etx_ota_process ⟨ETX_OTA_Custom_Data, [1, 2, 3], 3, 1024, 34, 86⟩ 0
        ⟨[], none, false, [], [Node.etx_ota_send_resp ETX_OTA_ACK], [], []⟩).2.2.calls = 2 := by
  obtain ⟨_, _, h3, h4⟩ := exactly_one_retry ⟨ETX_OTA_Custom_Data, [1, 2, 3], 3, 1024, 34, 86⟩
    ⟨[], none, false, [], [Node.etx_ota_send_resp ETX_OTA_ACK], [], []⟩
  obtain ⟨e1, e2⟩ := (h3 3 [1, 2, 3]
    (Host.abort_loop Host.ABORT_LOOP_ATTEMPTS Host.ETX_OTA_Status.ETX_OTA_EC_OK
      (Host.RS232_OpenComport
        ⟨[], none, false, [], [Node.etx_ota_send_resp ETX_OTA_ACK], [], []⟩).2).2 rfl).1
    (by decide)
  have e3 := ((h4 1
    (Host.RS232_CloseComport (Host.send_etx_ota_start
      (Host.abort_loop Host.ABORT_LOOP_ATTEMPTS Host.ETX_OTA_Status.ETX_OTA_EC_OK
        (Host.RS232_OpenComport
          ⟨[], none, false, [], [Node.etx_ota_send_resp ETX_OTA_ACK], [], []⟩).2).2).2)
    (by decide)).2 3 [1, 2, 3]
    (Host.RS232_OpenComport
      (Host.RS232_CloseComport (Host.send_etx_ota_start
        (Host.abort_loop Host.ABORT_LOOP_ATTEMPTS Host.ETX_OTA_Status.ETX_OTA_EC_OK
          (Host.RS232_OpenComport
            ⟨[], none, false, [], [Node.etx_ota_send_resp ETX_OTA_ACK], [], []⟩).2).2).2)).2
    rfl).1 (by decide)
  refine ⟨?_, ?_, e2⟩
  · rw [e1, e3]
    decide
  · rw [e1, e3]

/-- C27: an oversized firmware image is rejected before any frame.  With the port opened and the
file of the image read (its size below 2^32, the page size and the page counts 16-bit values): a
bootloader image larger than `flash_page_size_in_bytes * ETX_bl_page_size`, and an application
image larger than `flash_page_size_in_bytes * ETX_app_page_size`, make `start_etx_ota_process`
return `ETX_OTA_EC_NA` right after the opening of the port, which is its only call: no byte is
sent, so no Abort, Start, Header or Data frame.  An image that is not larger than the capacity
for its kind, one whose size equals the capacity included, never makes the procedure return
`ETX_OTA_EC_NA`. -/
theorem oversized_image_rejected (api : Host.ETX_OTA_API_t) (a : Nat) (w : Host.World)
    (content : List Nat)
    (hopen : (Host.RS232_OpenComport w).1 = false) (hfile : w.file = some content)
    (h32 : content.length < 2 ^ 32) (hpage : api.flash_page_size_in_bytes < 2 ^ 16)
    (hbl : api.ETX_bl_page_size < 2 ^ 16) (happ : api.ETX_app_page_size < 2 ^ 16) :
    (((api.ETX_OTA_Payload_Type = ETX_OTA_Bootloader_Firmware_Image
          ∧ api.flash_page_size_in_bytes * api.ETX_bl_page_size < content.length)
        ∨ (api.ETX_OTA_Payload_Type = ETX_OTA_Application_Firmware_Image
          ∧ api.flash_page_size_in_bytes * api.ETX_app_page_size < content.length)) →
      Host.start_etx_ota_process api a w
        = (Host.ETX_OTA_Status.ETX_OTA_EC_NA, a, (Host.RS232_OpenComport w).2)
      ∧ (Host.start_etx_ota_process api a w).2.2.sent = w.sent
      ∧ (Host.start_etx_ota_process api a w).2.2.calls
        = w.calls ++ [Host.Call.RS232_OpenComport false])
    ∧ (((api.ETX_OTA_Payload_Type = ETX_OTA_Bootloader_Firmware_Image
          ∧ content.length ≤ api.flash_page_size_in_bytes * api.ETX_bl_page_size)
        ∨ (api.ETX_OTA_Payload_Type = ETX_OTA_Application_Firmware_Image
          ∧ content.length ≤ api.flash_page_size_in_bytes * api.ETX_app_page_size)) →
      (Host.start_etx_ota_process api a w).1 ≠ Host.ETX_OTA_Status.ETX_OTA_EC_NA) := by
  have hne : ETX_OTA_Bootloader_Firmware_Image ≠ ETX_OTA_Application_Firmware_Image := by
    decide
  have hb : (api.flash_page_size_in_bytes * api.ETX_bl_page_size) % 2 ^ 32
      = api.flash_page_size_in_bytes * api.ETX_bl_page_size :=
    Nat.mod_eq_of_lt (by
      have := Nat.mul_lt_mul_of_lt_of_le hpage (le_of_lt hbl) (by decide)
      omega)
  have ha : (api.flash_page_size_in_bytes * api.ETX_app_page_size) % 2 ^ 32
      = api.flash_page_size_in_bytes * api.ETX_app_page_size :=
    Nat.mod_eq_of_lt (by
      have := Nat.mul_lt_mul_of_lt_of_le hpage (le_of_lt happ) (by decide)
      omega)
  have hc : content.length % 2 ^ 32 = content.length := Nat.mod_eq_of_lt h32
  have hna := Host.get_payload_na_iff api w
  refine ⟨?_, ?_⟩
  · intro hbig
    have hg : Host.get_payload api (Host.RS232_OpenComport w).2
        = Except.error Host.ETX_OTA_Status.ETX_OTA_EC_NA := by
      rw [Host.get_payload_congr api w (Host.RS232_OpenComport w).2 rfl rfl, hna]
      refine ⟨content, hfile, ?_⟩
      rw [hb, ha, hc]
      exact hbig
    have hsetup : Host.start_etx_ota_process_setup api a w
        = Except.error (Host.ETX_OTA_Status.ETX_OTA_EC_NA, (Host.RS232_OpenComport w).2) := by
      unfold Host.start_etx_ota_process_setup
      dsimp only
      rw [hopen, if_neg Bool.false_ne_true, hg]
    rw [Host.process_of_setup_error api a w _ hsetup]
    refine ⟨rfl, rfl, ?_⟩
    show w.calls ++ [Host.Call.RS232_OpenComport (Host.RS232_OpenComport w).1] = _
    rw [hopen]
  · intro hfit hret
    have hg : Host.get_payload api w = Except.error Host.ETX_OTA_Status.ETX_OTA_EC_NA := by
      by_cases h0 : a = 0
      · rw [h0] at hret
        exact (Host.first_run_spec api w).2.1 hret
      · exact (Host.single_run_spec api a w h0).2.2.1 hret
    obtain ⟨c, hcf, hover⟩ := hna.mp hg
    have hcc : content = c := Option.some.inj (hfile.symm.trans hcf)
    rw [← hcc, hb, ha, hc] at hover
    rcases hfit with h | h <;> rcases hover with g | g
    · omega
    · exact hne (h.1.symm.trans g.1)
    · exact hne (g.1.symm.trans h.1)
    · omega

/-- Witness for C27: a page size of 1024 bytes and 34 pages for the bootloader, a capacity of
34816 bytes.  A bootloader image of 34817 bytes is rejected with `ETX_OTA_EC_NA` and nothing is
sent; an image of 34816 bytes is not rejected so. -/
theorem oversized_image_rejected_witness :
    (Host.start_etx_ota_process ⟨ETX_OTA_Bootloader_Firmware_Image, [], 0, 1024, 34, 86⟩ 0
        ⟨[], some (List.replicate 34817 0), false, [], [], [], []⟩
      = (Host.ETX_OTA_Status.ETX_OTA_EC_NA, 0,
          (Host.RS232_OpenComport
            ⟨[], some (List.replicate 34817 0), false, [], [], [], []⟩).2)
      ∧ (Host.start_etx_ota_process ⟨ETX_OTA_Bootloader_Firmware_Image, [], 0, 1024, 34, 86⟩ 0
          ⟨[], some (List.replicate 34817 0), false, [], [], [], []⟩).2.2.sent = []
      ∧ (Host.start_etx_ota_process ⟨ETX_OTA_Bootloader_Firmware_Image, [], 0, 1024, 34, 86⟩ 0
          ⟨[], some (List.replicate 34817 0), false, [], [], [], []⟩).2.2.calls
        = [] ++ [Host.Call.RS232_OpenComport false])
    ∧ (Host.start_etx_ota_process ⟨ETX_OTA_Bootloader_Firmware_Image, [], 0, 1024, 34, 86⟩ 0
        ⟨[], some (List.replicate 34816 0), false, [], [], [], []⟩).1
      ≠ Host.ETX_OTA_Status.ETX_OTA_EC_NA :=
  ⟨(oversized_image_rejected ⟨ETX_OTA_Bootloader_Firmware_Image, [], 0, 1024, 34, 86⟩ 0
      ⟨[], some (List.replicate 34817 0), false, [], [], [], []⟩ (List.replicate 34817 0)
      rfl rfl (by rw [List.length_replicate]; decide) (by decide) (by decide) (by decide)).1
      (Or.inl ⟨rfl, by rw [List.length_replicate]; decide⟩),
    (oversized_image_rejected ⟨ETX_OTA_Bootloader_Firmware_Image, [], 0, 1024, 34, 86⟩ 0
      ⟨[], some (List.replicate 34816 0), false, [], [], [], []⟩ (List.replicate 34816 0)
      rfl rfl (by rw [List.length_replicate]; decide) (by decide) (by decide) (by decide)).2
      (Or.inl ⟨rfl, by rw [List.length_replicate]; decide⟩)⟩

/-! ## Configuration store: how the scan of the initialisation ends -/

namespace FwConfig

open HAL_StatusTypeDef FirmUpdConf_Status

/-- Without a slot that is erased behind a not-erased one, the scan runs to the end and is left
with the last slot. -/
theorem init_scan_no_boundary (flash : Flash) (N : Nat)
    (hno : ∀ i < N, ¬ (is_erased flash i = FLASH_BLOCK_ERASED
      ∧ is_erased flash (prev_slot N i) = FLASH_BLOCK_NOT_ERASED)) :
    init_scan flash N 0 (N - 1) = ScanResult.exhausted (N - 1) := by
  have key : ∀ d i, i + d = N →
      init_scan flash (N - i) i (prev_slot N i) = ScanResult.exhausted (N - 1) := by
    intro d
    induction d with
    | zero =>
      intro i hi
      have hi' : i = N := by omega
      subst hi'
      rw [Nat.sub_self, init_scan]
      unfold prev_slot
      split
      · rfl
      · rfl
    | succ d ih =>
      intro i hi
      have hlt : i < N := by omega
      have hN : N - i = (N - (i + 1)) + 1 := by omega
      have hprev : prev_slot N (i + 1) = i := by
        unfold prev_slot
        rw [if_neg (by omega)]
        omega
      have hrec := ih (i + 1) (by omega)
      rw [hprev] at hrec
      rw [hN, init_scan]
      by_cases h1 : is_erased flash i = FLASH_BLOCK_ERASED
      · rw [if_pos h1, if_neg (fun h => hno i hlt ⟨h1, h⟩)]
        exact hrec
      · rw [if_neg h1]
        exact hrec
  have h0 := key N 0 (by omega)
  have hp : prev_slot N 0 = N - 1 := by
    unfold prev_slot
    rw [if_pos rfl]
  rw [hp] at h0
  exact h0

/-- The two ways the scan can end: at the first slot `i0` that is erased behind a not-erased
one, where the checksum of the record before `i0` is compared; or at the end, when there is no
such slot, and then no checksum is compared. -/
theorem init_scan_cases (flash : Flash) (N : Nat) :
    (∃ i0 < N, (is_erased flash i0 = FLASH_BLOCK_ERASED
        ∧ is_erased flash (prev_slot N i0) = FLASH_BLOCK_NOT_ERASED)
      ∧ (∀ i < i0, ¬ (is_erased flash i = FLASH_BLOCK_ERASED
        ∧ is_erased flash (prev_slot N i) = FLASH_BLOCK_NOT_ERASED))
      ∧ init_scan flash N 0 (N - 1)
        = if computed_crc32 flash (prev_slot N i0) ≠ stored_crc32 flash (prev_slot N i0) then
            ScanResult.corrupted (prev_slot N i0)
          else ScanResult.found (prev_slot N i0))
    ∨ ((∀ i < N, ¬ (is_erased flash i = FLASH_BLOCK_ERASED
        ∧ is_erased flash (prev_slot N i) = FLASH_BLOCK_NOT_ERASED))
      ∧ init_scan flash N 0 (N - 1) = ScanResult.exhausted (N - 1)) := by
  by_cases hex : ∃ i, i < N ∧ (is_erased flash i = FLASH_BLOCK_ERASED
      ∧ is_erased flash (prev_slot N i) = FLASH_BLOCK_NOT_ERASED)
  · left
    obtain ⟨h1, h2⟩ := Nat.find_spec hex
    have hmin : ∀ i < Nat.find hex, ¬ (is_erased flash i = FLASH_BLOCK_ERASED
        ∧ is_erased flash (prev_slot N i) = FLASH_BLOCK_NOT_ERASED) := by
      intro i hi hb
      exact Nat.find_min hex hi ⟨by omega, hb⟩
    exact ⟨Nat.find hex, h1, h2, hmin, init_scan_finds flash N _ h1 h2.1 h2.2 hmin⟩
  · right
    have hno : ∀ i < N, ¬ (is_erased flash i = FLASH_BLOCK_ERASED
        ∧ is_erased flash (prev_slot N i) = FLASH_BLOCK_NOT_ERASED) :=
      fun i hi hb => hex ⟨i, hi, hb⟩
    exact ⟨hno, init_scan_no_boundary flash N hno⟩

/-- The codes of `HAL_ret_handler`. -/
theorem HAL_ret_handler_codes (r : HAL_StatusTypeDef) :
    HAL_ret_handler r = FIRM_UPDT_CONF_EC_OK ∨ HAL_ret_handler r = FIRM_UPDT_CONF_EC_NR
      ∨ HAL_ret_handler r = FIRM_UPDT_CONF_EC_ERR := by
  cases r
  · exact Or.inl rfl
  · exact Or.inr (Or.inr rfl)
  · exact Or.inr (Or.inl rfl)
  · exact Or.inr (Or.inl rfl)

/-- The codes of `page_erase`. -/
theorem page_erase_codes (S page_start : Nat) (st : Store) :
    (page_erase S page_start st).1 = FIRM_UPDT_CONF_EC_OK
      ∨ (page_erase S page_start st).1 = FIRM_UPDT_CONF_EC_NR
      ∨ (page_erase S page_start st).1 = FIRM_UPDT_CONF_EC_ERR := by
  simp only [page_erase]
  split
  · exact HAL_ret_handler_codes _
  · split
    · exact HAL_ret_handler_codes _
    · split
      · exact HAL_ret_handler_codes _
      · exact Or.inl rfl

/-- The codes of `prep_page_swap`. -/
theorem prep_page_swap_codes (S : Nat) (st : Store) :
    (prep_page_swap S st).1 = FIRM_UPDT_CONF_EC_OK
      ∨ (prep_page_swap S st).1 = FIRM_UPDT_CONF_EC_NR
      ∨ (prep_page_swap S st).1 = FIRM_UPDT_CONF_EC_ERR := by
  unfold prep_page_swap
  split
  · exact page_erase_codes S S st
  · split
    · exact page_erase_codes S 0 st
    · exact Or.inl rfl

/-- The function `restore_firm_updt_config_flash_memory` never moves the pointer; when it
reports success both pages have been erased; with every HAL call succeeding it reports
success. -/
theorem restore_spec (S : Nat) (st : Store) :
    (restore_firm_updt_config_flash_memory S st).2.p_most_recent_val = st.p_most_recent_val
    ∧ ((restore_firm_updt_config_flash_memory S st).1 = FIRM_UPDT_CONF_EC_OK →
        (restore_firm_updt_config_flash_memory S st).2.flash
          = flash_erase_page S (flash_erase_page S st.flash 0) S
        ∧ (page_erase S 0 st).1 = FIRM_UPDT_CONF_EC_OK
        ∧ (page_erase S S (page_erase S 0 st).2).1 = FIRM_UPDT_CONF_EC_OK)
    ∧ ((restore_firm_updt_config_flash_memory S st).1 ≠ FIRM_UPDT_CONF_EC_OK →
        (page_erase S 0 st).1 ≠ FIRM_UPDT_CONF_EC_OK
        ∨ (page_erase S S (page_erase S 0 st).2).1 ≠ FIRM_UPDT_CONF_EC_OK)
    ∧ (st.hal = [] →
        (restore_firm_updt_config_flash_memory S st).1 = FIRM_UPDT_CONF_EC_OK
        ∧ (restore_firm_updt_config_flash_memory S st).2.hal = []) := by
  obtain ⟨a1, a2, a3⟩ := page_erase_spec S 0 st
  obtain ⟨b1, b2, b3⟩ := page_erase_spec S S (page_erase S 0 st).2
  unfold restore_firm_updt_config_flash_memory
  dsimp only
  by_cases h1 : (page_erase S 0 st).1 = FIRM_UPDT_CONF_EC_OK
  · rw [if_neg (not_not.mpr h1)]
    by_cases h2 : (page_erase S S (page_erase S 0 st).2).1 = FIRM_UPDT_CONF_EC_OK
    · rw [if_neg (not_not.mpr h2)]
      refine ⟨b1.trans a1, fun _ => ⟨?_, h1, h2⟩, fun h => absurd rfl h, fun h => ?_⟩
      · show (page_erase S S (page_erase S 0 st).2).2.flash = _
        rw [b2 h2, a2 h1]
      · have hh : (page_erase S 0 st).2.hal = [] := by rw [a3 h]; exact h
        refine ⟨rfl, ?_⟩
        show (page_erase S S (page_erase S 0 st).2).2.hal = []
        rw [b3 hh]
        exact hh
    · rw [if_pos h2]
      refine ⟨b1.trans a1, fun h => absurd h h2, fun _ => Or.inr h2, fun h => ?_⟩
      have hh : (page_erase S 0 st).2.hal = [] := by rw [a3 h]; exact h
      rw [b3 hh] at h2
      exact absurd rfl h2
  · rw [if_pos h1]
    refine ⟨a1, fun h => absurd h h1, fun _ => Or.inl h1, fun h => ?_⟩
    rw [a3 h] at h1
    exact absurd rfl h1

end FwConfig

namespace FwConfig

open HAL_StatusTypeDef FirmUpdConf_Status

/-- The initialisation after a scan that ended at a checksum mismatch (lines 164-183). -/
theorem init_of_corrupted (S : Nat) (st : Store) (p : Nat)
    (h : init_scan st.flash (2 * S) 0 (2 * S - 1) = ScanResult.corrupted p) :
    firmware_update_configurations_init S st
      = if (restore_firm_updt_config_flash_memory S
            { st with p_most_recent_val := some p }).1 ≠ FIRM_UPDT_CONF_EC_OK then
          (FIRM_UPDT_CONF_EC_CRPT,
            (restore_firm_updt_config_flash_memory S { st with p_most_recent_val := some p }).2)
        else
          (FIRM_UPDT_CONF_EC_OK,
            { (restore_firm_updt_config_flash_memory S
                { st with p_most_recent_val := some p }).2 with p_most_recent_val := none }) := by
  unfold firmware_update_configurations_init
  rw [h]

/-- The initialisation after a scan that ended at a record with a matching checksum. -/
theorem init_of_found (S : Nat) (st : Store) (p : Nat)
    (h : init_scan st.flash (2 * S) 0 (2 * S - 1) = ScanResult.found p) :
    firmware_update_configurations_init S st
      = prep_page_swap S { st with p_most_recent_val := some p } := by
  unfold firmware_update_configurations_init
  rw [h]

/-- The initialisation after a scan that ran to the end (lines 190-200). -/
theorem init_of_exhausted (S : Nat) (st : Store) (p : Nat)
    (h : init_scan st.flash (2 * S) 0 (2 * S - 1) = ScanResult.exhausted p) :
    firmware_update_configurations_init S st
      = if is_erased st.flash p = FLASH_BLOCK_ERASED then
          prep_page_swap S { st with p_most_recent_val := none }
        else prep_page_swap S { st with p_most_recent_val := some p } := by
  unfold firmware_update_configurations_init
  rw [h]

/-- With both pages erased every byte of the two pages reads 0xFF. -/
theorem both_pages_erased (S : Nat) (flash : Flash) (j k : Nat) (hj : j < 2 * S) :
    flash_erase_page S (flash_erase_page S flash 0) S j k = 0xFF := by
  rw [flash_erase_page_apply, flash_erase_page_apply]
  by_cases h : S ≤ j
  · rw [if_pos ⟨h, by omega⟩]
  · rw [if_neg (fun hc => h hc.1), if_pos ⟨by omega, by omega⟩]

/-- The initialisation never returns the Corrupt code from its page swap. -/
theorem prep_page_swap_not_crpt (S : Nat) (st : Store) :
    (prep_page_swap S st).1 ≠ FIRM_UPDT_CONF_EC_CRPT := by
  rcases prep_page_swap_codes S st with h | h | h <;> rw [h] <;> decide

end FwConfig

/-- C39: a full medium skips validation.  When no slot of either region carries the erased
marker, the scan of `firmware_update_configurations_init` runs to its end without finding a
boundary, the initialisation is the page-swap step taken with the latest pointer at the last slot
of region 2, and, whatever the stored checksum of that record is, it does not return the Corrupt
code, it leaves the pointer on that slot and the bytes of the slot as they were, and the read
that follows returns OK with the body of that slot. -/
theorem full_medium_skips_validation (S : Nat) (hS : 1 ≤ S) (st : FwConfig.Store)
    (hfull : ∀ j < 2 * S, FwConfig.is_erased st.flash j ≠ FwConfig.FLASH_BLOCK_ERASED) :
    FwConfig.init_scan st.flash (2 * S) 0 (2 * S - 1)
      = FwConfig.ScanResult.exhausted (2 * S - 1)
    ∧ FwConfig.firmware_update_configurations_init S st
      = FwConfig.prep_page_swap S { st with p_most_recent_val := some (2 * S - 1) }
    ∧ (FwConfig.firmware_update_configurations_init S st).2.p_most_recent_val
      = some (2 * S - 1)
    ∧ (FwConfig.firmware_update_configurations_init S st).1
      ≠ FwConfig.FirmUpdConf_Status.FIRM_UPDT_CONF_EC_CRPT
    ∧ (∀ k, (FwConfig.firmware_update_configurations_init S st).2.flash (2 * S - 1) k
        = st.flash (2 * S - 1) k)
    ∧ FwConfig.firmware_update_configurations_read
        (FwConfig.firmware_update_configurations_init S st).2
      = (FwConfig.FirmUpdConf_Status.FIRM_UPDT_CONF_EC_OK,
          FwConfig.data_of_bytes
            (FwConfig.slot_bytes st.flash (2 * S - 1) 4
              FwConfig.FIRMWARE_UPDATE_CONFIG_DATA_SIZE)) := by
  have hscan : FwConfig.init_scan st.flash (2 * S) 0 (2 * S - 1)
      = FwConfig.ScanResult.exhausted (2 * S - 1) :=
    FwConfig.init_scan_no_boundary st.flash (2 * S) (fun i hi hc => hfull i hi hc.1)
  have hinit : FwConfig.firmware_update_configurations_init S st
      = FwConfig.prep_page_swap S { st with p_most_recent_val := some (2 * S - 1) } := by
    rw [FwConfig.init_of_exhausted S st _ hscan, if_neg (hfull _ (by omega))]
  have hptr : (FwConfig.firmware_update_configurations_init S st).2.p_most_recent_val
      = some (2 * S - 1) := by
    rw [hinit]
    exact (FwConfig.prep_page_swap_spec S _).1
  have hflash : ∀ k, (FwConfig.firmware_update_configurations_init S st).2.flash (2 * S - 1) k
      = st.flash (2 * S - 1) k := by
    intro k
    rw [hinit]
    exact FwConfig.prep_page_swap_keeps_latest_page S hS
      { st with p_most_recent_val := some (2 * S - 1) } (2 * S - 1) (2 * S - 1) k rfl rfl
  refine ⟨hscan, hinit, hptr, ?_, hflash, ?_⟩
  · rw [hinit]
    exact FwConfig.prep_page_swap_not_crpt S _
  · unfold FwConfig.firmware_update_configurations_read
    rw [hptr]
    show (_, FwConfig.data_of_bytes (FwConfig.slot_bytes _ _ _ _)) = _
    have hb : FwConfig.slot_bytes (FwConfig.firmware_update_configurations_init S st).2.flash
        (2 * S - 1) 4 FwConfig.FIRMWARE_UPDATE_CONFIG_DATA_SIZE
        = FwConfig.slot_bytes st.flash (2 * S - 1) 4
            FwConfig.FIRMWARE_UPDATE_CONFIG_DATA_SIZE := by
      unfold FwConfig.slot_bytes
      exact List.map_congr_left (fun k _ => hflash _)
    rw [hb]

/-- Witness for C39: with two slots per region and every byte of the medium zero, every slot
carries the not-erased marker, the stored checksum of the last slot (0) is not the checksum of
its contents, and the initialisation returns OK with the pointer on that slot. -/
theorem full_medium_skips_validation_witness :
    FwConfig.computed_crc32 (fun _ _ => 0) 3 ≠ FwConfig.stored_crc32 (fun _ _ => 0) 3
    ∧ FwConfig.firmware_update_configurations_init 2 ⟨fun _ _ => 0, none, []⟩
      = (FwConfig.FirmUpdConf_Status.FIRM_UPDT_CONF_EC_OK, ⟨fun _ _ => 0, some 3, []⟩)
    ∧ (FwConfig.firmware_update_configurations_init 2 ⟨fun _ _ => 0, none, []⟩).1
      ≠ FwConfig.FirmUpdConf_Status.FIRM_UPDT_CONF_EC_CRPT :=
  have h := full_medium_skips_validation 2 (by decide) ⟨fun _ _ => 0, none, []⟩
    (fun _ _ => show (0 : Nat) ≠ 0xFF from by decide)
  ⟨by decide!, h.2.1.trans rfl, h.2.2.2.1⟩

namespace FwConfig

open HAL_StatusTypeDef FirmUpdConf_Status

/-- The next HAL call reports the head of the list of results and uses it up. -/
theorem hal_next_eq (st : Store) :
    hal_next st = (st.hal.getD 0 HAL_OK, { st with hal := st.hal.drop 1 }) := by
  obtain ⟨f, p, h⟩ := st
  cases h <;> rfl

theorem store_ret_handler_ok_iff (r : HAL_StatusTypeDef) :
    HAL_ret_handler r = FIRM_UPDT_CONF_EC_OK ↔ r = HAL_OK := by
  cases r <;> decide

theorem getD_drop_one (l : List HAL_StatusTypeDef) (i : Nat) :
    (l.drop 1).getD i HAL_OK = l.getD (i + 1) HAL_OK := by
  rw [List.getD_eq_getElem?_getD, List.getD_eq_getElem?_getD, List.getElem?_drop, Nat.add_comm]

/-- The programming loop when the HAL reports success for each of its `n` words. -/
theorem program_words_run (image : List Nat) (himg : ∀ k, image.getD k 0 < 256) (slot : Nat) :
    ∀ (n w0 : Nat) (st : Store), (∀ i < n, st.hal.getD i HAL_OK = HAL_OK) →
      program_words image slot n w0 st
        = (FIRM_UPDT_CONF_EC_OK,
            { st with flash := programmed image slot w0 n st.flash, hal := st.hal.drop n }) := by
  intro n
  induction n with
  | zero =>
    intro w0 st _
    rw [programmed_zero]
    rfl
  | succ n ih =>
    intro w0 st h
    simp only [program_words]
    rw [hal_next_eq]
    have h0 : HAL_ret_handler (st.hal.getD 0 HAL_OK) = FIRM_UPDT_CONF_EC_OK :=
      (store_ret_handler_ok_iff _).2 (h 0 (Nat.succ_pos n))
    rw [if_neg (not_not.mpr h0)]
    rw [ih (w0 + 1) _ (fun i hi => by
      show (st.hal.drop 1).getD i HAL_OK = HAL_OK
      rw [getD_drop_one]
      exact h (i + 1) (by omega))]
    show (_, (⟨programmed image slot (w0 + 1) n
        (flash_program_word st.flash slot w0 (read_u32 image (4 * w0))),
      st.p_most_recent_val, (st.hal.drop 1).drop n⟩ : Store)) = _
    rw [programmed_succ image himg, List.drop_drop, Nat.add_comm 1 n]

/-- The programming loop when the HAL reports its first failure at word `m`: the loop returns
the code of that failure with the `m` words before it programmed and nothing after it. -/
theorem program_words_fails (image : List Nat) (himg : ∀ k, image.getD k 0 < 256) (slot : Nat) :
    ∀ (m n w0 : Nat) (st : Store), m < n → (∀ i < m, st.hal.getD i HAL_OK = HAL_OK) →
      st.hal.getD m HAL_OK ≠ HAL_OK →
      program_words image slot n w0 st
        = (HAL_ret_handler (st.hal.getD m HAL_OK),
            { st with
              flash := programmed image slot w0 m st.flash, hal := st.hal.drop (m + 1) }) := by
  intro m
  induction m with
  | zero =>
    intro n w0 st hn _ hf
    obtain ⟨n, rfl⟩ : ∃ n1, n = n1 + 1 := ⟨n - 1, by omega⟩
    simp only [program_words]
    rw [hal_next_eq, if_pos (fun hc => hf ((store_ret_handler_ok_iff _).1 hc)), programmed_zero]
  | succ m ih =>
    intro n w0 st hn h hf
    obtain ⟨n, rfl⟩ : ∃ n1, n = n1 + 1 := ⟨n - 1, by omega⟩
    simp only [program_words]
    rw [hal_next_eq]
    have h0 : HAL_ret_handler (st.hal.getD 0 HAL_OK) = FIRM_UPDT_CONF_EC_OK :=
      (store_ret_handler_ok_iff _).2 (h 0 (Nat.succ_pos m))
    rw [if_neg (not_not.mpr h0)]
    rw [ih n (w0 + 1) _ (by omega) (fun i hi => by
        show (st.hal.drop 1).getD i HAL_OK = HAL_OK
        rw [getD_drop_one]
        exact h (i + 1) (by omega))
      (by
        show (st.hal.drop 1).getD m HAL_OK ≠ HAL_OK
        rw [getD_drop_one]
        exact hf)]
    show (HAL_ret_handler ((st.hal.drop 1).getD m HAL_OK),
      (⟨programmed image slot (w0 + 1) m
          (flash_program_word st.flash slot w0 (read_u32 image (4 * w0))),
        st.p_most_recent_val, (st.hal.drop 1).drop (m + 1)⟩ : Store)) = _
    rw [programmed_succ image himg, List.drop_drop, Nat.add_comm 1 (m + 1), getD_drop_one]

/-- The function `firmware_update_configurations_write` when the first HAL call to report a
failure is call `k` of its ten (0 the unlock, 1 to 8 the words, 9 the lock). -/
theorem write_fails (S : Nat) (p_data : firmware_update_config_data_t) (st : Store) (k : Nat)
    (hk : k ≤ 9) (hok : ∀ i < k, st.hal.getD i HAL_OK = HAL_OK)
    (hfail : st.hal.getD k HAL_OK ≠ HAL_OK) :
    firmware_update_configurations_write S p_data st
      = (HAL_ret_handler (st.hal.getD k HAL_OK),
          { st with
            flash := programmed (new_val_struct p_data) (next_slot S st.p_most_recent_val) 0
              (k - 1) st.flash,
            hal := st.hal.drop (k + 1) }) := by
  have hne : HAL_ret_handler (st.hal.getD k HAL_OK) ≠ FIRM_UPDT_CONF_EC_OK :=
    fun hc => hfail ((store_ret_handler_ok_iff _).1 hc)
  unfold firmware_update_configurations_write
  dsimp only
  rw [hal_next_eq]
  by_cases k0 : k = 0
  · subst k0
    rw [if_pos hne, programmed_zero]
  · have h0 : HAL_ret_handler (st.hal.getD 0 HAL_OK) = FIRM_UPDT_CONF_EC_OK :=
      (store_ret_handler_ok_iff _).2 (hok 0 (by omega))
    rw [if_neg (not_not.mpr h0)]
    by_cases k9 : k = 9
    · subst k9
      rw [program_words_run (new_val_struct p_data) (new_val_struct_getD_lt p_data) _
        FIRMWARE_UPDATE_CONFIG_BLOCK_SIZE 0 _ (fun i hi => by
          show (st.hal.drop 1).getD i HAL_OK = HAL_OK
          rw [getD_drop_one]
          exact hok (i + 1) (by
            have : i < 8 := hi
            omega))]
      rw [if_neg (not_not.mpr rfl), hal_next_eq]
      have e : ((st.hal.drop 1).drop FIRMWARE_UPDATE_CONFIG_BLOCK_SIZE).getD 0 HAL_OK
          = st.hal.getD 9 HAL_OK := by
        rw [List.drop_drop, List.getD_eq_getElem?_getD, List.getD_eq_getElem?_getD,
          List.getElem?_drop]
        rfl
      show (if HAL_ret_handler
            (((st.hal.drop 1).drop FIRMWARE_UPDATE_CONFIG_BLOCK_SIZE).getD 0 HAL_OK)
              ≠ FIRM_UPDT_CONF_EC_OK then _ else _) = _
      rw [e, if_pos hne]
      show (_, (⟨_, _,
        (((st.hal.drop 1).drop FIRMWARE_UPDATE_CONFIG_BLOCK_SIZE).drop 1)⟩ : Store)) = _
      rw [List.drop_drop, List.drop_drop]
      rfl
    · have hf : (st.hal.drop 1).getD (k - 1) HAL_OK ≠ HAL_OK := by
        rw [getD_drop_one, Nat.sub_add_cancel (by omega)]
        exact hfail
      rw [program_words_fails (new_val_struct p_data) (new_val_struct_getD_lt p_data) _
        (k - 1) FIRMWARE_UPDATE_CONFIG_BLOCK_SIZE 0 _
        (by show k - 1 < 8; omega)
        (fun i hi => by
          show (st.hal.drop 1).getD i HAL_OK = HAL_OK
          rw [getD_drop_one]
          exact hok (i + 1) (by omega))
        hf]
      have hne2 : HAL_ret_handler ((st.hal.drop 1).getD (k - 1) HAL_OK)
          ≠ FIRM_UPDT_CONF_EC_OK :=
        fun hc => hf ((store_ret_handler_ok_iff _).1 hc)
      rw [if_pos hne2]
      show (HAL_ret_handler ((st.hal.drop 1).getD (k - 1) HAL_OK),
        (⟨_, _, (st.hal.drop 1).drop (k - 1 + 1)⟩ : Store)) = _
      rw [getD_drop_one, Nat.sub_add_cancel (by omega), List.drop_drop, Nat.add_comm 1 k]

end FwConfig

/-- C40: failed writes do not move the pointer.  Let call `k` be the first of the ten HAL calls
of `firmware_update_configurations_write` (0 the unlock, 1 to 8 the eight words, 9 the lock) to
report a failure.  Then the write returns the code `HAL_ret_handler` gives for that failure,
which is not OK (NoResponse for busy and timeout, Error for a hard failure); it stops there: the
`k - 1` words before the failing step are programmed, nothing after them, and `k + 1` HAL
results are used up; and it leaves the latest pointer unchanged, so that the read that follows
reports the same status as before and, when there is a latest record, returns that record. -/
theorem failed_write_keeps_pointer (S : Nat) (p_data : FwConfig.firmware_update_config_data_t)
    (st : FwConfig.Store) (k : Nat) (hk : k ≤ 9)
    (hok : ∀ i < k, st.hal.getD i FwConfig.HAL_StatusTypeDef.HAL_OK
      = FwConfig.HAL_StatusTypeDef.HAL_OK)
    (hfail : st.hal.getD k FwConfig.HAL_StatusTypeDef.HAL_OK
      ≠ FwConfig.HAL_StatusTypeDef.HAL_OK) :
    (FwConfig.firmware_update_configurations_write S p_data st).1
      = FwConfig.HAL_ret_handler (st.hal.getD k FwConfig.HAL_StatusTypeDef.HAL_OK)
    ∧ (FwConfig.firmware_update_configurations_write S p_data st).1
      ≠ FwConfig.FirmUpdConf_Status.FIRM_UPDT_CONF_EC_OK
    ∧ (st.hal.getD k FwConfig.HAL_StatusTypeDef.HAL_OK = FwConfig.HAL_StatusTypeDef.HAL_BUSY
        ∨ st.hal.getD k FwConfig.HAL_StatusTypeDef.HAL_OK
          = FwConfig.HAL_StatusTypeDef.HAL_TIMEOUT →
      (FwConfig.firmware_update_configurations_write S p_data st).1
        = FwConfig.FirmUpdConf_Status.FIRM_UPDT_CONF_EC_NR)
    ∧ (st.hal.getD k FwConfig.HAL_StatusTypeDef.HAL_OK = FwConfig.HAL_StatusTypeDef.HAL_ERROR →
      (FwConfig.firmware_update_configurations_write S p_data st).1
        = FwConfig.FirmUpdConf_Status.FIRM_UPDT_CONF_EC_ERR)
    ∧ (FwConfig.firmware_update_configurations_write S p_data st).2.p_most_recent_val
      = st.p_most_recent_val
    ∧ (FwConfig.firmware_update_configurations_write S p_data st).2.flash
      = FwConfig.programmed (FwConfig.new_val_struct p_data)
          (FwConfig.next_slot S st.p_most_recent_val) 0 (k - 1) st.flash
    ∧ (FwConfig.firmware_update_configurations_write S p_data st).2.hal = st.hal.drop (k + 1)
    ∧ (FwConfig.firmware_update_configurations_read
        (FwConfig.firmware_update_configurations_write S p_data st).2).1
      = (FwConfig.firmware_update_configurations_read st).1
    ∧ (∀ p, st.p_most_recent_val = some p →
      FwConfig.firmware_update_configurations_read
          (FwConfig.firmware_update_configurations_write S p_data st).2
        = FwConfig.firmware_update_configurations_read st) := by
  have hw := FwConfig.write_fails S p_data st k hk hok hfail
  rw [hw]
  refine ⟨rfl, fun hc => hfail ((FwConfig.store_ret_handler_ok_iff _).1 hc), ?_, ?_, rfl, rfl, rfl,
    ?_, ?_⟩
  · rintro (h | h)
    · show FwConfig.HAL_ret_handler _ = _
      rw [h]
      rfl
    · show FwConfig.HAL_ret_handler _ = _
      rw [h]
      rfl
  · intro h
    show FwConfig.HAL_ret_handler _ = _
    rw [h]
    rfl
  · unfold FwConfig.firmware_update_configurations_read
    dsimp only
    cases st.p_most_recent_val <;> rfl
  · intro p hp
    unfold FwConfig.firmware_update_configurations_read
    dsimp only
    rw [hp]
    dsimp only
    have hb : FwConfig.slot_bytes
        (FwConfig.programmed (FwConfig.new_val_struct p_data) (FwConfig.next_slot S (some p)) 0
          (k - 1) st.flash) p 4 FwConfig.FIRMWARE_UPDATE_CONFIG_DATA_SIZE
        = FwConfig.slot_bytes st.flash p 4 FwConfig.FIRMWARE_UPDATE_CONFIG_DATA_SIZE := by
      unfold FwConfig.slot_bytes
      exact List.map_congr_left (fun i _ =>
        FwConfig.programmed_other_slot _ _ _ _ _ _ _ (FwConfig.next_slot_ne S p).symm)
    rw [hb]

/-- Witness for C40: with the unlock and the first two words reported as done and the third
word reported busy, the write returns NoResponse, has programmed two words of slot 0, has used
up four HAL results and has left the pointer at none. -/
theorem failed_write_keeps_pointer_witness :
    (FwConfig.firmware_update_configurations_write 2 ⟨5, 6, 7, 8, 0, 0, 1, 0⟩
        ⟨FwConfig.erased_flash, none,
          [FwConfig.HAL_StatusTypeDef.HAL_OK, FwConfig.HAL_StatusTypeDef.HAL_OK,
           FwConfig.HAL_StatusTypeDef.HAL_OK, FwConfig.HAL_StatusTypeDef.HAL_BUSY,
           FwConfig.HAL_StatusTypeDef.HAL_ERROR]⟩).1
      = FwConfig.FirmUpdConf_Status.FIRM_UPDT_CONF_EC_NR
    ∧ (FwConfig.firmware_update_configurations_write 2 ⟨5, 6, 7, 8, 0, 0, 1, 0⟩
        ⟨FwConfig.erased_flash, none,
          [FwConfig.HAL_StatusTypeDef.HAL_OK, FwConfig.HAL_StatusTypeDef.HAL_OK,
           FwConfig.HAL_StatusTypeDef.HAL_OK, FwConfig.HAL_StatusTypeDef.HAL_BUSY,
           FwConfig.HAL_StatusTypeDef.HAL_ERROR]⟩).2.p_most_recent_val = none
    ∧ (FwConfig.firmware_update_configurations_write 2 ⟨5, 6, 7, 8, 0, 0, 1, 0⟩
        ⟨FwConfig.erased_flash, none,
          [FwConfig.HAL_StatusTypeDef.HAL_OK, FwConfig.HAL_StatusTypeDef.HAL_OK,
           FwConfig.HAL_StatusTypeDef.HAL_OK, FwConfig.HAL_StatusTypeDef.HAL_BUSY,
           FwConfig.HAL_StatusTypeDef.HAL_ERROR]⟩).2.hal
      = [FwConfig.HAL_StatusTypeDef.HAL_ERROR] :=
  have h := failed_write_keeps_pointer 2 ⟨5, 6, 7, 8, 0, 0, 1, 0⟩
    ⟨FwConfig.erased_flash, none,
      [FwConfig.HAL_StatusTypeDef.HAL_OK, FwConfig.HAL_StatusTypeDef.HAL_OK,
       FwConfig.HAL_StatusTypeDef.HAL_OK, FwConfig.HAL_StatusTypeDef.HAL_BUSY,
       FwConfig.HAL_StatusTypeDef.HAL_ERROR]⟩ 3 (by decide) (by decide) (by decide)
  ⟨h.2.2.1 (Or.inl rfl), h.2.2.2.2.1, h.2.2.2.2.2.2.1⟩

/-- C32: `firmware_update_configurations_read` is a pure query.  With a latest pointer it returns
OK and the body of the slot the pointer designates; without one it returns NO_DATA and the
contents of the first slot of region 1; it has no other result; and it is a function of the
flash and the pointer alone, which it only reads: it makes no HAL call and gives back no new
state. -/
theorem read_is_pure_query (st : FwConfig.Store) :
    (∀ p, st.p_most_recent_val = some p →
      FwConfig.firmware_update_configurations_read st
        = (FwConfig.FirmUpdConf_Status.FIRM_UPDT_CONF_EC_OK,
            FwConfig.data_of_bytes
              (FwConfig.slot_bytes st.flash p 4 FwConfig.FIRMWARE_UPDATE_CONFIG_DATA_SIZE)))
    ∧ (st.p_most_recent_val = none →
      FwConfig.firmware_update_configurations_read st
        = (FwConfig.FirmUpdConf_Status.FIRM_UPDT_CONF_EC_NO_DATA,
            FwConfig.data_of_bytes
              (FwConfig.slot_bytes st.flash 0 4 FwConfig.FIRMWARE_UPDATE_CONFIG_DATA_SIZE)))
    ∧ ((FwConfig.firmware_update_configurations_read st).1
        = FwConfig.FirmUpdConf_Status.FIRM_UPDT_CONF_EC_OK
      ∨ (FwConfig.firmware_update_configurations_read st).1
        = FwConfig.FirmUpdConf_Status.FIRM_UPDT_CONF_EC_NO_DATA)
    ∧ ((FwConfig.firmware_update_configurations_read st).1
        = FwConfig.FirmUpdConf_Status.FIRM_UPDT_CONF_EC_OK ↔ st.p_most_recent_val ≠ none)
    ∧ (∀ hal, FwConfig.firmware_update_configurations_read { st with hal := hal }
        = FwConfig.firmware_update_configurations_read st) := by
  refine ⟨fun p hp => ?_, fun hp => ?_, ?_, ?_, fun hal => rfl⟩
  · unfold FwConfig.firmware_update_configurations_read
    rw [hp]
  · unfold FwConfig.firmware_update_configurations_read
    rw [hp]
  · unfold FwConfig.firmware_update_configurations_read
    cases st.p_most_recent_val
    · exact Or.inr rfl
    · exact Or.inl rfl
  · unfold FwConfig.firmware_update_configurations_read
    cases st.p_most_recent_val
    · exact ⟨fun h => absurd (show FwConfig.FirmUpdConf_Status.FIRM_UPDT_CONF_EC_NO_DATA
        = FwConfig.FirmUpdConf_Status.FIRM_UPDT_CONF_EC_OK from h) (by decide),
        fun h => absurd rfl h⟩
    · exact ⟨fun _ h => Option.noConfusion h, fun _ => rfl⟩

/-- C33: the page-swap rule.  `prep_page_swap` hands region 2 to `page_erase` exactly when the
latest record is the first slot of region 1 and the last slot of region 2 carries the not-erased
marker, and region 1 exactly when the latest record is the first slot of region 2 and the last
slot of region 1 carries the not-erased marker.  In the first case it is `page_erase` of region
2, in the second `page_erase` of region 1, and a successful `page_erase` leaves that region
erased; when the first condition fails no byte of region 2 changes, when the second fails no
byte of region 1 changes; and when both fail, in particular without a latest record, it returns
OK and leaves the state as it was. -/
theorem page_swap_rule (S : Nat) (hS : 1 ≤ S) (st : FwConfig.Store) :
    (FwConfig.prep_page_swap_request S st.flash st.p_most_recent_val = some S
      ↔ st.p_most_recent_val = some 0
        ∧ FwConfig.is_erased st.flash (2 * S - 1) = FwConfig.FLASH_BLOCK_NOT_ERASED)
    ∧ (FwConfig.prep_page_swap_request S st.flash st.p_most_recent_val = some 0
      ↔ st.p_most_recent_val = some S
        ∧ FwConfig.is_erased st.flash (S - 1) = FwConfig.FLASH_BLOCK_NOT_ERASED)
    ∧ (st.p_most_recent_val = some 0
        ∧ FwConfig.is_erased st.flash (2 * S - 1) = FwConfig.FLASH_BLOCK_NOT_ERASED →
      FwConfig.prep_page_swap S st = FwConfig.page_erase S S st)
    ∧ (st.p_most_recent_val = some S
        ∧ FwConfig.is_erased st.flash (S - 1) = FwConfig.FLASH_BLOCK_NOT_ERASED →
      FwConfig.prep_page_swap S st = FwConfig.page_erase S 0 st)
    ∧ (∀ t, (FwConfig.page_erase S t st).1 = FwConfig.FirmUpdConf_Status.FIRM_UPDT_CONF_EC_OK →
      ∀ j k, (FwConfig.page_erase S t st).2.flash j k
        = if t ≤ j ∧ j < t + S then 0xFF else st.flash j k)
    ∧ (¬ (st.p_most_recent_val = some 0
        ∧ FwConfig.is_erased st.flash (2 * S - 1) = FwConfig.FLASH_BLOCK_NOT_ERASED) →
      ∀ j k, S ≤ j → (FwConfig.prep_page_swap S st).2.flash j k = st.flash j k)
    ∧ (¬ (st.p_most_recent_val = some S
        ∧ FwConfig.is_erased st.flash (S - 1) = FwConfig.FLASH_BLOCK_NOT_ERASED) →
      ∀ j k, j < S → (FwConfig.prep_page_swap S st).2.flash j k = st.flash j k)
    ∧ (¬ (st.p_most_recent_val = some 0
        ∧ FwConfig.is_erased st.flash (2 * S - 1) = FwConfig.FLASH_BLOCK_NOT_ERASED) →
      ¬ (st.p_most_recent_val = some S
        ∧ FwConfig.is_erased st.flash (S - 1) = FwConfig.FLASH_BLOCK_NOT_ERASED) →
      FwConfig.prep_page_swap S st = (FwConfig.FirmUpdConf_Status.FIRM_UPDT_CONF_EC_OK, st))
    ∧ (st.p_most_recent_val = none →
      FwConfig.prep_page_swap S st = (FwConfig.FirmUpdConf_Status.FIRM_UPDT_CONF_EC_OK, st)) := by
  have hne : ∀ c1 : st.p_most_recent_val = some 0, ¬ st.p_most_recent_val = some S := by
    intro c1 c2
    rw [c1] at c2
    have := Option.some.inj c2
    omega
  have hboth : ¬ (st.p_most_recent_val = some 0
        ∧ FwConfig.is_erased st.flash (2 * S - 1) = FwConfig.FLASH_BLOCK_NOT_ERASED) →
      ¬ (st.p_most_recent_val = some S
        ∧ FwConfig.is_erased st.flash (S - 1) = FwConfig.FLASH_BLOCK_NOT_ERASED) →
      FwConfig.prep_page_swap S st
        = (FwConfig.FirmUpdConf_Status.FIRM_UPDT_CONF_EC_OK, st) := by
    intro c1 c2
    unfold FwConfig.prep_page_swap
    rw [if_neg c1, if_neg c2]
  have h2 : st.p_most_recent_val = some S
        ∧ FwConfig.is_erased st.flash (S - 1) = FwConfig.FLASH_BLOCK_NOT_ERASED →
      FwConfig.prep_page_swap S st = FwConfig.page_erase S 0 st := by
    intro c2
    unfold FwConfig.prep_page_swap
    rw [if_neg (fun c1 => hne c1.1 c2.1), if_pos c2]
  have h1 : st.p_most_recent_val = some 0
        ∧ FwConfig.is_erased st.flash (2 * S - 1) = FwConfig.FLASH_BLOCK_NOT_ERASED →
      FwConfig.prep_page_swap S st = FwConfig.page_erase S S st := by
    intro c1
    unfold FwConfig.prep_page_swap
    rw [if_pos c1]
  refine ⟨?_, ?_, h1, h2, ?_, ?_, ?_, hboth, ?_⟩
  · unfold FwConfig.prep_page_swap_request
    by_cases c1 : st.p_most_recent_val = some 0
        ∧ FwConfig.is_erased st.flash (2 * S - 1) = FwConfig.FLASH_BLOCK_NOT_ERASED
    · rw [if_pos c1]
      exact ⟨fun _ => c1, fun _ => rfl⟩
    · rw [if_neg c1]
      refine ⟨fun h => ?_, fun h => absurd h c1⟩
      split at h
      · have := Option.some.inj h
        omega
      · exact Option.noConfusion h
  · unfold FwConfig.prep_page_swap_request
    by_cases c1 : st.p_most_recent_val = some 0
        ∧ FwConfig.is_erased st.flash (2 * S - 1) = FwConfig.FLASH_BLOCK_NOT_ERASED
    · rw [if_pos c1]
      refine ⟨fun h => ?_, fun h => absurd h.1 (hne c1.1)⟩
      have := Option.some.inj h
      omega
    · rw [if_neg c1]
      by_cases c2 : st.p_most_recent_val = some S
          ∧ FwConfig.is_erased st.flash (S - 1) = FwConfig.FLASH_BLOCK_NOT_ERASED
      · rw [if_pos c2]
        exact ⟨fun _ => c2, fun _ => rfl⟩
      · rw [if_neg c2]
        exact ⟨fun h => Option.noConfusion h, fun h => absurd h c2⟩
  · intro t hok j k
    rw [(FwConfig.page_erase_spec S t st).2.1 hok, FwConfig.flash_erase_page_apply]
  · intro c1 j k hj
    by_cases c2 : st.p_most_recent_val = some S
        ∧ FwConfig.is_erased st.flash (S - 1) = FwConfig.FLASH_BLOCK_NOT_ERASED
    · rw [h2 c2]
      rcases FwConfig.page_erase_flash S 0 st with e | e
      · rw [e]
      · rw [e, FwConfig.flash_erase_page_apply, if_neg (by omega)]
    · rw [hboth c1 c2]
  · intro c2 j k hj
    by_cases c1 : st.p_most_recent_val = some 0
        ∧ FwConfig.is_erased st.flash (2 * S - 1) = FwConfig.FLASH_BLOCK_NOT_ERASED
    · rw [h1 c1]
      rcases FwConfig.page_erase_flash S S st with e | e
      · rw [e]
      · rw [e, FwConfig.flash_erase_page_apply, if_neg (by omega)]
    · rw [hboth c1 c2]
  · intro hn
    exact hboth (fun c => by rw [hn] at c; exact Option.noConfusion c.1)
      (fun c => by rw [hn] at c; exact Option.noConfusion c.1)

/-- Witness for C33: with two slots per region, the latest record in slot 0 and slot 3 in use,
the page swap is the erase of region 2 (first slot 2); without a latest record it returns OK and
changes nothing. -/
theorem page_swap_rule_witness :
    FwConfig.prep_page_swap 2 ⟨fun j _ => if j = 3 ∨ j = 0 then 0 else 0xFF, some 0, []⟩
      = FwConfig.page_erase 2 2 ⟨fun j _ => if j = 3 ∨ j = 0 then 0 else 0xFF, some 0, []⟩
    ∧ FwConfig.prep_page_swap 2 ⟨FwConfig.erased_flash, none, []⟩
      = (FwConfig.FirmUpdConf_Status.FIRM_UPDT_CONF_EC_OK, ⟨FwConfig.erased_flash, none, []⟩) :=
  ⟨(page_swap_rule 2 (by decide)
      ⟨fun j _ => if j = 3 ∨ j = 0 then 0 else 0xFF, some 0, []⟩).2.2.1 ⟨rfl, by decide⟩,
    (page_swap_rule 2 (by decide) ⟨FwConfig.erased_flash, none, []⟩).2.2.2.2.2.2.2.2 rfl⟩

namespace FwConfig

open HAL_StatusTypeDef FirmUpdConf_Status

/-- The function `firmware_update_configurations_write` when the HAL reports success for the
unlock, the eight words and the lock: the record is programmed, the pointer moved, and the
result is that of the page swap. -/
theorem write_runs (S : Nat) (p_data : firmware_update_config_data_t) (st : Store)
    (hall : ∀ i < 10, st.hal.getD i HAL_OK = HAL_OK) :
    firmware_update_configurations_write S p_data st
      = prep_page_swap S
          ⟨programmed (new_val_struct p_data) (next_slot S st.p_most_recent_val) 0
              FIRMWARE_UPDATE_CONFIG_BLOCK_SIZE st.flash,
            some (next_slot S st.p_most_recent_val), st.hal.drop 10⟩ := by
  unfold firmware_update_configurations_write
  dsimp only
  rw [hal_next_eq]
  have h0 : HAL_ret_handler (st.hal.getD 0 HAL_OK) = FIRM_UPDT_CONF_EC_OK :=
    (store_ret_handler_ok_iff _).2 (hall 0 (by decide))
  rw [if_neg (not_not.mpr h0)]
  rw [program_words_run (new_val_struct p_data) (new_val_struct_getD_lt p_data) _
    FIRMWARE_UPDATE_CONFIG_BLOCK_SIZE 0 _ (fun i hi => by
      show (st.hal.drop 1).getD i HAL_OK = HAL_OK
      rw [getD_drop_one]
      exact hall (i + 1) (by
        have : i < 8 := hi
        omega))]
  rw [if_neg (not_not.mpr rfl), hal_next_eq]
  have e : ((st.hal.drop 1).drop FIRMWARE_UPDATE_CONFIG_BLOCK_SIZE).getD 0 HAL_OK = HAL_OK := by
    rw [List.drop_drop, List.getD_eq_getElem?_getD, List.getElem?_drop,
      ← List.getD_eq_getElem?_getD]
    exact hall 9 (by decide)
  show (if HAL_ret_handler
        (((st.hal.drop 1).drop FIRMWARE_UPDATE_CONFIG_BLOCK_SIZE).getD 0 HAL_OK)
          ≠ FIRM_UPDT_CONF_EC_OK then _ else _) = _
  rw [e, if_neg (not_not.mpr (show HAL_ret_handler HAL_OK = FIRM_UPDT_CONF_EC_OK from rfl))]
  show prep_page_swap S ⟨_, _,
    (((st.hal.drop 1).drop FIRMWARE_UPDATE_CONFIG_BLOCK_SIZE).drop 1)⟩ = _
  rw [List.drop_drop, List.drop_drop]
  rfl

/-- The marker of a slot after some words of a record have been programmed: cleared when the
last word of that slot was programmed, else as it was. -/
theorem programmed_marker (d : firmware_update_config_data_t) (slot n : Nat) (flash : Flash)
    (j : Nat) :
    is_erased (programmed (new_val_struct d) slot 0 n flash) j = FLASH_BLOCK_NOT_ERASED
    ∨ is_erased (programmed (new_val_struct d) slot 0 n flash) j = is_erased flash j := by
  rw [is_erased_eq, is_erased_eq]
  unfold programmed
  by_cases h : j = slot ∧ 4 * 0 ≤ 31 ∧ 31 < 4 * (0 + n)
  · rw [if_pos h, (new_val_struct_fields d).2.1]
    exact Or.inl (Nat.and_zero _)
  · rw [if_neg h]
    exact Or.inr rfl

/-- The marker of a slot after `page_erase`: erased, or as it was. -/
theorem page_erase_marker (S t : Nat) (st : Store) (j : Nat) :
    is_erased (page_erase S t st).2.flash j = FLASH_BLOCK_ERASED
    ∨ is_erased (page_erase S t st).2.flash j = is_erased st.flash j := by
  rw [is_erased_eq, is_erased_eq]
  rcases page_erase_flash S t st with e | e
  · rw [e]
    exact Or.inr rfl
  · rw [e, flash_erase_page_apply]
    by_cases h : t ≤ j ∧ j < t + S
    · rw [if_pos h]
      exact Or.inl rfl
    · rw [if_neg h]
      exact Or.inr rfl

/-- The marker of a slot after `prep_page_swap`: erased, or as it was. -/
theorem prep_page_swap_marker (S : Nat) (st : Store) (j : Nat) :
    is_erased (prep_page_swap S st).2.flash j = FLASH_BLOCK_ERASED
    ∨ is_erased (prep_page_swap S st).2.flash j = is_erased st.flash j := by
  rw [prep_page_swap_eq_request]
  cases prep_page_swap_request S st.flash st.p_most_recent_val with
  | none => exact Or.inr rfl
  | some t => exact page_erase_marker S t st j

/-- The marker of a slot after `restore_firm_updt_config_flash_memory`: erased, or as it
was. -/
theorem restore_marker (S : Nat) (st : Store) (j : Nat) :
    is_erased (restore_firm_updt_config_flash_memory S st).2.flash j = FLASH_BLOCK_ERASED
    ∨ is_erased (restore_firm_updt_config_flash_memory S st).2.flash j
      = is_erased st.flash j := by
  unfold restore_firm_updt_config_flash_memory
  dsimp only
  split
  · exact page_erase_marker S 0 st j
  · split
    · rcases page_erase_marker S S (page_erase S 0 st).2 j with h | h
      · exact Or.inl h
      · rw [h]
        exact page_erase_marker S 0 st j
    · show is_erased (page_erase S S (page_erase S 0 st).2).2.flash j = _ ∨ _
      rcases page_erase_marker S S (page_erase S 0 st).2 j with h | h
      · exact Or.inl h
      · rw [h]
        exact page_erase_marker S 0 st j

/-- The marker of a slot after `firmware_update_configurations_write`, whatever the HAL
reports: one of the two marker values, or as it was. -/
theorem write_marker (S : Nat) (p_data : firmware_update_config_data_t) (st : Store) (j : Nat) :
    is_erased (firmware_update_configurations_write S p_data st).2.flash j
        = FLASH_BLOCK_NOT_ERASED
    ∨ is_erased (firmware_update_configurations_write S p_data st).2.flash j
        = FLASH_BLOCK_ERASED
    ∨ is_erased (firmware_update_configurations_write S p_data st).2.flash j
        = is_erased st.flash j := by
  by_cases hall : ∀ i < 10, st.hal.getD i HAL_OK = HAL_OK
  · rw [write_runs S p_data st hall]
    rcases prep_page_swap_marker S
      ⟨programmed (new_val_struct p_data) (next_slot S st.p_most_recent_val) 0
          FIRMWARE_UPDATE_CONFIG_BLOCK_SIZE st.flash,
        some (next_slot S st.p_most_recent_val), st.hal.drop 10⟩ j with h | h
    · exact Or.inr (Or.inl h)
    · rw [h]
      rcases programmed_marker p_data (next_slot S st.p_most_recent_val)
        FIRMWARE_UPDATE_CONFIG_BLOCK_SIZE st.flash j with g | g
      · exact Or.inl g
      · exact Or.inr (Or.inr g)
  · have hex : ∃ k, k < 10 ∧ st.hal.getD k HAL_OK ≠ HAL_OK := by
      by_contra hc
      exact hall (fun i hi => by
        by_contra hne
        exact hc ⟨i, hi, hne⟩)
    have hk := Nat.find_spec hex
    have hmin : ∀ i < Nat.find hex, st.hal.getD i HAL_OK = HAL_OK := by
      intro i hi
      by_contra hne
      exact Nat.find_min hex hi ⟨by omega, hne⟩
    rw [write_fails S p_data st (Nat.find hex) (by omega) hmin hk.2]
    rcases programmed_marker p_data (next_slot S st.p_most_recent_val)
      (Nat.find hex - 1) st.flash j with g | g
    · exact Or.inl g
    · exact Or.inr (Or.inr g)

/-- The marker of a slot after `firmware_update_configurations_init`, whatever the HAL
reports: erased, or as it was. -/
theorem init_marker (S : Nat) (st : Store) (j : Nat) :
    is_erased (firmware_update_configurations_init S st).2.flash j = FLASH_BLOCK_ERASED
    ∨ is_erased (firmware_update_configurations_init S st).2.flash j = is_erased st.flash j := by
  unfold firmware_update_configurations_init
  split
  · dsimp only
    split
    · exact restore_marker S _ j
    · exact restore_marker S _ j
  · exact prep_page_swap_marker S _ j
  · split
    · exact prep_page_swap_marker S _ j
    · exact prep_page_swap_marker S _ j

/-- When no slot is found erased behind a not-erased one, the markers take only their two
values and the last slot is erased, every slot is erased. -/
theorem no_boundary_all_erased (flash : Flash) (N : Nat)
    (hbin : ∀ j < N, is_erased flash j = FLASH_BLOCK_NOT_ERASED
      ∨ is_erased flash j = FLASH_BLOCK_ERASED)
    (hno : ∀ i < N, ¬ (is_erased flash i = FLASH_BLOCK_ERASED
      ∧ is_erased flash (prev_slot N i) = FLASH_BLOCK_NOT_ERASED))
    (hlast : is_erased flash (N - 1) = FLASH_BLOCK_ERASED) :
    ∀ j < N, is_erased flash j = FLASH_BLOCK_ERASED := by
  have key : ∀ d j, j + d = N - 1 → j < N → is_erased flash j = FLASH_BLOCK_ERASED := by
    intro d
    induction d with
    | zero =>
      intro j hj _
      have e : j = N - 1 := hj
      rw [e]
      exact hlast
    | succ d ih =>
      intro j hj hjN
      have h1 := ih (j + 1) (by omega) (by omega)
      have h2 := hno (j + 1) (by omega)
      have hp : prev_slot N (j + 1) = j := by
        unfold prev_slot
        rw [if_neg (by omega)]
        rfl
      rw [hp] at h2
      rcases hbin j hjN with h | h
      · exact absurd ⟨h1, h⟩ h2
      · exact h
  intro j hj
  exact key (N - 1 - j) j (by omega) hj

end FwConfig

namespace FwConfig

open HAL_StatusTypeDef FirmUpdConf_Status

/-- The markers keep to their two values under any number of writes, whatever the HAL reports
for each of them. -/
theorem write_all_markers (S : Nat) :
    ∀ (bodies : List firmware_update_config_data_t) (st : Store),
      (∀ j, is_erased st.flash j = FLASH_BLOCK_NOT_ERASED
        ∨ is_erased st.flash j = FLASH_BLOCK_ERASED) →
      ∀ j, is_erased (write_all S bodies st).2.flash j = FLASH_BLOCK_NOT_ERASED
        ∨ is_erased (write_all S bodies st).2.flash j = FLASH_BLOCK_ERASED := by
  intro bodies
  induction bodies with
  | nil => intro st h; exact h
  | cons b rest ih =>
    intro st h
    refine ih (firmware_update_configurations_write S b st).2 (fun j => ?_)
    rcases write_marker S b st j with g | g | g
    · exact Or.inl g
    · exact Or.inr g
    · rw [g]
      exact h j

end FwConfig

/-- C35, as stated, fails: with two slots per region, the marker of slot 0 being 0x55, which is
neither of the two marker values, and every other byte erased,
`firmware_update_configurations_init` returns OK and leaves the latest pointer at none, though
slot 0 does not carry the erased marker 0xFF. -/
theorem no_record_with_foreign_marker :
    (FwConfig.firmware_update_configurations_init 2
        ⟨fun j k => if j = 0 ∧ k = 31 then 0x55 else 0xFF, none, []⟩).1
      = FwConfig.FirmUpdConf_Status.FIRM_UPDT_CONF_EC_OK
    ∧ (FwConfig.firmware_update_configurations_init 2
        ⟨fun j k => if j = 0 ∧ k = 31 then 0x55 else 0xFF, none, []⟩).2.p_most_recent_val = none
    ∧ FwConfig.is_erased
        (FwConfig.firmware_update_configurations_init 2
          ⟨fun j k => if j = 0 ∧ k = 31 then 0x55 else 0xFF, none, []⟩).2.flash 0
      ≠ FwConfig.FLASH_BLOCK_ERASED := by
  decide

/-- C35 (amended): no record means an empty medium.  Let every slot of the two regions carry
one of the two marker values, not-erased 0x00 or erased 0xFF.  Whenever
`firmware_update_configurations_init` leaves the latest pointer at none it has returned OK and
every slot of both regions carries the erased marker.  Conversely, if at least one slot carries
the not-erased marker and the record the scan selects, the one before the first slot found
erased behind a not-erased one, has a stored checksum equal to the checksum of its contents,
then the initialisation leaves a latest pointer, and the slot it designates carries the
not-erased marker, before the initialisation and after it. -/
theorem no_record_means_empty (S : Nat) (st : FwConfig.Store)
    (hbin : ∀ j < 2 * S, FwConfig.is_erased st.flash j = FwConfig.FLASH_BLOCK_NOT_ERASED
      ∨ FwConfig.is_erased st.flash j = FwConfig.FLASH_BLOCK_ERASED) :
    ((FwConfig.firmware_update_configurations_init S st).2.p_most_recent_val = none →
      (FwConfig.firmware_update_configurations_init S st).1
        = FwConfig.FirmUpdConf_Status.FIRM_UPDT_CONF_EC_OK
      ∧ ∀ j < 2 * S, FwConfig.is_erased (FwConfig.firmware_update_configurations_init S st).2.flash j
          = FwConfig.FLASH_BLOCK_ERASED)
    ∧ ((∃ j < 2 * S, FwConfig.is_erased st.flash j = FwConfig.FLASH_BLOCK_NOT_ERASED) →
      (∀ i0 < 2 * S,
        FwConfig.is_erased st.flash i0 = FwConfig.FLASH_BLOCK_ERASED →
        FwConfig.is_erased st.flash (FwConfig.prev_slot (2 * S) i0)
          = FwConfig.FLASH_BLOCK_NOT_ERASED →
        (∀ i < i0, ¬ (FwConfig.is_erased st.flash i = FwConfig.FLASH_BLOCK_ERASED
          ∧ FwConfig.is_erased st.flash (FwConfig.prev_slot (2 * S) i)
            = FwConfig.FLASH_BLOCK_NOT_ERASED)) →
        FwConfig.computed_crc32 st.flash (FwConfig.prev_slot (2 * S) i0)
          = FwConfig.stored_crc32 st.flash (FwConfig.prev_slot (2 * S) i0)) →
      ∃ p < 2 * S,
        (FwConfig.firmware_update_configurations_init S st).2.p_most_recent_val = some p
        ∧ FwConfig.is_erased st.flash p = FwConfig.FLASH_BLOCK_NOT_ERASED
        ∧ FwConfig.is_erased (FwConfig.firmware_update_configurations_init S st).2.flash p
          = FwConfig.FLASH_BLOCK_NOT_ERASED) := by
  have hswap_ptr : ∀ p, (FwConfig.prep_page_swap S
      { st with p_most_recent_val := some p }).2.p_most_recent_val = some p :=
    fun p => (FwConfig.prep_page_swap_spec S _).1
  have hswap_none : FwConfig.prep_page_swap S { st with p_most_recent_val := none }
      = (FwConfig.FirmUpdConf_Status.FIRM_UPDT_CONF_EC_OK,
          { st with p_most_recent_val := none }) := by
    unfold FwConfig.prep_page_swap
    rw [if_neg (fun c => Option.noConfusion c.1), if_neg (fun c => Option.noConfusion c.1)]
  constructor
  · intro hnone
    rcases FwConfig.init_scan_cases st.flash (2 * S) with ⟨i0, hi0, hb, hmin, hscan⟩ | ⟨hno, hscan⟩
    · by_cases hcrc : FwConfig.computed_crc32 st.flash (FwConfig.prev_slot (2 * S) i0)
          ≠ FwConfig.stored_crc32 st.flash (FwConfig.prev_slot (2 * S) i0)
      · rw [if_pos hcrc] at hscan
        have hinit := FwConfig.init_of_corrupted S st _ hscan
        obtain ⟨r1, r2, _, _⟩ := FwConfig.restore_spec S
          { st with p_most_recent_val := some (FwConfig.prev_slot (2 * S) i0) }
        by_cases hr : (FwConfig.restore_firm_updt_config_flash_memory S
            { st with p_most_recent_val := some (FwConfig.prev_slot (2 * S) i0) }).1
            = FwConfig.FirmUpdConf_Status.FIRM_UPDT_CONF_EC_OK
        · rw [hinit, if_neg (not_not.mpr hr)]
          refine ⟨rfl, fun j hj => ?_⟩
          show (FwConfig.restore_firm_updt_config_flash_memory S _).2.flash j 31 = 0xFF
          rw [(r2 hr).1]
          exact FwConfig.both_pages_erased S st.flash j 31 hj
        · rw [hinit, if_pos hr] at hnone
          rw [show (FwConfig.FirmUpdConf_Status.FIRM_UPDT_CONF_EC_CRPT,
              (FwConfig.restore_firm_updt_config_flash_memory S
                { st with
                  p_most_recent_val := some (FwConfig.prev_slot (2 * S) i0) }).2).2.p_most_recent_val
            = some (FwConfig.prev_slot (2 * S) i0) from r1] at hnone
          exact Option.noConfusion hnone
      · rw [if_neg hcrc] at hscan
        rw [FwConfig.init_of_found S st _ hscan, hswap_ptr] at hnone
        exact Option.noConfusion hnone
    · rw [FwConfig.init_of_exhausted S st _ hscan] at hnone ⊢
      by_cases hl : FwConfig.is_erased st.flash (2 * S - 1) = FwConfig.FLASH_BLOCK_ERASED
      · rw [if_pos hl, hswap_none]
        exact ⟨rfl, FwConfig.no_boundary_all_erased st.flash (2 * S) hbin hno hl⟩
      · rw [if_neg hl, hswap_ptr] at hnone
        exact Option.noConfusion hnone
  · rintro ⟨j0, hj0, hmark⟩ hvalid
    have hS : 1 ≤ S := by omega
    have hkeep : ∀ p, FwConfig.is_erased (FwConfig.prep_page_swap S
        { st with p_most_recent_val := some p }).2.flash p = FwConfig.is_erased st.flash p :=
      fun p => FwConfig.prep_page_swap_keeps_latest_page S hS
        { st with p_most_recent_val := some p } p p 31 rfl rfl
    rcases FwConfig.init_scan_cases st.flash (2 * S) with ⟨i0, hi0, hb, hmin, hscan⟩ | ⟨hno, hscan⟩
    · rw [if_neg (not_not.mpr (hvalid i0 hi0 hb.1 hb.2 hmin))] at hscan
      rw [FwConfig.init_of_found S st _ hscan]
      refine ⟨FwConfig.prev_slot (2 * S) i0, ?_, hswap_ptr _, hb.2, ?_⟩
      · unfold FwConfig.prev_slot
        split <;> omega
      · rw [hkeep]
        exact hb.2
    · rw [FwConfig.init_of_exhausted S st _ hscan]
      by_cases hl : FwConfig.is_erased st.flash (2 * S - 1) = FwConfig.FLASH_BLOCK_ERASED
      · have hall := FwConfig.no_boundary_all_erased st.flash (2 * S) hbin hno hl j0 hj0
        rw [hmark] at hall
        exact absurd hall (by decide)
      · rw [if_neg hl]
        have hm : FwConfig.is_erased st.flash (2 * S - 1) = FwConfig.FLASH_BLOCK_NOT_ERASED :=
          (hbin (2 * S - 1) (by omega)).resolve_right hl
        refine ⟨2 * S - 1, by omega, hswap_ptr _, hm, ?_⟩
        rw [hkeep]
        exact hm

/-- Witness for C35: with two slots per region, on the erased medium the initialisation leaves
no latest pointer, returns OK and every slot carries the erased marker; on the medium that one
write into the erased medium leaves, whose slot 0 holds the record and whose other slots are
erased, it leaves a latest pointer that designates a slot carrying the not-erased marker. -/
theorem no_record_means_empty_witness :
    ((FwConfig.firmware_update_configurations_init 2 ⟨FwConfig.erased_flash, none, []⟩).1
        = FwConfig.FirmUpdConf_Status.FIRM_UPDT_CONF_EC_OK
      ∧ ∀ j < 2 * 2,
          FwConfig.is_erased
              (FwConfig.firmware_update_configurations_init 2
                ⟨FwConfig.erased_flash, none, []⟩).2.flash j
            = FwConfig.FLASH_BLOCK_ERASED)
    ∧ ∃ p < 2 * 2,
        (FwConfig.firmware_update_configurations_init 2
          ⟨(FwConfig.firmware_update_configurations_write 2 ⟨5, 6, 7, 8, 0, 0, 1, 0⟩
            ⟨FwConfig.erased_flash, none, []⟩).2.flash, none, []⟩).2.p_most_recent_val = some p
        ∧ FwConfig.is_erased
            (FwConfig.firmware_update_configurations_write 2 ⟨5, 6, 7, 8, 0, 0, 1, 0⟩
              ⟨FwConfig.erased_flash, none, []⟩).2.flash p = FwConfig.FLASH_BLOCK_NOT_ERASED
        ∧ FwConfig.is_erased
            (FwConfig.firmware_update_configurations_init 2
              ⟨(FwConfig.firmware_update_configurations_write 2 ⟨5, 6, 7, 8, 0, 0, 1, 0⟩
                ⟨FwConfig.erased_flash, none, []⟩).2.flash, none, []⟩).2.flash p
          = FwConfig.FLASH_BLOCK_NOT_ERASED :=
  have hlog : FwConfig.log_of 2
      (FwConfig.firmware_update_configurations_write 2 ⟨5, 6, 7, 8, 0, 0, 1, 0⟩
        ⟨FwConfig.erased_flash, none, []⟩).2.flash 0 ⟨5, 6, 7, 8, 0, 0, 1, 0⟩ :=
    (FwConfig.write_first 2 (by decide) ⟨5, 6, 7, 8, 0, 0, 1, 0⟩).2.2.2
  ⟨(no_record_means_empty 2 ⟨FwConfig.erased_flash, none, []⟩ (fun _ _ => Or.inr rfl)).1 rfl,
    (no_record_means_empty 2
      ⟨(FwConfig.firmware_update_configurations_write 2 ⟨5, 6, 7, 8, 0, 0, 1, 0⟩
        ⟨FwConfig.erased_flash, none, []⟩).2.flash, none, []⟩
      (fun j _ => FwConfig.write_all_markers 2 [⟨5, 6, 7, 8, 0, 0, 1, 0⟩]
        ⟨FwConfig.erased_flash, none, []⟩ (fun _ => Or.inr rfl) j)).2
      ⟨0, by decide, FwConfig.holds_record_marker _ _ _ hlog.2.2.2⟩
      (fun i0 hi0 _ hb2 _ => by
        have hlt : FwConfig.prev_slot (2 * 2) i0 < 2 * 2 := by
          unfold FwConfig.prev_slot
          split <;> omega
        have hin : FwConfig.in_log 2 0 (FwConfig.prev_slot (2 * 2) i0) := by
          by_contra hn
          have he := FwConfig.erased_marker _ _ (hlog.2.2.1 _ hlt hn)
          rw [hb2] at he
          exact absurd he (by decide)
        have h0 : FwConfig.prev_slot (2 * 2) i0 = 0 := Nat.le_zero.mp hin.2
        rw [h0]
        exact (FwConfig.slot_holds_record _ 0 _ hlog.2.2.2).2.2)⟩

namespace FwConfig

open HAL_StatusTypeDef FirmUpdConf_Status

/-- The flash of a successful write onto a log that ends at `p`: a log that ends at the slot
after `p` (with wrap) and holds the new record. -/
theorem log_of_write_flash (S : Nat) (hS : 1 ≤ S) (flash : Flash) (p : Nat)
    (d B : firmware_update_config_data_t) (hlog : log_of S flash p d) :
    log_of S
      (swapped S
        (programmed (new_val_struct B) (next_slot S (some p)) 0 FIRMWARE_UPDATE_CONFIG_BLOCK_SIZE
          flash)
        (some (next_slot S (some p))))
      (next_slot S (some p)) B := by
  obtain ⟨s1, _, _, s4⟩ := write_step S hS ⟨flash, some p, []⟩ rfl p rfl hlog.1 hlog.2.1
    hlog.2.2.1 B
  rw [((write_spec S B ⟨flash, some p, []⟩).1 s1).2] at s4
  exact s4

/-- The flash of a successful first write into the erased medium: a log made of slot 0. -/
theorem log_of_first_write_flash (S : Nat) (hS : 1 ≤ S) (B : firmware_update_config_data_t) :
    log_of S
      (swapped S
        (programmed (new_val_struct B) (next_slot S none) 0 FIRMWARE_UPDATE_CONFIG_BLOCK_SIZE
          erased_flash)
        (some (next_slot S none)))
      0 B := by
  obtain ⟨s1, _, _, s4⟩ := write_first S hS B
  rw [((write_spec S B ⟨erased_flash, none, []⟩).1 s1).2] at s4
  exact s4

/-- What successful writes keep true of the store: it is the erased medium without a latest
record, or it holds a log that ends at the latest record. -/
theorem write_ok_keeps_log (S : Nat) (hS : 1 ≤ S) (B : firmware_update_config_data_t)
    (st : Store)
    (hinv : (st.p_most_recent_val = none ∧ st.flash = erased_flash)
      ∨ ∃ p d, st.p_most_recent_val = some p ∧ log_of S st.flash p d)
    (hok : (firmware_update_configurations_write S B st).1 = FIRM_UPDT_CONF_EC_OK) :
    ∃ p d, (firmware_update_configurations_write S B st).2.p_most_recent_val = some p
      ∧ log_of S (firmware_update_configurations_write S B st).2.flash p d := by
  obtain ⟨hp, hfl⟩ := (write_spec S B st).1 hok
  rcases hinv with ⟨hn, he⟩ | ⟨p, d, hptr, hlog⟩
  · refine ⟨0, B, ?_, ?_⟩
    · rw [hp, hn]
      rfl
    · rw [hfl, hn, he]
      exact log_of_first_write_flash S hS B
  · refine ⟨next_slot S (some p), B, ?_, ?_⟩
    · rw [hp, hptr]
    · rw [hfl, hptr]
      exact log_of_write_flash S hS st.flash p d B hlog

/-- Successive successful writes keep that property. -/
theorem write_all_ok_keeps_log (S : Nat) (hS : 1 ≤ S) :
    ∀ (bodies : List firmware_update_config_data_t) (st : Store),
      ((st.p_most_recent_val = none ∧ st.flash = erased_flash)
        ∨ ∃ p d, st.p_most_recent_val = some p ∧ log_of S st.flash p d) →
      (∀ r ∈ (write_all S bodies st).1, r = FIRM_UPDT_CONF_EC_OK) →
      (((write_all S bodies st).2.p_most_recent_val = none
          ∧ (write_all S bodies st).2.flash = erased_flash)
        ∨ ∃ p d, (write_all S bodies st).2.p_most_recent_val = some p
          ∧ log_of S (write_all S bodies st).2.flash p d) := by
  intro bodies
  induction bodies with
  | nil => intro st h _; exact h
  | cons b rest ih =>
    intro st h hok
    have h1 : (firmware_update_configurations_write S b st).1 = FIRM_UPDT_CONF_EC_OK :=
      hok _ (List.mem_cons_self _ _)
    exact ih _ (Or.inr (write_ok_keeps_log S hS b st h h1))
      (fun r hr => hok r (List.mem_cons_of_mem _ hr))

/-- In such a store the slot after the latest record (with wrap) lies in the two regions and is
entirely erased. -/
theorem next_slot_erased (S : Nat) (hS : 1 ≤ S) (st : Store)
    (hinv : (st.p_most_recent_val = none ∧ st.flash = erased_flash)
      ∨ ∃ p d, st.p_most_recent_val = some p ∧ log_of S st.flash p d) :
    next_slot S st.p_most_recent_val < 2 * S
    ∧ slot_erased st.flash (next_slot S st.p_most_recent_val) := by
  rcases hinv with ⟨hn, he⟩ | ⟨p, d, hptr, hlog⟩
  · rw [hn, he]
    exact ⟨by show 0 < 2 * S; omega, fun _ _ => rfl⟩
  · rw [hptr]
    have hp := hlog.1
    have hn2 : next_slot S (some p) < 2 * S := by
      unfold next_slot
      dsimp only
      split <;> omega
    have hnl : ¬ in_log S p (next_slot S (some p)) := by
      unfold in_log page_start next_slot
      dsimp only
      split <;> split <;> omega
    exact ⟨hn2, hlog.2.2.1 _ hn2 hnl⟩

/-- Writing a list of bodies made of two parts is writing the first part, then the second. -/
theorem write_all_append (S : Nat) :
    ∀ (a b : List firmware_update_config_data_t) (st : Store),
      write_all S (a ++ b) st
        = ((write_all S a st).1 ++ (write_all S b (write_all S a st).2).1,
            (write_all S b (write_all S a st).2).2) := by
  intro a
  induction a with
  | nil => intro b st; rfl
  | cons x rest ih =>
    intro b st
    show write_all S (x :: (rest ++ b)) st = _
    simp only [write_all]
    rw [ih]
    rfl

end FwConfig

/-- C34: appends never hit a used slot.  Take any number of writes into the empty medium, each
of which returns OK (so that each of its HAL calls, those of the page-swap erase included,
succeeded).  Then before each of these writes, and after the last of them, the slot that the
next `firmware_update_configurations_write` programs, the one after the latest record with wrap,
lies in the two regions and has every byte erased; and a record programmed into it reads back
byte for byte. -/
theorem appends_never_hit_used_slot (S : Nat) (hS : 1 ≤ S)
    (bodies : List FwConfig.firmware_update_config_data_t)
    (hal : List FwConfig.HAL_StatusTypeDef)
    (hok : ∀ r ∈ (FwConfig.write_all S bodies ⟨FwConfig.erased_flash, none, hal⟩).1,
      r = FwConfig.FirmUpdConf_Status.FIRM_UPDT_CONF_EC_OK) :
    ∀ done rest, bodies = done ++ rest →
      FwConfig.next_slot S
          (FwConfig.write_all S done ⟨FwConfig.erased_flash, none, hal⟩).2.p_most_recent_val
        < 2 * S
      ∧ FwConfig.slot_erased
          (FwConfig.write_all S done ⟨FwConfig.erased_flash, none, hal⟩).2.flash
          (FwConfig.next_slot S
            (FwConfig.write_all S done ⟨FwConfig.erased_flash, none, hal⟩).2.p_most_recent_val)
      ∧ ∀ B, FwConfig.holds_record
          (FwConfig.programmed (FwConfig.new_val_struct B)
            (FwConfig.next_slot S
              (FwConfig.write_all S done
                ⟨FwConfig.erased_flash, none, hal⟩).2.p_most_recent_val)
            0 FwConfig.FIRMWARE_UPDATE_CONFIG_BLOCK_SIZE
            (FwConfig.write_all S done ⟨FwConfig.erased_flash, none, hal⟩).2.flash)
          (FwConfig.next_slot S
            (FwConfig.write_all S done ⟨FwConfig.erased_flash, none, hal⟩).2.p_most_recent_val)
          B := by
  intro done rest hsplit
  rw [hsplit, FwConfig.write_all_append] at hok
  have hinv := FwConfig.write_all_ok_keeps_log S hS done ⟨FwConfig.erased_flash, none, hal⟩
    (Or.inl ⟨rfl, rfl⟩) (fun r hr => hok r (List.mem_append_left _ hr))
  obtain ⟨h1, h2⟩ := FwConfig.next_slot_erased S hS _ hinv
  exact ⟨h1, h2, fun B k hk => FwConfig.programmed_erased_slot B _ _ h2 k hk⟩

/-- Witness for C34: with one slot per region, after three writes into the empty medium, the
second and the third of which erase a region, the slot the fourth write programs is erased. -/
theorem appends_never_hit_used_slot_witness :
    FwConfig.slot_erased
      (FwConfig.write_all 1
        [⟨1, 0, 0, 0, 0, 0, 0, 0⟩, ⟨2, 0, 0, 0, 0, 0, 0, 0⟩, ⟨3, 0, 0, 0, 0, 0, 0, 0⟩]
        ⟨FwConfig.erased_flash, none, []⟩).2.flash
      (FwConfig.next_slot 1
        (FwConfig.write_all 1
          [⟨1, 0, 0, 0, 0, 0, 0, 0⟩, ⟨2, 0, 0, 0, 0, 0, 0, 0⟩, ⟨3, 0, 0, 0, 0, 0, 0, 0⟩]
          ⟨FwConfig.erased_flash, none, []⟩).2.p_most_recent_val) :=
  (appends_never_hit_used_slot 1 (by decide)
    [⟨1, 0, 0, 0, 0, 0, 0, 0⟩, ⟨2, 0, 0, 0, 0, 0, 0, 0⟩, ⟨3, 0, 0, 0, 0, 0, 0, 0⟩] []
    (by decide)
    [⟨1, 0, 0, 0, 0, 0, 0, 0⟩, ⟨2, 0, 0, 0, 0, 0, 0, 0⟩, ⟨3, 0, 0, 0, 0, 0, 0, 0⟩] []
    rfl).2.1

theorem write_data_to_ram_state (data : List Nat) (data_len : Nat) (s : Node.State) :
    (Node.write_data_to_ram data data_len s).etx_ota_state = s.etx_ota_state := by
  induction data_len with
  | zero => rfl
  | succ k ih =>
    unfold Node.write_data_to_ram at ih ⊢
    rw [List.range_succ, List.foldl_append]
    exact ih

/-- One call of `etx_ota_process_data` leaves the state of the engine as it was or moves it to
the next state of the order Start, Header, Data, End, Idle. -/
theorem process_data_step (buf : List Nat) (s : Node.State) :
    (Node.etx_ota_process_data buf s).2.etx_ota_state = s.etx_ota_state
    ∨ (s.etx_ota_state = ETX_OTA_STATE_START
      ∧ (Node.etx_ota_process_data buf s).2.etx_ota_state = ETX_OTA_STATE_HEADER)
    ∨ (s.etx_ota_state = ETX_OTA_STATE_HEADER
      ∧ (Node.etx_ota_process_data buf s).2.etx_ota_state = ETX_OTA_STATE_DATA)
    ∨ (s.etx_ota_state = ETX_OTA_STATE_DATA
      ∧ (Node.etx_ota_process_data buf s).2.etx_ota_state = ETX_OTA_STATE_END)
    ∨ (s.etx_ota_state = ETX_OTA_STATE_END
      ∧ (Node.etx_ota_process_data buf s).2.etx_ota_state = ETX_OTA_STATE_IDLE) := by
  simp only [Node.etx_ota_process_data]
  split
  · exact Or.inl rfl
  · cases hs : s.etx_ota_state with
    | ETX_OTA_STATE_IDLE => exact Or.inl hs
    | ETX_OTA_STATE_START =>
      dsimp only
      split
      · exact Or.inr (Or.inl ⟨rfl, rfl⟩)
      · exact Or.inl hs
    | ETX_OTA_STATE_HEADER =>
      dsimp only
      split
      · split
        · exact Or.inl hs
        · split
          · exact Or.inr (Or.inr (Or.inl ⟨rfl, rfl⟩))
          · exact Or.inl hs
      · exact Or.inl hs
    | ETX_OTA_STATE_DATA =>
      dsimp only
      split
      · split
        · exact Or.inr (Or.inr (Or.inr (Or.inl ⟨rfl, rfl⟩)))
        · left
          rw [write_data_to_ram_state]
          exact hs
      · exact Or.inl hs
    | ETX_OTA_STATE_END =>
      dsimp only
      split
      · split
        · exact Or.inl hs
        · exact Or.inr (Or.inr (Or.inr (Or.inr ⟨rfl, rfl⟩)))
      · exact Or.inl hs

theorem process_data_position (buf : List Nat) (s : Node.State) :
    Node.state_position (Node.etx_ota_process_data buf s).2.etx_ota_state
        = Node.state_position s.etx_ota_state
    ∨ Node.state_position (Node.etx_ota_process_data buf s).2.etx_ota_state
        = Node.state_position s.etx_ota_state + 1 := by
  rcases process_data_step buf s with h | ⟨h1, h2⟩ | ⟨h1, h2⟩ | ⟨h1, h2⟩ | ⟨h1, h2⟩
  · exact Or.inl (by rw [h])
  · exact Or.inr (by rw [h1, h2]; rfl)
  · exact Or.inr (by rw [h1, h2]; rfl)
  · exact Or.inr (by rw [h1, h2]; rfl)
  · exact Or.inr (by rw [h1, h2]; rfl)

theorem states_after_cons (buf : List Nat) (bufs : List (List Nat)) (s : Node.State) :
    Node.states_after (buf :: bufs) s
      = Node.states_after bufs (Node.etx_ota_process_data buf s).2 := rfl

theorem states_after_append (a b : List (List Nat)) (s : Node.State) :
    Node.states_after (a ++ b) s = Node.states_after b (Node.states_after a s) := by
  unfold Node.states_after
  rw [List.foldl_append]

/-- Along a run of calls the position of the state never decreases, and grows by at most one
per call. -/
theorem states_after_position (bufs : List (List Nat)) :
    ∀ s : Node.State,
      Node.state_position s.etx_ota_state
          ≤ Node.state_position (Node.states_after bufs s).etx_ota_state
      ∧ Node.state_position (Node.states_after bufs s).etx_ota_state
          ≤ Node.state_position s.etx_ota_state + bufs.length := by
  induction bufs with
  | nil => intro s; exact ⟨le_refl _, le_refl _⟩
  | cons buf rest ih =>
    intro s
    rw [states_after_cons, List.length_cons]
    obtain ⟨i1, i2⟩ := ih (Node.etx_ota_process_data buf s).2
    rcases process_data_position buf s with h | h <;> rw [h] at i1 i2 <;> constructor <;> omega

/-- Every position between that of the first state and that of the last is taken after some
number of the calls. -/
theorem states_after_reaches (bufs : List (List Nat)) :
    ∀ (s : Node.State) (q : Nat), Node.state_position s.etx_ota_state ≤ q →
      q ≤ Node.state_position (Node.states_after bufs s).etx_ota_state →
      ∃ k ≤ bufs.length,
        Node.state_position (Node.states_after (bufs.take k) s).etx_ota_state = q := by
  induction bufs with
  | nil =>
    intro s q h1 h2
    exact ⟨0, le_refl _,
      show Node.state_position s.etx_ota_state = q from le_antisymm h1 h2⟩
  | cons buf rest ih =>
    intro s q h1 h2
    by_cases hq : Node.state_position s.etx_ota_state = q
    · exact ⟨0, Nat.zero_le _, hq⟩
    · rw [states_after_cons] at h2
      have h3 : Node.state_position (Node.etx_ota_process_data buf s).2.etx_ota_state ≤ q := by
        rcases process_data_position buf s with h | h <;> rw [h] <;> omega
      obtain ⟨k, hk, e⟩ := ih _ q h3 h2
      exact ⟨k + 1, by rw [List.length_cons]; omega, e⟩

theorem state_position_injective (a b : ETX_OTA_State)
    (h : Node.state_position a = Node.state_position b) : a = b := by
  cases a <;> cases b <;> first | rfl | exact absurd h (by decide)

/-- A pass of the loop of `start_etx_ota_transaction` never returns OK, and when it reaches the
loop test the packet was received and `etx_ota_process_data` has been called on it. -/
theorem transaction_body_continues (recv : ETX_OTA_Status) (buf : List Nat) (s : Node.State) :
    (Node.start_etx_ota_transaction_body recv buf s).ret ≠ some ETX_OTA_EC_OK
    ∧ ((Node.start_etx_ota_transaction_body recv buf s).ret = none →
      recv = ETX_OTA_EC_OK
      ∧ (Node.etx_ota_process_data buf s).1 = ETX_OTA_EC_OK
      ∧ (Node.start_etx_ota_transaction_body recv buf s).st = (Node.etx_ota_process_data buf s).2
      ∧ (Node.start_etx_ota_transaction_body recv buf s).out = [Node.Output.resp ETX_OTA_ACK]
      ∧ (Node.start_etx_ota_transaction_body recv buf s).Rx_Buffer = buf.set 0 0) := by
  cases recv with
  | ETX_OTA_EC_OK =>
    simp only [Node.start_etx_ota_transaction_body]
    cases h : (Node.etx_ota_process_data buf s).1 <;> simp
  | ETX_OTA_EC_STOP => simp [Node.start_etx_ota_transaction_body]
  | ETX_OTA_EC_NR => simp [Node.start_etx_ota_transaction_body]
  | ETX_OTA_EC_NA => simp [Node.start_etx_ota_transaction_body]
  | ETX_OTA_EC_ERR => simp [Node.start_etx_ota_transaction_body]

theorem transaction_loop_succ (passes : Nat) (Rx_Buffer : List Nat) (u : Node.Uart)
    (s : Node.State) :
    Node.start_etx_ota_transaction_loop (passes + 1) Rx_Buffer u s
      = (match (Node.start_etx_ota_transaction_iteration Rx_Buffer u s).1.ret with
        | some ret =>
          ((Node.start_etx_ota_transaction_iteration Rx_Buffer u s).1.out, some ret,
            (Node.start_etx_ota_transaction_iteration Rx_Buffer u s).1.st,
            (Node.start_etx_ota_transaction_iteration Rx_Buffer u s).1.Rx_Buffer,
            (Node.start_etx_ota_transaction_iteration Rx_Buffer u s).2)
        | none =>
          if (Node.start_etx_ota_transaction_iteration Rx_Buffer u s).1.st.etx_ota_state
              ≠ ETX_OTA_STATE_IDLE then
            ((Node.start_etx_ota_transaction_iteration Rx_Buffer u s).1.out
                ++ (Node.start_etx_ota_transaction_loop passes
                  (Node.start_etx_ota_transaction_iteration Rx_Buffer u s).1.Rx_Buffer
                  (Node.start_etx_ota_transaction_iteration Rx_Buffer u s).2
                  (Node.start_etx_ota_transaction_iteration Rx_Buffer u s).1.st).1,
              (Node.start_etx_ota_transaction_loop passes
                (Node.start_etx_ota_transaction_iteration Rx_Buffer u s).1.Rx_Buffer
                (Node.start_etx_ota_transaction_iteration Rx_Buffer u s).2
                (Node.start_etx_ota_transaction_iteration Rx_Buffer u s).1.st).2)
          else
            ((Node.start_etx_ota_transaction_iteration Rx_Buffer u s).1.out
                ++ [Node.Output.receive_it],
              some ETX_OTA_EC_OK,
              (Node.start_etx_ota_transaction_iteration Rx_Buffer u s).1.st,
              (Node.start_etx_ota_transaction_iteration Rx_Buffer u s).1.Rx_Buffer,
              (Node.start_etx_ota_transaction_iteration Rx_Buffer u s).2)) := rfl

/-- When the loop of `start_etx_ota_transaction` ends with OK, the state it leaves is the state
after `etx_ota_process_data` has been called on each of the packets received, and it is Idle. -/
theorem transaction_loop_ok (passes : Nat) :
    ∀ (Rx_Buffer : List Nat) (u : Node.Uart) (s : Node.State),
      (Node.start_etx_ota_transaction_loop passes Rx_Buffer u s).2.1 = some ETX_OTA_EC_OK →
      ∃ bufs : List (List Nat), bufs.length ≤ passes
        ∧ (Node.start_etx_ota_transaction_loop passes Rx_Buffer u s).2.2.1
          = Node.states_after bufs s
        ∧ (Node.states_after bufs s).etx_ota_state = ETX_OTA_STATE_IDLE := by
  induction passes with
  | zero =>
    intro Rx_Buffer u s h
    exact absurd h (by simp [Node.start_etx_ota_transaction_loop])
  | succ n ih =>
    intro Rx_Buffer u s
    obtain ⟨b1, b2⟩ := transaction_body_continues (Node.etx_ota_receive_packet Rx_Buffer u).1
      (Node.etx_ota_receive_packet Rx_Buffer u).2.1 s
    rw [transaction_loop_succ]
    cases hret : (Node.start_etx_ota_transaction_iteration Rx_Buffer u s).1.ret with
    | some ret =>
      intro h
      have e : some ret = some ETX_OTA_EC_OK := h
      rw [← e, ← hret] at b1
      exact absurd rfl b1
    | none =>
      obtain ⟨_, _, c3, _, _⟩ := b2 hret
      dsimp only
      by_cases hne : (Node.start_etx_ota_transaction_iteration Rx_Buffer u s).1.st.etx_ota_state
          ≠ ETX_OTA_STATE_IDLE
      · rw [if_pos hne]
        intro h
        obtain ⟨bufs, l1, l2, l3⟩ := ih _ _ _ h
        refine ⟨(Node.etx_ota_receive_packet Rx_Buffer u).2.1 :: bufs,
          by rw [List.length_cons]; omega, ?_, ?_⟩
        · rw [states_after_cons, ← c3]
          exact l2
        · rw [states_after_cons, ← c3]
          exact l3
      · rw [if_neg hne]
        intro _
        refine ⟨[(Node.etx_ota_receive_packet Rx_Buffer u).2.1],
          by rw [List.length_singleton]; omega, ?_, ?_⟩
        · show _ = (Node.etx_ota_process_data _ s).2
          rw [← c3]
          rfl
        · show (Node.etx_ota_process_data _ s).2.etx_ota_state = _
          rw [← c3]
          exact not_not.mp hne

/-- After `k` calls with the state at position `q`, a run that ends at a later position has the
state at position `q + 1` after some larger number of calls. -/
theorem states_after_next (bufs : List (List Nat)) (s : Node.State) (k q : Nat)
    (hpos : Node.state_position (Node.states_after (bufs.take k) s).etx_ota_state = q)
    (hfinal : q + 1 ≤ Node.state_position (Node.states_after bufs s).etx_ota_state) :
    ∃ k1, k < k1 ∧ k1 ≤ bufs.length
      ∧ Node.state_position (Node.states_after (bufs.take k1) s).etx_ota_state = q + 1 := by
  have hsplit : Node.states_after bufs s
      = Node.states_after (bufs.drop k) (Node.states_after (bufs.take k) s) := by
    rw [← states_after_append, List.take_append_drop]
  rw [hsplit] at hfinal
  obtain ⟨j, hj, e⟩ := states_after_reaches (bufs.drop k) (Node.states_after (bufs.take k) s)
    (q + 1) (by omega) hfinal
  have hj0 : j ≠ 0 := by
    intro h0
    rw [h0] at e
    have e2 : Node.state_position (Node.states_after (bufs.take k) s).etx_ota_state = q + 1 := e
    omega
  rw [List.length_drop] at hj
  refine ⟨k + j, by omega, by omega, ?_⟩
  rw [List.take_add, states_after_append]
  exact e

/-- A run of calls that starts in Start and ends in Idle has gone through Header, Data and End,
in that order. -/
theorem states_after_passes_through (bufs : List (List Nat)) (s : Node.State)
    (hstart : s.etx_ota_state = ETX_OTA_STATE_START)
    (hidle : (Node.states_after bufs s).etx_ota_state = ETX_OTA_STATE_IDLE) :
    ∃ k1 k2 k3, 0 < k1 ∧ k1 < k2 ∧ k2 < k3 ∧ k3 < bufs.length
      ∧ (Node.states_after (bufs.take k1) s).etx_ota_state = ETX_OTA_STATE_HEADER
      ∧ (Node.states_after (bufs.take k2) s).etx_ota_state = ETX_OTA_STATE_DATA
      ∧ (Node.states_after (bufs.take k3) s).etx_ota_state = ETX_OTA_STATE_END := by
  have hfin : Node.state_position (Node.states_after bufs s).etx_ota_state = 4 := by
    rw [hidle]
    rfl
  have h0 : Node.state_position (Node.states_after (bufs.take 0) s).etx_ota_state = 0 := by
    show Node.state_position s.etx_ota_state = 0
    rw [hstart]
    rfl
  obtain ⟨k1, a1, b1, e1⟩ := states_after_next bufs s 0 0 h0 (by omega)
  obtain ⟨k2, a2, b2, e2⟩ := states_after_next bufs s k1 1 e1 (by omega)
  obtain ⟨k3, a3, b3, e3⟩ := states_after_next bufs s k2 2 e2 (by omega)
  have hk3 : k3 ≠ bufs.length := by
    intro h
    rw [h, List.take_length] at e3
    omega
  exact ⟨k1, k2, k3, a1, a2, a3, by omega,
    state_position_injective _ ETX_OTA_STATE_HEADER e1,
    state_position_injective _ ETX_OTA_STATE_DATA e2,
    state_position_injective _ ETX_OTA_STATE_END e3⟩

/-- C36: strict state order.  For every state and every buffer, the state of the engine after
`etx_ota_process_data` is the state before it or the next state of the order Start, Header,
Data, End, Idle; so along any run of calls the position of the state never decreases and grows
by at most one per call, and a run that starts in Start and ends in Idle has gone through
Header, Data and End in that order.  In particular, when `start_etx_ota_transaction` returns OK
the calls it made on the packets received took the engine from Start through Header, Data and
End to Idle. -/
theorem strict_state_order :
    (∀ (buf : List Nat) (s : Node.State),
      (Node.etx_ota_process_data buf s).2.etx_ota_state = s.etx_ota_state
      ∨ (s.etx_ota_state = ETX_OTA_STATE_START
        ∧ (Node.etx_ota_process_data buf s).2.etx_ota_state = ETX_OTA_STATE_HEADER)
      ∨ (s.etx_ota_state = ETX_OTA_STATE_HEADER
        ∧ (Node.etx_ota_process_data buf s).2.etx_ota_state = ETX_OTA_STATE_DATA)
      ∨ (s.etx_ota_state = ETX_OTA_STATE_DATA
        ∧ (Node.etx_ota_process_data buf s).2.etx_ota_state = ETX_OTA_STATE_END)
      ∨ (s.etx_ota_state = ETX_OTA_STATE_END
        ∧ (Node.etx_ota_process_data buf s).2.etx_ota_state = ETX_OTA_STATE_IDLE))
    ∧ (∀ (buf : List Nat) (s : Node.State),
      Node.state_position (Node.etx_ota_process_data buf s).2.etx_ota_state
          = Node.state_position s.etx_ota_state
      ∨ Node.state_position (Node.etx_ota_process_data buf s).2.etx_ota_state
          = Node.state_position s.etx_ota_state + 1)
    ∧ (∀ (bufs : List (List Nat)) (s : Node.State),
      Node.state_position s.etx_ota_state
          ≤ Node.state_position (Node.states_after bufs s).etx_ota_state
      ∧ Node.state_position (Node.states_after bufs s).etx_ota_state
          ≤ Node.state_position s.etx_ota_state + bufs.length)
    ∧ (∀ (bufs : List (List Nat)) (s : Node.State),
      s.etx_ota_state = ETX_OTA_STATE_START →
      (Node.states_after bufs s).etx_ota_state = ETX_OTA_STATE_IDLE →
      ∃ k1 k2 k3, 0 < k1 ∧ k1 < k2 ∧ k2 < k3 ∧ k3 < bufs.length
        ∧ (Node.states_after (bufs.take k1) s).etx_ota_state = ETX_OTA_STATE_HEADER
        ∧ (Node.states_after (bufs.take k2) s).etx_ota_state = ETX_OTA_STATE_DATA
        ∧ (Node.states_after (bufs.take k3) s).etx_ota_state = ETX_OTA_STATE_END)
    ∧ (∀ (passes : Nat) (Rx_Buffer : List Nat) (u : Node.Uart) (s : Node.State),
      (Node.start_etx_ota_transaction passes Rx_Buffer u s).2.1 = some ETX_OTA_EC_OK →
      ∃ (bufs : List (List Nat)) (k1 k2 k3 : Nat),
        (Node.start_etx_ota_transaction passes Rx_Buffer u s).2.2.1
          = Node.states_after bufs
              { s with etx_ota_fw_received_size := 0, etx_ota_state := ETX_OTA_STATE_START }
        ∧ (Node.start_etx_ota_transaction passes Rx_Buffer u s).2.2.1.etx_ota_state
          = ETX_OTA_STATE_IDLE
        ∧ 0 < k1 ∧ k1 < k2 ∧ k2 < k3 ∧ k3 < bufs.length
        ∧ (Node.states_after (bufs.take k1)
            { s with etx_ota_fw_received_size := 0,
                     etx_ota_state := ETX_OTA_STATE_START }).etx_ota_state
          = ETX_OTA_STATE_HEADER
        ∧ (Node.states_after (bufs.take k2)
            { s with etx_ota_fw_received_size := 0,
                     etx_ota_state := ETX_OTA_STATE_START }).etx_ota_state
          = ETX_OTA_STATE_DATA
        ∧ (Node.states_after (bufs.take k3)
            { s with etx_ota_fw_received_size := 0,
                     etx_ota_state := ETX_OTA_STATE_START }).etx_ota_state
          = ETX_OTA_STATE_END) := by
  refine ⟨process_data_step, process_data_position, fun bufs s => states_after_position bufs s,
    states_after_passes_through, ?_⟩
  intro passes Rx_Buffer u s h
  obtain ⟨bufs, _, l2, l3⟩ := transaction_loop_ok passes Rx_Buffer u
    { s with etx_ota_fw_received_size := 0, etx_ota_state := ETX_OTA_STATE_START } h
  obtain ⟨k1, k2, k3, a1, a2, a3, a4, e1, e2, e3⟩ := states_after_passes_through bufs
    { s with etx_ota_fw_received_size := 0, etx_ota_state := ETX_OTA_STATE_START } rfl l3
  refine ⟨bufs, k1, k2, k3, l2, ?_, a1, a2, a3, a4, e1, e2, e3⟩
  have e : (Node.start_etx_ota_transaction passes Rx_Buffer u s).2.2.1
      = Node.states_after bufs
          { s with etx_ota_fw_received_size := 0, etx_ota_state := ETX_OTA_STATE_START } := l2
  rw [e]
  exact l3

/-- The checksum `crc32_mpeg2` of `n` bytes depends on the first `n` bytes only. -/
theorem firmware_crc32_mpeg2_congr (l1 l2 : List Nat) (n : Nat)
    (h : ∀ k < n, l1.getD k 0 = l2.getD k 0) :
    Firmware.crc32_mpeg2 l1 n = Firmware.crc32_mpeg2 l2 n := by
  unfold Firmware.crc32_mpeg2 Host.crc32_mpeg2
  split
  · rfl
  · apply List.foldl_ext
    intro c i hi
    rw [h i (List.mem_range.mp hi)]

/-- An End command received in state End (lines 1097-1122). -/
theorem process_data_end_state (buf : List Nat) (s : Node.State)
    (hs : s.etx_ota_state = ETX_OTA_STATE_END)
    (h1 : buf.getD 1 0 = ETX_OTA_PACKET_TYPE_CMD) (h4 : buf.getD 4 0 = ETX_OTA_CMD_END) :
    Node.etx_ota_process_data buf s
      = if Firmware.crc32_mpeg2 s.custom_data.data s.custom_data.size ≠ s.custom_data.rec_crc
        then (ETX_OTA_EC_ERR, s)
        else (ETX_OTA_EC_OK, { s with etx_ota_state := ETX_OTA_STATE_IDLE }) := by
  have hna : ¬ (buf.getD 1 0 = ETX_OTA_PACKET_TYPE_CMD ∧ buf.getD 4 0 = ETX_OTA_CMD_ABORT) := by
    rw [h4]
    intro h
    exact absurd h.2 (by decide)
  simp only [Node.etx_ota_process_data]
  rw [if_neg hna]
  simp only [hs]
  rw [if_pos ⟨h1, h4⟩]

/-- C37: over-length data is accepted.  In state Data, a Data Type Packet whose Data Length
takes the received count above the declared size is processed with result OK: the count grows
by the whole Data Length, the declared size and checksum stay, and the state becomes End.  When
the packet fits the custom-data buffer, every byte of its payload is stored behind the bytes
received before, those beyond the declared size included, and the End command that follows is
answered by comparing the declared checksum with `crc32_mpeg2` of the buffer over the declared
size only, so that two buffers that agree on their first `size` bytes get the same answer. -/
theorem over_length_data_accepted (buf : List Nat) (s : Node.State)
    (hs : s.etx_ota_state = ETX_OTA_STATE_DATA)
    (ht : buf.getD 1 0 = ETX_OTA_PACKET_TYPE_DATA)
    (hover : s.custom_data.size < s.etx_ota_fw_received_size + read_u16 buf 2)
    (h32 : s.etx_ota_fw_received_size + read_u16 buf 2 < 2 ^ 32) :
    (Node.etx_ota_process_data buf s).1 = ETX_OTA_EC_OK
    ∧ (Node.etx_ota_process_data buf s).2.etx_ota_state = ETX_OTA_STATE_END
    ∧ (Node.etx_ota_process_data buf s).2.etx_ota_fw_received_size
      = s.etx_ota_fw_received_size + read_u16 buf 2
    ∧ (Node.etx_ota_process_data buf s).2.custom_data.size
        < (Node.etx_ota_process_data buf s).2.etx_ota_fw_received_size
    ∧ (Node.etx_ota_process_data buf s).2.custom_data.size = s.custom_data.size
    ∧ (Node.etx_ota_process_data buf s).2.custom_data.rec_crc = s.custom_data.rec_crc
    ∧ (s.etx_ota_fw_received_size + read_u16 buf 2 ≤ s.custom_data.data.length →
      (∀ i, i < read_u16 buf 2 →
        (Node.etx_ota_process_data buf s).2.custom_data.data[s.etx_ota_fw_received_size + i]?
          = some (buf.getD (ETX_OTA_DATA_FIELD_INDEX + i) 0))
      ∧ (∀ j, j < s.etx_ota_fw_received_size →
        (Node.etx_ota_process_data buf s).2.custom_data.data[j]? = s.custom_data.data[j]?)
      ∧ (Node.etx_ota_process_data buf s).2.custom_data.data.length
        = s.custom_data.data.length
      ∧ (∀ end_buf : List Nat, end_buf.getD 1 0 = ETX_OTA_PACKET_TYPE_CMD →
        end_buf.getD 4 0 = ETX_OTA_CMD_END →
        Node.etx_ota_process_data end_buf (Node.etx_ota_process_data buf s).2
          = if Firmware.crc32_mpeg2 (Node.etx_ota_process_data buf s).2.custom_data.data
                s.custom_data.size ≠ s.custom_data.rec_crc
            then (ETX_OTA_EC_ERR, (Node.etx_ota_process_data buf s).2)
            else (ETX_OTA_EC_OK,
              { (Node.etx_ota_process_data buf s).2 with
                etx_ota_state := ETX_OTA_STATE_IDLE }))
      ∧ (∀ (end_buf : List Nat) (s2 : Node.State),
        end_buf.getD 1 0 = ETX_OTA_PACKET_TYPE_CMD → end_buf.getD 4 0 = ETX_OTA_CMD_END →
        s2.etx_ota_state = ETX_OTA_STATE_END →
        s2.custom_data.size = s.custom_data.size →
        s2.custom_data.rec_crc = s.custom_data.rec_crc →
        s2.custom_data.data.length = s.custom_data.data.length →
        (∀ k < s.custom_data.size,
          s2.custom_data.data.getD k 0
            = (Node.etx_ota_process_data buf s).2.custom_data.data.getD k 0) →
        (Node.etx_ota_process_data end_buf s2).1
          = (Node.etx_ota_process_data end_buf (Node.etx_ota_process_data buf s).2).1)) := by
  obtain ⟨p1, p2, p3, p4, p5, p6, p7⟩ := process_data_data_state buf s hs ht h32
  rw [if_pos (le_of_lt hover)] at p2
  have hend : ∀ end_buf : List Nat, end_buf.getD 1 0 = ETX_OTA_PACKET_TYPE_CMD →
      end_buf.getD 4 0 = ETX_OTA_CMD_END →
      Node.etx_ota_process_data end_buf (Node.etx_ota_process_data buf s).2
        = if Firmware.crc32_mpeg2 (Node.etx_ota_process_data buf s).2.custom_data.data
              s.custom_data.size ≠ s.custom_data.rec_crc
          then (ETX_OTA_EC_ERR, (Node.etx_ota_process_data buf s).2)
          else (ETX_OTA_EC_OK,
            { (Node.etx_ota_process_data buf s).2 with
              etx_ota_state := ETX_OTA_STATE_IDLE }) := by
    intro end_buf h1 h4
    rw [process_data_end_state end_buf _ p2 h1 h4, p4, p5]
  refine ⟨p1, p2, p3, by rw [p3, p4]; exact hover, p4, p5, fun hfit => ⟨?_, ?_, p6, hend, ?_⟩⟩
  · intro i hi
    rw [p7, if_pos ⟨by omega, by omega, by omega⟩, Nat.add_sub_cancel_left]
  · intro j hj
    rw [p7, if_neg (by omega)]
  · intro end_buf s2 h1 h4 hs2 hsize hcrc _ hsame
    rw [hend end_buf h1 h4, process_data_end_state end_buf s2 hs2 h1 h4, hsize, hcrc,
      firmware_crc32_mpeg2_congr s2.custom_data.data
        (Node.etx_ota_process_data buf s).2.custom_data.data s.custom_data.size hsame]
    split <;> rfl

/-- Witness for C37: with a declared size of 2, a buffer of four bytes and nothing received
yet, a Data Type Packet of three bytes is processed with result OK, the count becomes 3, the
state End, and the third byte, beyond the declared size, is stored at index 2. -/
theorem over_length_data_accepted_witness :
    (Node.etx_ota_process_data [0xAA, 1, 3, 0, 7, 8, 9, 0, 0, 0, 0, 0xBB]
        ⟨ETX_OTA_STATE_DATA, 0, ⟨2, 0, [0, 0, 0, 0]⟩⟩).1 = ETX_OTA_EC_OK
    ∧ (Node.etx_ota_process_data [0xAA, 1, 3, 0, 7, 8, 9, 0, 0, 0, 0, 0xBB]
        ⟨ETX_OTA_STATE_DATA, 0, ⟨2, 0, [0, 0, 0, 0]⟩⟩).2.etx_ota_state = ETX_OTA_STATE_END
    ∧ (Node.etx_ota_process_data [0xAA, 1, 3, 0, 7, 8, 9, 0, 0, 0, 0, 0xBB]
        ⟨ETX_OTA_STATE_DATA, 0, ⟨2, 0, [0, 0, 0, 0]⟩⟩).2.etx_ota_fw_received_size = 0 + 3
    ∧ (Node.etx_ota_process_data [0xAA, 1, 3, 0, 7, 8, 9, 0, 0, 0, 0, 0xBB]
        ⟨ETX_OTA_STATE_DATA, 0, ⟨2, 0, [0, 0, 0, 0]⟩⟩).2.custom_data.data[0 + 2]?
      = some 9 :=
  have h := over_length_data_accepted [0xAA, 1, 3, 0, 7, 8, 9, 0, 0, 0, 0, 0xBB]
    ⟨ETX_OTA_STATE_DATA, 0, ⟨2, 0, [0, 0, 0, 0]⟩⟩ rfl rfl (by decide) (by decide)
  ⟨h.1, h.2.1, h.2.2.1, (h.2.2.2.2.2.2 (by decide)).1 2 (by decide)⟩

/-- On a line without faults the blocking read leaves the line without faults. -/
theorem HAL_UART_Receive_hal (buf : List Nat) (idx Size : Nat) (u : Node.Uart)
    (h : u.hal = []) : (Node.HAL_UART_Receive buf idx Size u).2.2.hal = [] := by
  unfold Node.HAL_UART_Receive
  rw [h]
  rw [if_pos (show ([] : List FwConfig.HAL_StatusTypeDef).headD FwConfig.HAL_StatusTypeDef.HAL_OK
    = FwConfig.HAL_StatusTypeDef.HAL_OK from rfl)]
  split <;> rfl

theorem receive_data_field_hal (n : Nat) :
    ∀ (len : Nat) (buf : List Nat) (u : Node.Uart), u.hal = [] →
      (Node.receive_data_field n len buf u).2.2.2.hal = [] := by
  induction n with
  | zero => intro len buf u h; exact h
  | succ n ih =>
    intro len buf u h
    simp only [Node.receive_data_field]
    split
    · exact HAL_UART_Receive_hal buf len 1 u h
    · exact ih _ _ _ (HAL_UART_Receive_hal buf len 1 u h)

theorem receive_crc_eof_hal (data_len len : Nat) (buf : List Nat) (u : Node.Uart)
    (h : u.hal = []) : (Node.receive_crc_eof data_len len buf u).2.2.hal = [] := by
  have h4 := HAL_UART_Receive_hal buf len Node.ETX_OTA_CRC32_SIZE u h
  simp only [Node.receive_crc_eof]
  split
  · exact h4
  · split
    · exact HAL_UART_Receive_hal _ _ _ _ h4
    · exact HAL_UART_Receive_hal _ _ _ _ h4

theorem receive_after_sof_hal (buf : List Nat) (u : Node.Uart) (h : u.hal = []) :
    (Node.receive_after_sof buf u).2.2.hal = [] := by
  have h1 := HAL_UART_Receive_hal buf 1 Node.ETX_OTA_PACKET_TYPE_SIZE u h
  simp only [Node.receive_after_sof]
  split
  · exact h1
  · split
    · exact h1
    · split
      · exact HAL_UART_Receive_hal _ _ _ _ h1
      · split
        · apply receive_data_field_hal
          exact HAL_UART_Receive_hal _ _ _ _ h1
        · apply receive_crc_eof_hal
          apply receive_data_field_hal
          exact HAL_UART_Receive_hal _ _ _ _ h1

/-- On a line without faults `etx_ota_receive_packet` leaves the line without faults. -/
theorem receive_packet_hal (Rx_Buffer : List Nat) (u : Node.Uart) (h : u.hal = []) :
    (Node.etx_ota_receive_packet Rx_Buffer u).2.2.hal = [] := by
  have h0 := HAL_UART_Receive_hal Rx_Buffer 0 Node.ETX_OTA_SOF_SIZE u h
  simp only [Node.etx_ota_receive_packet]
  split
  · split
    · exact h0
    · split
      · exact h0
      · exact receive_after_sof_hal _ _ h0
  · exact receive_after_sof_hal _ _ h

/-- One pass of the loop of `start_etx_ota_transaction` when a well-formed packet of the
controller arrives: the packet is handed to `etx_ota_process_data` at the start of the buffer,
and the line holds what follows the packet. -/
theorem iteration_on_packet (Rx_Buffer : List Nat) (u : Node.Uart) (s : Node.State) (kind : Nat)
    (data rest : List Nat)
    (harr : Node.frame_arrives Rx_Buffer u
      (Node.packet_bytes ETX_OTA_SOF kind data (Host.crc32_mpeg2 data data.length) ETX_OTA_EOF)
      rest)
    (hbuf : ETX_OTA_PACKET_MAX_SIZE ≤ Rx_Buffer.length)
    (hk : kind = ETX_OTA_PACKET_TYPE_CMD ∨ kind = ETX_OTA_PACKET_TYPE_DATA
      ∨ kind = ETX_OTA_PACKET_TYPE_HEADER ∨ kind = ETX_OTA_PACKET_TYPE_RESPONSE)
    (h1 : 1 ≤ data.length) (h2 : data.length ≤ ETX_OTA_DATA_MAX_SIZE) :
    (Node.start_etx_ota_transaction_iteration Rx_Buffer u s).1
      = Node.start_etx_ota_transaction_body ETX_OTA_EC_OK
          (Node.rx_store Rx_Buffer
            (Node.packet_bytes ETX_OTA_SOF kind data (Host.crc32_mpeg2 data data.length)
              ETX_OTA_EOF)) s
    ∧ (Node.start_etx_ota_transaction_iteration Rx_Buffer u s).2.rx = rest
    ∧ (Node.start_etx_ota_transaction_iteration Rx_Buffer u s).2.hal = [] := by
  obtain ⟨a1, a2, a3⟩ := receive_accepts_packet Rx_Buffer u kind data rest harr hbuf hk h1 h2
  refine ⟨?_, a3, receive_packet_hal Rx_Buffer u harr.1⟩
  show Node.start_etx_ota_transaction_body (Node.etx_ota_receive_packet Rx_Buffer u).1
    (Node.etx_ota_receive_packet Rx_Buffer u).2.1 s = _
  rw [a1, a2]
  unfold Node.rx_store
  rw [packet_bytes_length]

/-- A pass that ends at the loop test with the engine not in Idle is followed by the rest of
the loop. -/
theorem transaction_loop_continues (passes : Nat) (Rx_Buffer : List Nat) (u : Node.Uart)
    (s : Node.State)
    (hret : (Node.start_etx_ota_transaction_iteration Rx_Buffer u s).1.ret = none)
    (hne : (Node.start_etx_ota_transaction_iteration Rx_Buffer u s).1.st.etx_ota_state
      ≠ ETX_OTA_STATE_IDLE) :
    Node.start_etx_ota_transaction_loop (passes + 1) Rx_Buffer u s
      = ((Node.start_etx_ota_transaction_iteration Rx_Buffer u s).1.out
          ++ (Node.start_etx_ota_transaction_loop passes
            (Node.start_etx_ota_transaction_iteration Rx_Buffer u s).1.Rx_Buffer
            (Node.start_etx_ota_transaction_iteration Rx_Buffer u s).2
            (Node.start_etx_ota_transaction_iteration Rx_Buffer u s).1.st).1,
        (Node.start_etx_ota_transaction_loop passes
          (Node.start_etx_ota_transaction_iteration Rx_Buffer u s).1.Rx_Buffer
          (Node.start_etx_ota_transaction_iteration Rx_Buffer u s).2
          (Node.start_etx_ota_transaction_iteration Rx_Buffer u s).1.st).2) := by
  rw [transaction_loop_succ, hret]
  dsimp only
  rw [if_pos hne]

/-- A pass that ends in a `return` ends the loop. -/
theorem transaction_loop_returns (passes : Nat) (Rx_Buffer : List Nat) (u : Node.Uart)
    (s : Node.State) (ret : ETX_OTA_Status)
    (hret : (Node.start_etx_ota_transaction_iteration Rx_Buffer u s).1.ret = some ret) :
    Node.start_etx_ota_transaction_loop (passes + 1) Rx_Buffer u s
      = ((Node.start_etx_ota_transaction_iteration Rx_Buffer u s).1.out, some ret,
          (Node.start_etx_ota_transaction_iteration Rx_Buffer u s).1.st,
          (Node.start_etx_ota_transaction_iteration Rx_Buffer u s).1.Rx_Buffer,
          (Node.start_etx_ota_transaction_iteration Rx_Buffer u s).2) := by
  rw [transaction_loop_succ, hret]

/-- The pass for a packet on which `etx_ota_process_data` returns OK. -/
theorem transaction_body_of_ok (buf : List Nat) (s s1 : Node.State)
    (h : Node.etx_ota_process_data buf s = (ETX_OTA_EC_OK, s1)) :
    Node.start_etx_ota_transaction_body ETX_OTA_EC_OK buf s
      = ⟨[Node.Output.resp ETX_OTA_ACK], none, s1, buf.set 0 0⟩ := by
  simp only [Node.start_etx_ota_transaction_body, h]

/-- The pass for a packet on which `etx_ota_process_data` returns the error code. -/
theorem transaction_body_of_err (buf : List Nat) (s s1 : Node.State)
    (h : Node.etx_ota_process_data buf s = (ETX_OTA_EC_ERR, s1)) :
    Node.start_etx_ota_transaction_body ETX_OTA_EC_OK buf s
      = ⟨[Node.Output.resp ETX_OTA_NACK], some ETX_OTA_EC_ERR, s1, buf.set 0 0⟩ := by
  simp only [Node.start_etx_ota_transaction_body, h]

/-- An End command received in state Data is turned down and leaves the state as it is
(lines 1063-1094). -/
theorem process_data_end_in_data (Rx_Buffer : List Nat) (s : Node.State)
    (hs : s.etx_ota_state = ETX_OTA_STATE_DATA) :
    Node.etx_ota_process_data (Node.rx_store Rx_Buffer Host.etx_ota_end_packet) s
      = (ETX_OTA_EC_ERR, s) := by
  have h1 : (Node.rx_store Rx_Buffer Host.etx_ota_end_packet).getD 1 0
      = ETX_OTA_PACKET_TYPE_CMD := by
    simp [Node.rx_store, Host.etx_ota_end_packet, Host.etx_ota_command_packet, u16_bytes]
  have h4 : (Node.rx_store Rx_Buffer Host.etx_ota_end_packet).getD 4 0
      = ETX_OTA_CMD_END := by
    simp [Node.rx_store, Host.etx_ota_end_packet, Host.etx_ota_command_packet, u16_bytes]
  have hna : ¬ ((Node.rx_store Rx_Buffer Host.etx_ota_end_packet).getD 1 0
        = ETX_OTA_PACKET_TYPE_CMD
      ∧ (Node.rx_store Rx_Buffer Host.etx_ota_end_packet).getD 4 0 = ETX_OTA_CMD_ABORT) := by
    rw [h4]
    intro h
    exact absurd h.2 (by decide)
  simp only [Node.etx_ota_process_data]
  rw [if_neg hna]
  simp only [hs]
  rw [if_neg (by rw [h1]; decide)]

theorem getD_set_zero (l : List Nat) : (l.set 0 0).getD 0 0 = 0 := by
  cases l <;> rfl

theorem rx_store_length (Rx_Buffer frame : List Nat) :
    Rx_Buffer.length ≤ ((Node.rx_store Rx_Buffer frame).set 0 0).length := by
  unfold Node.rx_store
  rw [List.length_set, List.length_append, List.length_drop]
  omega

/-- The loop of `start_etx_ota_transaction` at a pass in which a well-formed packet of the
controller arrives and `etx_ota_process_data` accepts it without reaching Idle: an
acknowledgement is sent and the loop goes on, with the first byte of the buffer cleared and
the line holding what follows the packet. -/
theorem transaction_pass_ok (passes : Nat) (Rx_Buffer : List Nat) (u : Node.Uart)
    (s s1 : Node.State) (kind : Nat) (data rest : List Nat)
    (harr : Node.frame_arrives Rx_Buffer u
      (Node.packet_bytes ETX_OTA_SOF kind data (Host.crc32_mpeg2 data data.length) ETX_OTA_EOF)
      rest)
    (hbuf : ETX_OTA_PACKET_MAX_SIZE ≤ Rx_Buffer.length)
    (hk : kind = ETX_OTA_PACKET_TYPE_CMD ∨ kind = ETX_OTA_PACKET_TYPE_DATA
      ∨ kind = ETX_OTA_PACKET_TYPE_HEADER ∨ kind = ETX_OTA_PACKET_TYPE_RESPONSE)
    (h1 : 1 ≤ data.length) (h2 : data.length ≤ ETX_OTA_DATA_MAX_SIZE)
    (hproc : Node.etx_ota_process_data
      (Node.rx_store Rx_Buffer
        (Node.packet_bytes ETX_OTA_SOF kind data (Host.crc32_mpeg2 data data.length)
          ETX_OTA_EOF)) s = (ETX_OTA_EC_OK, s1))
    (hne : s1.etx_ota_state ≠ ETX_OTA_STATE_IDLE) :
    ∃ (Rx1 : List Nat) (u1 : Node.Uart),
      Node.start_etx_ota_transaction_loop (passes + 1) Rx_Buffer u s
        = ([Node.Output.resp ETX_OTA_ACK]
            ++ (Node.start_etx_ota_transaction_loop passes Rx1 u1 s1).1,
          (Node.start_etx_ota_transaction_loop passes Rx1 u1 s1).2)
      ∧ Rx1.getD 0 0 = 0 ∧ ETX_OTA_PACKET_MAX_SIZE ≤ Rx1.length
      ∧ u1.rx = rest ∧ u1.hal = [] := by
  obtain ⟨i1, i2, i3⟩ := iteration_on_packet Rx_Buffer u s kind data rest harr hbuf hk h1 h2
  rw [transaction_body_of_ok _ s s1 hproc] at i1
  have hret : (Node.start_etx_ota_transaction_iteration Rx_Buffer u s).1.ret = none := by
    rw [i1]
  have hst : (Node.start_etx_ota_transaction_iteration Rx_Buffer u s).1.st = s1 := by
    rw [i1]
  have hout : (Node.start_etx_ota_transaction_iteration Rx_Buffer u s).1.out
      = [Node.Output.resp ETX_OTA_ACK] := by
    rw [i1]
  have hrx : (Node.start_etx_ota_transaction_iteration Rx_Buffer u s).1.Rx_Buffer
      = (Node.rx_store Rx_Buffer
          (Node.packet_bytes ETX_OTA_SOF kind data (Host.crc32_mpeg2 data data.length)
            ETX_OTA_EOF)).set 0 0 := by
    rw [i1]
  refine ⟨(Node.start_etx_ota_transaction_iteration Rx_Buffer u s).1.Rx_Buffer,
    (Node.start_etx_ota_transaction_iteration Rx_Buffer u s).2, ?_, ?_, ?_, i2, i3⟩
  · rw [transaction_loop_continues passes Rx_Buffer u s hret (by rw [hst]; exact hne), hout, hst]
  · rw [hrx]
    exact getD_set_zero _
  · rw [hrx]
    exact le_trans hbuf (rx_store_length _ _)

/-- The loop of `start_etx_ota_transaction` at a pass in which a well-formed packet of the
controller arrives and `etx_ota_process_data` turns it down: the packet is answered NACK and
the function returns the error code. -/
theorem transaction_pass_err (passes : Nat) (Rx_Buffer : List Nat) (u : Node.Uart)
    (s s1 : Node.State) (kind : Nat) (data rest : List Nat)
    (harr : Node.frame_arrives Rx_Buffer u
      (Node.packet_bytes ETX_OTA_SOF kind data (Host.crc32_mpeg2 data data.length) ETX_OTA_EOF)
      rest)
    (hbuf : ETX_OTA_PACKET_MAX_SIZE ≤ Rx_Buffer.length)
    (hk : kind = ETX_OTA_PACKET_TYPE_CMD ∨ kind = ETX_OTA_PACKET_TYPE_DATA
      ∨ kind = ETX_OTA_PACKET_TYPE_HEADER ∨ kind = ETX_OTA_PACKET_TYPE_RESPONSE)
    (h1 : 1 ≤ data.length) (h2 : data.length ≤ ETX_OTA_DATA_MAX_SIZE)
    (hproc : Node.etx_ota_process_data
      (Node.rx_store Rx_Buffer
        (Node.packet_bytes ETX_OTA_SOF kind data (Host.crc32_mpeg2 data data.length)
          ETX_OTA_EOF)) s = (ETX_OTA_EC_ERR, s1)) :
    (Node.start_etx_ota_transaction_loop (passes + 1) Rx_Buffer u s).1
        = [Node.Output.resp ETX_OTA_NACK]
    ∧ (Node.start_etx_ota_transaction_loop (passes + 1) Rx_Buffer u s).2.1
        = some ETX_OTA_EC_ERR
    ∧ (Node.start_etx_ota_transaction_loop (passes + 1) Rx_Buffer u s).2.2.1 = s1
    ∧ (Node.start_etx_ota_transaction_loop (passes + 1) Rx_Buffer u s).2.2.2.2.rx = rest := by
  obtain ⟨i1, i2, _⟩ := iteration_on_packet Rx_Buffer u s kind data rest harr hbuf hk h1 h2
  rw [transaction_body_of_err _ s s1 hproc] at i1
  have hret : (Node.start_etx_ota_transaction_iteration Rx_Buffer u s).1.ret
      = some ETX_OTA_EC_ERR := by
    rw [i1]
  rw [transaction_loop_returns passes Rx_Buffer u s ETX_OTA_EC_ERR hret]
  refine ⟨?_, rfl, ?_, i2⟩
  · show (Node.start_etx_ota_transaction_iteration Rx_Buffer u s).1.out = _
    rw [i1]
  · show (Node.start_etx_ota_transaction_iteration Rx_Buffer u s).1.st = _
    rw [i1]

/-- The node's side of a Custom Data transfer of size 0: the controller's Start command, Header
(declared size 0) and End command arrive on a line without faults.  The node acknowledges the
Start command and the Header, turns the End command down while in state Data, and
`start_etx_ota_transaction` returns the error code. -/
theorem transaction_on_empty_payload (passes : Nat) (Rx_Buffer : List Nat) (u : Node.Uart)
    (s : Node.State) (c rest : List Nat)
    (harr : Node.frame_arrives Rx_Buffer u Host.etx_ota_start_packet
      (Host.etx_ota_header_packet (Host.etx_ota_header_info c 0 ETX_OTA_Custom_Data)
        ++ (Host.etx_ota_end_packet ++ rest)))
    (hbuf : ETX_OTA_PACKET_MAX_SIZE ≤ Rx_Buffer.length) :
    (Node.start_etx_ota_transaction (passes + 3) Rx_Buffer u s).1
        = [Node.Output.resp ETX_OTA_ACK, Node.Output.resp ETX_OTA_ACK,
            Node.Output.resp ETX_OTA_NACK]
    ∧ (Node.start_etx_ota_transaction (passes + 3) Rx_Buffer u s).2.1 = some ETX_OTA_EC_ERR
    ∧ (Node.start_etx_ota_transaction (passes + 3) Rx_Buffer u s).2.2.1.etx_ota_state
        = ETX_OTA_STATE_DATA
    ∧ (Node.start_etx_ota_transaction (passes + 3) Rx_Buffer u s).2.2.1.etx_ota_fw_received_size
        = 0
    ∧ (Node.start_etx_ota_transaction (passes + 3) Rx_Buffer u s).2.2.1.custom_data.size = 0
    ∧ (Node.start_etx_ota_transaction (passes + 3) Rx_Buffer u s).2.2.2.2.rx = rest := by
  unfold Node.start_etx_ota_transaction
  obtain ⟨Rx1, u1, e1, g1, l1, r1, n1⟩ := transaction_pass_ok (passes + 2) Rx_Buffer u
    { s with etx_ota_fw_received_size := 0, etx_ota_state := ETX_OTA_STATE_START }
    { s with etx_ota_fw_received_size := 0, etx_ota_state := ETX_OTA_STATE_HEADER }
    ETX_OTA_PACKET_TYPE_CMD [ETX_OTA_CMD_START] _ harr hbuf (Or.inl rfl) (by decide) (by decide)
    (process_data_start_packet Rx_Buffer _ rfl)
    (show ETX_OTA_STATE_HEADER ≠ ETX_OTA_STATE_IDLE from by decide)
  have hcrc : (Host.etx_ota_header_info c 0 ETX_OTA_Custom_Data).package_crc < 2 ^ 32 :=
    crc32_mpeg2_lt c 0
  obtain ⟨Rx2, u2, e2, g2, l2, r2, n2⟩ := transaction_pass_ok (passes + 1) Rx1 u1
    { s with etx_ota_fw_received_size := 0, etx_ota_state := ETX_OTA_STATE_HEADER }
    { s with
      etx_ota_fw_received_size := 0
      custom_data :=
        { s.custom_data with
          size := (Host.etx_ota_header_info c 0 ETX_OTA_Custom_Data).package_size
          rec_crc := (Host.etx_ota_header_info c 0 ETX_OTA_Custom_Data).package_crc }
      etx_ota_state := ETX_OTA_STATE_DATA }
    ETX_OTA_PACKET_TYPE_HEADER
    (Host.header_data_bytes (Host.etx_ota_header_info c 0 ETX_OTA_Custom_Data))
    (Host.etx_ota_end_packet ++ rest) ⟨n1, Or.inl ⟨g1, r1⟩⟩ l1 (Or.inr (Or.inr (Or.inl rfl)))
    (show 1 ≤ 16 from by decide) (show 16 ≤ 1024 from by decide)
    (process_data_header_packet Rx1 _ _ rfl (show 0 < 2 ^ 32 from by decide) hcrc rfl)
    (show ETX_OTA_STATE_DATA ≠ ETX_OTA_STATE_IDLE from by decide)
  obtain ⟨o3, t3, s3, x3⟩ := transaction_pass_err passes Rx2 u2
    { s with
      etx_ota_fw_received_size := 0
      custom_data :=
        { s.custom_data with
          size := (Host.etx_ota_header_info c 0 ETX_OTA_Custom_Data).package_size
          rec_crc := (Host.etx_ota_header_info c 0 ETX_OTA_Custom_Data).package_crc }
      etx_ota_state := ETX_OTA_STATE_DATA }
    { s with
      etx_ota_fw_received_size := 0
      custom_data :=
        { s.custom_data with
          size := (Host.etx_ota_header_info c 0 ETX_OTA_Custom_Data).package_size
          rec_crc := (Host.etx_ota_header_info c 0 ETX_OTA_Custom_Data).package_crc }
      etx_ota_state := ETX_OTA_STATE_DATA }
    ETX_OTA_PACKET_TYPE_CMD [ETX_OTA_CMD_END] rest ⟨n2, Or.inl ⟨g2, r2⟩⟩ l2 (Or.inl rfl)
    (by decide) (by decide) (process_data_end_in_data Rx2 _ rfl)
  rw [e1, e2]
  dsimp only
  rw [o3, t3, s3, x3]
  exact ⟨rfl, rfl, rfl, rfl, rfl, rfl⟩

namespace Host

/-- A send function on a line that lets every byte through: the packet is sent, the port polled
once, and the code returned is OK on an acknowledgement and the NACK code otherwise. -/
theorem send_packet_clean (packet : List Nat) (call : ETX_OTA_Status → Call)
    (send_data_err nack_resp : ETX_OTA_Status) (w : World) (hs : w.send_error = []) :
    send_packet packet call send_data_err nack_resp w
      = returned call
          (if is_ack_resp_received (w.polls.headD []) = true then ETX_OTA_Status.ETX_OTA_EC_OK
            else nack_resp)
          { w with sent := w.sent ++ packet, polls := w.polls.tail } := by
  unfold send_packet
  dsimp only
  rw [send_bytes_ok packet w hs, if_neg Bool.false_ne_true]
  unfold next_poll
  dsimp only
  cases h : is_ack_resp_received (w.polls.headD []) with
  | true =>
    rw [if_neg (by simp), if_pos rfl]
  | false =>
    rw [if_pos (by simp), if_neg Bool.false_ne_true]

theorem ack_response_is_ack :
    is_ack_resp_received (Node.etx_ota_send_resp ETX_OTA_ACK) = true := by
  decide

theorem nack_response_is_not_ack :
    is_ack_resp_received (Node.etx_ota_send_resp ETX_OTA_NACK) = false := by
  decide

/-- The Data loop for a payload of size 0 sends nothing. -/
theorem send_data_loop_empty (c : List Nat) (w : World) :
    send_data_loop c 0 0 w = (ETX_OTA_Status.ETX_OTA_EC_OK, w) := by
  rw [send_data_loop_eq, if_neg (Nat.lt_irrefl 0)]

theorem data_loop_empty (c : List Nat) : data_loop c 0 0 = [] := by
  rw [data_loop, if_neg (Nat.lt_irrefl 0)]

end Host

namespace Host

/-- A send function on a line that lets every byte through, when the port holds an
acknowledgement of the node. -/
theorem send_packet_acked (packet : List Nat) (call : ETX_OTA_Status → Call)
    (send_data_err nack_resp : ETX_OTA_Status) (w : World) (rest : List (List Nat))
    (hs : w.send_error = []) (hp : w.polls = Node.etx_ota_send_resp ETX_OTA_ACK :: rest) :
    send_packet packet call send_data_err nack_resp w
      = (ETX_OTA_Status.ETX_OTA_EC_OK,
          { w with
            sent := w.sent ++ packet, polls := rest,
            calls := w.calls ++ [call ETX_OTA_Status.ETX_OTA_EC_OK] }) := by
  rw [send_packet_clean packet call send_data_err nack_resp w hs, hp]
  show returned call (if is_ack_resp_received (Node.etx_ota_send_resp ETX_OTA_ACK) = true
    then _ else _) _ = _
  rw [if_pos ack_response_is_ack]
  rfl

/-- A send function on a line that lets every byte through, when the port holds a NACK of the
node. -/
theorem send_packet_nacked (packet : List Nat) (call : ETX_OTA_Status → Call)
    (send_data_err nack_resp : ETX_OTA_Status) (w : World) (rest : List (List Nat))
    (hs : w.send_error = []) (hp : w.polls = Node.etx_ota_send_resp ETX_OTA_NACK :: rest) :
    send_packet packet call send_data_err nack_resp w
      = (nack_resp,
          { w with
            sent := w.sent ++ packet, polls := rest,
            calls := w.calls ++ [call nack_resp] }) := by
  rw [send_packet_clean packet call send_data_err nack_resp w hs, hp]
  show returned call (if is_ack_resp_received (Node.etx_ota_send_resp ETX_OTA_NACK) = true
    then _ else _) _ = _
  rw [if_neg (by rw [nack_response_is_not_ack]; exact Bool.false_ne_true)]
  rfl

/-- The controller's side of a Custom Data transfer of size 0 on a line that lets every byte
through, when the node acknowledges the Start command and the Header and turns the End command
down: no Data packet is sent and the code of the End command's NACK is returned. -/
theorem process_empty_payload (api : ETX_OTA_API_t) (a : Nat) (w : World) (c : List Nat)
    (w1 : World)
    (hsetup : start_etx_ota_process_setup api a w = Except.ok (0, c, w1))
    (hline : w1.send_error = [])
    (hpolls : w1.polls = [Node.etx_ota_send_resp ETX_OTA_ACK,
      Node.etx_ota_send_resp ETX_OTA_ACK, Node.etx_ota_send_resp ETX_OTA_NACK]) :
    start_etx_ota_process api a w
      = (ETX_OTA_Status.ETX_OTA_EC_END_CMD_NACK_RESP, a,
          { w1 with
            sent := w1.sent ++ etx_ota_start_packet
              ++ etx_ota_header_packet (etx_ota_header_info c 0 api.ETX_OTA_Payload_Type)
              ++ etx_ota_end_packet,
            polls := [],
            calls := w1.calls
              ++ [Call.send_etx_ota_start ETX_OTA_Status.ETX_OTA_EC_OK]
              ++ [Call.send_etx_ota_header ETX_OTA_Status.ETX_OTA_EC_OK]
              ++ [Call.send_etx_ota_end ETX_OTA_Status.ETX_OTA_EC_END_CMD_NACK_RESP] }) := by
  have e1 : send_etx_ota_start w1 = _ :=
    send_packet_acked etx_ota_start_packet Call.send_etx_ota_start _ _ w1 _ hline hpolls
  have e2 : send_etx_ota_header (etx_ota_header_info c 0 api.ETX_OTA_Payload_Type)
      (send_etx_ota_start w1).2 = _ :=
    send_packet_acked _ Call.send_etx_ota_header _ _ (send_etx_ota_start w1).2
      [Node.etx_ota_send_resp ETX_OTA_NACK] (by rw [e1]; exact hline) (by rw [e1])
  have e3 : send_etx_ota_end
      (send_etx_ota_header (etx_ota_header_info c 0 api.ETX_OTA_Payload_Type)
        (send_etx_ota_start w1).2).2 = _ :=
    send_packet_nacked etx_ota_end_packet Call.send_etx_ota_end _ _
      (send_etx_ota_header (etx_ota_header_info c 0 api.ETX_OTA_Payload_Type)
        (send_etx_ota_start w1).2).2 [] (by rw [e2, e1]; exact hline) (by rw [e2])
  rw [process_sends_payload api a w 0 c w1 hsetup (by rw [e1]) (by rw [e2])]
  unfold send_payload_and_end
  dsimp only
  rw [send_data_loop_empty, if_neg (not_not.mpr rfl), e3]
  rw [if_pos (show ETX_OTA_Status.ETX_OTA_EC_END_CMD_NACK_RESP ≠ ETX_OTA_Status.ETX_OTA_EC_OK
    from by decide)]
  rw [e2, e1]

end Host

/-- C38: empty Custom Data payloads cannot complete.  The controller sends Custom Data of size
0 on a line that lets every byte through; its Start command, Header and End command arrive whole
at the node, and what the controller finds in the port at each poll is the response the node
sent.  Then the Data loop of the controller sends no Data packet; the node acknowledges the
Start command and the Header, receives the End command while still in state Data, answers it
NACK and returns the error code; and the controller returns END_CMD_NACK_RESP, not OK, having
sent the Start command, the Header and the End command and nothing else. -/
theorem empty_custom_data_cannot_complete (api : Host.ETX_OTA_API_t) (a : Nat) (w : Host.World)
    (c : List Nat) (w1 : Host.World) (Rx_Buffer : List Nat) (u : Node.Uart) (s : Node.State)
    (passes : Nat) (rest : List Nat)
    (hsetup : Host.start_etx_ota_process_setup api a w = Except.ok (0, c, w1))
    (htype : api.ETX_OTA_Payload_Type = ETX_OTA_Custom_Data)
    (hline : w1.send_error = [])
    (harr : Node.frame_arrives Rx_Buffer u Host.etx_ota_start_packet
      (Host.etx_ota_header_packet (Host.etx_ota_header_info c 0 api.ETX_OTA_Payload_Type)
        ++ (Host.etx_ota_end_packet ++ rest)))
    (hbuf : ETX_OTA_PACKET_MAX_SIZE ≤ Rx_Buffer.length) (hpasses : 3 ≤ passes)
    (hpolls : w1.polls
      = (Node.responses (Node.start_etx_ota_transaction passes Rx_Buffer u s).1).map
          Node.etx_ota_send_resp) :
    (∀ wd : Host.World,
      Host.send_data_loop c 0 0 wd = (Host.ETX_OTA_Status.ETX_OTA_EC_OK, wd))
    ∧ Host.data_loop c 0 0 = []
    ∧ Node.responses (Node.start_etx_ota_transaction passes Rx_Buffer u s).1
      = [ETX_OTA_ACK, ETX_OTA_ACK, ETX_OTA_NACK]
    ∧ (Node.start_etx_ota_transaction passes Rx_Buffer u s).2.1 = some ETX_OTA_EC_ERR
    ∧ (Node.start_etx_ota_transaction passes Rx_Buffer u s).2.2.1.etx_ota_state
      = ETX_OTA_STATE_DATA
    ∧ (Host.start_etx_ota_process api a w).1
      = Host.ETX_OTA_Status.ETX_OTA_EC_END_CMD_NACK_RESP
    ∧ (Host.start_etx_ota_process api a w).1 ≠ Host.ETX_OTA_Status.ETX_OTA_EC_OK
    ∧ (Host.start_etx_ota_process api a w).2.2.sent
      = w1.sent ++ Host.etx_ota_start_packet
        ++ Host.etx_ota_header_packet (Host.etx_ota_header_info c 0 api.ETX_OTA_Payload_Type)
        ++ Host.etx_ota_end_packet
    ∧ (Host.start_etx_ota_process api a w).2.2.calls
      = w1.calls ++ [Host.Call.send_etx_ota_start Host.ETX_OTA_Status.ETX_OTA_EC_OK]
        ++ [Host.Call.send_etx_ota_header Host.ETX_OTA_Status.ETX_OTA_EC_OK]
        ++ [Host.Call.send_etx_ota_end Host.ETX_OTA_Status.ETX_OTA_EC_END_CMD_NACK_RESP] := by
  obtain ⟨p, rfl⟩ : ∃ p, passes = p + 3 := ⟨passes - 3, by omega⟩
  rw [htype] at harr
  obtain ⟨t1, t2, t3, _, _, _⟩ := transaction_on_empty_payload p Rx_Buffer u s c rest harr hbuf
  rw [t1] at hpolls
  have hproc := Host.process_empty_payload api a w c w1 hsetup hline hpolls
  rw [hproc, t1]
  exact ⟨Host.send_data_loop_empty c, Host.data_loop_empty c, rfl, t2, t3, rfl,
    show Host.ETX_OTA_Status.ETX_OTA_EC_END_CMD_NACK_RESP ≠ Host.ETX_OTA_Status.ETX_OTA_EC_OK
      from by decide,
    rfl, rfl⟩

/-- Witness for C38: an empty Custom Data payload sent at the second attempt (no Abort loop),
the node receiving the three frames into a cleared buffer of 1033 bytes: the controller returns
END_CMD_NACK_RESP and the node the error code. -/
theorem empty_custom_data_cannot_complete_witness :
    (Host.start_etx_ota_process ⟨ETX_OTA_Custom_Data, [], 0, 0, 0, 0⟩ 1
        ⟨[], none, false, [],
          [Node.etx_ota_send_resp ETX_OTA_ACK, Node.etx_ota_send_resp ETX_OTA_ACK,
            Node.etx_ota_send_resp ETX_OTA_NACK], [], []⟩).1
      = Host.ETX_OTA_Status.ETX_OTA_EC_END_CMD_NACK_RESP
    ∧ (Node.start_etx_ota_transaction 3 (List.replicate 1033 0)
        ⟨Host.etx_ota_start_packet
          ++ (Host.etx_ota_header_packet (Host.etx_ota_header_info [] 0 ETX_OTA_Custom_Data)
            ++ (Host.etx_ota_end_packet ++ [])), [], []⟩
        ⟨ETX_OTA_STATE_IDLE, 0, ⟨0, 0, []⟩⟩).2.1 = some ETX_OTA_EC_ERR :=
  have harr : Node.frame_arrives (List.replicate 1033 0)
      ⟨Host.etx_ota_start_packet
        ++ (Host.etx_ota_header_packet (Host.etx_ota_header_info [] 0 ETX_OTA_Custom_Data)
          ++ (Host.etx_ota_end_packet ++ [])), [], []⟩
      Host.etx_ota_start_packet
      (Host.etx_ota_header_packet (Host.etx_ota_header_info [] 0 ETX_OTA_Custom_Data)
        ++ (Host.etx_ota_end_packet ++ [])) := ⟨rfl, Or.inl ⟨rfl, rfl⟩⟩
  have hbuf : ETX_OTA_PACKET_MAX_SIZE ≤ (List.replicate 1033 0).length :=
    le_of_eq (List.length_replicate 1033 0).symm
  have h := empty_custom_data_cannot_complete ⟨ETX_OTA_Custom_Data, [], 0, 0, 0, 0⟩ 1
    ⟨[], none, false, [],
      [Node.etx_ota_send_resp ETX_OTA_ACK, Node.etx_ota_send_resp ETX_OTA_ACK,
        Node.etx_ota_send_resp ETX_OTA_NACK], [], []⟩
    []
    ⟨[], none, false, [],
      [Node.etx_ota_send_resp ETX_OTA_ACK, Node.etx_ota_send_resp ETX_OTA_ACK,
        Node.etx_ota_send_resp ETX_OTA_NACK], [], [Host.Call.RS232_OpenComport false]⟩
    (List.replicate 1033 0)
    ⟨Host.etx_ota_start_packet
      ++ (Host.etx_ota_header_packet (Host.etx_ota_header_info [] 0 ETX_OTA_Custom_Data)
        ++ (Host.etx_ota_end_packet ++ [])), [], []⟩
    ⟨ETX_OTA_STATE_IDLE, 0, ⟨0, 0, []⟩⟩ 3 [] rfl rfl rfl harr hbuf (by decide)
    (by rw [(transaction_on_empty_payload 0 _ _ _ [] [] harr hbuf).1]; rfl)
  ⟨h.2.2.2.2.2.1, h.2.2.2.1⟩

namespace Host

theorem headD_of_all_false (l : List Bool) (h : ∀ b ∈ l, b = false) : l.headD false = false := by
  cases l with
  | nil => rfl
  | cons b t => exact h b (List.mem_cons_self b t)

/-- When no coming call of `RS232_SendByte` fails, a byte loop sends all its bytes, and no
coming call fails after it. -/
theorem send_bytes_all_sent (l : List Nat) :
    ∀ w : World, (∀ b ∈ w.send_error, b = false) →
      (send_bytes l w).1 = false ∧ ∀ b ∈ (send_bytes l w).2.send_error, b = false := by
  induction l with
  | nil => intro w h; exact ⟨rfl, h⟩
  | cons x rest ih =>
    intro w h
    rw [send_bytes_cons, RS232_SendByte_sent x w (headD_of_all_false _ h),
      if_neg Bool.false_ne_true]
    exact ih _ (fun b hb => h b (List.mem_of_mem_tail hb))

/-- A send function when no call of `RS232_SendByte` fails and the poll finds an
acknowledgement: it returns OK, the poll is used up, and no coming call of `RS232_SendByte`
fails. -/
theorem send_packet_acknowledged (packet : List Nat) (call : ETX_OTA_Status → Call)
    (send_data_err nack_resp : ETX_OTA_Status) (w : World)
    (hsend : ∀ b ∈ w.send_error, b = false)
    (hack : is_ack_resp_received (w.polls.headD []) = true) :
    (send_packet packet call send_data_err nack_resp w).1 = ETX_OTA_Status.ETX_OTA_EC_OK
    ∧ (send_packet packet call send_data_err nack_resp w).2.polls = w.polls.tail
    ∧ ∀ b ∈ (send_packet packet call send_data_err nack_resp w).2.send_error, b = false := by
  obtain ⟨b1, b2⟩ := send_bytes_all_sent packet w hsend
  obtain ⟨_, f2, _, _, _⟩ := send_bytes_frame packet w
  have hack2 : is_ack_resp_received (next_poll (send_bytes packet w).2).1 = true := by
    show is_ack_resp_received ((send_bytes packet w).2.polls.headD []) = true
    rw [f2]
    exact hack
  unfold send_packet
  dsimp only
  rw [if_neg (by rw [b1]; exact Bool.false_ne_true), if_neg (not_not.mpr hack2)]
  refine ⟨rfl, ?_, b2⟩
  show (send_bytes packet w).2.polls.tail = _
  rw [f2]

theorem headD_eq_getD_zero (l : List (List Nat)) : l.headD [] = l.getD 0 [] := by
  cases l <;> rfl

theorem getD_tail (l : List (List Nat)) (k : Nat) : l.tail.getD k [] = l.getD (k + 1) [] := by
  cases l <;> rfl

/-- The first packet of the Data loop from an index inside the payload. -/
theorem data_loop_cons (P : List Nat) (n i : Nat) (hi : i < n) :
    data_loop P n i
      = etx_ota_data_packet (P.drop i)
          (if n - i ≥ ETX_OTA_DATA_MAX_SIZE then ETX_OTA_DATA_MAX_SIZE else n - i)
        :: data_loop P n
          (i + (if n - i ≥ ETX_OTA_DATA_MAX_SIZE then ETX_OTA_DATA_MAX_SIZE else n - i)) := by
  rw [data_loop, if_pos hi]
  by_cases hge : n - i ≥ ETX_OTA_DATA_MAX_SIZE
  · rw [if_pos hge, if_pos hge]
  · rw [if_neg hge, if_neg hge]

/-- The Data loop when no call of `RS232_SendByte` fails and the poll after each of its packets
finds an acknowledgement: it returns OK. -/
theorem send_data_loop_acknowledged (P : List Nat) (n : Nat) :
    ∀ (m i : Nat) (w : World), n - i ≤ m →
      (∀ b ∈ w.send_error, b = false) →
      (∀ k < (data_loop P n i).length, is_ack_resp_received (w.polls.getD k []) = true) →
      (send_data_loop P n i w).1 = ETX_OTA_Status.ETX_OTA_EC_OK
      ∧ (send_data_loop P n i w).2.polls = w.polls.drop (data_loop P n i).length := by
  intro m
  induction m with
  | zero =>
    intro i w hm _ _
    rw [send_data_loop_eq, if_neg (by omega), data_loop_done P n i (by omega)]
    exact ⟨rfl, rfl⟩
  | succ m ih =>
    intro i w hm hsend hack
    by_cases hi : i < n
    · rw [data_loop_cons P n i hi] at hack ⊢
      rw [send_data_loop_eq, if_pos hi]
      obtain ⟨c1, _, _⟩ := chunk_size_bounds n i hi
      generalize (if n - i ≥ ETX_OTA_DATA_MAX_SIZE then ETX_OTA_DATA_MAX_SIZE else n - i)
        = size at c1 hack ⊢
      have h0 : is_ack_resp_received (w.polls.headD []) = true := by
        rw [headD_eq_getD_zero]
        exact hack 0 (by rw [List.length_cons]; omega)
      have hp : (send_etx_ota_data (P.drop i) size w).1 = ETX_OTA_Status.ETX_OTA_EC_OK
          ∧ (send_etx_ota_data (P.drop i) size w).2.polls = w.polls.tail
          ∧ ∀ b ∈ (send_etx_ota_data (P.drop i) size w).2.send_error, b = false :=
        send_packet_acknowledged _ _ _ _ w hsend h0
      obtain ⟨a1, a2, a3⟩ := hp
      rw [if_neg (not_not.mpr a1)]
      obtain ⟨i1, i2⟩ := ih (i + size) (send_etx_ota_data (P.drop i) size w).2 (by omega) a3
        (fun k hk => by
          rw [a2, getD_tail]
          exact hack (k + 1) (by rw [List.length_cons]; omega))
      refine ⟨i1, ?_⟩
      rw [i2, a2, List.length_cons]
      cases w.polls with
      | nil => rw [List.tail_nil, List.drop_nil, List.drop_nil]
      | cons x t => rfl
    · rw [send_data_loop_eq, if_neg hi, data_loop_done P n i hi]
      exact ⟨rfl, rfl⟩

end Host

/-- C22: chunking of the payload.  For a payload `P` of `n` bytes, `n` at least 1, the Data loop
of `start_etx_ota_process` makes `(n + 1023) / 1024` Data packets, the number `n / 1024` rounded
up; packet `k` is a Data Type Packet whose Data field is the chunk of `P` from index `1024 k` on,
at most 1024 bytes long, and whose CRC32 field is `crc32_mpeg2` of that chunk alone; every chunk
but the last has 1024 bytes and the last has `n - 1024 (count - 1)` bytes, between 1 and 1024;
the chunks in order make up `P`.  When no call of `RS232_SendByte` fails and the poll after each
of these packets finds an acknowledgement, the loop returns OK, having handed to the port
exactly the bytes of those packets in order, with one call of `send_etx_ota_data` and one poll
for each; and whenever the loop returns OK it has sent exactly those bytes. -/
theorem data_chunking (P : List Nat) (hP : 1 ≤ P.length) :
    (Host.data_loop P P.length 0).length = (P.length + 1023) / 1024
    ∧ (∀ k < (P.length + 1023) / 1024,
        (Host.data_loop P P.length 0).getD k []
          = Node.packet_bytes ETX_OTA_SOF ETX_OTA_PACKET_TYPE_DATA
              ((P.drop (1024 * k)).take 1024)
              (Host.crc32_mpeg2 ((P.drop (1024 * k)).take 1024)
                ((P.drop (1024 * k)).take 1024).length) ETX_OTA_EOF)
    ∧ (∀ k, k + 1 < (P.length + 1023) / 1024 → ((P.drop (1024 * k)).take 1024).length = 1024)
    ∧ (((P.drop (1024 * ((P.length + 1023) / 1024 - 1))).take 1024).length
          = P.length - 1024 * ((P.length + 1023) / 1024 - 1)
        ∧ 1 ≤ P.length - 1024 * ((P.length + 1023) / 1024 - 1)
        ∧ P.length - 1024 * ((P.length + 1023) / 1024 - 1) ≤ 1024)
    ∧ ((List.range ((P.length + 1023) / 1024)).map
        (fun k => (P.drop (1024 * k)).take 1024)).flatten = P
    ∧ (∀ w : Host.World,
        (∀ b ∈ w.send_error, b = false) →
        (∀ k < (P.length + 1023) / 1024,
          Host.is_ack_resp_received (w.polls.getD k []) = true) →
        (Host.send_data_loop P P.length 0 w).1 = Host.ETX_OTA_Status.ETX_OTA_EC_OK
        ∧ (Host.send_data_loop P P.length 0 w).2.sent
          = w.sent ++ ((List.range ((P.length + 1023) / 1024)).map
              (fun k => Node.packet_bytes ETX_OTA_SOF ETX_OTA_PACKET_TYPE_DATA
                ((P.drop (1024 * k)).take 1024)
                (Host.crc32_mpeg2 ((P.drop (1024 * k)).take 1024)
                  ((P.drop (1024 * k)).take 1024).length) ETX_OTA_EOF)).flatten
        ∧ (Host.send_data_loop P P.length 0 w).2.polls
          = w.polls.drop ((P.length + 1023) / 1024)
        ∧ ∃ t : List Host.Call, (Host.send_data_loop P P.length 0 w).2.calls = w.calls ++ t
            ∧ t.length = (P.length + 1023) / 1024
            ∧ ∀ c ∈ t, ∃ size,
                c = Host.Call.send_etx_ota_data size Host.ETX_OTA_Status.ETX_OTA_EC_OK)
    ∧ (∀ w : Host.World,
        (Host.send_data_loop P P.length 0 w).1 = Host.ETX_OTA_Status.ETX_OTA_EC_OK →
        (Host.send_data_loop P P.length 0 w).2.sent
          = w.sent ++ (Host.data_loop P P.length 0).flatten
        ∧ ∃ t : List Host.Call, (Host.send_data_loop P P.length 0 w).2.calls = w.calls ++ t
            ∧ t.length = (P.length + 1023) / 1024
            ∧ ∀ c ∈ t, ∃ size,
                c = Host.Call.send_etx_ota_data size Host.ETX_OTA_Status.ETX_OTA_EC_OK) := by
  have hf := data_loop_frames P P.length 0 (by omega)
  rw [Nat.sub_zero] at hf
  have hf2 : Host.data_loop P P.length 0
      = (List.range ((P.length + 1023) / 1024)).map
          (fun k => Node.packet_bytes ETX_OTA_SOF ETX_OTA_PACKET_TYPE_DATA
            ((P.drop (1024 * k)).take 1024)
            (Host.crc32_mpeg2 ((P.drop (1024 * k)).take 1024)
              ((P.drop (1024 * k)).take 1024).length) ETX_OTA_EOF) := by
    rw [hf]
    apply List.map_congr_left
    intro k _
    show Node.packet_bytes ETX_OTA_SOF ETX_OTA_PACKET_TYPE_DATA
        ((P.drop (0 + 1024 * k)).take 1024)
        (Host.crc32_mpeg2 ((P.drop (0 + 1024 * k)).take 1024)
          ((P.drop (0 + 1024 * k)).take 1024).length) ETX_OTA_EOF = _
    rw [Nat.zero_add]
  have hlen : (Host.data_loop P P.length 0).length = (P.length + 1023) / 1024 := by
    rw [hf, List.length_map, List.length_range]
  refine ⟨hlen, ?_, ?_, ?_, chunks_flatten P.length P (le_refl _), ?_, ?_⟩
  · intro k hk
    rw [hf2, List.getD_eq_getElem?_getD, List.getElem?_map, List.getElem?_range hk]
    rfl
  · intro k hk
    rw [List.length_take, List.length_drop]
    omega
  · refine ⟨?_, ?_, ?_⟩
    · rw [List.length_take, List.length_drop]
      omega
    · omega
    · omega
  · intro w hsend hack
    obtain ⟨a1, a2⟩ := Host.send_data_loop_acknowledged P P.length P.length 0 w (by omega) hsend
      (by rw [hlen]; exact hack)
    obtain ⟨h1, t, h2, h3, h4⟩ := Host.send_data_loop_ok P P.length P.length 0 w (by omega) a1
    refine ⟨a1, ?_, ?_, t, h2, h3.trans hlen, h4⟩
    · rw [h1, hf2]
    · rw [a2, hlen]
  · intro w hok
    obtain ⟨h1, t, h2, h3, h4⟩ := Host.send_data_loop_ok P P.length P.length 0 w (by omega) hok
    exact ⟨h1, t, h2, h3.trans hlen, h4⟩

/-- Witness for C22: a payload of 2000 bytes, the node acknowledging both packets: the Data
loop returns OK, has used both polls, and the payload goes out as two Data packets, with Data
fields of 1024 and of 976 bytes. -/
theorem data_chunking_witness :
    (Host.send_data_loop (List.replicate 2000 0) 2000 0
        ⟨[], none, false, [],
          [Node.etx_ota_send_resp ETX_OTA_ACK, Node.etx_ota_send_resp ETX_OTA_ACK], [],
          []⟩).1 = Host.ETX_OTA_Status.ETX_OTA_EC_OK
    ∧ (Host.send_data_loop (List.replicate 2000 0) 2000 0
        ⟨[], none, false, [],
          [Node.etx_ota_send_resp ETX_OTA_ACK, Node.etx_ota_send_resp ETX_OTA_ACK], [],
          []⟩).2.polls = []
    ∧ (Host.data_loop (List.replicate 2000 0) 2000 0).length = 2
    ∧ (((List.replicate 2000 0).drop (1024 * 0)).take 1024).length = 1024
    ∧ (((List.replicate 2000 0).drop (1024 * 1)).take 1024).length = 976 := by
  have h := data_chunking (List.replicate 2000 0)
    (by rw [List.length_replicate]; exact Nat.le_of_ble_eq_true rfl)
  rw [List.length_replicate] at h
  have e : (2000 + 1023) / 1024 = 2 := by norm_num
  rw [e] at h
  have hrun := h.2.2.2.2.2.1
    ⟨[], none, false, [],
      [Node.etx_ota_send_resp ETX_OTA_ACK, Node.etx_ota_send_resp ETX_OTA_ACK], [], []⟩
    (fun b hb => absurd hb (List.not_mem_nil b))
    (fun k hk => by
      have hk2 : k = 0 ∨ k = 1 := by omega
      rcases hk2 with h0 | h1
      · rw [h0]
        exact Host.ack_response_is_ack
      · rw [h1]
        exact Host.ack_response_is_ack)
  exact ⟨hrun.1, hrun.2.2.1, h.1, h.2.2.1 0 (by norm_num), h.2.2.2.1.1⟩
